import Mathlib

/-! # N3LDG: node / execute batching, degree bookkeeping, embedding lookup table

A shallow embedding of the CPU build (`USE_GPU` undefined) of `MyTensor.h`, `Node.h`,
`UniOP.h`, `Pooling.h`, `SparseParam.h` and `LookupTable.h`.

Conventions of the embedding.

* `dtype` is an arbitrary type `α`; where arithmetic is needed it is a linearly ordered field
  (exact arithmetic).  All definitions are computable and can be run at `α := ℚ`.
* C `int` values that are sizes, dimensions or loop counters are `Nat`; `int` values that may be
  negative in the source (`degree`, `xid`, `nUNKId`, vocabulary ids) are `Int`.  Signed overflow is
  undefined behaviour in C++ and is outside the model.
* Pointers are addresses (`Nat`); memory is a total map from addresses to objects.
* An operation that would abort (a failed `assert`, an allocation of negative size) or read or
  write outside a buffer returns `none`.
-/

namespace N3LDG

/-- Address of a node object (`PNode`, i.e. `Node*`). -/
abbrev PNode := Nat

/-- Address of a parameter object (`UniParams*`, `LookupTable*`). -/
abbrev PParam := Nat

/-- Address of an activation or derivative function (a C function pointer). -/
abbrev FnPtr := Nat

/-! ## MyTensor.h -/

/-- `n3ldg_cpu::Tensor1D`: the buffer `v`. The member `dim` is the number of elements the buffer
was allocated with (`init` is the only function that sets either), so it is read off the buffer;
a default-constructed tensor has `dim = 0` and `v = NULL` (the empty buffer). -/
structure Tensor1D (α : Type) where
  v : List α
deriving DecidableEq, Repr

/-- The member `dim` of a `Tensor1D`. -/
def Tensor1D.dim {α : Type} (t : Tensor1D α) : Nat := t.v.length

/-- `n3ldg_cpu::Tensor2D`: the flat buffer `v` with the stored `col` and `row`. -/
structure Tensor2D (α : Type) where
  col : Nat
  row : Nat
  v : List α
deriving DecidableEq, Repr

/-- The buffer of a `Tensor2D` has `row * col` elements: `init` is the only function that
allocates it or sets `row` and `col`. Records without this property describe no C++ state. -/
def Tensor2D.WF {α : Type} (t : Tensor2D α) : Prop := t.v.length = t.row * t.col

/-- `Tensor1D()`. -/
def Tensor1D.new {α : Type} : Tensor1D α := { v := [] }

/-- `Tensor2D()`. -/
def Tensor2D.new {α : Type} : Tensor2D α := { col := 0, row := 0, v := [] }

/-- `Tensor1D::init(ndim)`: `dim = ndim; v = new dtype[dim]; zero();`. -/
def Tensor1D.init {α : Type} [Zero α] (_t : Tensor1D α) (ndim : Nat) : Tensor1D α :=
  { v := List.replicate ndim 0 }

/-- `Tensor1D::zero()`: `memset` of the `dim` elements of the buffer. -/
def Tensor1D.zero {α : Type} [Zero α] (t : Tensor1D α) : Tensor1D α :=
  { v := List.replicate t.dim 0 }

/-- `Tensor1D::operator=(const dtype &a)`: `for (i < dim) v[i] = a;`. -/
def Tensor1D.assign {α : Type} (t : Tensor1D α) (a : α) : Tensor1D α :=
  { v := List.replicate t.dim a }

/-- `Tensor1D::operator[](i)` used as an rvalue: `assert(i < dim); return v[i];`. -/
def Tensor1D.get? {α : Type} (t : Tensor1D α) (i : Nat) : Option α :=
  if i < t.dim then t.v[i]? else none

/-- `Tensor1D::operator[](i)` used as an lvalue: `assert(i < dim); v[i] = a;`. -/
def Tensor1D.set? {α : Type} (t : Tensor1D α) (i : Nat) (a : α) : Option (Tensor1D α) :=
  if i < t.dim then some { v := t.v.set i a } else none

/-- `Tensor2D::size()`. -/
def Tensor2D.size {α : Type} (t : Tensor2D α) : Nat := t.col * t.row

/-- `Tensor2D::init(nrow, ncol)`. The source file carries an unresolved merge conflict in the body
of this function; both sides allocate `row * col` zeroed elements after `row = nrow`, and the
assignment `col = ncol` is on the `official` side, which is the side embedded here (without it no
caller could address an element). -/
def Tensor2D.init {α : Type} [Zero α] (_t : Tensor2D α) (nrow ncol : Nat) : Tensor2D α :=
  { row := nrow, col := ncol, v := List.replicate (nrow * ncol) 0 }

/-- `Tensor2D::operator[](irow)[icol]` used as an rvalue:
`assert(irow < row); return (&v[irow*col])[icol];`. -/
def Tensor2D.get? {α : Type} (t : Tensor2D α) (irow icol : Nat) : Option α :=
  if irow < t.row then t.v[irow * t.col + icol]? else none

/-- `Tensor2D::operator[](irow)[icol]` used as an lvalue:
`assert(irow < row); (&v[irow*col])[icol] = a;`. -/
def Tensor2D.set? {α : Type} (t : Tensor2D α) (irow icol : Nat) (a : α) :
    Option (Tensor2D α) :=
  if irow < t.row ∧ irow * t.col + icol < t.v.length then
    some { t with v := t.v.set (irow * t.col + icol) a }
  else none

/-! ## Node.h -/

/-- `class Node`: the members of the base class. -/
structure Node (α : Type) where
  parents : List PNode
  val : Tensor1D α
  loss : Tensor1D α
  dim : Nat
  degree : Int
  node_type : String
  drop_mask : Tensor1D α
  drop_value : α
deriving DecidableEq, Repr

/-- `Node()`. -/
def Node.new {α : Type} [Zero α] [One α] [Neg α] : Node α :=
  { parents := [], val := Tensor1D.new, loss := Tensor1D.new, dim := 0, degree := 0,
    node_type := "interface", drop_mask := Tensor1D.new, drop_value := -1 }

/-- `Node::init(ndim, dropout)` (CPU build). -/
def Node.init {α : Type} [Zero α] [One α] [Neg α] [LT α] [LE α]
    [DecidableRel (fun a b : α => a < b)] [DecidableRel (fun a b : α => a ≤ b)]
    (n : Node α) (ndim : Nat) (dropout : α) : Node α :=
  { n with
    dim := ndim
    val := n.val.init ndim
    loss := n.loss.init ndim
    drop_mask := n.drop_mask.init ndim
    drop_value := if 0 < dropout ∧ dropout ≤ 1 then dropout else -1
    parents := [] }

/-- `Node::typeEqual(other)`. The flag `USE_GPU` is the preprocessor switch: the comparisons of
`dim` and `drop_value` are compiled only in the GPU build. `isEqual` is the helper of `MyLib.h`
(not part of the sources), taken as a parameter. -/
def Node.typeEqual {α : Type} (USE_GPU : Bool) (isEqual : α → α → Bool)
    (self other : Node α) : Bool :=
  if self.node_type ≠ other.node_type then false
  else if USE_GPU ∧ self.dim ≠ other.dim then false
  else if USE_GPU ∧ isEqual self.drop_value other.drop_value = false then false
  else true

/-- `Node::addParent(parent)` on the object at address `self`:
`if (degree >= 0) { parents.push_back(parent); parent->degree++; }`. -/
def Node.addParent {α : Type} (h : PNode → Node α) (self parent : PNode) : PNode → Node α :=
  if 0 ≤ (h self).degree then
    let h1 := Function.update h self { h self with parents := (h self).parents ++ [parent] }
    Function.update h1 parent { h1 parent with degree := (h1 parent).degree + 1 }
  else h

/-- `Execute::addNode(in)`: the new batch and the returned flag. The virtual call
`batch[0]->typeEqual(in)` is the parameter `typeEqual`, resolved by the caller for the node class
of the batch. -/
def Execute.addNode (typeEqual : PNode → PNode → Bool) (batch : List PNode) (in_ : PNode) :
    Bool × List PNode :=
  match batch with
  | [] => (false, [])
  | b0 :: _ => if typeEqual b0 in_ then (true, batch ++ [in_]) else (false, batch)

/-- A run of `addNode` calls on one `Execute`, in order: the flags returned and the final
batch. -/
def Execute.addNodes (typeEqual : PNode → PNode → Bool) :
    List PNode → List PNode → List Bool × List PNode
  | batch, [] => ([], batch)
  | batch, n :: ns =>
    ((Execute.addNode typeEqual batch n).1 ::
        (Execute.addNodes typeEqual (Execute.addNode typeEqual batch n).2 ns).1,
      (Execute.addNodes typeEqual (Execute.addNode typeEqual batch n).2 ns).2)

/-! ## UniOP.h, Pooling.h, LookupTable.h: the node classes and their `typeEqual` -/

/-- `class UniNode : public Node`. -/
structure UniNode (α : Type) extends Node α where
  in_ : PNode
  param : PParam
  activate : FnPtr
  derivate : FnPtr
  ty : Tensor1D α
  lty : Tensor1D α
deriving DecidableEq, Repr

/-- `class LinearUniNode : public Node`. -/
structure LinearUniNode (α : Type) extends Node α where
  in_ : PNode
  param : PParam
deriving DecidableEq, Repr

/-- `class LinearNode : public Node`. -/
structure LinearNode (α : Type) extends Node α where
  in_ : PNode
  param : PParam
deriving DecidableEq, Repr

/-- `class PoolNode : public Node` (base of `MaxPoolNode` and `MinPoolNode`, which differ in
`node_type` and `setMask`). -/
structure PoolNode (α : Type) extends Node α where
  masks : List Int
  ins : List PNode
deriving DecidableEq, Repr

/-- `class SumPoolNode : public Node`. -/
structure SumPoolNode (α : Type) extends Node α where
  ins : List PNode
deriving DecidableEq, Repr

/-- `class AvgPoolNode : public Node`. -/
structure AvgPoolNode (α : Type) extends Node α where
  ins : List PNode
deriving DecidableEq, Repr

/-- `class LookupNode : public Node`. -/
structure LookupNode (α : Type) extends Node α where
  param : PParam
  xid : Int
deriving DecidableEq, Repr

/-- `UniNode::typeEqual(other)`; `other` is cast to `UniNode*`. -/
def UniNode.typeEqual {α : Type} (USE_GPU : Bool) (isEqual : α → α → Bool)
    (self other : UniNode α) : Bool :=
  if Node.typeEqual USE_GPU isEqual self.toNode other.toNode = false then false
  else if self.param ≠ other.param then false
  else if self.activate ≠ other.activate ∨ self.derivate ≠ other.derivate then false
  else true

/-- `LinearUniNode::typeEqual(other)`. -/
def LinearUniNode.typeEqual {α : Type} (USE_GPU : Bool) (isEqual : α → α → Bool)
    (self other : LinearUniNode α) : Bool :=
  if Node.typeEqual USE_GPU isEqual self.toNode other.toNode = false then false
  else if self.param ≠ other.param then false
  else true

/-- `LinearNode::typeEqual(other)`. -/
def LinearNode.typeEqual {α : Type} (USE_GPU : Bool) (isEqual : α → α → Bool)
    (self other : LinearNode α) : Bool :=
  if Node.typeEqual USE_GPU isEqual self.toNode other.toNode = false then false
  else if self.param ≠ other.param then false
  else true

/-- `PoolNode::typeEqual(other)`: `return Node::typeEqual(other);`. -/
def PoolNode.typeEqual {α : Type} (USE_GPU : Bool) (isEqual : α → α → Bool)
    (self other : PoolNode α) : Bool :=
  Node.typeEqual USE_GPU isEqual self.toNode other.toNode

/-- `SumPoolNode::typeEqual(other)`: `return Node::typeEqual(other);`. -/
def SumPoolNode.typeEqual {α : Type} (USE_GPU : Bool) (isEqual : α → α → Bool)
    (self other : SumPoolNode α) : Bool :=
  Node.typeEqual USE_GPU isEqual self.toNode other.toNode

/-- `AvgPoolNode::typeEqual(other)`: `return Node::typeEqual(other);`. -/
def AvgPoolNode.typeEqual {α : Type} (USE_GPU : Bool) (isEqual : α → α → Bool)
    (self other : AvgPoolNode α) : Bool :=
  Node.typeEqual USE_GPU isEqual self.toNode other.toNode

/-- `LookupNode::typeEqual(other)`. -/
def LookupNode.typeEqual {α : Type} (USE_GPU : Bool) (isEqual : α → α → Bool)
    (self other : LookupNode α) : Bool :=
  if Node.typeEqual USE_GPU isEqual self.toNode other.toNode = false then false
  else if self.param ≠ other.param then false
  else if isEqual self.drop_value other.drop_value = false then false
  else true

/-- Modelled from the spec: the dense `Param` of `Param.h`, which is not part of the sources: it
"owns `value`, `grad` tensors of matching shape". -/
structure Param (α : Type) where
  val : Tensor2D α
  grad : Tensor2D α
deriving DecidableEq, Repr

/-- Modelled from the spec: `Param::outDim()` of the absent `Param.h`. A dense parameter stores
its weights as an `outDim × inDim` matrix (`SparseParam.h` notes that its own convention,
`outDim() = val.col`, "is different with dense parameters"). -/
def Param.outDim {α : Type} (p : Param α) : Nat := p.val.row

/-- Modelled from the spec: `Param::inDim()` of the absent `Param.h`, see `Param.outDim`. -/
def Param.inDim {α : Type} (p : Param α) : Nat := p.val.col

/-- `class UniParams`. -/
structure UniParams (α : Type) where
  W : Param α
  b : Param α
  bUseB : Bool
deriving DecidableEq, Repr

/-- `class UniExecute : public Execute`. -/
structure UniExecute (α : Type) where
  batch : List PNode
  drop_factor : α
  x : Tensor2D α
  ty : Tensor2D α
  b : Tensor2D α
  y : Tensor2D α
  inDim : Nat
  outDim : Nat
  param : PParam
  activate : FnPtr
  derivate : FnPtr
  bTrain : Bool
deriving DecidableEq, Repr

/-- `UniNode::generate(bTrain, cur_drop_factor)` for the node at address `self`; `params` is the
memory holding the `UniParams` objects and `objs` the memory holding the nodes. -/
def UniNode.generate {α : Type} (params : PParam → UniParams α) (objs : PNode → UniNode α)
    (self : PNode) (bTrain : Bool) (cur_drop_factor : α) : UniExecute α :=
  { batch := [self]
    bTrain := bTrain
    drop_factor := cur_drop_factor
    inDim := (params (objs self).param).W.inDim
    outDim := (params (objs self).param).W.outDim
    param := (objs self).param
    activate := (objs self).activate
    derivate := (objs self).derivate
    x := Tensor2D.new, ty := Tensor2D.new, b := Tensor2D.new, y := Tensor2D.new }

/-! ## Concrete objects used to run the definitions -/

/-- A `Node` with operator tag `tag` after `init(d, r)`. -/
def exNode (tag : String) (d : Nat) (r : ℚ) : Node ℚ :=
  { Node.init Node.new d r with node_type := tag }

/-- A `UniNode` of width `d`, dropout rate `r`, parameter object `param` and the function
pointers `act`, `der`. -/
def exUni (d : Nat) (r : ℚ) (param : PParam) (act der : FnPtr) : UniNode ℚ :=
  { toNode := exNode "uni" d r, in_ := 0, param := param, activate := act, derivate := der,
    ty := Tensor1D.init Tensor1D.new d, lty := Tensor1D.init Tensor1D.new d }

/-- An `isEqual` for running examples: exact equality. -/
def exIsEqual (a b : ℚ) : Bool := decide (a = b)

/-- A parameter memory for running examples: every `UniParams` object is empty. -/
def exParams (_p : PParam) : UniParams ℚ :=
  { W := { val := Tensor2D.new, grad := Tensor2D.new },
    b := { val := Tensor2D.new, grad := Tensor2D.new }, bUseB := true }

/-- A `LookupNode` of width `d`, dropout rate `r` and table `param`. -/
def exLookup (d : Nat) (r : ℚ) (param : PParam) : LookupNode ℚ :=
  { toNode := exNode "lookup" d r, param := param, xid := -1 }

/-! ## Graph construction: `forward(cg, x)` of the node classes -/

/-- Modelled from the spec: the node list of `Graph` (`Graph.h` is not part of the sources):
"nodes are appended to a flat list in creation order". -/
abbrev Graph := List PNode

/-- Modelled from the spec: `Graph::addNode(x)` of the absent `Graph.h`, appending `x` to the
node list of the graph. -/
def Graph.addNode (cg : Graph) (x : PNode) : Graph := cg ++ [x]

/-- `Node::clearValue()` (CPU build). -/
def Node.clearValue {α : Type} [Zero α] [One α] [LT α] [DecidableRel (fun a b : α => a < b)]
    (n : Node α) : Node α :=
  { n with
    val := n.val.assign 0
    loss := n.loss.assign 0
    degree := 0
    drop_mask := if 0 < n.drop_value then n.drop_mask.assign 1 else n.drop_mask
    parents := [] }

/-- The loop `for (i < nSize) ins[i]->addParent(this);` over the inputs `ins` of the node at
address `self`. -/
def Node.addParents {α : Type} (self : PNode) : (PNode → Node α) → List PNode → PNode → Node α
  | h, [] => h
  | h, i :: rest => Node.addParents self (Node.addParent h i self) rest

/-- `UniNode::forward(cg, x)` for the node at address `self`:
`in = x; degree = 0; in->addParent(this); cg->addNode(this);`. The memory `objs` shows every
object as a `UniNode`; of the input only the `Node` members are accessed. -/
def UniNode.forward {α : Type} (objs : PNode → UniNode α) (cg : Graph) (self x : PNode) :
    (PNode → UniNode α) × Graph :=
  let o1 := Function.update objs self { objs self with in_ := x, degree := 0 }
  (fun q => { o1 q with toNode := Node.addParent (fun r => (o1 r).toNode) x self q },
    Graph.addNode cg self)

/-- `LinearUniNode::forward(cg, x)` for the node at address `self`. -/
def LinearUniNode.forward {α : Type} (objs : PNode → LinearUniNode α) (cg : Graph)
    (self x : PNode) : (PNode → LinearUniNode α) × Graph :=
  let o1 := Function.update objs self { objs self with in_ := x, degree := 0 }
  (fun q => { o1 q with toNode := Node.addParent (fun r => (o1 r).toNode) x self q },
    Graph.addNode cg self)

/-- `LinearNode::forward(cg, x)` for the node at address `self`. -/
def LinearNode.forward {α : Type} (objs : PNode → LinearNode α) (cg : Graph)
    (self x : PNode) : (PNode → LinearNode α) × Graph :=
  let o1 := Function.update objs self { objs self with in_ := x, degree := 0 }
  (fun q => { o1 q with toNode := Node.addParent (fun r => (o1 r).toNode) x self q },
    Graph.addNode cg self)

/-- `PoolNode::clearValue()`: `Node::clearValue(); ins.clear(); for (idx < dim) masks[idx] = -1;`.
The writes to `masks` are unchecked, so the result is `none` when `masks` has fewer than `dim`
elements. -/
def PoolNode.clearValue {α : Type} [Zero α] [One α] [LT α]
    [DecidableRel (fun a b : α => a < b)] (n : PoolNode α) : Option (PoolNode α) :=
  if n.dim ≤ n.masks.length then
    some { n with
      toNode := Node.clearValue n.toNode
      ins := []
      masks := List.replicate n.dim (-1) ++ n.masks.drop n.dim }
  else none

/-- The first loop of `PoolNode::forward`, from input `x[i]` on with `ins` collected so far:
`if (x[i]->val.dim != dim) { ...; return; } ins.push_back(x[i]);`. The result is `none` when an
input of another width is met. -/
def PoolNode.pushInputs {α : Type} (objs : PNode → PoolNode α) (self : PNode) :
    List PNode → List PNode → Option (List PNode)
  | [], ins => some ins
  | xi :: rest, ins =>
    if (objs xi).val.dim ≠ (objs self).dim then none
    else PoolNode.pushInputs objs self rest (ins ++ [xi])

/-- `PoolNode::forward(cg, x)` for the node at address `self` (shared by `MaxPoolNode` and
`MinPoolNode`). -/
def PoolNode.forward {α : Type} [Zero α] [One α] [LT α] [DecidableRel (fun a b : α => a < b)]
    (objs : PNode → PoolNode α) (cg : Graph) (self : PNode) (x : List PNode) :
    Option ((PNode → PoolNode α) × Graph) :=
  if x.length = 0 then some (objs, cg)
  else
    match PoolNode.pushInputs objs self x [] with
    | none =>
      (PoolNode.clearValue { objs self with ins := [] }).map
        (fun o => (Function.update objs self o, cg))
    | some ins =>
      let o1 := Function.update objs self { objs self with ins := ins, degree := 0 }
      some (fun q => { o1 q with
              toNode := Node.addParents self (fun r => (o1 r).toNode) (ins.take x.length) q },
            Graph.addNode cg self)

/-- A pool node (`MaxPoolNode` or `MinPoolNode`, by its tag) of width `d` without dropout, as
`PoolNode::init` leaves it. -/
def exPool (tag : String) (d : Nat) : PoolNode ℚ :=
  { toNode := exNode tag d (-1), masks := List.replicate d (-1), ins := [] }

/-! ## Loops and the Eigen views of a tensor -/

/-- The counted loop `for (int i = 0; i < n; i++) body(i)`: `f i s` is the state after running
the body for index `i` in state `s`, or `none` when the body aborts. -/
def forLoop {σ : Type} : Nat → (Nat → σ → Option σ) → σ → Option σ
  | 0, _, s => some s
  | n + 1, f, s => (forLoop n f s).bind (f n)

/-- Modelled from the spec: the `Mat` typedef of `MyLib.h` (not part of the sources), an Eigen map
over a tensor buffer, is the "linear-algebra view" of the tensor: a `rows × cols` matrix over the
same buffer. -/
structure Mat (α : Type) where
  rows : Nat
  cols : Nat
  data : List α
deriving DecidableEq, Repr

/-- Modelled from the spec: entry `(r, c)` of a `Mat` view (`MyLib.h` is absent) is the element
that `Tensor2D::operator[]` addresses as `t[r][c]`, i.e. the view has the logical shape of the
tensor. -/
def Mat.entry {α : Type} [Zero α] (m : Mat α) (r c : Nat) : α := m.data.getD (r * m.cols + c) 0

/-- `Tensor2D::mat()`: `Mat(v, row, col)`. -/
def Tensor2D.mat {α : Type} (t : Tensor2D α) : Mat α := { rows := t.row, cols := t.col, data := t.v }

/-- `Tensor1D::mat()`: `Mat(v, dim, 1)`. -/
def Tensor1D.mat {α : Type} (t : Tensor1D α) : Mat α := { rows := t.dim, cols := 1, data := t.v }

/-- Modelled from the spec: the Eigen product `A * B` of two `Mat` views (`MyLib.h` and Eigen are
absent); it is defined when the inner dimensions agree, and entry `(r, c)` is the sum over `j` of
`A(r, j) * B(j, c)`. -/
def Mat.mul? {α : Type} [Semiring α] (A B : Mat α) : Option (Mat α) :=
  if A.cols = B.rows then
    some { rows := A.rows, cols := B.cols,
           data := (List.range (A.rows * B.cols)).map (fun k =>
             ((List.range A.cols).map
               (fun j => A.entry (k / B.cols) j * B.entry j (k % B.cols))).sum) }
  else none

/-- The assignment `t.mat() = m` of a matrix expression to the view of a `Tensor2D`; an Eigen map
cannot be resized, so the shapes must agree. -/
def Tensor2D.assignMat? {α : Type} (t : Tensor2D α) (m : Mat α) : Option (Tensor2D α) :=
  if m.rows = t.row ∧ m.cols = t.col ∧ m.data.length = t.v.length then
    some { t with v := m.data }
  else none

/-- The assignment `t.mat() = m` of a matrix expression to the view of a `Tensor1D`. -/
def Tensor1D.assignMat? {α : Type} (t : Tensor1D α) (m : Mat α) : Option (Tensor1D α) :=
  if m.rows = t.dim ∧ m.cols = 1 ∧ m.data.length = t.dim then some { v := m.data } else none

/-- Modelled from the spec: the elementwise sum of two `Vec` views (the `Vec` typedef of
`MyLib.h` is absent), defined for views of the same size. -/
def Vec.add? {α : Type} [Add α] (a b : List α) : Option (List α) :=
  if a.length = b.length then some (List.zipWith (fun u w => u + w) a b) else none

/-- The assignment `t.vec() = l` of an elementwise expression to the `Vec` view of a
`Tensor2D`. -/
def Tensor2D.assignVec? {α : Type} (t : Tensor2D α) (l : List α) : Option (Tensor2D α) :=
  if l.length = t.v.length then some { t with v := l } else none

/-- The assignment `t.vec() = l` of an elementwise expression to the `Vec` view of a
`Tensor1D`. -/
def Tensor1D.assignVec? {α : Type} (t : Tensor1D α) (l : List α) : Option (Tensor1D α) :=
  if l.length = t.dim then some { v := l } else none

/-! ## UniOP.h: `UniNode::compute` and `UniExecute::forward` -/

/-- `UniNode::compute()` for the node at address `self`. `code` resolves a function pointer to
the function it points to; `params` is the memory holding the `UniParams` objects. -/
def UniNode.compute {α : Type} [Semiring α] (code : FnPtr → α → α)
    (params : PParam → UniParams α) (objs : PNode → UniNode α) (self : PNode) :
    Option (PNode → UniNode α) :=
  (Mat.mul? (params (objs self).param).W.val.mat (objs (objs self).in_).val.mat).bind fun wx =>
  ((objs self).ty.assignMat? wx).bind fun ty1 =>
  (if (params (objs self).param).bUseB = true then
      (Vec.add? ty1.v (params (objs self).param).b.val.v).bind ty1.assignVec?
    else some ty1).bind fun ty2 =>
  ((objs self).val.assignVec? (ty2.v.map (code (objs self).activate))).bind fun val1 =>
  some (Function.update objs self { objs self with ty := ty2, val := val1 })

/-- The inner loop `for (idy < n) t[idy][idx] = src(idy);` that fills column `idx` of a
`Tensor2D`. -/
def Tensor2D.setCol? {α : Type} (n idx : Nat) (src : Nat → Option α) (t : Tensor2D α) :
    Option (Tensor2D α) :=
  forLoop n (fun idy t1 => (src idy).bind (fun a => t1.set? idy idx a)) t

/-- The inner loop `for (idy < n) t[idy] = src(idy);` that fills a `Tensor1D`. -/
def Tensor1D.setAll? {α : Type} (n : Nat) (src : Nat → Option α) (t : Tensor1D α) :
    Option (Tensor1D α) :=
  forLoop n (fun idy t1 => (src idy).bind (fun a => t1.set? idy a)) t

/-- Body of the first loop of `UniExecute::forward()` (CPU branch) for batch index `idx`:
column `idx` of `x` receives the input of node `batch[idx]` and, with `bUseB`, column `idx` of
`b` receives the bias. The state is the pair `(x, b)`. -/
def UniExecute.copyIn {α : Type} (params : PParam → UniParams α) (e : UniExecute α)
    (objs : PNode → UniNode α) (idx : Nat) (xb : Tensor2D α × Tensor2D α) :
    Option (Tensor2D α × Tensor2D α) :=
  (e.batch[idx]?).bind fun ptr =>
  (Tensor2D.setCol? e.inDim idx (fun idy => (objs (objs ptr).in_).val.get? idy) xb.1).bind
    fun x1 =>
  (if (params e.param).bUseB = true then
      Tensor2D.setCol? e.outDim idx (fun idy => (params e.param).b.val.v[idy]?) xb.2
    else some xb.2).bind fun b1 =>
  some (x1, b1)

/-- Body of the last loop of `UniExecute::forward()` (CPU branch) for batch index `idx`:
`ptr->val[idy] = y[idy][idx]` for every `idy < outDim`. -/
def UniExecute.copyOut {α : Type} (e : UniExecute α) (y : Tensor2D α) (idx : Nat)
    (o : PNode → UniNode α) : Option (PNode → UniNode α) :=
  (e.batch[idx]?).bind fun ptr =>
  (Tensor1D.setAll? e.outDim (fun idy => y.get? idy idx) (o ptr).val).bind fun v1 =>
  some (Function.update o ptr { o ptr with val := v1 })

/-- `UniExecute::forward()`, CPU branch: the execute object and the node memory after the
call. -/
def UniExecute.forward {α : Type} [Semiring α] (code : FnPtr → α → α)
    (params : PParam → UniParams α) (e : UniExecute α) (objs : PNode → UniNode α) :
    Option (UniExecute α × (PNode → UniNode α)) :=
  (forLoop e.batch.length (UniExecute.copyIn params e objs)
    (e.x.init e.inDim e.batch.length, e.b.init e.outDim e.batch.length)).bind fun xb =>
  (Mat.mul? (params e.param).W.val.mat xb.1.mat).bind fun wx =>
  ((e.ty.init e.outDim e.batch.length).assignMat? wx).bind fun ty1 =>
  (if (params e.param).bUseB = true then (Vec.add? ty1.v xb.2.v).bind ty1.assignVec?
    else some ty1).bind fun ty2 =>
  ((e.y.init e.outDim e.batch.length).assignVec? (ty2.v.map (code e.activate))).bind fun y1 =>
  (forLoop e.batch.length (UniExecute.copyOut e y1) objs).bind fun objs1 =>
  some ({ e with ty := ty2, x := xb.1, b := xb.2, y := y1 }, objs1)

/-- The value the spec gives a UniNode: `activate` applied elementwise to `W * x` (`+ b` when
`bUseB`), for the weight matrix `W` (an `outDim × inDim` tensor), the bias `b` and the input
vector `x`. -/
def UniNode.specVal {α : Type} [Semiring α] (act : α → α) (P : UniParams α) (x : List α) :
    List α :=
  (List.range P.W.val.row).map (fun i =>
    act (if P.bUseB = true then
        ((List.range P.W.val.col).map (fun j => P.W.val.mat.entry i j * x.getD j 0)).sum
          + P.b.val.v.getD i 0
      else ((List.range P.W.val.col).map (fun j => P.W.val.mat.entry i j * x.getD j 0)).sum))

/-- A function-pointer table for running examples: every pointer is the identity function. -/
def exCode (_f : FnPtr) (x : ℚ) : ℚ := x

/-- A `UniParams` memory for running examples: every object has the `2 × 2` weight matrix
`[[1, 2], [3, 4]]` and the bias `[10, 20]`. -/
def exUniParams (_p : PParam) : UniParams ℚ :=
  { W := { val := { row := 2, col := 2, v := [1, 2, 3, 4] }, grad := Tensor2D.new },
    b := { val := { row := 2, col := 1, v := [10, 20] }, grad := Tensor2D.new },
    bUseB := true }

/-- A node memory for running examples: UniNodes of width 2 at every address; node 0 has input
10, node 1 has input 11, and the nodes 10 and 11 hold the values `[1, 0]` and `[0, 1]`. -/
def exUniObjs (p : PNode) : UniNode ℚ :=
  if p = 0 then { exUni 2 (-1) 7 1 2 with in_ := 10 }
  else if p = 1 then { exUni 2 (-1) 7 1 2 with in_ := 11 }
  else if p = 10 then { exUni 2 (-1) 7 1 2 with val := { v := [1, 0] } }
  else { exUni 2 (-1) 7 1 2 with val := { v := [0, 1] } }

/-- The `UniExecute` generated for node 0 after `addNode` has accepted node 1. -/
def exUniExecute : UniExecute ℚ :=
  { UniNode.generate exUniParams exUniObjs 0 true 1 with batch := [0, 1] }

/-! ## Node.h and UniOP.h: `forward_drop` and the per-node `LinearUniExecute::forward` -/

/-- The integer that a conversion of the `dtype` value `x` to an integer type yields when it is
defined: `x` truncated toward zero. -/
def truncToInt {α : Type} [LinearOrderedField α] [FloorRing α] (x : α) : Int :=
  if 0 ≤ x then Int.floor x else Int.ceil x

/-- The cast `(int)x` of a `dtype` to the 32-bit `int`: `x` truncated toward zero when the
truncated value is a value of `int`; otherwise the behaviour of the conversion is undefined
(`none`). -/
def castInt {α : Type} [LinearOrderedField α] [FloorRing α] (x : α) : Option Int :=
  if -2147483648 ≤ truncToInt x ∧ truncToInt x ≤ 2147483647 then some (truncToInt x) else none

/-- `Node::generate_dropmask(drop_factor)`. `rnd` is the rounding that a multiplication of
`dtype` applies to the exact product (to a value of the floating-point type), so the product
`dim * drop_value * drop_factor`, evaluated from the left with `dim` converted to `dtype`, is
`rnd (rnd (dim * drop_value) * drop_factor)`; `shuffle` is the permutation that this call of
`random_shuffle` applies. -/
def Node.generate_dropmask {α : Type} [LinearOrderedField α] [FloorRing α]
    (rnd : α → α) (shuffle : List Int → List Int) (n : Node α) (drop_factor : α) :
    Option (Node α) :=
  (castInt (rnd (rnd ((n.dim : α) * n.drop_value) * drop_factor))).bind fun dropNum =>
  (Tensor1D.setAll? n.dim
      (fun idx =>
        ((shuffle ((List.range n.dim).map (fun i =>
            if (i : Int) < dropNum then 0 else 1)))[idx]?).map (fun m => (1 : α) * (m : α)))
      n.drop_mask).map
    fun dm => { n with drop_mask := dm }

/-- Modelled from the spec: the elementwise product of two `Vec` views (the `Vec` typedef of
`MyLib.h` is absent), defined for views of the same size. -/
def Vec.mul? {α : Type} [Mul α] (a b : List α) : Option (List α) :=
  if a.length = b.length then some (List.zipWith (fun u w => u * w) a b) else none

/-- `Node::forward_drop(bTrain, drop_factor)` (CPU build, `TEST_CUDA` undefined); `rnd` and
`shuffle` are those of `generate_dropmask`. -/
def Node.forward_drop {α : Type} [LinearOrderedField α] [FloorRing α]
    (rnd : α → α) (shuffle : List Int → List Int) (n : Node α) (bTrain : Bool)
    (drop_factor : α) : Option (Node α) :=
  (if 0 < n.drop_value then
      if bTrain = true then
        (Node.generate_dropmask rnd shuffle n drop_factor).bind fun n1 =>
        (Vec.mul? n1.val.v n1.drop_mask.v).bind fun l =>
        (n1.val.assignVec? l).map fun v1 => { n1 with val := v1 }
      else
        (n.val.assignVec? (n.val.v.map (fun a => a * (1 - n.drop_value * drop_factor)))).map
          fun v1 => { n with val := v1 }
    else some n).map
    fun n2 => { n2 with degree := -1 }

/-- `LinearUniNode::compute()` for the node at address `self`. -/
def LinearUniNode.compute {α : Type} [Semiring α] (params : PParam → UniParams α)
    (objs : PNode → LinearUniNode α) (self : PNode) : Option (PNode → LinearUniNode α) :=
  (Mat.mul? (params (objs self).param).W.val.mat (objs (objs self).in_).val.mat).bind fun wx =>
  ((objs self).val.assignMat? wx).bind fun v1 =>
  (if (params (objs self).param).bUseB = true then
      (Vec.add? v1.v (params (objs self).param).b.val.v).bind v1.assignVec?
    else some v1).bind fun v2 =>
  some (Function.update objs self { objs self with val := v2 })

/-- `class LinearUniExecute : public Execute`. -/
structure LinearUniExecute (α : Type) where
  batch : List PNode
  drop_factor : α
  bTrain : Bool
deriving DecidableEq, Repr

/-- `LinearUniExecute::forward()`: `compute()` and `forward_drop(bTrain, drop_factor)` for each
node of the batch in turn; `shuffle idx` is the permutation that `random_shuffle` applies for
batch index `idx`, and `rnd` the rounding of `generate_dropmask`. -/
def LinearUniExecute.forward {α : Type} [LinearOrderedField α] [FloorRing α]
    (rnd : α → α) (shuffle : Nat → List Int → List Int) (params : PParam → UniParams α)
    (e : LinearUniExecute α) (objs : PNode → LinearUniNode α) :
    Option (PNode → LinearUniNode α) :=
  forLoop e.batch.length (fun idx (o : PNode → LinearUniNode α) =>
    (e.batch[idx]?).bind fun ptr =>
    (LinearUniNode.compute params o ptr).bind fun o1 =>
    (Node.forward_drop rnd (shuffle idx) (o1 ptr).toNode e.bTrain e.drop_factor).map fun n1 =>
    Function.update o1 ptr { o1 ptr with toNode := n1 }) objs

/-! ## SparseParam.h and LookupTable.h: initialisation of the embedding table -/

/-- Functions and constants the sources use but do not define (`MyLib.h` and the C library are
not part of the sources), taken as parameters: `sqrt`, `atof`, `split_bychar`, the sequence of
numbers that successive calls of `rand()` return, and `RAND_MAX`. -/
structure Env (α : Type) where
  sqrt : α → α
  atof : String → α
  split_bychar : String → Char → List String
  rand : Nat → Nat
  RAND_MAX : Nat

/-- Modelled from the spec: the vocabulary collaborator (`Alphabet.h` is not part of the
sources), which "must provide `size() -> int`, `idOf(token) -> int` (negative sentinel if
absent)"; `is_fixed` is the flag `LookupTable::initialWeights` reads. -/
structure Alphabet where
  from_string : String → Int
  size : Nat
  is_fixed : Bool

/-- `Tensor2D::random(bound)`: `v[i] = (dtype(rand()) / RAND_MAX) * (max - min) + min` for every
`i < size()`, with `min = -bound` and `max = bound`; `k` is the number of calls of `rand()` made
before. -/
def Tensor2D.random {α : Type} [Field α] (env : Env α) (k : Nat) (t : Tensor2D α) (bound : α) :
    Tensor2D α :=
  { t with v := (List.range t.size).map (fun i =>
      ((env.rand (k + i) : α) / (env.RAND_MAX : α)) * (bound - (-bound)) + (-bound)) }

/-- `Tensor2D::norm2one(norm)`: every row is multiplied by `sqrt(norm / sum)`, where `sum` is
`0.000001` plus the sum of the squares of the row. -/
def Tensor2D.norm2one {α : Type} [Field α] (env : Env α) (t : Tensor2D α) (norm : α) :
    Tensor2D α :=
  { t with v := (List.range (t.row * t.col)).map (fun k =>
      t.v.getD k 0 * env.sqrt (norm /
        ((List.range t.col).foldl
          (fun s idy => s + t.v.getD (k / t.col * t.col + idy) 0 * t.v.getD (k / t.col * t.col + idy) 0)
          (1 / 1000000)))) }

/-- `class SparseParam : public BaseParam`; `val` and `grad` are the members of `BaseParam`
(`BaseParam.h` is not part of the sources), `indexers` holds the touched flags. -/
structure SparseParam (α : Type) where
  val : Tensor2D α
  grad : Tensor2D α
  aux_square : Tensor2D α
  aux_mean : Tensor2D α
  indexers : List Bool
  last_update : List Int
deriving DecidableEq, Repr

/-- `SparseParam()`: all tensors default-constructed. -/
def SparseParam.new {α : Type} : SparseParam α :=
  { val := Tensor2D.new, grad := Tensor2D.new, aux_square := Tensor2D.new,
    aux_mean := Tensor2D.new, indexers := [], last_update := [] }

/-- `SparseParam::initial(outDim, inDim)` (CPU build); `k` is the number of calls of `rand()`
made before. -/
def SparseParam.initial {α : Type} [Field α] (env : Env α) (k : Nat) (p : SparseParam α)
    (outDim inDim : Nat) : SparseParam α :=
  { val := Tensor2D.random env k (p.val.init inDim outDim)
      (env.sqrt (6 / ((outDim + inDim : Nat) : α)))
    grad := p.grad.init inDim outDim
    aux_square := p.aux_square.init inDim outDim
    aux_mean := p.aux_mean.init inDim outDim
    indexers := List.replicate inDim false
    last_update := List.replicate inDim 0 }

/-- `class LookupTable`; `elems` is the vocabulary the table points to. -/
structure LookupTable (α : Type) where
  elems : Alphabet
  E : SparseParam α
  bFineTune : Bool
  nDim : Nat
  nVSize : Nat
  nUNKId : Int

/-- The variables of `LookupTable::initialWeights(inFile, ...)` that its loop over the lines of
the file updates: `bHasUnknown`, `indexers`, `sum`, `count` and the matrix `E.val`. -/
structure LoadState (α : Type) where
  bHasUnknown : Bool
  indexers : List Int
  sum : List α
  count : Nat
  val : Tensor2D α

/-- Body of the loop over the lines of the file in `LookupTable::initialWeights`, for the line
`line`. A line with a field count other than `nDim + 1` is only reported. The result is `none`
when the line has no field at all (`vecInfo[0]`), when a field `vecInfo[idy + 1]` does not exist
or when the word id is not a row of `E.val`. -/
def LookupTable.loadLine {α : Type} [Field α] (env : Env α) (elems : Alphabet) (nDim : Nat)
    (nUNKId : Int) (line : String) (s : LoadState α) : Option (LoadState α) :=
  ((env.split_bychar line ' ')[0]?).bind fun curWord =>
  if 0 ≤ elems.from_string curWord then
    (forLoop nDim (fun idy (sv : List α × Tensor2D α) =>
        ((env.split_bychar line ' ')[idy + 1]?).bind fun field =>
        (sv.1[idy]?).bind fun s0 =>
        (sv.2.get? (elems.from_string curWord).toNat idy).bind fun e0 =>
        (sv.2.set? (elems.from_string curWord).toNat idy (e0 + env.atof field)).bind fun val1 =>
        some (sv.1.set idy (s0 + env.atof field), val1)) (s.sum, s.val)).map fun sv =>
      { bHasUnknown := if nUNKId = elems.from_string curWord then true else s.bHasUnknown
        indexers := elems.from_string curWord :: s.indexers
        sum := sv.1
        count := s.count + 1
        val := sv.2 }
  else some s

/-- The loop `for (idx < sLines.size())` of `LookupTable::initialWeights`. -/
def LookupTable.loadLines {α : Type} [Field α] (env : Env α) (elems : Alphabet) (nDim : Nat)
    (nUNKId : Int) : List String → LoadState α → Option (LoadState α)
  | [], s => some s
  | line :: rest, s =>
    (LookupTable.loadLine env elems nDim nUNKId line s).bind
      (LookupTable.loadLines env elems nDim nUNKId rest)

/-- The block `if (nUNKId >= 0 && !bHasUnknown) { ... }` of `LookupTable::initialWeights`: row
`nUNKId` becomes `sum[idx] / (count + 1)`, and `nUNKId` is entered in `indexers`. -/
def LookupTable.fillUnknown {α : Type} [Field α] (nDim : Nat) (nUNKId : Int)
    (s : LoadState α) : Option (LoadState α) :=
  if 0 ≤ nUNKId ∧ s.bHasUnknown = false then
    (forLoop nDim (fun idx (val : Tensor2D α) =>
        (s.sum[idx]?).bind fun s0 =>
        val.set? nUNKId.toNat idx (s0 / ((s.count + 1 : Nat) : α))) s.val).map fun val1 =>
      { s with val := val1, indexers := nUNKId :: s.indexers, count := s.count + 1 }
  else some s

/-- The loop `for (id < nVSize)` of `LookupTable::initialWeights`: every row whose id is not in
`indexers` is set to row `nUNKId` when `nUNKId >= 0` and to `sum[idy] / (count + 1)`
otherwise. -/
def LookupTable.fillUnseen {α : Type} [Field α] (nDim nVSize : Nat) (nUNKId : Int)
    (s : LoadState α) : Option (Tensor2D α) :=
  forLoop nVSize (fun id (val : Tensor2D α) =>
    if (id : Int) ∉ s.indexers then
      forLoop nDim (fun idy (val1 : Tensor2D α) =>
        (if 0 ≤ nUNKId then val1.get? nUNKId.toNat idy
          else (s.sum[idy]?).map fun s0 => s0 / ((s.count + 1 : Nat) : α)).bind fun a =>
        val1.set? id idy a) val
    else some val) s.val

/-- `LookupTable::initialWeights(inFile, tune, norm)`: the returned flag and the table after the
call. `file` is `none` when the file cannot be opened and otherwise the lines that `my_getline`
delivers. The result is `none` when the call does not return (the first line has no field, so
that `nDim` would be -1 and the allocation fails, or an access is out of range). -/
def LookupTable.initialWeights {α : Type} [LinearOrderedField α] (env : Env α)
    (T : LookupTable α) (file : Option (List String)) (tune : Bool) (norm : α) :
    Option (Bool × LookupTable α) :=
  if T.nVSize = 0 ∨ T.elems.is_fixed = false ∨ (T.nVSize = 1 ∧ 0 ≤ T.nUNKId) then
    some (false, T)
  else
    match file with
    | none => some (false, T)
    | some lines =>
      match lines.filter (fun l => l ≠ "") with
      | [] => some (false, T)
      | first :: rest =>
        if (env.split_bychar first ' ').length = 0 then none
        else
          let nDim := (env.split_bychar first ' ').length - 1
          let E0 := SparseParam.initial env 0 T.E nDim T.nVSize
          (LookupTable.loadLines env T.elems nDim T.nUNKId (first :: rest)
            { bHasUnknown := false, indexers := [], sum := List.replicate nDim 0, count := 0,
              val := E0.val }).bind fun s1 =>
          if s1.count = 0 then
            some (false, { T with
              nDim := nDim
              E := { E0 with
                val := (Tensor2D.random env E0.val.size s1.val (env.sqrt (3 / (nDim : α)))) } })
          else
            (LookupTable.fillUnknown nDim T.nUNKId s1).bind fun s2 =>
            (LookupTable.fillUnseen nDim T.nVSize T.nUNKId s2).bind fun val3 =>
            some (true, { T with
              nDim := nDim
              bFineTune := tune
              E := { E0 with
                val := (if 0 < norm then Tensor2D.norm2one env val3 norm else val3) } })

/-- `LookupTable::initial(alpha, inFile, fineTune, norm)`; `unknownkey` is the constant of
`MyLib.h` (not part of the sources). -/
def LookupTable.initial {α : Type} [LinearOrderedField α] (env : Env α) (unknownkey : String)
    (T : LookupTable α) (alpha : Alphabet) (file : Option (List String)) (fineTune : Bool)
    (norm : α) : Option (Bool × LookupTable α) :=
  LookupTable.initialWeights env
    { T with elems := alpha, nVSize := alpha.size, nUNKId := alpha.from_string unknownkey }
    file fineTune norm

/-- The mean the spec gives the OOV row: the elementwise sum of the vectors `vs` divided by
their number. -/
def LookupTable.specMean {α : Type} [Field α] (nDim : Nat) (vs : List (List α)) : List α :=
  (List.range nDim).map (fun j => (vs.map (fun v => v.getD j 0)).sum / (vs.length : α))

/-- An environment for running examples: `sqrt` is the identity, `atof` reads "1", "2", "3" and
"4" (anything else is 0), `split_bychar` knows the lines "a 2" and "b 4", `rand()` always
returns 0 and `RAND_MAX` is 1. -/
def exEnv : Env ℚ :=
  { sqrt := fun x => x
    atof := fun s => if s = "1" then 1 else if s = "2" then 2 else if s = "3" then 3
      else if s = "4" then 4 else 0
    split_bychar := fun s _ => if s = "a 2" then ["a", "2"] else if s = "b 4" then ["b", "4"]
      else []
    rand := fun _ => 0
    RAND_MAX := 1 }

/-- A vocabulary for running examples: "a" is 0, "b" is 1, "c" is 2 and the OOV token
"-unknown-" is 3. -/
def exAlphabet : Alphabet :=
  { from_string := fun s => if s = "a" then 0 else if s = "b" then 1 else if s = "c" then 2
      else if s = "-unknown-" then 3 else -1
    size := 4
    is_fixed := true }

/-- A table over `exAlphabet` as `LookupTable::initial` sets it up before it calls
`initialWeights`. -/
def exTable : LookupTable ℚ :=
  { elems := exAlphabet, E := SparseParam.new, bFineTune := false, nDim := 0, nVSize := 4,
    nUNKId := 3 }

/-! ## SparseParam.h: `value` and `loss`; LookupTable.h: `LookupNode` -/

/-- The null pointer `NULL`. -/
def NULL : Nat := 0

/-- `Tensor2D::operator[](irow)[icol]` used as an rvalue with a signed row index, as
`SparseParam::value` and `SparseParam::loss` call it with `featId`: the assertion
`assert(irow < row)` has no lower bound, and a negative `irow` addresses memory before the
buffer, for which the result is `none`. -/
def Tensor2D.getI? {α : Type} (t : Tensor2D α) (irow : Int) (icol : Nat) : Option α :=
  if irow < 0 then none else t.get? irow.toNat icol

/-- `Tensor2D::operator[](irow)[icol]` used as an lvalue with a signed row index, see
`Tensor2D.getI?`. -/
def Tensor2D.setI? {α : Type} (t : Tensor2D α) (irow : Int) (icol : Nat) (a : α) :
    Option (Tensor2D α) :=
  if irow < 0 then none else t.set? irow.toNat icol a

/-- `SparseParam::value(featId, out)`: a width mismatch is only reported, then
`for (idx < val.col) out[idx] = val[featId][idx];`. -/
def SparseParam.value {α : Type} (p : SparseParam α) (featId : Int) (out : Tensor1D α) :
    Option (Tensor1D α) :=
  Tensor1D.setAll? p.val.col (fun idx => p.val.getI? featId idx) out

/-- `SparseParam::loss(featId, loss)`: a width mismatch is only reported, then
`indexers[featId] = true; for (idx < val.col) grad[featId][idx] += loss[idx];`. The result is
`none` when `featId` is not an index of `indexers` or an element accessed does not exist. -/
def SparseParam.loss {α : Type} [Add α] (p : SparseParam α) (featId : Int)
    (loss : Tensor1D α) : Option (SparseParam α) :=
  if featId < 0 ∨ p.indexers.length ≤ featId.toNat then none
  else
    (forLoop p.val.col (fun idx (g : Tensor2D α) =>
        (g.getI? featId idx).bind fun g0 =>
        (loss.get? idx).bind fun l =>
        g.setI? featId idx (g0 + l)) p.grad).map fun g1 =>
      { p with indexers := p.indexers.set featId.toNat true, grad := g1 }

/-- `LookupNode::forward(cg, strNorm)` for the node at address `self`; `tables` is the memory
holding the `LookupTable` objects. `LookupTable::getElemId` is `elems->from_string`. The
diagnostic for an unknown word of a fine-tuned table is output only. -/
def LookupNode.forward {α : Type} (tables : PParam → LookupTable α)
    (objs : PNode → LookupNode α) (cg : Graph) (self : PNode) (strNorm : String) :
    Option ((PNode → LookupNode α) × Graph) :=
  if (objs self).param = NULL then none
  else
    let xid := (tables (objs self).param).elems.from_string strNorm
    let xid1 := if xid < 0 ∧ 0 ≤ (tables (objs self).param).nUNKId then
      (tables (objs self).param).nUNKId else xid
    some (Function.update objs self { objs self with xid := xid1, degree := 0 },
      Graph.addNode cg self)

/-- `LookupNode::compute()` for the node at address `self`. -/
def LookupNode.compute {α : Type} [Zero α] (tables : PParam → LookupTable α)
    (objs : PNode → LookupNode α) (self : PNode) : Option (PNode → LookupNode α) :=
  (if 0 ≤ (objs self).xid then
      (tables (objs self).param).E.value (objs self).xid (objs self).val
    else some (objs self).val.zero).map fun v1 =>
    Function.update objs self { objs self with val := v1 }

/-- `LookupNode::backward()` for the node at address `self`: the table memory after the call. -/
def LookupNode.backward {α : Type} [Add α] (tables : PParam → LookupTable α)
    (objs : PNode → LookupNode α) (self : PNode) : Option (PParam → LookupTable α) :=
  if (objs self).param = NULL then none
  else if (objs self).xid = (tables (objs self).param).nUNKId ∨
      (0 ≤ (objs self).xid ∧ (tables (objs self).param).bFineTune = true) then
    ((tables (objs self).param).E.loss (objs self).xid (objs self).loss).map fun E1 =>
      Function.update tables (objs self).param { tables (objs self).param with E := E1 }
  else some tables

/-- The shape a `SparseParam` has after `initial(outDim, inDim)`: the four tensors are
`inDim × outDim` buffers of the same shape, and `indexers` and `last_update` have one entry per
row. -/
def SparseParam.WF {α : Type} (p : SparseParam α) : Prop :=
  p.val.WF ∧ p.grad.WF ∧ p.aux_square.WF ∧ p.aux_mean.WF ∧
    p.grad.row = p.val.row ∧ p.grad.col = p.val.col ∧
    p.aux_square.row = p.val.row ∧ p.aux_square.col = p.val.col ∧
    p.aux_mean.row = p.val.row ∧ p.aux_mean.col = p.val.col ∧
    p.indexers.length = p.val.row ∧ p.last_update.length = p.val.row

/-- A vocabulary without OOV token for running examples: "a" is 0 and "b" is 1. -/
def exAlphabetNoUnk : Alphabet :=
  { from_string := fun s => if s = "a" then 0 else if s = "b" then 1 else -1
    size := 2
    is_fixed := true }

/-- A frozen table of width 1 over `exAlphabetNoUnk` (no OOV id, so `nUNKId` is -1), with `E` as
`SparseParam::initial(1, 2)` leaves it. -/
def exTableNoUnk : LookupTable ℚ :=
  { elems := exAlphabetNoUnk, E := SparseParam.initial exEnv 0 SparseParam.new 1 2,
    bFineTune := false, nDim := 1, nVSize := 2, nUNKId := -1 }

/-- A frozen table of width 1 over `exAlphabet` (OOV id 3), with `E` as
`SparseParam::initial(1, 4)` leaves it. -/
def exTableUnk : LookupTable ℚ :=
  { elems := exAlphabet, E := SparseParam.initial exEnv 0 SparseParam.new 1 4,
    bFineTune := false, nDim := 1, nVSize := 4, nUNKId := 3 }

/-- A node memory for running examples: a `LookupNode` of width 1 without dropout, pointing to
the table at address 7, at every address. -/
def exLookupObjs (_p : PNode) : LookupNode ℚ := exLookup 1 (-1) 7

/-! ## SparseParam.h: the touched-row traversals (CPU path) -/

/-- Body of the inner loop of `SparseParam::updateAdagrad` for the cell `(index, idx)`:
`grad = grad + val * reg; aux_square = aux_square + grad * grad;
val = val - grad * alpha / sqrt(aux_square + eps);` (each name standing for its cell). -/
def SparseParam.adagradCell {α : Type} [Field α] (env : Env α) (alpha reg eps : α)
    (index idx : Nat) (p : SparseParam α) : Option (SparseParam α) :=
  (p.grad.get? index idx).bind fun g =>
  (p.val.get? index idx).bind fun v =>
  (p.grad.set? index idx (g + v * reg)).bind fun grad1 =>
  (p.aux_square.get? index idx).bind fun a =>
  (grad1.get? index idx).bind fun g1 =>
  (p.aux_square.set? index idx (a + g1 * g1)).bind fun aux1 =>
  (aux1.get? index idx).bind fun a1 =>
  (p.val.set? index idx (v - g1 * alpha / env.sqrt (a1 + eps))).map fun val1 =>
  { p with grad := grad1, aux_square := aux1, val := val1 }

/-- `SparseParam::updateAdagrad(alpha, reg, eps)`, CPU path: the rows whose flag in `indexers`
is clear are skipped. -/
def SparseParam.updateAdagrad {α : Type} [Field α] (env : Env α) (p : SparseParam α)
    (alpha reg eps : α) : Option (SparseParam α) :=
  forLoop p.indexers.length (fun index (q : SparseParam α) =>
    (q.indexers[index]?).bind fun touched =>
    if touched = false then some q
    else forLoop q.grad.col (SparseParam.adagradCell env alpha reg eps index) q) p

/-- Body of the inner loop of `SparseParam::updateAdam` for the cell `(index, idx)`:
`grad = grad + val * reg; aux_mean = belta1 * aux_mean + (1 - belta1) * grad;
aux_square = belta2 * aux_square + (1 - belta2) * grad * grad;
lr_t = alpha * sqrt(1 - pow(belta2, last_update[index] + 1)) / (1 - pow(belta1,
last_update[index] + 1)); val = val - aux_mean * lr_t / sqrt(aux_square + eps);`. The power with
an integer exponent is the power of the field. -/
def SparseParam.adamCell {α : Type} [Field α] (env : Env α) (belta1 belta2 alpha reg eps : α)
    (index idx : Nat) (p : SparseParam α) : Option (SparseParam α) :=
  (p.grad.get? index idx).bind fun g =>
  (p.val.get? index idx).bind fun v =>
  (p.grad.set? index idx (g + v * reg)).bind fun grad1 =>
  (p.aux_mean.get? index idx).bind fun m =>
  (grad1.get? index idx).bind fun g1 =>
  (p.aux_mean.set? index idx (belta1 * m + (1 - belta1) * g1)).bind fun mean1 =>
  (p.aux_square.get? index idx).bind fun a =>
  (p.aux_square.set? index idx (belta2 * a + (1 - belta2) * g1 * g1)).bind fun aux1 =>
  (p.last_update[index]?).bind fun t =>
  (mean1.get? index idx).bind fun m1 =>
  (aux1.get? index idx).bind fun a1 =>
  (p.val.set? index idx
      (v - m1 * (alpha * env.sqrt (1 - belta2 ^ (t + 1)) / (1 - belta1 ^ (t + 1)))
        / env.sqrt (a1 + eps))).map fun val1 =>
  { p with grad := grad1, aux_mean := mean1, aux_square := aux1, val := val1 }

/-- `SparseParam::updateAdam(belta1, belta2, alpha, reg, eps)`, CPU path: after the cells of a
touched row, `last_update[index]++`. -/
def SparseParam.updateAdam {α : Type} [Field α] (env : Env α) (p : SparseParam α)
    (belta1 belta2 alpha reg eps : α) : Option (SparseParam α) :=
  forLoop p.indexers.length (fun index (q : SparseParam α) =>
    (q.indexers[index]?).bind fun touched =>
    if touched = false then some q
    else
      (forLoop q.grad.col (SparseParam.adamCell env belta1 belta2 alpha reg eps index) q).bind
        fun q1 =>
      (q1.last_update[index]?).map fun t =>
        { q1 with last_update := q1.last_update.set index (t + 1) }) p

/-- `SparseParam::clearGrad()`, CPU path: the gradient rows whose flag is set are zeroed, then
`indexers = false` clears every flag. -/
def SparseParam.clearGrad {α : Type} [Zero α] (p : SparseParam α) : Option (SparseParam α) :=
  (forLoop p.indexers.length (fun index (g : Tensor2D α) =>
      (p.indexers[index]?).bind fun touched =>
      if touched = false then some g
      else forLoop g.col (fun idx (g1 : Tensor2D α) => g1.set? index idx 0) g) p.grad).map
    fun g2 => { p with grad := g2, indexers := List.replicate p.indexers.length false }

/-- `SparseParam::squareGradNorm()`, CPU path: `sumNorm += grad[index][idx] * grad[index][idx]`
over the rows whose flag is set and `idx < val.col`. -/
def SparseParam.squareGradNorm {α : Type} [Semiring α] (p : SparseParam α) : Option α :=
  forLoop p.indexers.length (fun index (sumNorm : α) =>
    (p.indexers[index]?).bind fun touched =>
    if touched = false then some sumNorm
    else
      forLoop p.val.col (fun idx (s : α) =>
        (p.grad.get? index idx).map fun g => s + g * g) sumNorm) 0

/-- `SparseParam::rescaleGrad(scale)`, CPU path:
`grad[index][idx] = grad[index][idx] * scale` over the rows whose flag is set and
`idx < val.col`. -/
def SparseParam.rescaleGrad {α : Type} [Mul α] (p : SparseParam α) (scale : α) :
    Option (SparseParam α) :=
  (forLoop p.indexers.length (fun index (g : Tensor2D α) =>
      (p.indexers[index]?).bind fun touched =>
      if touched = false then some g
      else
        forLoop p.val.col (fun idx (g1 : Tensor2D α) =>
          (g1.get? index idx).bind fun g0 => g1.set? index idx (g0 * scale)) g) p.grad).map
    fun g2 => { p with grad := g2 }

/-- The calls `loss(featId, l)` for the pairs of a list, in order. -/
def SparseParam.lossAll {α : Type} [Add α] :
    SparseParam α → List (Int × Tensor1D α) → Option (SparseParam α)
  | p, [] => some p
  | p, (featId, l) :: rest => (p.loss featId l).bind fun p1 => SparseParam.lossAll p1 rest

/-- A `SparseParam` for running examples, with 2 rows of width 1: `val` is `[[-1], [5]]`, the
other tensors are zero, no row is touched and both update counters are 0. -/
def exSparse : SparseParam ℚ :=
  { val := { row := 2, col := 1, v := [-1, 5] }
    grad := { row := 2, col := 1, v := [0, 0] }
    aux_square := { row := 2, col := 1, v := [0, 0] }
    aux_mean := { row := 2, col := 1, v := [0, 0] }
    indexers := [false, false]
    last_update := [0, 0] }

/-- The example `exSparse` after `loss(0, [1])`: row 0 is touched and its gradient is `[1]`. -/
def exSparseTouched : SparseParam ℚ :=
  { exSparse with grad := { row := 2, col := 1, v := [1, 0] }, indexers := [true, false] }

/-- The value the spec gives `squareGradNorm()` of a sparse parameter: the sum of the squared
gradient cells over the rows whose touched flag is set. -/
def SparseParam.specSquareGradNorm {α : Type} [Semiring α] (p : SparseParam α) : α :=
  (((List.range p.indexers.length).filter (fun i => p.indexers.getD i false)).map
    (fun i => ((List.range p.val.col).map (fun j => p.grad.mat.entry i j ^ 2)).sum)).sum

/-- A run of training steps of a sparse parameter under Adam: for each element of the list in
order, the calls `loss(featId, l)` of that step, then `updateAdam(...)`, then `clearGrad()`. -/
def SparseParam.adamSteps {α : Type} [Field α] (env : Env α)
    (belta1 belta2 alpha reg eps : α) :
    SparseParam α → List (List (Int × Tensor1D α)) → Option (SparseParam α)
  | p, [] => some p
  | p, ls :: rest =>
    (p.lossAll ls).bind fun p1 =>
    (p1.updateAdam env belta1 belta2 alpha reg eps).bind fun p2 =>
    p2.clearGrad.bind fun p3 =>
    SparseParam.adamSteps env belta1 belta2 alpha reg eps p3 rest

/-! ## Node.h: `backward_drop`; UniOP.h: `LinearUniNode::backward` -/

/-- `Node::backward_drop()`: `if (drop_value > 0) loss.vec() = loss.vec() * drop_mask.vec();`. -/
def Node.backward_drop {α : Type} [Zero α] [Mul α] [LT α]
    [DecidableRel (fun a b : α => a < b)] (n : Node α) : Option (Node α) :=
  if 0 < n.drop_value then
    (Vec.mul? n.loss.v n.drop_mask.v).bind fun l =>
    (n.loss.assignVec? l).map fun l1 => { n with loss := l1 }
  else some n

/-- A node memory for running examples: as `exUniObjs`, but every UniNode has the dropout
rate 1/2. -/
def exUniDropObjs (p : PNode) : UniNode ℚ :=
  if p = 0 then { exUni 2 (1 / 2) 7 1 2 with in_ := 10 }
  else if p = 1 then { exUni 2 (1 / 2) 7 1 2 with in_ := 11 }
  else if p = 10 then { exUni 2 (1 / 2) 7 1 2 with val := { v := [1, 0] } }
  else { exUni 2 (1 / 2) 7 1 2 with val := { v := [0, 1] } }

/-- The `UniExecute` generated in training mode (`bTrain = true`, drop factor 1) for node 0 of
`exUniDropObjs` after `addNode` has accepted node 1. -/
def exUniDropExecute : UniExecute ℚ :=
  { UniNode.generate exUniParams exUniDropObjs 0 true 1 with batch := [0, 1] }

/-- `Tensor1D::tmat()`: `Mat(v, 1, dim)`. -/
def Tensor1D.tmat {α : Type} (t : Tensor1D α) : Mat α := { rows := 1, cols := t.dim, data := t.v }

/-- Modelled from the spec: the Eigen transpose of a `Mat` view (`MyLib.h` and Eigen are absent):
entry `(r, c)` of the result is entry `(c, r)` of the view. -/
def Mat.transpose {α : Type} [Zero α] (m : Mat α) : Mat α :=
  { rows := m.cols, cols := m.rows,
    data := (List.range (m.cols * m.rows)).map (fun k => m.entry (k % m.rows) (k / m.rows)) }

/-- Modelled from the spec: the Eigen sum `A + B` of two `Mat` views of the same shape (`MyLib.h`
and Eigen are absent), as `A += B` computes it. -/
def Mat.add? {α : Type} [Add α] (A B : Mat α) : Option (Mat α) :=
  if A.rows = B.rows ∧ A.cols = B.cols ∧ A.data.length = B.data.length then
    some { rows := A.rows, cols := A.cols, data := List.zipWith (fun u w => u + w) A.data B.data }
  else none

/-- `LinearUniNode::backward()` for the node at address `self`: the parameter memory and the node
memory after the call. -/
def LinearUniNode.backward {α : Type} [Semiring α] (params : PParam → UniParams α)
    (objs : PNode → LinearUniNode α) (self : PNode) :
    Option ((PParam → UniParams α) × (PNode → LinearUniNode α)) :=
  (Mat.mul? (objs self).loss.mat (objs (objs self).in_).val.tmat).bind fun lx =>
  (Mat.add? (params (objs self).param).W.grad.mat lx).bind fun wg =>
  ((params (objs self).param).W.grad.assignMat? wg).bind fun wgrad =>
  (if (params (objs self).param).bUseB = true then
      (Vec.add? (params (objs self).param).b.grad.v (objs self).loss.v).bind
        (params (objs self).param).b.grad.assignVec?
    else some (params (objs self).param).b.grad).bind fun bgrad =>
  (Mat.mul? (params (objs self).param).W.val.mat.transpose (objs self).loss.mat).bind fun wl =>
  (Mat.add? (objs (objs self).in_).loss.mat wl).bind fun il =>
  ((objs (objs self).in_).loss.assignMat? il).bind fun iloss =>
  some (Function.update params (objs self).param
          { params (objs self).param with
            W := { (params (objs self).param).W with grad := wgrad }
            b := { (params (objs self).param).b with grad := bgrad } },
        Function.update objs (objs self).in_ { objs (objs self).in_ with loss := iloss })

/-- The value the spec gives the linear node: `W * x + b`, for the weight matrix `W` (an
`outDim × inDim` tensor), the bias `b` and the input vector `x`. -/
def LinearUniNode.specVal {α : Type} [Semiring α] (P : UniParams α) (x : List α) : List α :=
  (List.range P.W.val.row).map (fun i =>
    ((List.range P.W.val.col).map (fun j => P.W.val.mat.entry i j * x.getD j 0)).sum
      + P.b.val.v.getD i 0)

/-- A `UniParams` memory for running examples of the linear node: every object has the `2 × 2`
weight matrix `[[1, 2], [3, 4]]`, the bias `[10, 20]` and zero gradients of the same shapes. -/
def exLinParams (_p : PParam) : UniParams ℚ :=
  { W := { val := { row := 2, col := 2, v := [1, 2, 3, 4] },
           grad := { row := 2, col := 2, v := [0, 0, 0, 0] } },
    b := { val := { row := 2, col := 1, v := [10, 20] },
           grad := { row := 2, col := 1, v := [0, 0] } },
    bUseB := true }

/-- A node memory for running examples: `LinearUniNode`s of width 2 without dropout at every
address; node 0 has input 10 and the loss `[1, 0]`, and every other node holds the value
`[1, 0]`. -/
def exLinObjs (p : PNode) : LinearUniNode ℚ :=
  if p = 0 then
    { toNode := { exNode "linear_uni" 2 (-1) with loss := { v := [1, 0] } }, in_ := 10, param := 7 }
  else
    { toNode := { exNode "linear_uni" 2 (-1) with val := { v := [1, 0] } }, in_ := 0, param := 7 }

/-! ## LookupTable.h: the random-initialisation overload; Pooling.h: `SumPoolNode`, `AvgPoolNode` -/

/-- `LookupTable::initialWeights(dim, tune)`, the overload that initialises the table at random
(CPU build): the table after the call. -/
def LookupTable.initialWeightsDim {α : Type} [Field α] (env : Env α) (T : LookupTable α)
    (dim : Nat) (tune : Bool) : LookupTable α :=
  if T.nVSize = 0 ∨ (T.nVSize = 1 ∧ 0 ≤ T.nUNKId) then T
  else
    let E0 := SparseParam.initial env 0 T.E dim T.nVSize
    { T with
      nDim := dim
      E := { E0 with val := Tensor2D.random env E0.val.size E0.val (env.sqrt (1 / (dim : α))) }
      bFineTune := tune }

/-- `SumPoolNode::forward(cg, x)` (the overload taking a vector) for the node at address `self`:
an empty `x` is reported and nothing is done; otherwise the inputs of width `dim` are collected
in `ins` (the others are reported), `degree = 0`, every collected input gets the node as parent
and the node is added to the graph. -/
def SumPoolNode.forward {α : Type} (objs : PNode → SumPoolNode α) (cg : Graph) (self : PNode)
    (x : List PNode) : (PNode → SumPoolNode α) × Graph :=
  if x.length = 0 then (objs, cg)
  else
    let ins := x.filter (fun xi => decide ((objs xi).val.dim = (objs self).dim))
    let o1 := Function.update objs self { objs self with ins := ins, degree := 0 }
    (fun q => { o1 q with toNode := Node.addParents self (fun r => (o1 r).toNode) ins q },
      Graph.addNode cg self)

/-- `AvgPoolNode::forward(cg, x)` (the overload taking a vector) for the node at address `self`;
the body is that of `SumPoolNode::forward`. -/
def AvgPoolNode.forward {α : Type} (objs : PNode → AvgPoolNode α) (cg : Graph) (self : PNode)
    (x : List PNode) : (PNode → AvgPoolNode α) × Graph :=
  if x.length = 0 then (objs, cg)
  else
    let ins := x.filter (fun xi => decide ((objs xi).val.dim = (objs self).dim))
    let o1 := Function.update objs self { objs self with ins := ins, degree := 0 }
    (fun q => { o1 q with toNode := Node.addParents self (fun r => (o1 r).toNode) ins q },
      Graph.addNode cg self)

/-- A table over a vocabulary whose only entry is the OOV token (id 0), before any
initialisation. -/
def exTableOnlyUnk : LookupTable ℚ :=
  { elems := { from_string := fun s => if s = "-unknown-" then 0 else -1, size := 1,
               is_fixed := true },
    E := SparseParam.new, bFineTune := false, nDim := 0, nVSize := 1, nUNKId := 0 }

/-- A node memory for running examples: pool nodes of width 2 at every address; node 0 still
holds the input 5 of an earlier `forward`, and node 3 has a value of width 3. -/
def exPoolObjs (p : PNode) : PoolNode ℚ :=
  if p = 0 then { exPool "max-pooling" 2 with ins := [5] }
  else if p = 3 then { exPool "max-pooling" 2 with val := { v := [0, 0, 0] } }
  else exPool "max-pooling" 2

/-- A node memory for running examples: `SumPoolNode`s of width 2 at every address; node 0 still
holds the input 5 of an earlier `forward`, and node 3 has a value of width 3. -/
def exSumObjs (p : PNode) : SumPoolNode ℚ :=
  if p = 0 then { toNode := exNode "sum-pool" 2 (-1), ins := [5] }
  else if p = 3 then
    { toNode := { exNode "sum-pool" 2 (-1) with val := { v := [0, 0, 0] } }, ins := [] }
  else { toNode := exNode "sum-pool" 2 (-1), ins := [] }

/-- A node memory for running examples: `AvgPoolNode`s of width 2 at every address; node 0 still
holds the input 5 of an earlier `forward`, and node 3 has a value of width 3. -/
def exAvgObjs (p : PNode) : AvgPoolNode ℚ :=
  if p = 0 then { toNode := exNode "avg-pool" 2 (-1), ins := [5] }
  else if p = 3 then
    { toNode := { exNode "avg-pool" 2 (-1) with val := { v := [0, 0, 0] } }, ins := [] }
  else { toNode := exNode "avg-pool" 2 (-1), ins := [] }

/-- A `SparseParam` for running examples with 1 row of width 2: `val` is `[[1, 2]]`, the other
tensors are zero and the row is not touched. -/
def exSparseWide : SparseParam ℚ :=
  { val := { row := 1, col := 2, v := [1, 2] }
    grad := { row := 1, col := 2, v := [0, 0] }
    aux_square := { row := 1, col := 2, v := [0, 0] }
    aux_mean := { row := 1, col := 2, v := [0, 0] }
    indexers := [false]
    last_update := [0] }

/-! ## MyTensor.h: `save` / `load` and the index checks -/

/-- The printing (`operator<<`) and the parsing (`operator>>`) of one number of a text stream,
which belong to the C++ library, taken as parameters: for an `int` and for a `dtype`. -/
structure TextFmt (α : Type) where
  printInt : Int → String
  scanInt : String → Int
  printVal : α → String
  scanVal : String → α

/-- `Tensor1D::save(os)`: the whitespace-separated tokens written, `dim`, `v[0]`, ...,
`v[dim-1]`. `v[0]` is written unconditionally, so the result is `none` for a tensor without
elements. -/
def Tensor1D.save {α : Type} (io : TextFmt α) (t : Tensor1D α) : Option (List String) :=
  (t.v[0]?).map fun v0 =>
    io.printInt (t.dim : Int) :: io.printVal v0 :: (t.v.drop 1).map io.printVal

/-- `Tensor1D::load(is)` on the tokens `toks` of the stream: the tensor and the tokens left.
`is >> curDim; init(curDim); for (idx < dim) is >> v[idx];`. An extraction from the exhausted
stream leaves 0 (C++11); the result is `none` when `curDim` is negative (the allocation
fails). -/
def Tensor1D.load {α : Type} [Zero α] (io : TextFmt α) (t : Tensor1D α) (toks : List String) :
    Option (Tensor1D α × List String) :=
  if ((toks[0]?).map io.scanInt).getD 0 < 0 then none
  else
    some ({ v := (List.range (t.init (((toks[0]?).map io.scanInt).getD 0).toNat).dim).map
              (fun idx => (((toks.drop 1)[idx]?).map io.scanVal).getD 0) },
      toks.drop (1 + (((toks[0]?).map io.scanInt).getD 0).toNat))

/-- `Tensor2D::save(os)`: the tokens written, `size()`, `row`, `col`, `v[0]`, ...,
`v[size()-1]`. `v[0]` is written unconditionally; the result is `none` when an element written
does not exist. -/
def Tensor2D.save {α : Type} (io : TextFmt α) (t : Tensor2D α) : Option (List String) :=
  if t.v.length < t.size then none
  else
    (t.v[0]?).map fun v0 =>
      io.printInt (t.size : Int) :: io.printInt (t.row : Int) :: io.printInt (t.col : Int) ::
        io.printVal v0 :: ((t.v.take t.size).drop 1).map io.printVal

/-- `Tensor2D::load(is)` on the tokens `toks` of the stream: the tensor and the tokens left.
`is >> curSize; is >> curRow; is >> curCol; init(curRow, curCol); for (idx < size()) is >>
v[idx];`. `curSize` is read and not used. An extraction from the exhausted stream leaves 0
(C++11); the result is `none` when `curRow` or `curCol` is negative (no tensor of this model has
a negative dimension). -/
def Tensor2D.load {α : Type} [Zero α] (io : TextFmt α) (t : Tensor2D α) (toks : List String) :
    Option (Tensor2D α × List String) :=
  if ((toks[1]?).map io.scanInt).getD 0 < 0 ∨ ((toks[2]?).map io.scanInt).getD 0 < 0 then none
  else
    some ({ t.init (((toks[1]?).map io.scanInt).getD 0).toNat
                (((toks[2]?).map io.scanInt).getD 0).toNat with
            v := (List.range (t.init (((toks[1]?).map io.scanInt).getD 0).toNat
                (((toks[2]?).map io.scanInt).getD 0).toNat).size).map
              (fun idx => (((toks.drop 3)[idx]?).map io.scanVal).getD 0) },
      toks.drop (3 + (t.init (((toks[1]?).map io.scanInt).getD 0).toNat
                (((toks[2]?).map io.scanInt).getD 0).toNat).size))

/-- The check of `Tensor1D::operator[](i)`, `assert(i < dim)`, for the `int` index `i`. -/
def Tensor1D.indexCheck {α : Type} (t : Tensor1D α) (i : Int) : Bool := decide (i < (t.dim : Int))

/-- The check of `Tensor2D::operator[](irow)`, `assert(irow < row)`, for the `int` index
`irow`. -/
def Tensor2D.indexCheck {α : Type} (t : Tensor2D α) (irow : Int) : Bool :=
  decide (irow < (t.row : Int))

/-- `Tensor1D::operator[](i)` used as an rvalue with the `int` index `i`:
`assert(i < dim); return v[i];`. The result is `none` when the assertion fails or `v[i]` is
outside the buffer. -/
def Tensor1D.getI? {α : Type} (t : Tensor1D α) (i : Int) : Option α :=
  if t.indexCheck i = true then (if i < 0 then none else t.v[i.toNat]?) else none

/-- A text format for running examples: the tokens "1" to "5" are the numbers 1 to 5 (anything
else is 0), as `int` and as `dtype`. -/
def exFmt : TextFmt ℚ :=
  { printInt := fun n => if n = 1 then "1" else if n = 2 then "2" else if n = 3 then "3"
      else if n = 4 then "4" else if n = 5 then "5" else "0"
    scanInt := fun s => if s = "1" then 1 else if s = "2" then 2 else if s = "3" then 3
      else if s = "4" then 4 else if s = "5" then 5 else 0
    printVal := fun a => if a = 1 then "1" else if a = 2 then "2" else if a = 3 then "3"
      else if a = 4 then "4" else if a = 5 then "5" else "0"
    scanVal := fun s => if s = "1" then 1 else if s = "2" then 2 else if s = "3" then 3
      else if s = "4" then 4 else if s = "5" then 5 else 0 }

/-- As `exEnv`, with a `split_bychar` that knows the lines "a 2", "b" (one field) and "b 4 5"
(three fields). -/
def exEnvLines : Env ℚ :=
  { exEnv with
    split_bychar := fun s _ => if s = "a 2" then ["a", "2"] else if s = "b" then ["b"]
      else if s = "b 4 5" then ["b", "4", "5"] else [] }

/-- The width `N` that `LookupTable::initialWeights` infers from a file: the number of fields of
the first non-empty line minus 1 (0 for a file without such a line). -/
def LookupTable.fileDim {α : Type} (env : Env α) (lines : List String) : Nat :=
  match lines.filter (fun l => l ≠ "") with
  | [] => 0
  | first :: _ => (env.split_bychar first ' ').length - 1

/-- As `exAlphabet`, but not fixed. -/
def exAlphabetOpen : Alphabet := { exAlphabet with is_fixed := false }

/-- A fixed vocabulary that shares no token with the lines "a 2" and "b 4": "c" is 0 and the OOV
token "-unknown-" is 1. -/
def exAlphabetDisjoint : Alphabet :=
  { from_string := fun s => if s = "c" then 0 else if s = "-unknown-" then 1 else -1
    size := 2
    is_fixed := true }

/-- A table over `exAlphabetDisjoint` as `LookupTable::initial` sets it up before it calls
`initialWeights`. -/
def exTableDisjoint : LookupTable ℚ :=
  { elems := exAlphabetDisjoint, E := SparseParam.new, bFineTune := false, nDim := 0, nVSize := 2,
    nUNKId := 1 }

/-! ## MyTensor.h: the activation functions and their derivative functions -/

/-- `fequal(x)`. -/
def fequal {α : Type} (x : α) : α := x

/-- `ftanh(x)`: `tanh(x)`; `tanh` is the function of the C library, taken as a parameter. -/
def ftanh {α : Type} (tanh : α → α) (x : α) : α := tanh x

/-- `fsigmoid(x)`: `1.0 / (1.0 + exp(-x))`; `exp` is the function of the C library, taken as a
parameter. -/
def fsigmoid {α : Type} [Field α] (exp : α → α) (x : α) : α := 1 / (1 + exp (-x))

/-- `frelu(x)`. -/
def frelu {α : Type} [LinearOrderedField α] (x : α) : α := if x ≤ 0 then 0 else x

/-- `fleaky_relu(x)`: `if (x < 0) return (0.1*x); return x;`. -/
def fleaky_relu {α : Type} [LinearOrderedField α] (x : α) : α := if x < 0 then 1 / 10 * x else x

/-- The constant `lambda = 1.0507009873554804934193349852946` of `fselu` and `dselu`. -/
def selu_lambda {α : Type} [Field α] : α := 10507009873554804934193349852946 / 10 ^ 31

/-- The constant `alpha = 1.6732632423543772848170429916717` of `fselu` and `dselu`. -/
def selu_alpha {α : Type} [Field α] : α := 16732632423543772848170429916717 / 10 ^ 31

/-- `fselu(x)`: `if (x <= 0) return lambda * alpha * (exp(x) - 1); return lambda * x;`. -/
def fselu {α : Type} [LinearOrderedField α] (exp : α → α) (x : α) : α :=
  if x ≤ 0 then selu_lambda * selu_alpha * (exp x - 1) else selu_lambda * x

/-- `fexp(x)`. -/
def fexp {α : Type} (exp : α → α) (x : α) : α := exp x

/-- `dequal(x, y)`. -/
def dequal {α : Type} [One α] (_x _y : α) : α := 1

/-- `dtanh(x, y)`: `(1 + y) * (1 - y)`. -/
def dtanh {α : Type} [Ring α] (_x y : α) : α := (1 + y) * (1 - y)

/-- `dleaky_relu(x, y)`: `if (x < 0) return 0.1; return 1;`. -/
def dleaky_relu {α : Type} [LinearOrderedField α] (x _y : α) : α := if x < 0 then 1 / 10 else 1

/-- `dselu(x, y)`: `if (x <= 0) return lambda * alpha + y; return lambda;`. -/
def dselu {α : Type} [LinearOrderedField α] (x y : α) : α :=
  if x ≤ 0 then selu_lambda * selu_alpha + y else selu_lambda

/-- `dsigmoid(x, y)`: `(1 - y) * y`. -/
def dsigmoid {α : Type} [Ring α] (_x y : α) : α := (1 - y) * y

/-- `drelu(x, y)`. -/
def drelu {α : Type} [LinearOrderedField α] (x _y : α) : α := if x ≤ 0 then 0 else 1

/-- `dexp(x, y)`. -/
def dexp {α : Type} (_x y : α) : α := y

/-! ## Examples for `Tensor2D::norm2one` -/

/-- As `exEnv`, with a `sqrt` that is exact at `1000000` (`sqrt(1000000) = 1000`), the only
argument at which the example for `norm2one` calls it. -/
def exEnvSqrt : Env ℚ := { exEnv with sqrt := fun x => if x = 1000000 then 1000 else 0 }

/-- A `1 × 3` tensor for running examples: the row `[0.001, 0.001, 0.001]`, whose sum of squares
is `0.000003`. -/
def exRowSmall : Tensor2D ℚ := { row := 1, col := 3, v := [1 / 1000, 1 / 1000, 1 / 1000] }

/-! ## Examples for `LookupNode::backward` on a fine-tuned table -/

/-- As `exTableNoUnk` (no OOV id, `nUNKId = -1`), with fine-tuning enabled. -/
def exTableNoUnkTuned : LookupTable ℚ := { exTableNoUnk with bFineTune := true }

/-! ## SparseParam.h: runs of operations, `load`, and the row traversals with their rows counted -/

/-- A call of one of the operations of a `SparseParam` that follow `initial` (CPU path):
`loss(featId, loss)`, `clearGrad()`, `updateAdagrad(alpha, reg, eps)`,
`updateAdam(belta1, belta2, alpha, reg, eps)` or `rescaleGrad(scale)`. -/
inductive SparseOp (α : Type) where
  | loss (featId : Int) (l : Tensor1D α)
  | clearGrad
  | updateAdagrad (alpha reg eps : α)
  | updateAdam (belta1 belta2 alpha reg eps : α)
  | rescaleGrad (scale : α)

/-- The parameter after the call `op` on the parameter `p`. -/
def SparseParam.call {α : Type} [Field α] (env : Env α) (p : SparseParam α) :
    SparseOp α → Option (SparseParam α)
  | .loss featId l => p.loss featId l
  | .clearGrad => p.clearGrad
  | .updateAdagrad alpha reg eps => p.updateAdagrad env alpha reg eps
  | .updateAdam belta1 belta2 alpha reg eps => p.updateAdam env belta1 belta2 alpha reg eps
  | .rescaleGrad scale => p.rescaleGrad scale

/-- The parameter after the calls of a list, in order. -/
def SparseParam.run {α : Type} [Field α] (env : Env α) :
    SparseParam α → List (SparseOp α) → Option (SparseParam α)
  | p, [] => some p
  | p, op :: rest => (p.call env op).bind fun p1 => SparseParam.run env p1 rest

/-- `SparseParam::load(is)` on the tokens `toks` of the stream: the parameter and the tokens left.
`val.load(is); aux_square.load(is); aux_mean.load(is); is >> curInDim;
last_update.resize(curInDim); for (idx < curInDim) is >> last_update[idx];`. Neither `grad` nor
`indexers` is assigned. The result is `none` when `curInDim` is negative. -/
def SparseParam.load {α : Type} [Zero α] (io : TextFmt α) (p : SparseParam α)
    (toks : List String) : Option (SparseParam α × List String) :=
  (p.val.load io toks).bind fun r1 =>
  (p.aux_square.load io r1.2).bind fun r2 =>
  (p.aux_mean.load io r2.2).bind fun r3 =>
  if ((r3.2[0]?).map io.scanInt).getD 0 < 0 then none
  else
    some ({ p with
            val := r1.1
            aux_square := r2.1
            aux_mean := r3.1
            last_update := (List.range (((r3.2[0]?).map io.scanInt).getD 0).toNat).map
              (fun idx => (((r3.2.drop 1)[idx]?).map io.scanInt).getD 0) },
      r3.2.drop (1 + (((r3.2[0]?).map io.scanInt).getD 0).toNat))

/-- Counters kept beside the state of a row traversal
`for (index < inDim) { if (!indexers[index]) continue; ... }`: `examined` counts the rows the
loop visits (it tests the flag of each), `processed` counts the rows whose cells it goes on to
handle. -/
structure RowCount where
  examined : Nat
  processed : Nat
deriving DecidableEq, Repr

/-- One iteration of a row traversal together with its counters: `flag index s` is the read of
`indexers[index]`, `row index s` the code that follows the `continue` for a row whose flag is
set. -/
def countedRow {σ : Type} (flag : Nat → σ → Option Bool) (row : Nat → σ → Option σ)
    (index : Nat) (st : σ × RowCount) : Option (σ × RowCount) :=
  (flag index st.1).bind fun touched =>
    if touched = false then
      some (st.1, { examined := st.2.examined + 1, processed := st.2.processed })
    else
      (row index st.1).map fun s1 =>
        (s1, { examined := st.2.examined + 1, processed := st.2.processed + 1 })

/-- `SparseParam::clearGrad()`, CPU path, with the rows of its traversal counted. -/
def SparseParam.clearGradCounted {α : Type} [Zero α] (p : SparseParam α) :
    Option (SparseParam α × RowCount) :=
  (forLoop p.indexers.length
      (countedRow (fun index _ => p.indexers[index]?)
        (fun index (g : Tensor2D α) =>
          forLoop g.col (fun idx (g1 : Tensor2D α) => g1.set? index idx 0) g))
      (p.grad, { examined := 0, processed := 0 })).map
    fun r => ({ p with grad := r.1, indexers := List.replicate p.indexers.length false }, r.2)

/-- `SparseParam::updateAdagrad(alpha, reg, eps)`, CPU path, with the rows of its traversal
counted. -/
def SparseParam.updateAdagradCounted {α : Type} [Field α] (env : Env α) (p : SparseParam α)
    (alpha reg eps : α) : Option (SparseParam α × RowCount) :=
  forLoop p.indexers.length
    (countedRow (fun index (q : SparseParam α) => q.indexers[index]?)
      (fun index (q : SparseParam α) =>
        forLoop q.grad.col (SparseParam.adagradCell env alpha reg eps index) q))
    (p, { examined := 0, processed := 0 })

/-- `SparseParam::updateAdam(belta1, belta2, alpha, reg, eps)`, CPU path, with the rows of its
traversal counted. -/
def SparseParam.updateAdamCounted {α : Type} [Field α] (env : Env α) (p : SparseParam α)
    (belta1 belta2 alpha reg eps : α) : Option (SparseParam α × RowCount) :=
  forLoop p.indexers.length
    (countedRow (fun index (q : SparseParam α) => q.indexers[index]?)
      (fun index (q : SparseParam α) =>
        (forLoop q.grad.col (SparseParam.adamCell env belta1 belta2 alpha reg eps index) q).bind
          fun q1 =>
        (q1.last_update[index]?).map fun t =>
          { q1 with last_update := q1.last_update.set index (t + 1) }))
    (p, { examined := 0, processed := 0 })

/-- `SparseParam::squareGradNorm()`, CPU path, with the rows of its traversal counted. -/
def SparseParam.squareGradNormCounted {α : Type} [Semiring α] (p : SparseParam α) :
    Option (α × RowCount) :=
  forLoop p.indexers.length
    (countedRow (fun index _ => p.indexers[index]?)
      (fun index (sumNorm : α) =>
        forLoop p.val.col (fun idx (s : α) =>
          (p.grad.get? index idx).map fun g => s + g * g) sumNorm))
    (0, { examined := 0, processed := 0 })

/-- `SparseParam::rescaleGrad(scale)`, CPU path, with the rows of its traversal counted. -/
def SparseParam.rescaleGradCounted {α : Type} [Mul α] (p : SparseParam α) (scale : α) :
    Option (SparseParam α × RowCount) :=
  (forLoop p.indexers.length
      (countedRow (fun index _ => p.indexers[index]?)
        (fun index (g : Tensor2D α) =>
          forLoop p.val.col (fun idx (g1 : Tensor2D α) =>
            (g1.get? index idx).bind fun g0 => g1.set? index idx (g0 * scale)) g))
      (p.grad, { examined := 0, processed := 0 })).map
    fun r => ({ p with grad := r.1 }, r.2)

/-! ## Pooling.h: `setMask`, `compute` and `backward` of the max and min pooling nodes -/

/-- `MaxPoolNode::setMask()` (CPU build) for the node at address `self`: the new `masks`. For
each component `idx` the inner loop keeps in `maxIndex` the input chosen so far, starting from -1
and taking `i` when `maxIndex == -1 || ins[i]->val[idx] > ins[maxIndex]->val[idx]` (the comparison
is not evaluated when `maxIndex == -1`); then `masks[idx] = maxIndex`. -/
def MaxPoolNode.setMask {α : Type} [LT α] [DecidableRel (fun a b : α => a < b)]
    (objs : PNode → PoolNode α) (self : PNode) : Option (List Int) :=
  forLoop (objs self).dim (fun idx (masks : List Int) =>
    (forLoop (objs self).ins.length (fun i (maxIndex : Int) =>
        if maxIndex = -1 then some (i : Int)
        else
          ((objs self).ins[i]?).bind fun pi =>
          ((objs pi).val.get? idx).bind fun vi =>
          (if maxIndex < 0 then none else (objs self).ins[maxIndex.toNat]?).bind fun pm =>
          ((objs pm).val.get? idx).bind fun vm =>
          some (if vm < vi then (i : Int) else maxIndex)) (-1)).bind fun maxIndex =>
    if idx < masks.length then some (masks.set idx maxIndex) else none) (objs self).masks

/-- `MinPoolNode::setMask()` for the node at address `self`: as `MaxPoolNode::setMask`, taking
`i` when `minIndex == -1 || ins[i]->val[idx] < ins[minIndex]->val[idx]`. -/
def MinPoolNode.setMask {α : Type} [LT α] [DecidableRel (fun a b : α => a < b)]
    (objs : PNode → PoolNode α) (self : PNode) : Option (List Int) :=
  forLoop (objs self).dim (fun idx (masks : List Int) =>
    (forLoop (objs self).ins.length (fun i (minIndex : Int) =>
        if minIndex = -1 then some (i : Int)
        else
          ((objs self).ins[i]?).bind fun pi =>
          ((objs pi).val.get? idx).bind fun vi =>
          (if minIndex < 0 then none else (objs self).ins[minIndex.toNat]?).bind fun pm =>
          ((objs pm).val.get? idx).bind fun vm =>
          some (if vi < vm then (i : Int) else minIndex)) (-1)).bind fun minIndex =>
    if idx < masks.length then some (masks.set idx minIndex) else none) (objs self).masks

/-- `PoolNode::compute()` for the node at address `self`; `setMask` is the virtual call, resolved
by the caller: `setMask(); for (i < dim) { int mask_i = masks.at(i);
val[i] = ins.at(mask_i)->val[i]; }`. The accesses with `at` are checked, and a negative `mask_i`
is out of range for `ins.at`. -/
def PoolNode.compute {α : Type}
    (setMask : (PNode → PoolNode α) → PNode → Option (List Int))
    (objs : PNode → PoolNode α) (self : PNode) : Option (PNode → PoolNode α) :=
  (setMask objs self).bind fun masks =>
  forLoop (objs self).dim (fun i (o : PNode → PoolNode α) =>
    ((o self).masks[i]?).bind fun mask_i =>
    (if mask_i < 0 then none else (o self).ins[mask_i.toNat]?).bind fun pin =>
    ((o pin).val.get? i).bind fun a =>
    ((o self).val.set? i a).map fun v1 => Function.update o self { o self with val := v1 })
    (Function.update objs self { objs self with masks := masks })

/-- `PoolNode::backward()` for the node at address `self`:
`for (i < dim) ins[masks[i]]->loss[i] += loss[i];`. The accesses to `masks` and `ins` are
unchecked, so the result is `none` when an element accessed does not exist. -/
def PoolNode.backward {α : Type} [Add α] (objs : PNode → PoolNode α) (self : PNode) :
    Option (PNode → PoolNode α) :=
  forLoop (objs self).dim (fun i (o : PNode → PoolNode α) =>
    ((o self).masks[i]?).bind fun m =>
    (if m < 0 then none else (o self).ins[m.toNat]?).bind fun pin =>
    ((o pin).loss.get? i).bind fun a =>
    ((o self).loss.get? i).bind fun l =>
    ((o pin).loss.set? i (a + l)).map fun l1 =>
      Function.update o pin { o pin with loss := l1 }) objs

/-- A node memory for running examples: max-pooling nodes of width 2; node 1 holds the inputs
2, 3 and 4, whose values are `[1, 5]`, `[3, 5]` and `[2, 0]`, and its loss is `[7, 9]`. -/
def exPoolIns (p : PNode) : PoolNode ℚ :=
  if p = 1 then
    { exPool "max-pooling" 2 with ins := [2, 3, 4], loss := { v := [7, 9] } }
  else if p = 2 then { exPool "max-pooling" 2 with val := { v := [1, 5] } }
  else if p = 3 then { exPool "max-pooling" 2 with val := { v := [3, 5] } }
  else if p = 4 then { exPool "max-pooling" 2 with val := { v := [2, 0] } }
  else exPool "max-pooling" 2

/-- The parameter `SparseParam::initial(1, 2)` of `exEnv` after `loss(0, [1])` and
`rescaleGrad(2)`: row 0 is touched and its gradient is `[2]`. -/
def exSparseRun : SparseParam ℚ :=
  { val := { row := 2, col := 1, v := [-2, -2] }
    grad := { row := 2, col := 1, v := [2, 0] }
    aux_square := { row := 2, col := 1, v := [0, 0] }
    aux_mean := { row := 2, col := 1, v := [0, 0] }
    indexers := [true, false]
    last_update := [0, 0] }

/-- An `isEqual` for running examples that tolerates a difference below 1/1000. `isEqual` is
declared in `MyLib.h`, which is not part of the sources; `SparseParam::squareGradNorm` uses it
to compare a sum computed on the device with the same sum computed on the host. -/
def exIsEqualTol (a b : ℚ) : Bool := decide (|a - b| < 1 / 1000)

/-- Three `LookupNode`s of one table for running examples: node 0 has the dropout rate 1/2,
node 1 the rate 1/2 + 6/10000, node 2 (and every other address) the rate 1/2 - 6/10000. -/
def exLookupTol (p : PNode) : LookupNode ℚ :=
  exLookup 2 (if p = 0 then 1 / 2 else if p = 1 then 5006 / 10000 else 4994 / 10000) 7

/-- A rounding for running examples that agrees with the rounding to the nearest binary64 value
on the products of the example below: the exact product of 10 and the binary64 value nearest
to 0.3, which is 5404319552844595 / 2^54, lies within 2^-53 of 3 and is rounded to 3; the other
products of the example are values of binary64 and are left as they are. -/
def exRnd (x : ℚ) : ℚ :=
  if x = 10 * (5404319552844595 / 18014398509481984) then 3 else x

/-! # Theorems -/

/-! ## Batch equality (`typeEqual`) and `Execute::addNode` -/

theorem Node_typeEqual_tag {α : Type} (g : Bool) (isEqual : α → α → Bool) (a b : Node α)
    (h : Node.typeEqual g isEqual a b = true) : a.node_type = b.node_type := by
  unfold Node.typeEqual at h
  by_contra hne
  simp [hne] at h

theorem Node_typeEqual_cpu {α : Type} (isEqual : α → α → Bool) (a b : Node α) :
    Node.typeEqual false isEqual a b = decide (a.node_type = b.node_type) := by
  unfold Node.typeEqual
  by_cases h : a.node_type = b.node_type <;> simp [h]

theorem Node_typeEqual_gpu {α : Type} (isEqual : α → α → Bool) (a b : Node α)
    (h : Node.typeEqual true isEqual a b = true) :
    a.dim = b.dim ∧ isEqual a.drop_value b.drop_value = true := by
  unfold Node.typeEqual at h
  by_cases h1 : a.node_type = b.node_type
  · by_cases h2 : a.dim = b.dim
    · by_cases h3 : isEqual a.drop_value b.drop_value = true
      · exact ⟨h2, h3⟩
      · simp [h1, h2, h3] at h
    · simp [h1, h2] at h
  · simp [h1] at h

theorem UniNode_typeEqual_cpu {α : Type} (isEqual : α → α → Bool) (a b : UniNode α) :
    UniNode.typeEqual false isEqual a b = true ↔
      a.node_type = b.node_type ∧ a.param = b.param ∧ a.activate = b.activate ∧
        a.derivate = b.derivate := by
  unfold UniNode.typeEqual
  rw [Node_typeEqual_cpu]
  by_cases h1 : a.node_type = b.node_type <;> by_cases h2 : a.param = b.param <;>
    by_cases h3 : a.activate = b.activate <;> by_cases h4 : a.derivate = b.derivate <;>
    simp [h1, h2, h3, h4]

theorem Execute_addNodes_all {t : PNode → PNode → Bool} (p0 : PNode) :
    ∀ (pre rest : List PNode), (∀ p ∈ rest, t p0 p = true) →
      Execute.addNodes t (p0 :: pre) rest
        = (List.replicate rest.length true, p0 :: (pre ++ rest)) := by
  intro pre rest
  induction rest generalizing pre with
  | nil => intro _; simp [Execute.addNodes]
  | cons n ns ih =>
    intro h
    have hn : t p0 n = true := h n (List.mem_cons_self _ _)
    have hns : ∀ p ∈ ns, t p0 p = true := fun p hp => h p (List.mem_cons_of_mem _ hp)
    have hstep : Execute.addNode t (p0 :: pre) n = (true, p0 :: (pre ++ [n])) := by
      simp [Execute.addNode, hn]
    simp only [Execute.addNodes, hstep, ih (pre ++ [n]) hns]
    simp [List.replicate_succ]

theorem Execute_addNodes_none {t : PNode → PNode → Bool} (p0 : PNode) :
    ∀ (pre rest : List PNode), (∀ p ∈ rest, t p0 p = false) →
      Execute.addNodes t (p0 :: pre) rest = (List.replicate rest.length false, p0 :: pre) := by
  intro pre rest
  induction rest with
  | nil => intro _; simp [Execute.addNodes]
  | cons n ns ih =>
    intro h
    have hn : t p0 n = false := h n (List.mem_cons_self _ _)
    have hns : ∀ p ∈ ns, t p0 p = false := fun p hp => h p (List.mem_cons_of_mem _ hp)
    have hstep : Execute.addNode t (p0 :: pre) n = (false, p0 :: pre) := by
      simp [Execute.addNode, hn]
    simp only [Execute.addNodes, hstep, ih hns]
    simp [List.replicate_succ]

/-- C1. CPU build: starting from the `Execute` that `generate` returns for the first of `N ≥ 1`
UniNodes and calling `addNode` on the remaining `N - 1` nodes in order: if all nodes agree with the
first one on operator tag, width, dropout rate, `UniParams` object and activation/derivative
pair, every `addNode` returns `true` and the batch is the `N` nodes in insertion order; if the
`UniParams` objects are pairwise different, every `addNode` returns `false` and the batch keeps
only the first node. -/
theorem C1_uni_batching {α : Type} (isEqual : α → α → Bool) (params : PParam → UniParams α)
    (objs : PNode → UniNode α) (p0 : PNode) (rest : List PNode) (bTrain : Bool) (f : α) :
    ((∀ p ∈ rest, (objs p).node_type = (objs p0).node_type ∧ (objs p).dim = (objs p0).dim ∧
          (objs p).drop_value = (objs p0).drop_value ∧ (objs p).param = (objs p0).param ∧
          (objs p).activate = (objs p0).activate ∧ (objs p).derivate = (objs p0).derivate) →
      Execute.addNodes (fun a b => UniNode.typeEqual false isEqual (objs a) (objs b))
          (UniNode.generate params objs p0 bTrain f).batch rest
        = (List.replicate rest.length true, p0 :: rest)) ∧
    ((p0 :: rest).Pairwise (fun a b => (objs a).param ≠ (objs b).param) →
      Execute.addNodes (fun a b => UniNode.typeEqual false isEqual (objs a) (objs b))
          (UniNode.generate params objs p0 bTrain f).batch rest
        = (List.replicate rest.length false, [p0])) := by
  constructor
  · intro h
    have := Execute_addNodes_all
      (t := fun a b => UniNode.typeEqual false isEqual (objs a) (objs b)) p0 [] rest
      (fun p hp => by
        obtain ⟨h1, _, _, h4, h5, h6⟩ := h p hp
        exact (UniNode_typeEqual_cpu isEqual _ _).2 ⟨h1.symm, h4.symm, h5.symm, h6.symm⟩)
    simpa [UniNode.generate] using this
  · intro h
    have hp : ∀ p ∈ rest, (objs p0).param ≠ (objs p).param := (List.pairwise_cons.1 h).1
    have := Execute_addNodes_none
      (t := fun a b => UniNode.typeEqual false isEqual (objs a) (objs b)) p0 [] rest
      (fun p hpm => by
        have hne := hp p hpm
        cases hte : UniNode.typeEqual false isEqual (objs p0) (objs p) with
        | false => exact hte
        | true => exact absurd ((UniNode_typeEqual_cpu isEqual _ _).1 hte).2.1 hne)
    simpa [UniNode.generate] using this

/-- Witness for C1: three identical UniNodes at addresses 0, 1, 2 form one batch `[0, 1, 2]`;
three UniNodes whose `UniParams` objects are the pairwise different addresses 0, 1, 2 leave the
batch at `[0]`. -/
theorem C1_uni_batching_witness :
    Execute.addNodes
        (fun a b => UniNode.typeEqual false exIsEqual ((fun _ => exUni 2 (-1) 7 1 2) a)
          ((fun _ => exUni 2 (-1) 7 1 2) b))
        (UniNode.generate exParams (fun _ => exUni 2 (-1) 7 1 2) 0 true 1).batch [1, 2]
      = (List.replicate [1, 2].length true, [0, 1, 2]) ∧
    Execute.addNodes
        (fun a b => UniNode.typeEqual false exIsEqual ((fun p => exUni 2 (-1) p 1 2) a)
          ((fun p => exUni 2 (-1) p 1 2) b))
        (UniNode.generate exParams (fun p => exUni 2 (-1) p 1 2) 0 true 1).batch [1, 2]
      = (List.replicate [1, 2].length false, [0]) :=
  ⟨(C1_uni_batching exIsEqual exParams (fun _ => exUni 2 (-1) 7 1 2) 0 [1, 2] true 1).1
      (fun _ _ => ⟨rfl, rfl, rfl, rfl, rfl, rfl⟩),
    (C1_uni_batching exIsEqual exParams (fun p => exUni 2 (-1) p 1 2) 0 [1, 2] true 1).2
      (by simp [exUni])⟩

theorem LinearUniNode_typeEqual_cpu {α : Type} (isEqual : α → α → Bool)
    (a b : LinearUniNode α) :
    LinearUniNode.typeEqual false isEqual a b = true ↔
      a.node_type = b.node_type ∧ a.param = b.param := by
  unfold LinearUniNode.typeEqual
  rw [Node_typeEqual_cpu]
  by_cases h1 : a.node_type = b.node_type <;> by_cases h2 : a.param = b.param <;>
    simp [h1, h2]

theorem LinearNode_typeEqual_cpu {α : Type} (isEqual : α → α → Bool) (a b : LinearNode α) :
    LinearNode.typeEqual false isEqual a b = true ↔
      a.node_type = b.node_type ∧ a.param = b.param := by
  unfold LinearNode.typeEqual
  rw [Node_typeEqual_cpu]
  by_cases h1 : a.node_type = b.node_type <;> by_cases h2 : a.param = b.param <;>
    simp [h1, h2]

theorem LookupNode_typeEqual_cpu {α : Type} (isEqual : α → α → Bool) (a b : LookupNode α) :
    LookupNode.typeEqual false isEqual a b = true ↔
      a.node_type = b.node_type ∧ a.param = b.param ∧
        isEqual a.drop_value b.drop_value = true := by
  unfold LookupNode.typeEqual
  rw [Node_typeEqual_cpu]
  by_cases h1 : a.node_type = b.node_type <;> by_cases h2 : a.param = b.param <;>
    by_cases h3 : isEqual a.drop_value b.drop_value = true <;> simp [h1, h2, h3]

theorem UniNode_typeEqual_base {α : Type} (g : Bool) (isEqual : α → α → Bool) (a b : UniNode α)
    (h : UniNode.typeEqual g isEqual a b = true) :
    Node.typeEqual g isEqual a.toNode b.toNode = true ∧ a.param = b.param ∧
      a.activate = b.activate ∧ a.derivate = b.derivate := by
  unfold UniNode.typeEqual at h
  by_cases h0 : Node.typeEqual g isEqual a.toNode b.toNode = true
  · by_cases h2 : a.param = b.param
    · by_cases h3 : a.activate = b.activate
      · by_cases h4 : a.derivate = b.derivate
        · exact ⟨h0, h2, h3, h4⟩
        · simp [h0, h2, h3, h4] at h
      · simp [h0, h2, h3] at h
    · simp [h0, h2] at h
  · simp [h0] at h

theorem LinearUniNode_typeEqual_base {α : Type} (g : Bool) (isEqual : α → α → Bool)
    (a b : LinearUniNode α) (h : LinearUniNode.typeEqual g isEqual a b = true) :
    Node.typeEqual g isEqual a.toNode b.toNode = true ∧ a.param = b.param := by
  unfold LinearUniNode.typeEqual at h
  by_cases h0 : Node.typeEqual g isEqual a.toNode b.toNode = true
  · by_cases h2 : a.param = b.param
    · exact ⟨h0, h2⟩
    · simp [h0, h2] at h
  · simp [h0] at h

theorem LinearNode_typeEqual_base {α : Type} (g : Bool) (isEqual : α → α → Bool)
    (a b : LinearNode α) (h : LinearNode.typeEqual g isEqual a b = true) :
    Node.typeEqual g isEqual a.toNode b.toNode = true ∧ a.param = b.param := by
  unfold LinearNode.typeEqual at h
  by_cases h0 : Node.typeEqual g isEqual a.toNode b.toNode = true
  · by_cases h2 : a.param = b.param
    · exact ⟨h0, h2⟩
    · simp [h0, h2] at h
  · simp [h0] at h

theorem LookupNode_typeEqual_base {α : Type} (g : Bool) (isEqual : α → α → Bool)
    (a b : LookupNode α) (h : LookupNode.typeEqual g isEqual a b = true) :
    Node.typeEqual g isEqual a.toNode b.toNode = true ∧ a.param = b.param ∧
      isEqual a.drop_value b.drop_value = true := by
  unfold LookupNode.typeEqual at h
  by_cases h0 : Node.typeEqual g isEqual a.toNode b.toNode = true
  · by_cases h2 : a.param = b.param
    · by_cases h3 : isEqual a.drop_value b.drop_value = true
      · exact ⟨h0, h2, h3⟩
      · simp [h0, h2, h3] at h
    · simp [h0, h2] at h
  · simp [h0] at h

/-- C2, refuted as stated. CPU build: two UniNodes with the same tag, `UniParams` object and
function pointers are `typeEqual` although their widths (2 and 3) and their dropout rates
(`1/2` and `-1`) differ. -/
theorem C2_counterexample :
    UniNode.typeEqual false exIsEqual (exUni 2 (1/2) 7 1 2) (exUni 3 (-1) 7 1 2) = true ∧
      (exUni 2 (1/2) 7 1 2).dim ≠ (exUni 3 (-1) 7 1 2).dim ∧
      (exUni 2 (1/2) 7 1 2).drop_value ≠ (exUni 3 (-1) 7 1 2).drop_value := by
  refine ⟨?_, ?_, ?_⟩
  · exact (UniNode_typeEqual_cpu _ _ _).2 ⟨rfl, rfl, rfl, rfl⟩
  · simp [exUni, exNode, Node.init]
  · simp only [exUni, exNode, Node.init]; norm_num

/-- C2, amended. `typeEqual` implies equal width and `isEqual` dropout rates in the GPU build,
for every node kind; in the CPU build `LookupNode::typeEqual` still implies `isEqual` dropout
rates, and apart from that the result of `typeEqual` does not depend on `dim` (any kind) nor on
`drop_value` (any kind but `LookupNode`). -/
theorem C2_typeEqual_width_dropout {α : Type} (isEqual : α → α → Bool) :
    ((∀ a b : LookupNode α, LookupNode.typeEqual true isEqual a b = true →
        a.dim = b.dim ∧ isEqual a.drop_value b.drop_value = true) ∧
      (∀ a b : PoolNode α, PoolNode.typeEqual true isEqual a b = true →
        a.dim = b.dim ∧ isEqual a.drop_value b.drop_value = true) ∧
      (∀ a b : SumPoolNode α, SumPoolNode.typeEqual true isEqual a b = true →
        a.dim = b.dim ∧ isEqual a.drop_value b.drop_value = true) ∧
      (∀ a b : AvgPoolNode α, AvgPoolNode.typeEqual true isEqual a b = true →
        a.dim = b.dim ∧ isEqual a.drop_value b.drop_value = true) ∧
      (∀ a b : UniNode α, UniNode.typeEqual true isEqual a b = true →
        a.dim = b.dim ∧ isEqual a.drop_value b.drop_value = true) ∧
      (∀ a b : LinearUniNode α, LinearUniNode.typeEqual true isEqual a b = true →
        a.dim = b.dim ∧ isEqual a.drop_value b.drop_value = true) ∧
      (∀ a b : LinearNode α, LinearNode.typeEqual true isEqual a b = true →
        a.dim = b.dim ∧ isEqual a.drop_value b.drop_value = true)) ∧
    (∀ a b : LookupNode α, LookupNode.typeEqual false isEqual a b = true →
        isEqual a.drop_value b.drop_value = true) ∧
    ((∀ (a b : LookupNode α) (d e : Nat),
        LookupNode.typeEqual false isEqual { a with dim := d } { b with dim := e }
          = LookupNode.typeEqual false isEqual a b) ∧
      (∀ (a b : PoolNode α) (d e : Nat) (r s : α),
        PoolNode.typeEqual false isEqual { a with dim := d, drop_value := r }
            { b with dim := e, drop_value := s }
          = PoolNode.typeEqual false isEqual a b) ∧
      (∀ (a b : SumPoolNode α) (d e : Nat) (r s : α),
        SumPoolNode.typeEqual false isEqual { a with dim := d, drop_value := r }
            { b with dim := e, drop_value := s }
          = SumPoolNode.typeEqual false isEqual a b) ∧
      (∀ (a b : AvgPoolNode α) (d e : Nat) (r s : α),
        AvgPoolNode.typeEqual false isEqual { a with dim := d, drop_value := r }
            { b with dim := e, drop_value := s }
          = AvgPoolNode.typeEqual false isEqual a b) ∧
      (∀ (a b : UniNode α) (d e : Nat) (r s : α),
        UniNode.typeEqual false isEqual { a with dim := d, drop_value := r }
            { b with dim := e, drop_value := s }
          = UniNode.typeEqual false isEqual a b) ∧
      (∀ (a b : LinearUniNode α) (d e : Nat) (r s : α),
        LinearUniNode.typeEqual false isEqual { a with dim := d, drop_value := r }
            { b with dim := e, drop_value := s }
          = LinearUniNode.typeEqual false isEqual a b) ∧
      (∀ (a b : LinearNode α) (d e : Nat) (r s : α),
        LinearNode.typeEqual false isEqual { a with dim := d, drop_value := r }
            { b with dim := e, drop_value := s }
          = LinearNode.typeEqual false isEqual a b)) := by
  refine ⟨⟨?_, ?_, ?_, ?_, ?_, ?_, ?_⟩, ?_, ⟨?_, ?_, ?_, ?_, ?_, ?_, ?_⟩⟩
  · intro a b h
    exact Node_typeEqual_gpu isEqual _ _ (LookupNode_typeEqual_base _ _ _ _ h).1
  · intro a b h
    exact Node_typeEqual_gpu isEqual _ _ h
  · intro a b h
    exact Node_typeEqual_gpu isEqual _ _ h
  · intro a b h
    exact Node_typeEqual_gpu isEqual _ _ h
  · intro a b h
    exact Node_typeEqual_gpu isEqual _ _ (UniNode_typeEqual_base _ _ _ _ h).1
  · intro a b h
    exact Node_typeEqual_gpu isEqual _ _ (LinearUniNode_typeEqual_base _ _ _ _ h).1
  · intro a b h
    exact Node_typeEqual_gpu isEqual _ _ (LinearNode_typeEqual_base _ _ _ _ h).1
  · intro a b h
    exact (LookupNode_typeEqual_base _ _ _ _ h).2.2
  · intro a b d e
    simp only [LookupNode.typeEqual, Node_typeEqual_cpu]
  · intro a b d e r s
    simp only [PoolNode.typeEqual, Node_typeEqual_cpu]
  · intro a b d e r s
    simp only [SumPoolNode.typeEqual, Node_typeEqual_cpu]
  · intro a b d e r s
    simp only [AvgPoolNode.typeEqual, Node_typeEqual_cpu]
  · intro a b d e r s
    simp only [UniNode.typeEqual, Node_typeEqual_cpu]
  · intro a b d e r s
    simp only [LinearUniNode.typeEqual, Node_typeEqual_cpu]
  · intro a b d e r s
    simp only [LinearNode.typeEqual, Node_typeEqual_cpu]

/-- Witness for C2: two lookup nodes of one table with dropout rate `1/2` are `typeEqual` in the
CPU build, and their dropout rates are `isEqual`. -/
theorem C2_typeEqual_width_dropout_witness :
    LookupNode.typeEqual false exIsEqual (exLookup 2 (1/2) 7) (exLookup 3 (1/2) 7) = true ∧
      exIsEqual (exLookup 2 (1/2) 7).drop_value (exLookup 3 (1/2) 7).drop_value = true :=
  ⟨(LookupNode_typeEqual_cpu _ _ _).2 ⟨rfl, rfl, by simp [exIsEqual, exLookup, exNode, Node.init]⟩,
    (C2_typeEqual_width_dropout exIsEqual).2.1 (exLookup 2 (1/2) 7) (exLookup 3 (1/2) 7)
      ((LookupNode_typeEqual_cpu _ _ _).2 ⟨rfl, rfl, by simp [exIsEqual, exLookup, exNode, Node.init]⟩)⟩

/-- C3. In either build, `typeEqual` implies the same operator tag for every node kind, the same
`param` object for LookupNode, UniNode, LinearUniNode and LinearNode, and the same activation and
derivative function for UniNode; conversely, in the CPU build two UniNodes with the same tag,
`param`, activation and derivative are `typeEqual`. -/
theorem C3_typeEqual_tag_param_functions {α : Type} (g : Bool) (isEqual : α → α → Bool) :
    ((∀ a b : LookupNode α, LookupNode.typeEqual g isEqual a b = true →
        a.node_type = b.node_type ∧ a.param = b.param) ∧
      (∀ a b : PoolNode α, PoolNode.typeEqual g isEqual a b = true →
        a.node_type = b.node_type) ∧
      (∀ a b : SumPoolNode α, SumPoolNode.typeEqual g isEqual a b = true →
        a.node_type = b.node_type) ∧
      (∀ a b : AvgPoolNode α, AvgPoolNode.typeEqual g isEqual a b = true →
        a.node_type = b.node_type) ∧
      (∀ a b : UniNode α, UniNode.typeEqual g isEqual a b = true →
        a.node_type = b.node_type ∧ a.param = b.param ∧ a.activate = b.activate ∧
          a.derivate = b.derivate) ∧
      (∀ a b : LinearUniNode α, LinearUniNode.typeEqual g isEqual a b = true →
        a.node_type = b.node_type ∧ a.param = b.param) ∧
      (∀ a b : LinearNode α, LinearNode.typeEqual g isEqual a b = true →
        a.node_type = b.node_type ∧ a.param = b.param)) ∧
    (∀ a b : UniNode α, a.node_type = b.node_type → a.param = b.param →
        a.activate = b.activate → a.derivate = b.derivate →
        UniNode.typeEqual false isEqual a b = true) := by
  refine ⟨⟨?_, ?_, ?_, ?_, ?_, ?_, ?_⟩, ?_⟩
  · intro a b h
    have := LookupNode_typeEqual_base _ _ _ _ h
    exact ⟨Node_typeEqual_tag _ _ _ _ this.1, this.2.1⟩
  · intro a b h
    exact Node_typeEqual_tag _ _ _ _ h
  · intro a b h
    exact Node_typeEqual_tag _ _ _ _ h
  · intro a b h
    exact Node_typeEqual_tag _ _ _ _ h
  · intro a b h
    have := UniNode_typeEqual_base _ _ _ _ h
    exact ⟨Node_typeEqual_tag _ _ _ _ this.1, this.2⟩
  · intro a b h
    have := LinearUniNode_typeEqual_base _ _ _ _ h
    exact ⟨Node_typeEqual_tag _ _ _ _ this.1, this.2⟩
  · intro a b h
    have := LinearNode_typeEqual_base _ _ _ _ h
    exact ⟨Node_typeEqual_tag _ _ _ _ this.1, this.2⟩
  · intro a b h1 h2 h3 h4
    exact (UniNode_typeEqual_cpu isEqual a b).2 ⟨h1, h2, h3, h4⟩

/-- Witness for C3: two UniNodes of different width sharing tag, `UniParams` object and function
pointers are `typeEqual` in the CPU build, and `typeEqual` gives back the shared members. -/
theorem C3_typeEqual_tag_param_functions_witness :
    UniNode.typeEqual false exIsEqual (exUni 2 (-1) 7 1 2) (exUni 3 (-1) 7 1 2) = true ∧
      ((exUni 2 (-1) 7 1 2).node_type = (exUni 3 (-1) 7 1 2).node_type ∧
        (exUni 2 (-1) 7 1 2).param = (exUni 3 (-1) 7 1 2).param ∧
        (exUni 2 (-1) 7 1 2).activate = (exUni 3 (-1) 7 1 2).activate ∧
        (exUni 2 (-1) 7 1 2).derivate = (exUni 3 (-1) 7 1 2).derivate) :=
  ⟨(C3_typeEqual_tag_param_functions false exIsEqual).2 _ _ rfl rfl rfl rfl,
    (C3_typeEqual_tag_param_functions false exIsEqual).1.2.2.2.2.1 _ _
      ((C3_typeEqual_tag_param_functions false exIsEqual).2 _ _ rfl rfl rfl rfl)⟩

/-! ## Degree bookkeeping: `addParent` and `forward(cg, x)` -/

theorem Node_addParent_apply {α : Type} (h : PNode → Node α) (n p : PNode)
    (hd : 0 ≤ (h n).degree) (q : PNode) :
    Node.addParent h n p q =
      { h q with
        parents := if q = n then (h q).parents ++ [p] else (h q).parents
        degree := if q = p then (h q).degree + 1 else (h q).degree } := by
  simp only [Node.addParent, hd, if_true]
  by_cases hqp : q = p <;> by_cases hqn : q = n <;> by_cases hpn : p = n <;>
    simp_all [Function.update]

theorem Node_addParent_scheduled {α : Type} (h : PNode → Node α) (n p : PNode)
    (hd : (h n).degree < 0) : Node.addParent h n p = h := by
  simp [Node.addParent, not_le.2 hd]

/-- C6. `n.addParent(p)` with `n.degree >= 0` appends `p` to `n.parents` and adds 1 to
`p.degree`, and changes no other member of any node (also when `n` and `p` are the same
node); with `n.degree < 0` it changes nothing at all. -/
theorem C6_addParent {α : Type} (h : PNode → Node α) (n p : PNode) :
    (0 ≤ (h n).degree →
      (Node.addParent h n p n).parents = (h n).parents ++ [p] ∧
      (Node.addParent h n p p).degree = (h p).degree + 1 ∧
      ∀ q, Node.addParent h n p q =
        { h q with
          parents := if q = n then (h q).parents ++ [p] else (h q).parents
          degree := if q = p then (h q).degree + 1 else (h q).degree }) ∧
    ((h n).degree < 0 → Node.addParent h n p = h) := by
  constructor
  · intro hd
    refine ⟨?_, ?_, Node_addParent_apply h n p hd⟩
    · rw [Node_addParent_apply h n p hd]; simp
    · rw [Node_addParent_apply h n p hd]; simp
  · exact Node_addParent_scheduled h n p

/-- Witness for C6: node 0 (degree 0) registers node 1 as a parent; node 2 has degree -1 and
registers nothing. -/
theorem C6_addParent_witness :
    ((Node.addParent (fun q => if q = 2 then { exNode "n" 1 (-1) with degree := -1 }
          else exNode "n" 1 (-1)) 0 1 0).parents = [] ++ [1] ∧
      (Node.addParent (fun q => if q = 2 then { exNode "n" 1 (-1) with degree := -1 }
          else exNode "n" 1 (-1)) 0 1 1).degree = 0 + 1) ∧
    Node.addParent (fun q => if q = 2 then { exNode "n" 1 (-1) with degree := -1 }
          else exNode "n" 1 (-1)) 2 1
      = (fun q => if q = 2 then { exNode "n" 1 (-1) with degree := -1 } else exNode "n" 1 (-1)) :=
  ⟨⟨((C6_addParent (fun q => if q = 2 then { exNode "n" 1 (-1) with degree := -1 }
          else exNode "n" 1 (-1)) 0 1).1 (by simp [exNode, Node.init, Node.new])).1,
      ((C6_addParent (fun q => if q = 2 then { exNode "n" 1 (-1) with degree := -1 }
          else exNode "n" 1 (-1)) 0 1).1 (by simp [exNode, Node.init, Node.new])).2.1⟩,
    (C6_addParent (fun q => if q = 2 then { exNode "n" 1 (-1) with degree := -1 }
          else exNode "n" 1 (-1)) 2 1).2 (by simp)⟩

theorem Node_addParents_apply {α : Type} (self : PNode) :
    ∀ (xs : List PNode) (h : PNode → Node α), 0 ≤ (h self).degree → ∀ q,
      Node.addParents self h xs q =
        { h q with
          parents := (h q).parents ++
            List.replicate (if 0 ≤ (h q).degree then xs.count q else 0) self
          degree := if q = self then
              (h q).degree + (xs.countP (fun i => decide (0 ≤ (h i).degree)) : Nat)
            else (h q).degree } := by
  intro xs
  induction xs with
  | nil => intro h _ q; simp [Node.addParents]
  | cons i rest ih =>
    intro h hs q
    simp only [Node.addParents]
    by_cases hi : 0 ≤ (h i).degree
    · have h1 : ∀ r, Node.addParent h i self r = _ := Node_addParent_apply h i self hi
      have hdeg : ∀ r, (0 ≤ (Node.addParent h i self r).degree) ↔ (0 ≤ (h r).degree) := by
        intro r
        rw [h1 r]
        by_cases hr : r = self
        · subst hr; simp only [if_true]; constructor
          · intro _; exact hs
          · intro _; omega
        · simp [hr]
      have hs1 : 0 ≤ (Node.addParent h i self self).degree := (hdeg self).2 hs
      rw [ih (Node.addParent h i self) hs1 q]
      have hcp : List.countP (fun j => decide (0 ≤ (Node.addParent h i self j).degree)) rest
          = List.countP (fun j => decide (0 ≤ (h j).degree)) rest := by
        congr 1; funext j; simp only [hdeg j]
      rw [hcp]
      simp only [hdeg q]
      rw [h1 q]
      by_cases hq : q = i
      · subst hq
        by_cases hqs : q = self
        · subst hqs
          simp [hi, List.replicate_succ, List.countP_cons]
          omega
        · simp [hi, hqs, List.replicate_succ, List.countP_cons]
      · have hq2 : i ≠ q := fun e => hq e.symm
        by_cases hqs : q = self
        · subst hqs
          simp [hi, hq, hq2, hs, List.countP_cons, List.count_cons]
          omega
        · simp [hi, hq, hq2, hqs, List.countP_cons, List.count_cons]
    · rw [Node_addParent_scheduled h i self (not_le.1 hi)]
      rw [ih h hs q]
      by_cases hq : q = i
      · subst hq
        simp [hi, List.countP_cons]
      · have hq2 : i ≠ q := fun e => hq e.symm
        simp [hi, hq, hq2, List.countP_cons, List.count_cons]

theorem Node_addParents_reset {α : Type} (self : PNode) (xs : List PNode)
    (h h0 : PNode → Node α) (hself : h0 self = { h self with degree := 0 })
    (hother : ∀ q, q ≠ self → h0 q = h q) :
    (Node.addParents self h0 xs self).degree
        = (xs.countP (fun i => decide (i = self ∨ 0 ≤ (h i).degree)) : Nat) ∧
      ∀ q, (Node.addParents self h0 xs q).parents = (h q).parents ++
        List.replicate (if q = self ∨ 0 ≤ (h q).degree then xs.count q else 0) self := by
  have hs : 0 ≤ (h0 self).degree := by rw [hself]
  have hp : ∀ q, (0 ≤ (h0 q).degree) ↔ (q = self ∨ 0 ≤ (h q).degree) := by
    intro q
    by_cases hq : q = self
    · subst hq; simp [hself]
    · simp [hother q hq, hq]
  have hpar : ∀ q, (h0 q).parents = (h q).parents := by
    intro q
    by_cases hq : q = self
    · subst hq; simp [hself]
    · rw [hother q hq]
  have hcp : List.countP (fun i => decide (0 ≤ (h0 i).degree)) xs
      = List.countP (fun i => decide (i = self ∨ 0 ≤ (h i).degree)) xs := by
    congr 1; funext j; simp only [hp j]
  constructor
  · rw [Node_addParents_apply self xs h0 hs self]
    simp [hcp, hself]
  · intro q
    rw [Node_addParents_apply self xs h0 hs q]
    simp only [hp q, hpar q]

theorem PoolNode_pushInputs_all {α : Type} (objs : PNode → PoolNode α) (self : PNode) :
    ∀ (x acc : List PNode), (∀ i ∈ x, (objs i).val.dim = (objs self).dim) →
      PoolNode.pushInputs objs self x acc = some (acc ++ x) := by
  intro x
  induction x with
  | nil => intro acc _; simp [PoolNode.pushInputs]
  | cons i rest ih =>
    intro acc hx
    have hi : (objs i).val.dim = (objs self).dim := hx i (List.mem_cons_self _ _)
    simp only [PoolNode.pushInputs, hi, ne_eq, not_true_eq_false, if_false]
    rw [ih (acc ++ [i]) (fun j hj => hx j (List.mem_cons_of_mem _ hj))]
    simp

/-- C7, refuted as stated. (1) `forward(cg, x)` of a pool node with the empty input list (all of
whose inputs, vacuously, have the right width) returns at once: the graph is still empty, so the
node has not been added to it. (2) A UniNode that was Scheduled (degree -1) and is passed as its
own input ends with degree 1, although no input had a degree `>= 0` when `forward` was
called. -/
theorem C7_counterexample :
    (PoolNode.forward (fun _ => exPool "max-pooling" 2) [] 0 []).map (fun r => r.2)
        = some [] ∧
    ((UniNode.forward (fun _ => { exUni 2 (-1) 7 1 2 with degree := -1 }) [] 0 0).1 0).degree = 1 ∧
      [0].countP (fun i => decide
        (0 ≤ ((fun _ => { exUni 2 (-1) 7 1 2 with degree := -1 } : PNode → UniNode ℚ) i).degree))
        = 0 := by
  refine ⟨?_, ?_, ?_⟩
  · simp [PoolNode.forward]
  · simp [UniNode.forward, Node.addParent, Function.update]
  · simp

/-- C7, amended. Let an input occurrence be pending when its degree at registration time is
`>= 0`: for an input other than `X` that is its degree at the time of the call, for `X` itself it
is the 0 its degree has just been reset to. After `X.forward(cg, x)` of a UniNode, LinearUniNode or
LinearNode, and after `X.forward(cg, x)` of a PoolNode with a non-empty input list whose members
all have the node's width, `X.degree` is the number of pending input occurrences, every node's
`parents` list has gained `X` once per pending occurrence of that node among the inputs and
nothing else, and `X` has been appended to the graph once. -/
theorem C7_forward_degree {α : Type} [Zero α] [One α] [LT α]
    [DecidableRel (fun a b : α => a < b)] (cg : Graph) (self : PNode) :
    (∀ (objs : PNode → UniNode α) (x : PNode),
      ((UniNode.forward objs cg self x).1 self).degree
          = ([x].countP (fun i => decide (i = self ∨ 0 ≤ (objs i).degree)) : Nat) ∧
        (∀ q, ((UniNode.forward objs cg self x).1 q).parents = (objs q).parents ++
          List.replicate (if q = self ∨ 0 ≤ (objs q).degree then [x].count q else 0) self) ∧
        (UniNode.forward objs cg self x).2 = cg ++ [self]) ∧
    (∀ (objs : PNode → LinearUniNode α) (x : PNode),
      ((LinearUniNode.forward objs cg self x).1 self).degree
          = ([x].countP (fun i => decide (i = self ∨ 0 ≤ (objs i).degree)) : Nat) ∧
        (∀ q, ((LinearUniNode.forward objs cg self x).1 q).parents = (objs q).parents ++
          List.replicate (if q = self ∨ 0 ≤ (objs q).degree then [x].count q else 0) self) ∧
        (LinearUniNode.forward objs cg self x).2 = cg ++ [self]) ∧
    (∀ (objs : PNode → LinearNode α) (x : PNode),
      ((LinearNode.forward objs cg self x).1 self).degree
          = ([x].countP (fun i => decide (i = self ∨ 0 ≤ (objs i).degree)) : Nat) ∧
        (∀ q, ((LinearNode.forward objs cg self x).1 q).parents = (objs q).parents ++
          List.replicate (if q = self ∨ 0 ≤ (objs q).degree then [x].count q else 0) self) ∧
        (LinearNode.forward objs cg self x).2 = cg ++ [self]) ∧
    (∀ (objs : PNode → PoolNode α) (x : List PNode), x ≠ [] →
      (∀ i ∈ x, (objs i).val.dim = (objs self).dim) →
      ∃ r, PoolNode.forward objs cg self x = some r ∧
        (r.1 self).degree
          = (x.countP (fun i => decide (i = self ∨ 0 ≤ (objs i).degree)) : Nat) ∧
        (∀ q, (r.1 q).parents = (objs q).parents ++
          List.replicate (if q = self ∨ 0 ≤ (objs q).degree then x.count q else 0) self) ∧
        r.2 = cg ++ [self]) := by
  refine ⟨?_, ?_, ?_, ?_⟩
  · intro objs x
    have key := Node_addParents_reset self [x] (fun r => (objs r).toNode)
      (fun r => (Function.update objs self { objs self with in_ := x, degree := 0 } r).toNode)
      (by simp) (fun q hq => by simp [Function.update, hq])
    exact ⟨key.1, key.2, rfl⟩
  · intro objs x
    have key := Node_addParents_reset self [x] (fun r => (objs r).toNode)
      (fun r => (Function.update objs self { objs self with in_ := x, degree := 0 } r).toNode)
      (by simp) (fun q hq => by simp [Function.update, hq])
    exact ⟨key.1, key.2, rfl⟩
  · intro objs x
    have key := Node_addParents_reset self [x] (fun r => (objs r).toNode)
      (fun r => (Function.update objs self { objs self with in_ := x, degree := 0 } r).toNode)
      (by simp) (fun q hq => by simp [Function.update, hq])
    exact ⟨key.1, key.2, rfl⟩
  · intro objs x hne hdim
    have hlen : x.length ≠ 0 := fun e => hne (List.length_eq_zero.1 e)
    have hpush := PoolNode_pushInputs_all objs self x [] hdim
    have key := Node_addParents_reset self x (fun r => (objs r).toNode)
      (fun r => (Function.update objs self { objs self with ins := x, degree := 0 } r).toNode)
      (by simp) (fun q hq => by simp [Function.update, hq])
    have hfw : PoolNode.forward objs cg self x = some
        (fun q => { Function.update objs self { objs self with ins := x, degree := 0 } q with
            toNode := Node.addParents self
              (fun r => (Function.update objs self
                { objs self with ins := x, degree := 0 } r).toNode) x q },
          Graph.addNode cg self) := by
      simp [PoolNode.forward, hlen, hpush]
    exact ⟨_, hfw, key.1, key.2, rfl⟩

/-- Witness for C7: a max-pooling node at address 0 over the inputs `[1, 2, 1]`, where node 2 is
already Scheduled: the node ends with degree 2 and is the only node of the graph. -/
theorem C7_forward_degree_witness :
    ∃ r, PoolNode.forward
        (fun q => if q = 2 then { exPool "max-pooling" 2 with degree := -1 }
          else exPool "max-pooling" 2) [] 0 [1, 2, 1] = some r ∧
      (r.1 0).degree = 2 ∧ r.2 = [0] := by
  obtain ⟨r, hr, hd, _, hg⟩ := (C7_forward_degree (α := ℚ) [] 0).2.2.2
    (fun q => if q = 2 then { exPool "max-pooling" 2 with degree := -1 }
      else exPool "max-pooling" 2) [1, 2, 1] (by simp)
    (by intro i _; by_cases h : i = 2 <;> simp [h, exPool, exNode, Node.init, Tensor1D.init, Tensor1D.dim])
  refine ⟨r, hr, ?_, by simpa using hg⟩
  rw [hd]
  simp [List.countP_cons, exPool, exNode, Node.init, Node.new]

/-! ## `UniExecute::forward` against `UniNode::compute` -/

theorem forLoop_inv {σ : Type} (P : Nat → σ → Prop) (f : Nat → σ → Option σ) (n : Nat) (s : σ)
    (h0 : P 0 s)
    (hstep : ∀ i s1, i < n → P i s1 → ∃ s2, f i s1 = some s2 ∧ P (i + 1) s2) :
    ∃ s2, forLoop n f s = some s2 ∧ P n s2 := by
  induction n with
  | zero => exact ⟨s, rfl, h0⟩
  | succ k ih =>
    obtain ⟨s1, hs1, hp1⟩ := ih (fun i s1 hi hp => hstep i s1 (Nat.lt_succ_of_lt hi) hp)
    obtain ⟨s2, hs2, hp2⟩ := hstep k s1 (Nat.lt_succ_self k) hp1
    exact ⟨s2, by simp [forLoop, hs1, hs2], hp2⟩

theorem forLoop_of_some {σ : Type} (P : Nat → σ → Prop) (f : Nat → σ → Option σ) (n : Nat)
    (s s2 : σ) (h0 : P 0 s)
    (hstep : ∀ i s1 s3, i < n → P i s1 → f i s1 = some s3 → P (i + 1) s3)
    (h : forLoop n f s = some s2) : P n s2 := by
  induction n generalizing s2 with
  | zero =>
    simp only [forLoop, Option.some.injEq] at h
    rw [← h]; exact h0
  | succ k ih =>
    simp only [forLoop] at h
    cases hk : forLoop k f s with
    | none => rw [hk] at h; simp at h
    | some s1 =>
      rw [hk] at h
      simp only [Option.some_bind] at h
      exact hstep k s1 s2 (Nat.lt_succ_self k)
        (ih s1 (fun i a b hi => hstep i a b (Nat.lt_succ_of_lt hi)) hk) h

theorem flat_index_inj (col r c r1 c1 : Nat) (hc : c < col) (hc1 : c1 < col) :
    r * col + c = r1 * col + c1 ↔ r = r1 ∧ c = c1 := by
  constructor
  · intro h
    have hpos : 0 < col := Nat.lt_of_le_of_lt (Nat.zero_le _) hc
    have e1 : (r * col + c) / col = r := by
      rw [Nat.add_comm, Nat.add_mul_div_right _ _ hpos, Nat.div_eq_of_lt hc, Nat.zero_add]
    have e2 : (r1 * col + c1) / col = r1 := by
      rw [Nat.add_comm, Nat.add_mul_div_right _ _ hpos, Nat.div_eq_of_lt hc1, Nat.zero_add]
    have hr : r = r1 := by rw [← e1, ← e2, h]
    subst hr
    exact ⟨rfl, by omega⟩
  · rintro ⟨rfl, rfl⟩; rfl

theorem flat_index_lt (row col r c : Nat) (hr : r < row) (hc : c < col) :
    r * col + c < row * col := by
  calc r * col + c < r * col + col := by omega
    _ = (r + 1) * col := by ring
    _ ≤ row * col := Nat.mul_le_mul_right _ hr

theorem Tensor2D_setCol_spec {α : Type} (n idx : Nat) (src : Nat → Option α) (g : Nat → α)
    (t : Tensor2D α) (hwf : t.WF) (hidx : idx < t.col) (hn : n ≤ t.row)
    (hsrc : ∀ i, i < n → src i = some (g i)) :
    ∃ t1, Tensor2D.setCol? n idx src t = some t1 ∧ t1.row = t.row ∧ t1.col = t.col ∧ t1.WF ∧
      ∀ r c, r < t.row → c < t.col →
        t1.v[r * t.col + c]? = if c = idx ∧ r < n then some (g r) else t.v[r * t.col + c]? := by
  have key := forLoop_inv
    (fun j (t1 : Tensor2D α) => t1.row = t.row ∧ t1.col = t.col ∧ t1.WF ∧
      ∀ r c, r < t.row → c < t.col →
        t1.v[r * t.col + c]? = if c = idx ∧ r < j then some (g r) else t.v[r * t.col + c]?)
    (fun idy t1 => (src idy).bind (fun a => t1.set? idy idx a)) n t
    ⟨rfl, rfl, hwf, by intro r c _ _; simp⟩
    (by
      intro j t1 hj ⟨hrow, hcol, hwf1, hval⟩
      have hjr : j < t1.row := by omega
      have hlt : j * t1.col + idx < t1.v.length := by
        rw [hwf1]; exact flat_index_lt _ _ _ _ hjr (by omega)
      refine ⟨{ t1 with v := t1.v.set (j * t1.col + idx) (g j) }, ?_, hrow, hcol, ?_, ?_⟩
      · simp [hsrc j hj, Tensor2D.set?, hjr, hlt]
      · simp [Tensor2D.WF] at hwf1 ⊢; exact hwf1
      · intro r c hr hc
        simp only [List.getElem?_set]
        rw [hcol]
        by_cases he : j * t.col + idx = r * t.col + c
        · obtain ⟨hjr2, hic⟩ := (flat_index_inj t.col j idx r c hidx hc).1 he
          subst hjr2; subst hic
          have : j * t.col + idx < t1.v.length := by rw [← hcol]; exact hlt
          simp [this]
        · have hne : ¬ (c = idx ∧ r = j) := by
            rintro ⟨rfl, rfl⟩; exact he rfl
          rw [if_neg he, hval r c hr hc]
          by_cases hc2 : c = idx
          · subst hc2
            have hrj : r ≠ j := fun e => hne ⟨rfl, e⟩
            by_cases hrl : r < j
            · have : r < j + 1 := by omega
              simp [hrl, this]
            · have : ¬ r < j + 1 := by omega
              simp [hrl, this]
          · simp [hc2])
  exact key

theorem Tensor1D_setAll_spec {α : Type} (n : Nat) (src : Nat → Option α) (g : Nat → α)
    (t : Tensor1D α) (hdim : t.dim = n) (hsrc : ∀ i, i < n → src i = some (g i)) :
    Tensor1D.setAll? n src t = some { v := (List.range n).map g } := by
  obtain ⟨t1, h1, hlen, hval⟩ := forLoop_inv
    (fun j (t1 : Tensor1D α) => t1.v.length = n ∧ ∀ i, i < j → t1.v[i]? = some (g i))
    (fun idy t1 => (src idy).bind (fun a => t1.set? idy a)) n t
    ⟨hdim, by intro i hi; omega⟩
    (by
      intro j t1 hj ⟨hlen, hval⟩
      refine ⟨{ v := t1.v.set j (g j) }, ?_, by simpa using hlen, ?_⟩
      · simp [hsrc j hj, Tensor1D.set?, Tensor1D.dim, hlen, hj]
      · intro i hi
        simp only [List.getElem?_set]
        by_cases he : j = i
        · subst he; simp [hlen, hj]
        · rw [if_neg he]; exact hval i (by omega))
  rw [Tensor1D.setAll?, h1]
  congr 1
  cases t1 with
  | mk v =>
    simp only [Tensor1D.mk.injEq]
    apply List.ext_getElem?
    intro i
    by_cases hi : i < n
    · rw [hval i hi]; simp [hi]
    · have h1 : v.length ≤ i := by simp at hlen; omega
      have h2 : (List.map g (List.range n)).length ≤ i := by simp; omega
      rw [List.getElem?_eq_none h1, List.getElem?_eq_none h2]
theorem getElem?_eq_some_getD {α : Type} [Zero α] (l : List α) (i : Nat) (h : i < l.length) :
    l[i]? = some (l.getD i 0) := by
  rw [List.getD_eq_getElem?_getD, List.getElem?_eq_getElem h]; rfl

theorem getD_of_getElem? {α : Type} [Zero α] (l : List α) (i : Nat) (a : α)
    (h : l[i]? = some a) : l.getD i 0 = a := by
  rw [List.getD_eq_getElem?_getD, h]; rfl

theorem flat_index_div (count i idx : Nat) (h : idx < count) :
    (i * count + idx) / count = i ∧ (i * count + idx) % count = idx := by
  have hpos : 0 < count := Nat.lt_of_le_of_lt (Nat.zero_le _) h
  constructor
  · rw [Nat.add_comm, Nat.add_mul_div_right _ _ hpos, Nat.div_eq_of_lt h, Nat.zero_add]
  · rw [Nat.add_comm, Nat.add_mul_mod_self_right, Nat.mod_eq_of_lt h]

theorem Tensor2D_init_spec {α : Type} [Zero α] (t : Tensor2D α) (r c : Nat) :
    (t.init r c).row = r ∧ (t.init r c).col = c ∧ (t.init r c).WF := by
  simp [Tensor2D.init, Tensor2D.WF]

theorem UniExecute_fill_spec {α : Type} [Semiring α] (params : PParam → UniParams α)
    (e : UniExecute α) (objs : PNode → UniNode α)
    (hb : (params e.param).bUseB = true → (params e.param).b.val.v.length = e.outDim)
    (hin : ∀ p ∈ e.batch, (objs (objs p).in_).val.dim = e.inDim) :
    ∃ xb, forLoop e.batch.length (UniExecute.copyIn params e objs)
        (e.x.init e.inDim e.batch.length, e.b.init e.outDim e.batch.length) = some xb ∧
      xb.1.row = e.inDim ∧ xb.1.col = e.batch.length ∧ xb.1.WF ∧
      xb.2.row = e.outDim ∧ xb.2.col = e.batch.length ∧ xb.2.WF ∧
      (∀ r c, r < e.inDim → c < e.batch.length → xb.1.v[r * e.batch.length + c]?
          = some ((objs (objs (e.batch.getD c 0)).in_).val.v.getD r 0)) ∧
      ((params e.param).bUseB = true → ∀ r c, r < e.outDim → c < e.batch.length →
        xb.2.v[r * e.batch.length + c]? = some ((params e.param).b.val.v.getD r 0)) := by
  apply forLoop_inv
    (fun k (xb : Tensor2D α × Tensor2D α) =>
      xb.1.row = e.inDim ∧ xb.1.col = e.batch.length ∧ xb.1.WF ∧
      xb.2.row = e.outDim ∧ xb.2.col = e.batch.length ∧ xb.2.WF ∧
      (∀ r c, r < e.inDim → c < k → xb.1.v[r * e.batch.length + c]?
          = some ((objs (objs (e.batch.getD c 0)).in_).val.v.getD r 0)) ∧
      ((params e.param).bUseB = true → ∀ r c, r < e.outDim → c < k →
        xb.2.v[r * e.batch.length + c]? = some ((params e.param).b.val.v.getD r 0)))
  · refine ⟨?_, ?_, ?_, ?_, ?_, ?_, ?_, ?_⟩ <;> simp [Tensor2D.init, Tensor2D.WF]
  · rintro k ⟨x, b⟩ hk ⟨hxr, hxc, hxw, hbr, hbc, hbw, hxv, hbv⟩
    simp only at hxr hxc hxw hbr hbc hbw hxv hbv
    have hptr : e.batch[k]? = some (e.batch.getD k 0) := getElem?_eq_some_getD _ _ hk
    have hmem : e.batch.getD k 0 ∈ e.batch := by
      rw [List.getD_eq_getElem _ _ hk]; exact List.getElem_mem _
    have hdim := hin _ hmem
    obtain ⟨x1, hx1, hx1r, hx1c, hx1w, hx1v⟩ := Tensor2D_setCol_spec e.inDim k
      (fun idy => (objs (objs (e.batch.getD k 0)).in_).val.get? idy)
      (fun idy => (objs (objs (e.batch.getD k 0)).in_).val.v.getD idy 0)
      x hxw (by omega) (by omega)
      (by
        intro i hi
        have : i < (objs (objs (e.batch.getD k 0)).in_).val.v.length := by
          rw [Tensor1D.dim] at hdim; omega
        simp only [Tensor1D.get?, Tensor1D.dim, this, if_true]
        exact getElem?_eq_some_getD _ _ this)
    have hx1v2 : ∀ r c, r < e.inDim → c < k + 1 → x1.v[r * e.batch.length + c]?
          = some ((objs (objs (e.batch.getD c 0)).in_).val.v.getD r 0) := by
      intro r c hr hc
      have := hx1v r c (by omega) (by omega)
      rw [hxc] at this
      rw [this]
      by_cases hck : c = k
      · subst hck; simp [hr]
      · simp only [hck, false_and, if_false]
        exact hxv r c hr (by omega)
    by_cases hB : (params e.param).bUseB = true
    · obtain ⟨b1, hb1, hb1r, hb1c, hb1w, hb1v⟩ := Tensor2D_setCol_spec e.outDim k
        (fun idy => (params e.param).b.val.v[idy]?)
        (fun idy => (params e.param).b.val.v.getD idy 0)
        b hbw (by omega) (by omega)
        (by
          intro i hi
          exact getElem?_eq_some_getD _ _ (by rw [hb hB]; exact hi))
      refine ⟨(x1, b1), ?_, hx1r.trans hxr, hx1c.trans hxc, hx1w, hb1r.trans hbr,
        hb1c.trans hbc, hb1w, hx1v2, ?_⟩
      · simp only [UniExecute.copyIn, hptr, Option.some_bind, hx1, hB, if_true, hb1]
      · intro _ r c hr hc
        have := hb1v r c (by omega) (by omega)
        rw [hbc] at this
        rw [this]
        by_cases hck : c = k
        · subst hck; simp [hr]
        · simp only [hck, false_and, if_false]
          exact hbv hB r c hr (by omega)
    · refine ⟨(x1, b), ?_, hx1r.trans hxr, hx1c.trans hxc, hx1w, hbr, hbc, hbw, hx1v2, ?_⟩
      · have hB2 : (params e.param).bUseB = false := by simpa using hB
        simp only [UniExecute.copyIn, hptr, Option.some_bind, hx1, hB2, Bool.false_eq_true,
          if_false]
      · intro h; exact absurd h hB
theorem UniExecute_copyOut_spec {α : Type} (e : UniExecute α) (y : Tensor2D α)
    (objs : PNode → UniNode α) (G : PNode → Nat → α)
    (hval : ∀ p ∈ e.batch, (objs p).val.dim = e.outDim)
    (hy : ∀ i idx, i < e.outDim → idx < e.batch.length →
      y.get? i idx = some (G (e.batch.getD idx 0) i)) :
    ∃ o, forLoop e.batch.length (UniExecute.copyOut e y) objs = some o ∧
      ∀ p, o p = if p ∈ e.batch then
        { objs p with val := { v := (List.range e.outDim).map (G p) } } else objs p := by
  obtain ⟨o, ho, hP⟩ := forLoop_inv
    (fun k (o : PNode → UniNode α) => ∀ p, o p = if p ∈ e.batch.take k then
        { objs p with val := { v := (List.range e.outDim).map (G p) } } else objs p)
    (UniExecute.copyOut e y) e.batch.length objs
    (by intro p; simp)
    (by
      intro k o hk hP
      have hptr : e.batch[k]? = some (e.batch.getD k 0) := by
        rw [List.getD_eq_getElem?_getD, List.getElem?_eq_getElem hk]; rfl
      have hmem : e.batch.getD k 0 ∈ e.batch := by
        rw [List.getD_eq_getElem _ _ hk]; exact List.getElem_mem _
      have hdim : (o (e.batch.getD k 0)).val.dim = e.outDim := by
        rw [hP]
        by_cases hm : e.batch.getD k 0 ∈ e.batch.take k
        · rw [if_pos hm]; simp [Tensor1D.dim]
        · rw [if_neg hm]; exact hval _ hmem
      have hset := Tensor1D_setAll_spec e.outDim (fun idy => y.get? idy k)
        (G (e.batch.getD k 0)) (o (e.batch.getD k 0)).val hdim
        (fun i hi => hy i k hi hk)
      refine ⟨Function.update o (e.batch.getD k 0) { o (e.batch.getD k 0) with
        val := Tensor1D.mk ((List.range e.outDim).map (G (e.batch.getD k 0))) }, ?_, ?_⟩
      · simp only [UniExecute.copyOut, hptr, Option.some_bind, hset]
      intro p
      have htake : e.batch.take (k + 1) = e.batch.take k ++ [e.batch.getD k 0] := by
        rw [List.take_succ, hptr]; rfl
      by_cases hp : p = e.batch.getD k 0
      · subst hp
        have : e.batch.getD k 0 ∈ e.batch.take (k + 1) := by rw [htake]; simp
        simp only [Function.update_same, this, if_true]
        rw [hP]
        by_cases hm : e.batch.getD k 0 ∈ e.batch.take k
        · rw [if_pos hm]
        · rw [if_neg hm]
      · have : p ∈ e.batch.take (k + 1) ↔ p ∈ e.batch.take k := by
          rw [htake, List.mem_append, List.mem_singleton]
          constructor
          · rintro (h | h)
            · exact h
            · exact absurd h hp
          · intro h; exact Or.inl h
        rw [Function.update_noteq hp, hP p]
        simp only [this])
  refine ⟨o, ho, ?_⟩
  intro p
  rw [hP p, List.take_length]

theorem List_zipWith_range_map {α β γ : Type} [Zero β] (f : α → β → γ) (g : Nat → α) (n : Nat)
    (l : List β) (hl : l.length = n) :
    List.zipWith f ((List.range n).map g) l = (List.range n).map (fun i => f (g i) (l.getD i 0)) := by
  apply List.ext_getElem?
  intro i
  by_cases hi : i < n
  · have h1 : l[i]? = some (l.getD i 0) := by
      rw [List.getD_eq_getElem?_getD, List.getElem?_eq_getElem (by omega)]; rfl
    rw [List.getElem?_zipWith, List.getElem?_map, List.getElem?_map, List.getElem?_range hi, h1]
    rfl
  · have h1 : (List.zipWith f ((List.range n).map g) l).length ≤ i := by simp; omega
    have h2 : ((List.range n).map (fun i => f (g i) (l.getD i 0))).length ≤ i := by simp; omega
    rw [List.getElem?_eq_none h1, List.getElem?_eq_none h2]

theorem UniNode_compute_spec {α : Type} [Semiring α] (code : FnPtr → α → α)
    (params : PParam → UniParams α) (objs : PNode → UniNode α) (p : PNode)
    (hb : (params (objs p).param).bUseB = true →
      (params (objs p).param).b.val.v.length = (params (objs p).param).W.val.row)
    (hin : (objs (objs p).in_).val.dim = (params (objs p).param).W.val.col)
    (hval : (objs p).val.dim = (params (objs p).param).W.val.row)
    (hty : (objs p).ty.dim = (params (objs p).param).W.val.row) :
    ∃ o, UniNode.compute code params objs p = some o ∧
      (o p).val = Tensor1D.mk (UniNode.specVal (code (objs p).activate)
        (params (objs p).param) (objs (objs p).in_).val.v) := by
  have hmul : Mat.mul? (params (objs p).param).W.val.mat (objs (objs p).in_).val.mat
      = some { rows := (params (objs p).param).W.val.row, cols := 1,
               data := (List.range (params (objs p).param).W.val.row).map (fun i =>
                 ((List.range (params (objs p).param).W.val.col).map (fun j =>
                   (params (objs p).param).W.val.mat.entry i j
                     * (objs (objs p).in_).val.v.getD j 0)).sum) } := by
    simp [Mat.mul?, Tensor2D.mat, Tensor1D.mat, hin, Mat.entry, Nat.mod_one]
  have hvl : (objs p).val.v.length = (params (objs p).param).W.val.row := hval
  have htl : (objs p).ty.v.length = (params (objs p).param).W.val.row := hty
  by_cases hB : (params (objs p).param).bUseB = true
  · have hc : UniNode.compute code params objs p = some (Function.update objs p
        { objs p with
          ty := Tensor1D.mk (List.zipWith (fun u w => u + w)
            ((List.range (params (objs p).param).W.val.row).map (fun i =>
              ((List.range (params (objs p).param).W.val.col).map (fun j =>
                (params (objs p).param).W.val.mat.entry i j
                  * (objs (objs p).in_).val.v.getD j 0)).sum))
            (params (objs p).param).b.val.v)
          val := Tensor1D.mk ((List.zipWith (fun u w => u + w)
            ((List.range (params (objs p).param).W.val.row).map (fun i =>
              ((List.range (params (objs p).param).W.val.col).map (fun j =>
                (params (objs p).param).W.val.mat.entry i j
                  * (objs (objs p).in_).val.v.getD j 0)).sum))
            (params (objs p).param).b.val.v).map (code (objs p).activate)) }) := by
      simp only [UniNode.compute, hmul, Option.some_bind, Tensor1D.assignMat?, Tensor1D.dim,
        htl, hvl, List.length_map, List.length_range, and_self, if_true, hB, Vec.add?, hb hB,
        Tensor1D.assignVec?, List.length_zipWith, Nat.min_self]
    refine ⟨_, hc, ?_⟩
    simp only [Function.update_same, UniNode.specVal, hB, if_true]
    rw [List_zipWith_range_map _ _ _ _ (hb hB)]
    simp
  · have hB2 : (params (objs p).param).bUseB = false := by simpa using hB
    have hc : UniNode.compute code params objs p = some (Function.update objs p
        { objs p with
          ty := Tensor1D.mk
            ((List.range (params (objs p).param).W.val.row).map (fun i =>
              ((List.range (params (objs p).param).W.val.col).map (fun j =>
                (params (objs p).param).W.val.mat.entry i j
                  * (objs (objs p).in_).val.v.getD j 0)).sum))
          val := Tensor1D.mk
            (((List.range (params (objs p).param).W.val.row).map (fun i =>
              ((List.range (params (objs p).param).W.val.col).map (fun j =>
                (params (objs p).param).W.val.mat.entry i j
                  * (objs (objs p).in_).val.v.getD j 0)).sum)).map
              (code (objs p).activate)) }) := by
      simp only [UniNode.compute, hmul, Option.some_bind, Tensor1D.assignMat?, Tensor1D.dim,
        htl, hvl, List.length_map, List.length_range, and_self, if_true, hB2,
        Bool.false_eq_true, if_false, Tensor1D.assignVec?]
    refine ⟨_, hc, ?_⟩
    simp [UniNode.specVal, hB2]
theorem UniExecute_forward_spec {α : Type} [Semiring α] (code : FnPtr → α → α)
    (params : PParam → UniParams α) (e : UniExecute α) (objs : PNode → UniNode α)
    (hI : e.inDim = (params e.param).W.val.col) (hO : e.outDim = (params e.param).W.val.row)
    (hb : (params e.param).bUseB = true → (params e.param).b.val.v.length = e.outDim)
    (hin : ∀ p ∈ e.batch, (objs (objs p).in_).val.dim = e.inDim)
    (hval : ∀ p ∈ e.batch, (objs p).val.dim = e.outDim) :
    ∃ r, UniExecute.forward code params e objs = some r ∧
      ∀ p, r.2 p = if p ∈ e.batch then
        { objs p with val := Tensor1D.mk (UniNode.specVal (code e.activate) (params e.param)
            (objs (objs p).in_).val.v) }
        else objs p := by
  obtain ⟨xb, hxb, hxr, hxc, hxw, hbr, hbc, hbw, hxv, hbv⟩ :=
    UniExecute_fill_spec params e objs hb hin
  -- the product `W * x`
  have hmul : Mat.mul? (params e.param).W.val.mat xb.1.mat
      = some { rows := (params e.param).W.val.row, cols := e.batch.length,
               data := (List.range ((params e.param).W.val.row * e.batch.length)).map (fun k =>
                 ((List.range (params e.param).W.val.col).map (fun j =>
                   (params e.param).W.val.mat.entry (k / e.batch.length) j
                     * xb.1.mat.entry j (k % e.batch.length))).sum) } := by
    simp only [Mat.mul?, Tensor2D.mat, hxr, hI, hxc, if_true]
  -- entries of the product
  have hdata : ∀ i idx, i < e.outDim → idx < e.batch.length →
      ((List.range ((params e.param).W.val.row * e.batch.length)).map (fun k =>
          ((List.range (params e.param).W.val.col).map (fun j =>
            (params e.param).W.val.mat.entry (k / e.batch.length) j
              * xb.1.mat.entry j (k % e.batch.length))).sum))[i * e.batch.length + idx]?
        = some (((List.range (params e.param).W.val.col).map (fun j =>
            (params e.param).W.val.mat.entry i j
              * (objs (objs (e.batch.getD idx 0)).in_).val.v.getD j 0)).sum) := by
    intro i idx hi hidx
    have hk : i * e.batch.length + idx < (params e.param).W.val.row * e.batch.length :=
      flat_index_lt _ _ _ _ (by omega) hidx
    rw [List.getElem?_map, List.getElem?_range hk, Option.map_some']
    obtain ⟨hd, hm⟩ := flat_index_div e.batch.length i idx hidx
    rw [hd, hm]
    congr 2
    apply List.map_congr_left
    intro j hj
    have hj2 : j < e.inDim := by rw [hI]; exact List.mem_range.1 hj
    have : xb.1.mat.entry j idx = (objs (objs (e.batch.getD idx 0)).in_).val.v.getD j 0 := by
      simp only [Mat.entry, Tensor2D.mat, hxc]
      exact getD_of_getElem? _ _ _ (hxv j idx hj2 hidx)
    rw [this]
  have hlen0 : ((List.range ((params e.param).W.val.row * e.batch.length)).map (fun k =>
          ((List.range (params e.param).W.val.col).map (fun j =>
            (params e.param).W.val.mat.entry (k / e.batch.length) j
              * xb.1.mat.entry j (k % e.batch.length))).sum)).length
      = e.outDim * e.batch.length := by
    simp [hO]
  have hblen : xb.2.v.length = e.outDim * e.batch.length := by
    rw [hbw, hbr, hbc]
  obtain ⟨D, hmulD, hDlen, hDget⟩ : ∃ D : List α,
      Mat.mul? (params e.param).W.val.mat xb.1.mat
        = some { rows := (params e.param).W.val.row, cols := e.batch.length, data := D } ∧
      D.length = e.outDim * e.batch.length ∧
      ∀ i idx, i < e.outDim → idx < e.batch.length → D[i * e.batch.length + idx]?
        = some (((List.range (params e.param).W.val.col).map (fun j =>
            (params e.param).W.val.mat.entry i j
              * (objs (objs (e.batch.getD idx 0)).in_).val.v.getD j 0)).sum) :=
    ⟨_, hmul, hlen0, hdata⟩
  have h1 : (e.ty.init e.outDim e.batch.length).assignMat?
      { rows := (params e.param).W.val.row, cols := e.batch.length, data := D }
        = some { (e.ty.init e.outDim e.batch.length) with v := D } := by
    simp [Tensor2D.assignMat?, Tensor2D.init, ← hO, hDlen]
  by_cases hB : (params e.param).bUseB = true
  · -- with bias
    have h2 : (Vec.add? D xb.2.v).bind
        (Tensor2D.assignVec? { (e.ty.init e.outDim e.batch.length) with v := D })
        = some { (e.ty.init e.outDim e.batch.length) with
            v := List.zipWith (fun u w => u + w) D xb.2.v } := by
      simp [Vec.add?, Tensor2D.assignVec?, hDlen, hblen]
    have h3 : (e.y.init e.outDim e.batch.length).assignVec?
        ((List.zipWith (fun u w => u + w) D xb.2.v).map (code e.activate))
        = some { (e.y.init e.outDim e.batch.length) with
            v := (List.zipWith (fun u w => u + w) D xb.2.v).map (code e.activate) } := by
      simp [Tensor2D.assignVec?, Tensor2D.init, hDlen, hblen]
    obtain ⟨o, ho, hP⟩ := UniExecute_copyOut_spec e
      { (e.y.init e.outDim e.batch.length) with
        v := (List.zipWith (fun u w => u + w) D xb.2.v).map (code e.activate) }
      objs
      (fun p i => code e.activate
        (((List.range (params e.param).W.val.col).map (fun j =>
            (params e.param).W.val.mat.entry i j
              * (objs (objs p).in_).val.v.getD j 0)).sum + (params e.param).b.val.v.getD i 0))
      hval
      (by
        intro i idx hi hidx
        simp only [Tensor2D.get?, Tensor2D.init, hi, if_true]
        rw [List.getElem?_map, List.getElem?_zipWith, hDget i idx hi hidx,
          hbv hB i idx hi hidx]
        rfl)
    refine ⟨⟨{ e with
        ty := { (e.ty.init e.outDim e.batch.length) with
          v := List.zipWith (fun u w => u + w) D xb.2.v }
        x := xb.1, b := xb.2
        y := { (e.y.init e.outDim e.batch.length) with
          v := (List.zipWith (fun u w => u + w) D xb.2.v).map (code e.activate) } }, o⟩,
      ?_, ?_⟩
    · unfold UniExecute.forward
      rw [hxb]
      simp only [Option.some_bind, hmulD, h1, hB, if_true, h2, h3, ho]
    · intro p
      show o p = _
      rw [hP p]
      simp only [UniNode.specVal, hB, if_true, hO]
  · -- without bias
    have hB2 : (params e.param).bUseB = false := by simpa using hB
    have h3 : (e.y.init e.outDim e.batch.length).assignVec? (D.map (code e.activate))
        = some { (e.y.init e.outDim e.batch.length) with v := D.map (code e.activate) } := by
      simp [Tensor2D.assignVec?, Tensor2D.init, hDlen]
    obtain ⟨o, ho, hP⟩ := UniExecute_copyOut_spec e
      { (e.y.init e.outDim e.batch.length) with v := D.map (code e.activate) }
      objs
      (fun p i => code e.activate
        (((List.range (params e.param).W.val.col).map (fun j =>
            (params e.param).W.val.mat.entry i j
              * (objs (objs p).in_).val.v.getD j 0)).sum))
      hval
      (by
        intro i idx hi hidx
        simp only [Tensor2D.get?, Tensor2D.init, hi, if_true]
        rw [List.getElem?_map, hDget i idx hi hidx]
        rfl)
    refine ⟨⟨{ e with
        ty := { (e.ty.init e.outDim e.batch.length) with v := D }
        x := xb.1, b := xb.2
        y := { (e.y.init e.outDim e.batch.length) with v := D.map (code e.activate) } }, o⟩,
      ?_, ?_⟩
    · unfold UniExecute.forward
      rw [hxb]
      simp only [Option.some_bind, hmulD, h1, hB2, Bool.false_eq_true, if_false, h3, ho]
    · intro p
      show o p = _
      rw [hP p]
      simp only [UniNode.specVal, hB2, Bool.false_eq_true, if_false, hO]
/-- C4. Batched forward equals per-node forward. Let `e` be a `UniExecute` whose `inDim` and
`outDim` are those of its weight matrix (as `generate` sets them), whose batch nodes all use the
`UniParams` object and the activation function of `e`, have inputs of width `W.inDim` and have
`val` and `ty` of width `W.outDim` (and whose bias, with `bUseB`, has `W.outDim` elements). Then
`UniExecute::forward` completes, and for every node of the batch, whatever the batch size, the
`val` it leaves is the `val` that the node's own `UniNode::compute` produces, namely `activate`
applied elementwise to `W * in.val` (`+ b` with `bUseB`). -/
theorem C4_batched_forward_eq_compute {α : Type} [Semiring α] (code : FnPtr → α → α)
    (params : PParam → UniParams α) (e : UniExecute α) (objs : PNode → UniNode α)
    (hshare : ∀ p ∈ e.batch, (objs p).param = e.param ∧ (objs p).activate = e.activate)
    (hI : e.inDim = (params e.param).W.inDim) (hO : e.outDim = (params e.param).W.outDim)
    (hb : (params e.param).bUseB = true → (params e.param).b.val.v.length = e.outDim)
    (hin : ∀ p ∈ e.batch, (objs (objs p).in_).val.dim = (params e.param).W.inDim)
    (hout : ∀ p ∈ e.batch, (objs p).val.dim = e.outDim ∧ (objs p).ty.dim = e.outDim) :
    ∃ r, UniExecute.forward code params e objs = some r ∧
      ∀ p ∈ e.batch,
        (∃ o, UniNode.compute code params objs p = some o ∧ (r.2 p).val = (o p).val) ∧
        (r.2 p).val.v = UniNode.specVal (code e.activate) (params e.param)
          (objs (objs p).in_).val.v := by
  obtain ⟨r, hr, hP⟩ := UniExecute_forward_spec code params e objs hI hO hb
    (fun p hp => by rw [hI]; exact hin p hp) (fun p hp => (hout p hp).1)
  refine ⟨r, hr, ?_⟩
  intro p hp
  have hrp : (r.2 p).val = Tensor1D.mk (UniNode.specVal (code e.activate) (params e.param)
      (objs (objs p).in_).val.v) := by
    rw [hP p, if_pos hp]
  obtain ⟨hpar, hact⟩ := hshare p hp
  obtain ⟨o, ho, hov⟩ := UniNode_compute_spec code params objs p
    (by rw [hpar]; intro h; rw [hb h, hO]; rfl)
    (by rw [hpar]; exact hin p hp)
    (by rw [hpar, (hout p hp).1, hO]; rfl)
    (by rw [hpar, (hout p hp).2, hO]; rfl)
  refine ⟨⟨o, ho, ?_⟩, ?_⟩
  · rw [hrp, hov, hpar, hact]
  · rw [hrp]

/-- Witness for C4: a batch of two UniNodes (addresses 0 and 1) over a `2 × 2` weight matrix
with bias and the identity as activation; their inputs are the nodes 10 and 11. -/
theorem C4_batched_forward_eq_compute_witness :
    ∃ r, UniExecute.forward exCode exUniParams exUniExecute exUniObjs = some r ∧
      ∀ p ∈ exUniExecute.batch,
        (∃ o, UniNode.compute exCode exUniParams exUniObjs p = some o ∧
          (r.2 p).val = (o p).val) ∧
        (r.2 p).val.v = UniNode.specVal (exCode exUniExecute.activate)
          (exUniParams exUniExecute.param) (exUniObjs (exUniObjs p).in_).val.v :=
  C4_batched_forward_eq_compute exCode exUniParams exUniExecute exUniObjs
    (by intro p hp; simp [exUniExecute, UniNode.generate] at hp
        rcases hp with rfl | rfl <;> simp [exUniObjs, exUni, exUniExecute, UniNode.generate])
    rfl rfl (by intro _; rfl)
    (by intro p hp; simp [exUniExecute, UniNode.generate] at hp
        rcases hp with rfl | rfl <;> rfl)
    (by intro p hp; simp [exUniExecute, UniNode.generate] at hp
        rcases hp with rfl | rfl <;> exact ⟨rfl, rfl⟩)

/-- C5, the failing input evaluated. `UniExecute::forward` (CPU branch) on the batch `[0, 1]`
of two UniNodes of degree 0 completes and leaves both nodes with degree 0, not -1
(`forward_drop` is never called), so a later `addParent` on node 0 still registers the parent
and raises its degree. -/
theorem C5_uniExecute_forward_not_scheduled :
    ∃ r, UniExecute.forward exCode exUniParams exUniExecute exUniObjs = some r ∧
      (r.2 0).degree = 0 ∧ (r.2 1).degree = 0 ∧
      (Node.addParent (fun q => (r.2 q).toNode) 0 5 0).parents = [5] ∧
      (Node.addParent (fun q => (r.2 q).toNode) 0 5 5).degree = 1 := by
  obtain ⟨r, hr, hP⟩ := UniExecute_forward_spec exCode exUniParams exUniExecute exUniObjs
    rfl rfl (by intro _; rfl)
    (by intro p hp; simp [exUniExecute, UniNode.generate] at hp
        rcases hp with rfl | rfl <;> rfl)
    (by intro p hp; simp [exUniExecute, UniNode.generate] at hp
        rcases hp with rfl | rfl <;> rfl)
  have h0 : (r.2 0).degree = 0 := by rw [hP 0]; simp [exUniExecute, UniNode.generate]; rfl
  have h1 : (r.2 1).degree = 0 := by rw [hP 1]; simp [exUniExecute, UniNode.generate]; rfl
  have h5 : (r.2 5).degree = 0 := by rw [hP 5]; simp [exUniExecute, UniNode.generate]; rfl
  have hp0 : (r.2 0).parents = [] := by
    rw [hP 0]; simp [exUniExecute, UniNode.generate]; rfl
  refine ⟨r, hr, h0, h1, ?_, ?_⟩
  · rw [Node_addParent_apply _ _ _ (by simp [h0])]
    simp [hp0]
  · rw [Node_addParent_apply _ _ _ (by simp [h0])]
    simp [h5]

/-! ## `forward_drop` marks a node Scheduled -/

theorem castInt_eq_none {α : Type} [LinearOrderedField α] [FloorRing α] (x : α)
    (h : ¬ (-2147483648 ≤ truncToInt x ∧ truncToInt x ≤ 2147483647)) : castInt x = none := by
  rw [castInt, if_neg h]

theorem castInt_eq_some {α : Type} [LinearOrderedField α] [FloorRing α] (x : α)
    (h : -2147483648 ≤ truncToInt x ∧ truncToInt x ≤ 2147483647) :
    castInt x = some (truncToInt x) := by
  rw [castInt, if_pos h]

theorem truncToInt_intCast {α : Type} [LinearOrderedField α] [FloorRing α] (k : Int) :
    truncToInt (k : α) = k := by
  unfold truncToInt
  split_ifs <;> simp

theorem Node_forward_drop_degree {α : Type} [LinearOrderedField α] [FloorRing α]
    (rnd : α → α) (shuffle : List Int → List Int) (n n1 : Node α) (bTrain : Bool) (f : α)
    (h : Node.forward_drop rnd shuffle n bTrain f = some n1) : n1.degree = -1 := by
  unfold Node.forward_drop at h
  simp only [Option.map_eq_some'] at h
  obtain ⟨n2, _, hn2⟩ := h
  rw [← hn2]

theorem LinearUniNode_compute_degree {α : Type} [Semiring α] (params : PParam → UniParams α)
    (objs o1 : PNode → LinearUniNode α) (self : PNode)
    (h : LinearUniNode.compute params objs self = some o1) (q : PNode) :
    (o1 q).degree = (objs q).degree := by
  unfold LinearUniNode.compute at h
  simp only [Option.bind_eq_some] at h
  obtain ⟨wx, _, v1, _, v2, _, h4⟩ := h
  simp only [Option.some.injEq] at h4
  rw [← h4]
  by_cases hq : q = self
  · subst hq; simp
  · simp [Function.update, hq]

/-- The sibling of `UniExecute::forward`: whenever `LinearUniExecute::forward` completes, every
node of its batch has degree -1. -/
theorem LinearUniExecute_forward_scheduled {α : Type} [LinearOrderedField α] [FloorRing α]
    (rnd : α → α) (shuffle : Nat → List Int → List Int) (params : PParam → UniParams α)
    (e : LinearUniExecute α) (objs o2 : PNode → LinearUniNode α)
    (h : LinearUniExecute.forward rnd shuffle params e objs = some o2) :
    ∀ p ∈ e.batch, (o2 p).degree = -1 := by
  have key := forLoop_of_some
    (fun k (o : PNode → LinearUniNode α) => ∀ p ∈ e.batch.take k, (o p).degree = -1)
    _ e.batch.length objs o2 (by intro p hp; simp at hp)
    (by
      intro k o o3 hk hP hstep
      have hptr : e.batch[k]? = some (e.batch.getD k 0) := by
        rw [List.getD_eq_getElem?_getD, List.getElem?_eq_getElem hk]; rfl
      rw [hptr] at hstep
      simp only [Option.some_bind, Option.bind_eq_some, Option.map_eq_some'] at hstep
      obtain ⟨o1, ho1, n1, hn1, ho3⟩ := hstep
      have hd := Node_forward_drop_degree _ _ _ _ _ _ hn1
      intro p hp
      have htake : e.batch.take (k + 1) = e.batch.take k ++ [e.batch.getD k 0] := by
        rw [List.take_succ, hptr]; rfl
      rw [← ho3]
      by_cases hpk : p = e.batch.getD k 0
      · subst hpk
        simp only [Function.update_same]
        exact hd
      · rw [Function.update_noteq hpk, LinearUniNode_compute_degree params o o1 _ ho1 p]
        apply hP
        rw [htake, List.mem_append, List.mem_singleton] at hp
        rcases hp with hp | hp
        · exact hp
        · exact absurd hp hpk)
    h
  intro p hp
  apply key
  rw [List.take_length]
  exact hp

/-! ## `LookupTable::initialWeights` -/

theorem Tensor2D_set_of_some {α : Type} (t t1 : Tensor2D α) (r c : Nat) (a : α)
    (h : t.set? r c a = some t1) :
    r < t.row ∧ r * t.col + c < t.v.length ∧ t1.row = t.row ∧ t1.col = t.col ∧
      t1.v = t.v.set (r * t.col + c) a := by
  unfold Tensor2D.set? at h
  by_cases hc : r < t.row ∧ r * t.col + c < t.v.length
  · rw [if_pos hc] at h
    simp only [Option.some.injEq] at h
    subst h
    exact ⟨hc.1, hc.2, rfl, rfl, rfl⟩
  · rw [if_neg hc] at h; simp at h

theorem Tensor2D_set_shape {α : Type} (t t1 : Tensor2D α) (r c : Nat) (a : α)
    (h : t.set? r c a = some t1) (R C : Nat)
    (hs : t.WF ∧ t.row = R ∧ t.col = C) : t1.WF ∧ t1.row = R ∧ t1.col = C := by
  obtain ⟨_, _, hr, hc, hv⟩ := Tensor2D_set_of_some t t1 r c a h
  obtain ⟨hw, hR, hC⟩ := hs
  refine ⟨?_, by omega, by omega⟩
  unfold Tensor2D.WF at hw ⊢
  rw [hv, List.length_set, hw, hr, hc]

theorem Tensor2D_set_get {α : Type} (t t1 : Tensor2D α) (r c : Nat) (a : α)
    (h : t.set? r c a = some t1) (hc : c < t.col) (r1 c1 : Nat) (hc1 : c1 < t.col) :
    t1.get? r1 c1 = if r1 = r ∧ c1 = c then some a else t.get? r1 c1 := by
  obtain ⟨hr, hlt, hrow, hcol, hv⟩ := Tensor2D_set_of_some t t1 r c a h
  unfold Tensor2D.get?
  rw [hrow, hcol, hv, List.getElem?_set]
  by_cases he : r1 = r ∧ c1 = c
  · obtain ⟨rfl, rfl⟩ := he
    simp [hr, hlt]
  · have hne : r * t.col + c ≠ r1 * t.col + c1 := by
      intro e
      obtain ⟨e1, e2⟩ := (flat_index_inj t.col r c r1 c1 hc hc1).1 e
      exact he ⟨e1.symm, e2.symm⟩
    rw [if_neg hne, if_neg he]

theorem Tensor2D_get_isSome {α : Type} (t : Tensor2D α) (r c : Nat) (hw : t.WF)
    (hr : r < t.row) (hc : c < t.col) : (t.get? r c).isSome = true := by
  unfold Tensor2D.get?
  rw [if_pos hr]
  have : r * t.col + c < t.v.length := by rw [hw]; exact flat_index_lt _ _ _ _ hr hc
  rw [List.getElem?_eq_getElem this]
  rfl
theorem LookupTable_loadLine_inv {α : Type} [Field α] (env : Env α) (elems : Alphabet)
    (nDim : Nat) (nUNKId : Int) (line : String) (s s1 : LoadState α)
    (h : LookupTable.loadLine env elems nDim nUNKId line s = some s1) (R C : Nat)
    (hs : s.val.WF ∧ s.val.row = R ∧ s.val.col = C) :
    (s1.val.WF ∧ s1.val.row = R ∧ s1.val.col = C) ∧
      (∀ id ∈ s1.indexers, id ∈ s.indexers ∨
        ∃ w, (env.split_bychar line ' ')[0]? = some w ∧ elems.from_string w = id) ∧
      (∀ id ∈ s.indexers, id ∈ s1.indexers) ∧
      (s1.bHasUnknown = true → s.bHasUnknown = true ∨ nUNKId ∈ s1.indexers) := by
  unfold LookupTable.loadLine at h
  cases hw : (env.split_bychar line ' ')[0]? with
  | none => rw [hw] at h; simp at h
  | some w =>
    rw [hw] at h
    simp only [Option.some_bind] at h
    by_cases hv : 0 ≤ elems.from_string w
    · rw [if_pos hv] at h
      cases hl : forLoop nDim (fun idy (sv : List α × Tensor2D α) =>
          ((env.split_bychar line ' ')[idy + 1]?).bind fun field =>
          (sv.1[idy]?).bind fun s0 =>
          (sv.2.get? (elems.from_string w).toNat idy).bind fun e0 =>
          (sv.2.set? (elems.from_string w).toNat idy (e0 + env.atof field)).bind fun val1 =>
          some (sv.1.set idy (s0 + env.atof field), val1)) (s.sum, s.val) with
      | none => rw [hl] at h; simp at h
      | some sv =>
        rw [hl] at h
        simp only [Option.map_some', Option.some.injEq] at h
        have hshape := forLoop_of_some
          (fun _ (sv : List α × Tensor2D α) => sv.2.WF ∧ sv.2.row = R ∧ sv.2.col = C)
          _ nDim (s.sum, s.val) sv hs
          (by
            intro i a b _ ha hb
            cases h1 : (env.split_bychar line ' ')[i + 1]? with
            | none => simp [h1] at hb
            | some fld =>
              cases h2 : a.1[i]? with
              | none => simp [h1, h2] at hb
              | some s0 =>
                cases h3 : a.2.get? (elems.from_string w).toNat i with
                | none => simp [h1, h2, h3] at hb
                | some e0 =>
                  simp only [h1, h2, h3, Option.some_bind] at hb
                  cases h4 : a.2.set? (elems.from_string w).toNat i (e0 + env.atof fld) with
                  | none => simp [h4] at hb
                  | some val1 =>
                    rw [h4] at hb
                    simp only [Option.some_bind, Option.some.injEq] at hb
                    rw [← hb]
                    exact Tensor2D_set_shape _ _ _ _ _ h4 R C ha)
          hl
        subst h
        refine ⟨hshape, ?_, ?_, ?_⟩
        · intro id hid
          rcases List.mem_cons.1 hid with rfl | hid
          · exact Or.inr ⟨w, rfl, rfl⟩
          · exact Or.inl hid
        · intro id hid; exact List.mem_cons_of_mem _ hid
        · intro hb
          by_cases hu : nUNKId = elems.from_string w
          · right; rw [hu]; exact List.mem_cons_self _ _
          · left; simpa [hu] using hb
    · rw [if_neg hv] at h
      simp only [Option.some.injEq] at h
      subst h
      exact ⟨hs, fun id hid => Or.inl hid, fun id hid => hid, fun hb => Or.inl hb⟩

theorem LookupTable_loadLines_inv {α : Type} [Field α] (env : Env α) (elems : Alphabet)
    (nDim : Nat) (nUNKId : Int) (R C : Nat) :
    ∀ (lines : List String) (s s1 : LoadState α),
      LookupTable.loadLines env elems nDim nUNKId lines s = some s1 →
      (s.val.WF ∧ s.val.row = R ∧ s.val.col = C) →
      (s.bHasUnknown = true → nUNKId ∈ s.indexers) →
      (s1.val.WF ∧ s1.val.row = R ∧ s1.val.col = C) ∧
        (∀ id ∈ s1.indexers, id ∈ s.indexers ∨ ∃ l ∈ lines,
          ∃ w, (env.split_bychar l ' ')[0]? = some w ∧ elems.from_string w = id) ∧
        (s1.bHasUnknown = true → nUNKId ∈ s1.indexers) := by
  intro lines
  induction lines with
  | nil =>
    intro s s1 h hs hb
    simp only [LookupTable.loadLines, Option.some.injEq] at h
    subst h
    exact ⟨hs, fun id hid => Or.inl hid, hb⟩
  | cons l rest ih =>
    intro s s1 h hs hb
    simp only [LookupTable.loadLines] at h
    cases hl : LookupTable.loadLine env elems nDim nUNKId l s with
    | none => rw [hl] at h; simp at h
    | some sm =>
      rw [hl] at h
      simp only [Option.some_bind] at h
      obtain ⟨hsm, hidm, hmono, hbm⟩ := LookupTable_loadLine_inv env elems nDim nUNKId l s sm hl R C hs
      have hbm2 : sm.bHasUnknown = true → nUNKId ∈ sm.indexers := by
        intro hb2
        rcases hbm hb2 with h0 | h0
        · exact hmono _ (hb h0)
        · exact h0
      obtain ⟨hs1, hid1, hb1⟩ := ih sm s1 h hsm hbm2
      refine ⟨hs1, ?_, hb1⟩
      intro id hid
      rcases hid1 id hid with h0 | ⟨l2, hl2, w, hw, hwid⟩
      · rcases hidm id h0 with h00 | ⟨w, hw, hwid⟩
        · exact Or.inl h00
        · exact Or.inr ⟨l, List.mem_cons_self _ _, w, hw, hwid⟩
      · exact Or.inr ⟨l2, List.mem_cons_of_mem _ hl2, w, hw, hwid⟩

theorem LookupTable_fillUnknown_inv {α : Type} [Field α] (nDim : Nat) (nUNKId : Int)
    (s s2 : LoadState α) (h : LookupTable.fillUnknown nDim nUNKId s = some s2) (R C : Nat)
    (hs : s.val.WF ∧ s.val.row = R ∧ s.val.col = C)
    (hb : s.bHasUnknown = true → nUNKId ∈ s.indexers) :
    (s2.val.WF ∧ s2.val.row = R ∧ s2.val.col = C) ∧
      (∀ id ∈ s2.indexers, id ∈ s.indexers ∨ id = nUNKId) ∧
      (0 ≤ nUNKId → nUNKId ∈ s2.indexers) := by
  unfold LookupTable.fillUnknown at h
  by_cases hc : 0 ≤ nUNKId ∧ s.bHasUnknown = false
  · rw [if_pos hc] at h
    cases hl : forLoop nDim (fun idx (val : Tensor2D α) =>
        (s.sum[idx]?).bind fun s0 =>
        val.set? nUNKId.toNat idx (s0 / ((s.count + 1 : Nat) : α))) s.val with
    | none => rw [hl] at h; simp at h
    | some val1 =>
      rw [hl] at h
      simp only [Option.map_some', Option.some.injEq] at h
      have hshape := forLoop_of_some
        (fun _ (val : Tensor2D α) => val.WF ∧ val.row = R ∧ val.col = C)
        _ nDim s.val val1 hs
        (by
          intro i a b _ ha hb2
          cases h1 : s.sum[i]? with
          | none => rw [h1] at hb2; simp at hb2
          | some s0 =>
            rw [h1] at hb2
            simp only [Option.some_bind] at hb2
            exact Tensor2D_set_shape _ _ _ _ _ hb2 R C ha)
        hl
      subst h
      refine ⟨hshape, ?_, ?_⟩
      · intro id hid
        rcases List.mem_cons.1 hid with rfl | hid
        · exact Or.inr rfl
        · exact Or.inl hid
      · intro _; exact List.mem_cons_self _ _
  · rw [if_neg hc] at h
    simp only [Option.some.injEq] at h
    subst h
    refine ⟨hs, fun id hid => Or.inl hid, ?_⟩
    intro hu
    apply hb
    by_contra hne
    exact hc ⟨hu, by simpa using hne⟩
theorem LookupTable_fillUnseen_inv {α : Type} [Field α] (nDim nVSize : Nat) (u : Int)
    (s : LoadState α) (val3 : Tensor2D α)
    (h : LookupTable.fillUnseen nDim nVSize u s = some val3)
    (hs : s.val.WF ∧ s.val.row = nVSize ∧ s.val.col = nDim)
    (hu0 : 0 ≤ u) (hmem : u ∈ s.indexers) :
    (val3.WF ∧ val3.row = nVSize ∧ val3.col = nDim) ∧
      ∀ id j, id < nVSize → j < nDim →
        val3.get? id j = if (id : Int) ∉ s.indexers then s.val.get? u.toNat j
          else s.val.get? id j := by
  have key := forLoop_of_some
    (fun k (val : Tensor2D α) => (val.WF ∧ val.row = nVSize ∧ val.col = nDim) ∧
      ∀ id j, id < nVSize → j < nDim →
        val.get? id j = if id < k ∧ (id : Int) ∉ s.indexers then s.val.get? u.toNat j
          else s.val.get? id j)
    _ nVSize s.val val3
    ⟨hs, by intro id j _ _; simp⟩
    (by
      intro k val val2 hk ⟨hshape, hval⟩ hstep
      by_cases hki : (k : Int) ∉ s.indexers
      · rw [if_pos hki] at hstep
        have huk : u.toNat ≠ k := by
          intro e
          apply hki
          have : (k : Int) = u := by rw [← e]; exact Int.toNat_of_nonneg hu0
          rw [this]; exact hmem
        have hin := forLoop_of_some
          (fun j1 (val1 : Tensor2D α) => (val1.WF ∧ val1.row = nVSize ∧ val1.col = nDim) ∧
            ∀ id j, id < nVSize → j < nDim →
              val1.get? id j = if id = k ∧ j < j1 then s.val.get? u.toNat j
                else val.get? id j)
          _ nDim val val2
          ⟨hshape, by intro id j _ _; simp⟩
          (by
            intro j1 val1 val1b hj1 ⟨hsh1, hv1⟩ hst
            rw [if_pos hu0] at hst
            cases hg : val1.get? u.toNat j1 with
            | none => simp [hg] at hst
            | some a =>
              rw [hg] at hst
              simp only [Option.some_bind] at hst
              have hcol : j1 < val1.col := by rw [hsh1.2.2]; exact hj1
              refine ⟨Tensor2D_set_shape _ _ _ _ _ hst _ _ hsh1, ?_⟩
              intro id j hid hj
              rw [Tensor2D_set_get _ _ _ _ _ hst hcol id j (by rw [hsh1.2.2]; exact hj)]
              by_cases he : id = k ∧ j = j1
              · obtain ⟨rfl, rfl⟩ := he
                have hur : u.toNat < nVSize := by
                  by_contra hnot
                  have : val1.get? u.toNat j = none := by
                    unfold Tensor2D.get?
                    rw [if_neg (by rw [hsh1.2.1]; exact hnot)]
                  rw [this] at hg; simp at hg
                have h1 := hv1 u.toNat j hur hj
                rw [if_neg (fun hh => huk hh.1)] at h1
                have h2 := hval u.toNat j hur hj
                rw [if_neg (fun hh => hh.2 (by rw [Int.toNat_of_nonneg hu0]; exact hmem))] at h2
                rw [if_pos ⟨rfl, rfl⟩, if_pos ⟨rfl, Nat.lt_succ_self _⟩, ← hg, h1, h2]
              · rw [if_neg he, hv1 id j hid hj]
                by_cases hidk : id = k
                · subst hidk
                  have hjne : j ≠ j1 := fun e => he ⟨rfl, e⟩
                  by_cases hjl : j < j1
                  · rw [if_pos ⟨rfl, hjl⟩, if_pos ⟨rfl, Nat.lt_succ_of_lt hjl⟩]
                  · rw [if_neg (fun hh => hjl hh.2), if_neg (fun hh => hjl (by omega))]
                · rw [if_neg (fun hh => hidk hh.1), if_neg (fun hh => hidk hh.1)])
          hstep
        refine ⟨hin.1, ?_⟩
        intro id j hid hj
        rw [hin.2 id j hid hj]
        by_cases hidk : id = k
        · subst hidk
          rw [if_pos ⟨rfl, hj⟩, if_pos ⟨Nat.lt_succ_self _, hki⟩]
        · rw [if_neg (fun hh => hidk hh.1), hval id j hid hj]
          by_cases hc : id < k ∧ (id : Int) ∉ s.indexers
          · rw [if_pos hc, if_pos ⟨Nat.lt_succ_of_lt hc.1, hc.2⟩]
          · rw [if_neg hc, if_neg (fun hh => hc ⟨by omega, hh.2⟩)]
      · rw [if_neg hki] at hstep
        simp only [Option.some.injEq] at hstep
        subst hstep
        refine ⟨hshape, ?_⟩
        intro id j hid hj
        rw [hval id j hid hj]
        by_cases hc : id < k ∧ (id : Int) ∉ s.indexers
        · rw [if_pos hc, if_pos ⟨Nat.lt_succ_of_lt hc.1, hc.2⟩]
        · rw [if_neg hc]
          by_cases hidk : id = k
          · subst hidk
            rw [if_neg (fun hh => hh.2 (not_not.1 hki))]
          · rw [if_neg (fun hh => hc ⟨by omega, hh.2⟩)])
    h
  refine ⟨key.1, ?_⟩
  intro id j hid hj
  rw [key.2 id j hid hj]
  by_cases hc : (id : Int) ∉ s.indexers
  · rw [if_pos ⟨hid, hc⟩, if_pos hc]
  · rw [if_neg (fun hh => hc hh.2), if_neg hc]
theorem LookupTable_initialWeights_of_success {α : Type} [LinearOrderedField α] (env : Env α)
    (T T1 : LookupTable α) (file : Option (List String)) (tune : Bool) (norm : α)
    (h : LookupTable.initialWeights env T file tune norm = some (true, T1)) :
    ∃ lines first rest s1 s2 val3, file = some lines ∧
      lines.filter (fun l => l ≠ "") = first :: rest ∧
      (env.split_bychar first ' ').length ≠ 0 ∧
      LookupTable.loadLines env T.elems ((env.split_bychar first ' ').length - 1) T.nUNKId
        (first :: rest)
        { bHasUnknown := false, indexers := [],
          sum := List.replicate ((env.split_bychar first ' ').length - 1) 0, count := 0,
          val := (SparseParam.initial env 0 T.E ((env.split_bychar first ' ').length - 1)
            T.nVSize).val } = some s1 ∧
      s1.count ≠ 0 ∧
      LookupTable.fillUnknown ((env.split_bychar first ' ').length - 1) T.nUNKId s1 = some s2 ∧
      LookupTable.fillUnseen ((env.split_bychar first ' ').length - 1) T.nVSize T.nUNKId s2
        = some val3 ∧
      T1.nDim = (env.split_bychar first ' ').length - 1 ∧
      T1.E.val = (if 0 < norm then Tensor2D.norm2one env val3 norm else val3) ∧
      T1.bFineTune = tune ∧ T1.nVSize = T.nVSize ∧ T1.nUNKId = T.nUNKId := by
  unfold LookupTable.initialWeights at h
  split at h
  · simp at h
  · split at h
    · simp at h
    · rename_i lines
      split at h
      · simp at h
      · rename_i first rest hf
        split at h
        · simp at h
        · rename_i hlen
          cases hload : LookupTable.loadLines env T.elems
              ((env.split_bychar first ' ').length - 1) T.nUNKId (first :: rest)
              { bHasUnknown := false, indexers := [],
                sum := List.replicate ((env.split_bychar first ' ').length - 1) 0, count := 0,
                val := (SparseParam.initial env 0 T.E ((env.split_bychar first ' ').length - 1)
                  T.nVSize).val } with
          | none => simp [hload] at h
          | some s1 =>
            simp only [hload, Option.some_bind] at h
            split at h
            · simp at h
            · rename_i hcount
              cases hfu : LookupTable.fillUnknown ((env.split_bychar first ' ').length - 1)
                  T.nUNKId s1 with
              | none => simp [hfu] at h
              | some s2 =>
                simp only [hfu, Option.some_bind] at h
                cases hfs : LookupTable.fillUnseen ((env.split_bychar first ' ').length - 1)
                    T.nVSize T.nUNKId s2 with
                | none => simp [hfs] at h
                | some val3 =>
                  simp only [hfs, Option.some_bind, Option.some.injEq, Prod.mk.injEq,
                    true_and] at h
                  subst h
                  exact ⟨lines, first, rest, s1, s2, val3, rfl, hf, hlen, hload, hcount, hfu,
                    hfs, rfl, rfl, rfl, rfl, rfl⟩
theorem SparseParam_initial_val_shape {α : Type} [Field α] (env : Env α) (k : Nat)
    (p : SparseParam α) (outDim inDim : Nat) :
    (SparseParam.initial env k p outDim inDim).val.WF ∧
      (SparseParam.initial env k p outDim inDim).val.row = inDim ∧
      (SparseParam.initial env k p outDim inDim).val.col = outDim := by
  simp [SparseParam.initial, Tensor2D.random, Tensor2D.init, Tensor2D.WF, Tensor2D.size,
    Nat.mul_comm]

/-- C9. With an OOV id `u` (`nUNKId >= 0`) and `norm <= 0`: whenever
`LookupTable::initialWeights(file, ...)` returns success, every row of `E.val` whose id is not `u`
and is not the id of the token of any non-empty line of the file holds, in each of its `nDim`
components, the same number as row `u`. -/
theorem C9_unseen_rows_equal_oov_row {α : Type} [LinearOrderedField α] (env : Env α)
    (T T1 : LookupTable α) (file : Option (List String)) (tune : Bool) (norm : α)
    (hu0 : 0 ≤ T.nUNKId) (hnorm : ¬ 0 < norm)
    (h : LookupTable.initialWeights env T file tune norm = some (true, T1))
    (id : Nat) (hid : id < T.nVSize) (hne : (id : Int) ≠ T.nUNKId)
    (hfile : ∀ lines, file = some lines → ∀ l ∈ lines, l ≠ "" →
      ∀ w, (env.split_bychar l ' ')[0]? = some w → T.elems.from_string w ≠ id)
    (j : Nat) (hj : j < T1.nDim) :
    T1.E.val.get? id j = T1.E.val.get? T.nUNKId.toNat j ∧
      (T1.E.val.get? id j).isSome = true := by
  obtain ⟨lines, first, rest, s1, s2, val3, hfl, hf, _, hload, _, hfu, hfs, hnD, hval, _, _, _⟩ :=
    LookupTable_initialWeights_of_success env T T1 file tune norm h
  rw [if_neg hnorm] at hval
  rw [hnD] at hj
  obtain ⟨hs1, hid1, hb1⟩ := LookupTable_loadLines_inv env T.elems _ T.nUNKId T.nVSize
    ((env.split_bychar first ' ').length - 1) (first :: rest) _ s1 hload
    (SparseParam_initial_val_shape env 0 T.E _ _) (by intro hb; simp at hb)
  obtain ⟨hs2, hid2, hu2⟩ := LookupTable_fillUnknown_inv _ T.nUNKId s1 s2 hfu _ _ hs1 hb1
  obtain ⟨hs3, hv3⟩ := LookupTable_fillUnseen_inv _ T.nVSize T.nUNKId s2 val3 hfs hs2 hu0
    (hu2 hu0)
  have hnot : (id : Int) ∉ s2.indexers := by
    intro hmem
    rcases hid2 _ hmem with h1 | h1
    · rcases hid1 _ h1 with h0 | ⟨l, hl, w, hw, hwid⟩
      · simp at h0
      · have hl2 : l ∈ lines.filter (fun l => l ≠ "") := by rw [hf]; exact hl
        obtain ⟨hl3, hl4⟩ := List.mem_filter.1 hl2
        exact hfile lines hfl l hl3 (by simpa using hl4) w hw hwid
    · exact hne h1
  have hrow : val3.get? id j = s2.val.get? T.nUNKId.toNat j := by
    rw [hv3 id j hid hj, if_pos hnot]
  have hu : val3.get? T.nUNKId.toNat j = s2.val.get? T.nUNKId.toNat j := by
    by_cases hur : T.nUNKId.toNat < T.nVSize
    · rw [hv3 _ j hur hj, if_neg]
      rw [Int.toNat_of_nonneg hu0]
      exact fun hh => hh (hu2 hu0)
    · unfold Tensor2D.get?
      rw [if_neg (by rw [hs3.2.1]; exact hur), if_neg (by rw [hs2.2.1]; exact hur)]
  rw [hval]
  refine ⟨by rw [hrow, hu], ?_⟩
  exact Tensor2D_get_isSome _ _ _ hs3.1 (by rw [hs3.2.1]; exact hid) (by rw [hs3.2.2]; exact hj)

theorem exTable_load_eval :
    (LookupTable.initialWeights exEnv exTable (some ["a 2", "b 4"]) true (-1)).map
      (fun r => (r.1, r.2.nDim, r.2.E.val))
      = some (true, 1, { col := 1, row := 4, v := [4/5, 14/5, 2, 2] }) := by
  simp +decide [LookupTable.initialWeights, exEnv, exTable, exAlphabet, LookupTable.loadLines,
    LookupTable.loadLine, LookupTable.fillUnknown, LookupTable.fillUnseen, forLoop,
    SparseParam.initial, SparseParam.new, Tensor2D.random, Tensor2D.init, Tensor2D.new,
    Tensor2D.size, Tensor2D.get?, Tensor2D.set?, List.range, List.range.loop, List.filter]
  norm_num

theorem exTable_load_success :
    ∃ T1, LookupTable.initialWeights exEnv exTable (some ["a 2", "b 4"]) true (-1)
        = some (true, T1) ∧ T1.nDim = 1 ∧
      T1.E.val = { col := 1, row := 4, v := [4/5, 14/5, 2, 2] } := by
  have e := exTable_load_eval
  cases hres : LookupTable.initialWeights exEnv exTable (some ["a 2", "b 4"]) true (-1) with
  | none => rw [hres] at e; simp at e
  | some r =>
    obtain ⟨b, T1⟩ := r
    rw [hres] at e
    simp only [Option.map_some', Option.some.injEq, Prod.mk.injEq] at e
    obtain ⟨hb, hn, hv⟩ := e
    exact ⟨T1, by rw [hb], hn, hv⟩

/-- Witness for C9: the vocabulary a, b, c, OOV (ids 0 to 3) and the file with the lines
"a 2" and "b 4"; the load succeeds and the row of "c" (id 2) equals the OOV row (id 3). -/
theorem C9_unseen_rows_equal_oov_row_witness :
    ∃ T1, LookupTable.initialWeights exEnv exTable (some ["a 2", "b 4"]) true (-1)
        = some (true, T1) ∧
      T1.E.val.get? 2 0 = T1.E.val.get? exTable.nUNKId.toNat 0 ∧
      (T1.E.val.get? 2 0).isSome = true := by
  obtain ⟨T1, hT1, hn, _⟩ := exTable_load_success
  exact ⟨T1, hT1, C9_unseen_rows_equal_oov_row exEnv exTable T1 (some ["a 2", "b 4"]) true (-1)
    (by simp [exTable]) (by norm_num) hT1 2 (by simp [exTable]) (by simp [exTable])
    (by
      intro lines hl l hmem _ w hw
      simp only [Option.some.injEq] at hl
      subst hl
      simp only [List.mem_cons, List.mem_singleton, List.not_mem_nil, or_false] at hmem
      rcases hmem with rfl | rfl
      · simp +decide [exEnv] at hw
        subst hw
        simp +decide [exTable, exAlphabet]
      · simp +decide [exEnv] at hw
        subst hw
        simp +decide [exTable, exAlphabet])
    0 (by rw [hn]; exact Nat.zero_lt_one)⟩

/-- C8, the failing input evaluated. Vocabulary a, b, c, OOV (ids 0 to 3), file with the lines
"a 2" and "b 4" (`N = 1`, `S = {a, b}`): the load succeeds and the OOV row is `2`, that is
`(2 + 4) / (|S| + 1)`, whereas the mean of the loaded vectors is `3`. -/
theorem C8_oov_row_is_not_the_mean :
    ∃ T1, LookupTable.initialWeights exEnv exTable (some ["a 2", "b 4"]) true (-1)
        = some (true, T1) ∧
      T1.E.val.get? exTable.nUNKId.toNat 0 = some 2 ∧
      LookupTable.specMean 1 [[exEnv.atof "2"], [exEnv.atof "4"]] = [3] := by
  obtain ⟨T1, hT1, _, hv⟩ := exTable_load_success
  refine ⟨T1, hT1, ?_, ?_⟩
  · rw [hv]; simp [Tensor2D.get?, exTable]
  · simp +decide [LookupTable.specMean, exEnv, List.range, List.range.loop]
    norm_num

/-- C10, the failing input evaluated. Vocabulary a, b, c, OOV, file with the lines "a 2" and
"b 4": the token "a" (id 0) occurs on exactly one line, whose vector is `[2]`, and after the
successful load row 0 of `E.val` is `[4/5]`: the value `-6/5` that `SparseParam::initial` had
put there (`rand()` returning 0) plus `2`. -/
theorem C10_loaded_row_is_not_a_copy :
    ∃ T1, LookupTable.initialWeights exEnv exTable (some ["a 2", "b 4"]) true (-1)
        = some (true, T1) ∧
      T1.E.val.get? 0 0 = some (4 / 5) ∧ exEnv.atof "2" = 2 ∧
      (SparseParam.initial exEnv 0 exTable.E 1 exTable.nVSize).val.get? 0 0 = some (-6 / 5) := by
  obtain ⟨T1, hT1, _, hv⟩ := exTable_load_success
  refine ⟨T1, hT1, ?_, ?_, ?_⟩
  · rw [hv]; simp [Tensor2D.get?]
  · simp +decide [exEnv]
  · simp +decide [SparseParam.initial, Tensor2D.random, Tensor2D.init, Tensor2D.size,
      Tensor2D.get?, exEnv, exTable, SparseParam.new, Tensor2D.new, List.range,
      List.range.loop]
    norm_num

/-! ## Pointwise loops and single cells of a tensor -/

theorem forLoop_pointwise {σ ι γ : Type} (n : Nat) (Inv : Nat → σ → Prop) (valid : ι → Prop)
    (obs : σ → ι → γ) (dom : Nat → ι → Prop) (f : Nat → σ → Option σ) (F : ι → γ → γ)
    (hdisj : ∀ k1 k2 x, dom k1 x → dom k2 x → k1 = k2)
    (hstep : ∀ s k, k < n → Inv k s → ∃ s1, f k s = some s1 ∧ Inv (k + 1) s1 ∧
      ∀ x, valid x → (dom k x → obs s1 x = F x (obs s x)) ∧ (¬ dom k x → obs s1 x = obs s x))
    (s0 : σ) (h0 : Inv 0 s0) :
    ∃ s1, forLoop n f s0 = some s1 ∧ Inv n s1 ∧
      ∀ x, valid x → (∀ k, k < n → dom k x → obs s1 x = F x (obs s0 x)) ∧
        ((∀ k, k < n → ¬ dom k x) → obs s1 x = obs s0 x) := by
  obtain ⟨s1, h1, h2, h3⟩ := forLoop_inv
    (fun i s => Inv i s ∧ ∀ x, valid x → (∀ k, k < i → dom k x → obs s x = F x (obs s0 x)) ∧
        ((∀ k, k < i → ¬ dom k x) → obs s x = obs s0 x)) f n s0
    ⟨h0, fun x _ => ⟨fun k hk => absurd hk (Nat.not_lt_zero k), fun _ => rfl⟩⟩
    (by
      intro i s hi ⟨hI, hobs⟩
      obtain ⟨s1, hf, hI1, hx⟩ := hstep s i hi hI
      refine ⟨s1, hf, hI1, ?_⟩
      intro x hv
      obtain ⟨hd, hnd⟩ := hx x hv
      obtain ⟨ho1, ho2⟩ := hobs x hv
      constructor
      · intro k hk hdk
        rcases Nat.lt_succ_iff_lt_or_eq.mp hk with hlt | heq
        · have hni : ¬ dom i x := fun hdi => by
            have := hdisj k i x hdk hdi
            omega
          rw [hnd hni]
          exact ho1 k hlt hdk
        · subst heq
          rw [hd hdk, ho2 (fun k1 hk1 hd1 => by
            have := hdisj k1 k x hd1 hdk
            omega)]
      · intro hall
        rw [hnd (hall i (Nat.lt_succ_self i))]
        exact ho2 (fun k hk => hall k (Nat.lt_succ_of_lt hk)))
  exact ⟨s1, h1, h2, h3⟩

theorem Tensor2D_get_entry {α : Type} [Zero α] (t : Tensor2D α) (r c : Nat) (hw : t.WF)
    (hr : r < t.row) (hc : c < t.col) : t.get? r c = some (t.mat.entry r c) := by
  have hlt : r * t.col + c < t.v.length := by
    rw [hw]; exact flat_index_lt t.row t.col r c hr hc
  simp only [Tensor2D.get?, hr, if_true, Tensor2D.mat, Mat.entry]
  exact getElem?_eq_some_getD t.v _ hlt

theorem Tensor2D_set_entry {α : Type} [Zero α] (t : Tensor2D α) (r c : Nat) (a : α)
    (hw : t.WF) (hr : r < t.row) (hc : c < t.col) :
    ∃ t1, t.set? r c a = some t1 ∧ t1.WF ∧ t1.row = t.row ∧ t1.col = t.col ∧
      ∀ r1 c1, c1 < t.col →
        t1.mat.entry r1 c1 = if r1 = r ∧ c1 = c then a else t.mat.entry r1 c1 := by
  have hlt : r * t.col + c < t.v.length := by
    rw [hw]; exact flat_index_lt t.row t.col r c hr hc
  refine ⟨{ t with v := t.v.set (r * t.col + c) a }, ?_, ?_, rfl, rfl, ?_⟩
  · simp only [Tensor2D.set?, hr, hlt, and_self, if_true]
  · simp only [Tensor2D.WF, List.length_set]; exact hw
  · intro r1 c1 hc1
    simp only [Tensor2D.mat, Mat.entry, List.getD_eq_getElem?_getD, List.getElem?_set]
    by_cases h : r1 = r ∧ c1 = c
    · obtain ⟨rfl, rfl⟩ := h
      simp [hlt]
    · have hne : r * t.col + c ≠ r1 * t.col + c1 := by
        intro he
        exact h (((flat_index_inj t.col r1 c1 r c hc1 hc).1 he.symm))
      simp [h, hne]

/-! ## `SparseParam::loss` and `SparseParam::value` -/

theorem Tensor1D_get_getD {α : Type} [Zero α] (t : Tensor1D α) (i : Nat) (h : i < t.dim) :
    t.get? i = some (t.v.getD i 0) := by
  simp only [Tensor1D.get?, h, if_true]
  exact getElem?_eq_some_getD t.v i h

theorem SparseParam_loss_spec {α : Type} [Add α] [Zero α] (p : SparseParam α) (featId : Int)
    (l : Tensor1D α) (hp : p.WF) (h0 : 0 ≤ featId) (hf : featId.toNat < p.val.row)
    (hl : p.val.col ≤ l.dim) :
    ∃ p1, p.loss featId l = some p1 ∧ p1.WF ∧ p1.val = p.val ∧
      p1.aux_square = p.aux_square ∧ p1.aux_mean = p.aux_mean ∧
      p1.last_update = p.last_update ∧ p1.indexers = p.indexers.set featId.toNat true ∧
      ∀ r c, c < p.val.col →
        p1.grad.mat.entry r c =
          if r = featId.toNat then p.grad.mat.entry r c + l.v.getD c 0
          else p.grad.mat.entry r c := by
  obtain ⟨hv, hg, ha, hm, hgr, hgc, har, hac, hmr, hmc, hix, hlu⟩ := hp
  obtain ⟨g1, hloop, ⟨hg1w, hg1r, hg1c⟩, hobs⟩ := forLoop_pointwise p.val.col
    (fun _ (g : Tensor2D α) => g.WF ∧ g.row = p.val.row ∧ g.col = p.val.col)
    (fun x : Nat × Nat => x.2 < p.val.col)
    (fun g x => g.mat.entry x.1 x.2)
    (fun k x => x.1 = featId.toNat ∧ x.2 = k)
    (fun idx (g : Tensor2D α) =>
        (g.getI? featId idx).bind fun g0 =>
        (l.get? idx).bind fun l0 =>
        g.setI? featId idx (g0 + l0))
    (fun x a => a + l.v.getD x.2 0)
    (by rintro k1 k2 x ⟨_, h1⟩ ⟨_, h2⟩; omega)
    (by
      intro g k hk ⟨hw, hr, hc⟩
      have hfr : featId.toNat < g.row := by omega
      have hkc : k < g.col := by omega
      obtain ⟨g2, hset, hw2, hr2, hc2, hent⟩ :=
        Tensor2D_set_entry g featId.toNat k (g.mat.entry featId.toNat k + l.v.getD k 0)
          hw hfr hkc
      refine ⟨g2, ?_, ⟨hw2, by omega, by omega⟩, ?_⟩
      · simp only [Tensor2D.getI?, Tensor2D.setI?, not_lt.mpr h0, if_false,
          Tensor2D_get_entry g _ _ hw hfr hkc, Tensor1D_get_getD l k (by omega),
          Option.some_bind, hset]
      · rintro ⟨r, c⟩ hcv
        have hcg : c < g.col := by simpa [hc] using hcv
        constructor
        · rintro ⟨h1, h2⟩
          simp only at h1 h2
          subst h1 h2
          dsimp only
          rw [hent _ _ hcg]; simp
        · intro hnd
          dsimp only at hnd ⊢
          rw [hent _ _ hcg, if_neg hnd])
    p.grad ⟨hg, hgr, hgc⟩
  refine ⟨{ p with indexers := p.indexers.set featId.toNat true, grad := g1 }, ?_, ?_, rfl, rfl,
    rfl, rfl, rfl, ?_⟩
  · have hnot : ¬ (featId < 0 ∨ p.indexers.length ≤ featId.toNat) := by
      rw [hix]; omega
    simp only [SparseParam.loss, hnot, if_false, hloop, Option.map_some']
  · exact ⟨hv, hg1w, ha, hm, hg1r, hg1c, har, hac, hmr, hmc, by simpa using hix, hlu⟩
  · intro r c hc
    obtain ⟨h1, h2⟩ := hobs (r, c) hc
    by_cases hr : r = featId.toNat
    · rw [if_pos hr]
      exact h1 c hc ⟨hr, rfl⟩
    · rw [if_neg hr]
      exact h2 (fun k _ hd => hr hd.1)

/-! ## `LookupNode`: `forward`, `compute` and `backward` -/

theorem SparseParam_initial_WF {α : Type} [Field α] (env : Env α) (k : Nat) (p : SparseParam α)
    (outDim inDim : Nat) :
    (SparseParam.initial env k p outDim inDim).WF ∧
      (SparseParam.initial env k p outDim inDim).val.row = inDim ∧
      (SparseParam.initial env k p outDim inDim).val.col = outDim := by
  simp [SparseParam.WF, SparseParam.initial, Tensor2D.WF, Tensor2D.random, Tensor2D.init,
    Tensor2D.size, Nat.mul_comm]

theorem SparseParam_value_spec {α : Type} [Zero α] (p : SparseParam α) (featId : Int)
    (out : Tensor1D α) (hw : p.val.WF) (h0 : 0 ≤ featId) (hf : featId.toNat < p.val.row)
    (hd : out.dim = p.val.col) :
    p.value featId out
      = some { v := (List.range p.val.col).map (fun j => p.val.mat.entry featId.toNat j) } := by
  unfold SparseParam.value
  apply Tensor1D_setAll_spec _ _ _ _ hd
  intro i hi
  simp only [Tensor2D.getI?, not_lt.mpr h0, if_false]
  exact Tensor2D_get_entry _ _ _ hw hf hi

theorem LookupNode_backward_spec {α : Type} [Add α] [Zero α] (tables : PParam → LookupTable α)
    (objs : PNode → LookupNode α) (self : PNode)
    (hp : (objs self).param ≠ NULL) (hw : (tables (objs self).param).E.WF)
    (hx : 0 ≤ (objs self).xid) (hr : (objs self).xid.toNat < (tables (objs self).param).E.val.row)
    (hl : (tables (objs self).param).E.val.col ≤ (objs self).loss.dim) :
    ∃ t1, LookupNode.backward tables objs self = some t1 ∧
      (∀ q, q ≠ (objs self).param → t1 q = tables q) ∧
      (t1 (objs self).param).E.val = (tables (objs self).param).E.val ∧
      (((objs self).xid = (tables (objs self).param).nUNKId ∨
          (tables (objs self).param).bFineTune = true) →
        (t1 (objs self).param).E.indexers
            = (tables (objs self).param).E.indexers.set (objs self).xid.toNat true ∧
          ∀ r c, c < (tables (objs self).param).E.val.col →
            (t1 (objs self).param).E.grad.mat.entry r c =
              if r = (objs self).xid.toNat then
                (tables (objs self).param).E.grad.mat.entry r c + (objs self).loss.v.getD c 0
              else (tables (objs self).param).E.grad.mat.entry r c) ∧
      (¬ ((objs self).xid = (tables (objs self).param).nUNKId ∨
          (tables (objs self).param).bFineTune = true) → t1 = tables) := by
  by_cases hc : (objs self).xid = (tables (objs self).param).nUNKId ∨
      (tables (objs self).param).bFineTune = true
  · obtain ⟨E1, hE1, _, hval, _, _, _, hix, hgrad⟩ :=
      SparseParam_loss_spec (tables (objs self).param).E (objs self).xid (objs self).loss
        hw hx hr hl
    have hc2 : (objs self).xid = (tables (objs self).param).nUNKId ∨
        (0 ≤ (objs self).xid ∧ (tables (objs self).param).bFineTune = true) := by
      rcases hc with h | h
      · exact Or.inl h
      · exact Or.inr ⟨hx, h⟩
    refine ⟨Function.update tables (objs self).param
      { tables (objs self).param with E := E1 }, ?_, ?_, ?_, ?_, ?_⟩
    · simp only [LookupNode.backward, hp, if_false, hc2, if_true, hE1, Option.map_some']
    · intro q hq
      exact Function.update_noteq hq _ _
    · simp only [Function.update_same]; exact hval
    · intro _
      simp only [Function.update_same]
      exact ⟨hix, hgrad⟩
    · intro h; exact absurd hc h
  · have hc2 : ¬ ((objs self).xid = (tables (objs self).param).nUNKId ∨
        (0 ≤ (objs self).xid ∧ (tables (objs self).param).bFineTune = true)) := by
      rintro (h | ⟨_, h⟩)
      · exact hc (Or.inl h)
      · exact hc (Or.inr h)
    refine ⟨tables, ?_, fun _ _ => rfl, rfl, fun h => absurd h hc, fun _ => rfl⟩
    simp only [LookupNode.backward, hp, if_false, hc2]

/-- C11, the failing input evaluated. A frozen table without OOV id (`nUNKId = -1`) and a token
the vocabulary does not know: `forward` leaves `xid = -1`, which equals `nUNKId`, so `backward`
calls `E.loss(-1, loss)`, whose first statement `indexers[-1] = true` writes outside `indexers`
(`none`), where the claim has the table unchanged. -/
theorem C11_backward_unresolved_without_oov :
    exTableNoUnk.nUNKId = -1 ∧ exTableNoUnk.bFineTune = false ∧
      ∃ o1 g1, LookupNode.forward (fun _ => exTableNoUnk) exLookupObjs [] 1 "zzz" = some (o1, g1) ∧
        (o1 1).xid = -1 ∧ LookupNode.backward (fun _ => exTableNoUnk) o1 1 = none := by
  refine ⟨rfl, rfl, _, _, rfl, ?_, ?_⟩
  · simp +decide [exLookupObjs, exLookup, exTableNoUnk, exAlphabetNoUnk]
  · simp +decide [LookupNode.backward, exLookupObjs, exLookup, exTableNoUnk, exAlphabetNoUnk,
      SparseParam.loss, NULL]

/-- C12. For a node whose width is the width of the table `T` it points to (and a table whose
ids are rows of `E.val`), and for every token: `LookupNode::forward` leaves in `xid` the
vocabulary id when that is `>= 0`, the OOV id when the vocabulary does not resolve the token and
`nUNKId >= 0`, and a negative number otherwise; `LookupNode::compute` then returns with `val`
equal to row `xid` of `E.val` when `xid >= 0` and with the all-zero vector when `xid < 0`. -/
theorem C12_lookup_forward_compute {α : Type} [Zero α] (tables : PParam → LookupTable α)
    (objs : PNode → LookupNode α) (cg : Graph) (self : PNode) (tok : String)
    (hp : (objs self).param ≠ NULL)
    (hw : (tables (objs self).param).E.val.WF)
    (hdim : (objs self).val.dim = (tables (objs self).param).E.val.col)
    (hid : ∀ s, (tables (objs self).param).elems.from_string s
      < ((tables (objs self).param).E.val.row : Int))
    (hunk : (tables (objs self).param).nUNKId < ((tables (objs self).param).E.val.row : Int)) :
    ∃ o1 g1, LookupNode.forward tables objs cg self tok = some (o1, g1) ∧
      (0 ≤ (tables (objs self).param).elems.from_string tok →
        (o1 self).xid = (tables (objs self).param).elems.from_string tok) ∧
      ((tables (objs self).param).elems.from_string tok < 0 →
        0 ≤ (tables (objs self).param).nUNKId →
        (o1 self).xid = (tables (objs self).param).nUNKId) ∧
      ((tables (objs self).param).elems.from_string tok < 0 →
        (tables (objs self).param).nUNKId < 0 → (o1 self).xid < 0) ∧
      ∃ o2, LookupNode.compute tables o1 self = some o2 ∧
        (0 ≤ (o1 self).xid →
          (o2 self).val.dim = (tables (objs self).param).E.val.col ∧
          ∀ j, j < (tables (objs self).param).E.val.col →
            (o2 self).val.get? j
              = (tables (objs self).param).E.val.get? (o1 self).xid.toNat j) ∧
        ((o1 self).xid < 0 →
          (o2 self).val.v = List.replicate (objs self).val.dim 0) := by
  refine ⟨_, _, by simp only [LookupNode.forward, hp, if_false]; rfl, ?_, ?_, ?_, ?_⟩
  · intro h
    simp only [Function.update_same]
    rw [if_neg (fun hc => absurd hc.1 (not_lt.mpr h))]
  · intro h1 h2
    simp only [Function.update_same]
    rw [if_pos ⟨h1, h2⟩]
  · intro h1 h2
    simp only [Function.update_same]
    rw [if_neg (fun hc => absurd hc.2 (not_le.mpr h2))]
    exact h1
  · simp only [LookupNode.compute, Function.update_same]
    by_cases hx : 0 ≤ (if (tables (objs self).param).elems.from_string tok < 0 ∧
        0 ≤ (tables (objs self).param).nUNKId then (tables (objs self).param).nUNKId
        else (tables (objs self).param).elems.from_string tok)
    · have hr : (if (tables (objs self).param).elems.from_string tok < 0 ∧
          0 ≤ (tables (objs self).param).nUNKId then (tables (objs self).param).nUNKId
          else (tables (objs self).param).elems.from_string tok).toNat
          < (tables (objs self).param).E.val.row := by
        have := hid tok
        split_ifs <;> omega
      rw [if_pos hx, SparseParam_value_spec _ _ _ hw hx hr hdim]
      refine ⟨_, rfl, ?_, ?_⟩
      · intro _
        refine ⟨?_, ?_⟩
        · simp [Tensor1D.dim]
        · intro j hj
          rw [Tensor2D_get_entry _ _ _ hw hr hj]
          simp [Tensor1D.get?, Tensor1D.dim, hj]
      · intro hneg
        exact absurd hx (not_le.mpr hneg)
    · rw [if_neg hx]
      refine ⟨_, rfl, ?_, ?_⟩
      · intro h; exact absurd h hx
      · intro _
        simp [Tensor1D.zero]

theorem C12_lookup_forward_compute_witness :
    ∃ o1 g1, LookupNode.forward (fun _ => exTableUnk) exLookupObjs [] 1 "zzz" = some (o1, g1) ∧
      (0 ≤ exTableUnk.elems.from_string "zzz" →
        (o1 1).xid = exTableUnk.elems.from_string "zzz") ∧
      (exTableUnk.elems.from_string "zzz" < 0 → 0 ≤ exTableUnk.nUNKId →
        (o1 1).xid = exTableUnk.nUNKId) ∧
      (exTableUnk.elems.from_string "zzz" < 0 → exTableUnk.nUNKId < 0 → (o1 1).xid < 0) ∧
      ∃ o2, LookupNode.compute (fun _ => exTableUnk) o1 1 = some o2 ∧
        (0 ≤ (o1 1).xid →
          (o2 1).val.dim = exTableUnk.E.val.col ∧
          ∀ j, j < exTableUnk.E.val.col →
            (o2 1).val.get? j = exTableUnk.E.val.get? (o1 1).xid.toNat j) ∧
        ((o1 1).xid < 0 → (o2 1).val.v = List.replicate (exLookupObjs 1).val.dim 0) :=
  C12_lookup_forward_compute (fun _ => exTableUnk) exLookupObjs [] 1 "zzz"
    (by decide)
    (SparseParam_initial_WF exEnv 0 SparseParam.new 1 4).1.1
    (by simp [exLookupObjs, exLookup, exNode, Node.init, Tensor1D.init, Tensor1D.dim, exTableUnk,
      (SparseParam_initial_WF exEnv 0 SparseParam.new 1 4).2.2])
    (by
      intro s
      simp only [exTableUnk, (SparseParam_initial_WF exEnv 0 SparseParam.new 1 4).2.1,
        exAlphabet]
      split_ifs <;> decide)
    (by
      simp only [exTableUnk, (SparseParam_initial_WF exEnv 0 SparseParam.new 1 4).2.1]
      decide)

/-! ## The traversal of the touched rows of a `SparseParam` -/

theorem touchedRows_spec {σ γ : Type} (R C : Nat) (flags : List Bool) (hfl : flags.length = R)
    (Inv : Nat → σ → Prop) (obs : σ → Nat × Nat → γ) (cell : Nat → Nat → σ → Option σ)
    (post : Nat → σ → Option σ) (F : Nat × Nat → γ → γ) (body : Nat → σ → Option σ)
    (hbody : ∀ index s, index < R → Inv index s →
      body index s = (flags[index]?).bind fun touched =>
        if touched = false then some s else (forLoop C (cell index) s).bind (post index))
    (hcell : ∀ s r c, r < R → c < C → flags[r]? = some true → Inv r s →
      ∃ s1, cell r c s = some s1 ∧ Inv r s1 ∧
        ∀ x : Nat × Nat, x.2 < C → obs s1 x = if x = (r, c) then F x (obs s x) else obs s x)
    (hpost : ∀ s r, r < R → flags[r]? = some true → Inv r s →
      ∃ s1, post r s = some s1 ∧ Inv (r + 1) s1 ∧ ∀ x : Nat × Nat, x.2 < C → obs s1 x = obs s x)
    (hskip : ∀ s r, r < R → flags[r]? = some false → Inv r s → Inv (r + 1) s)
    (s0 : σ) (h0 : Inv 0 s0) :
    ∃ s1, forLoop R body s0 = some s1 ∧ Inv R s1 ∧
      ∀ x : Nat × Nat, x.2 < C →
        obs s1 x = if flags[x.1]? = some true then F x (obs s0 x) else obs s0 x := by
  obtain ⟨s1, h1, h2, h3⟩ := forLoop_pointwise R Inv (fun x : Nat × Nat => x.2 < C) obs
    (fun r x => x.1 = r ∧ flags[r]? = some true) body F
    (by rintro k1 k2 x ⟨h1, _⟩ ⟨h2, _⟩; omega)
    (by
      intro s r hr hI
      rw [hbody r s hr hI]
      have hlt : r < flags.length := by omega
      rw [List.getElem?_eq_getElem hlt]
      cases hb : flags[r] with
      | false =>
        have hfr : flags[r]? = some false := by rw [List.getElem?_eq_getElem hlt, hb]
        refine ⟨s, by simp, hskip s r hr hfr hI, ?_⟩
        intro x _
        refine ⟨fun hd => ?_, fun _ => rfl⟩
        have hd2 : flags[r]? = some true := hd.2
        rw [hfr] at hd2
        exact absurd hd2 (by simp)
      | true =>
        have hfr : flags[r]? = some true := by rw [List.getElem?_eq_getElem hlt, hb]
        obtain ⟨s1, hl1, hI1, ho1⟩ := forLoop_pointwise C (fun _ s => Inv r s)
          (fun x : Nat × Nat => x.2 < C) obs (fun c x => x = (r, c)) (cell r) F
          (by
            rintro k1 k2 x h1 h2
            rw [h1] at h2
            exact (Prod.mk.inj h2).2)
          (by
            intro s2 c hc hI2
            obtain ⟨s3, hc3, hI3, ho3⟩ := hcell s2 r c hr hc hfr hI2
            refine ⟨s3, hc3, hI3, ?_⟩
            intro x hx
            rw [ho3 x hx]
            exact ⟨fun hd => by rw [if_pos hd], fun hd => by rw [if_neg hd]⟩)
          s hI
        obtain ⟨s2, hp2, hI2, ho2⟩ := hpost s1 r hr hfr hI1
        refine ⟨s2, by simp [hl1, hp2], hI2, ?_⟩
        intro x hx
        rw [ho2 x hx]
        refine ⟨fun hd => ?_, fun hd => ?_⟩
        · exact (ho1 x hx).1 x.2 hx (by rw [← hd.1])
        · refine (ho1 x hx).2 (fun c _ hxc => hd ⟨?_, hfr⟩)
          rw [hxc])
    s0 h0
  refine ⟨s1, h1, h2, ?_⟩
  intro x hx
  by_cases hf : flags[x.1]? = some true
  · rw [if_pos hf]
    have hlt : x.1 < R := by
      rw [← hfl]
      by_contra hge
      rw [List.getElem?_eq_none (by omega)] at hf
      exact absurd hf (by simp)
    exact (h3 x hx).1 x.1 hlt ⟨rfl, hf⟩
  · rw [if_neg hf]
    refine (h3 x hx).2 (fun k _ hd => hf ?_)
    rw [hd.1]; exact hd.2

/-! ## `SparseParam::updateAdagrad` -/

theorem Tensor2D_set_get_entry {α : Type} [Zero α] (t : Tensor2D α) (r c : Nat) (a : α)
    (hw : t.WF) (hr : r < t.row) (hc : c < t.col) :
    ∃ t1, t.set? r c a = some t1 ∧ t1.WF ∧ t1.row = t.row ∧ t1.col = t.col ∧
      t1.get? r c = some a ∧
      ∀ r1 c1, c1 < t.col →
        t1.mat.entry r1 c1 = if r1 = r ∧ c1 = c then a else t.mat.entry r1 c1 := by
  obtain ⟨t1, h1, h2, h3, h4, h5⟩ := Tensor2D_set_entry t r c a hw hr hc
  refine ⟨t1, h1, h2, h3, h4, ?_, h5⟩
  rw [Tensor2D_get_entry t1 r c h2 (by omega) (by omega), h5 r c hc]
  simp

theorem SparseParam_adagradCell_spec {α : Type} [Field α] (env : Env α) (alpha reg eps : α)
    (r c : Nat) (q : SparseParam α) (hq : q.WF) (hr : r < q.val.row) (hc : c < q.val.col) :
    ∃ q1, SparseParam.adagradCell env alpha reg eps r c q = some q1 ∧ q1.WF ∧
      q1.val.row = q.val.row ∧ q1.val.col = q.val.col ∧ q1.indexers = q.indexers ∧
      q1.last_update = q.last_update ∧ q1.aux_mean = q.aux_mean ∧
      ∀ r1 c1, c1 < q.val.col →
        q1.grad.mat.entry r1 c1 = (if r1 = r ∧ c1 = c then
            q.grad.mat.entry r c + q.val.mat.entry r c * reg
          else q.grad.mat.entry r1 c1) ∧
        q1.aux_square.mat.entry r1 c1 = (if r1 = r ∧ c1 = c then
            q.aux_square.mat.entry r c + (q.grad.mat.entry r c + q.val.mat.entry r c * reg)
              * (q.grad.mat.entry r c + q.val.mat.entry r c * reg)
          else q.aux_square.mat.entry r1 c1) ∧
        q1.val.mat.entry r1 c1 = (if r1 = r ∧ c1 = c then
            q.val.mat.entry r c - (q.grad.mat.entry r c + q.val.mat.entry r c * reg) * alpha
              / env.sqrt (q.aux_square.mat.entry r c
                + (q.grad.mat.entry r c + q.val.mat.entry r c * reg)
                  * (q.grad.mat.entry r c + q.val.mat.entry r c * reg) + eps)
          else q.val.mat.entry r1 c1) := by
  obtain ⟨hv, hg, ha, hm, hgr, hgc, har, hac, hmr, hmc, hix, hlu⟩ := hq
  obtain ⟨g1, hg1, hg1w, hg1r, hg1c, hg1get, hg1e⟩ := Tensor2D_set_get_entry q.grad r c
    (q.grad.mat.entry r c + q.val.mat.entry r c * reg) hg (by omega) (by omega)
  obtain ⟨a1, ha1, ha1w, ha1r, ha1c, ha1get, ha1e⟩ := Tensor2D_set_get_entry q.aux_square r c
    (q.aux_square.mat.entry r c + (q.grad.mat.entry r c + q.val.mat.entry r c * reg)
      * (q.grad.mat.entry r c + q.val.mat.entry r c * reg)) ha (by omega) (by omega)
  obtain ⟨v1, hv1, hv1w, hv1r, hv1c, _, hv1e⟩ := Tensor2D_set_get_entry q.val r c
    (q.val.mat.entry r c - (q.grad.mat.entry r c + q.val.mat.entry r c * reg) * alpha
      / env.sqrt (q.aux_square.mat.entry r c
        + (q.grad.mat.entry r c + q.val.mat.entry r c * reg)
          * (q.grad.mat.entry r c + q.val.mat.entry r c * reg) + eps)) hv hr hc
  refine ⟨{ q with grad := g1, aux_square := a1, val := v1 }, ?_, ?_, hv1r, hv1c, rfl, rfl, rfl,
    ?_⟩
  · simp only [SparseParam.adagradCell,
      Tensor2D_get_entry q.grad r c hg (by omega) (by omega),
      Tensor2D_get_entry q.val r c hv hr hc,
      Tensor2D_get_entry q.aux_square r c ha (by omega) (by omega),
      Option.some_bind, hg1, hg1get, ha1, ha1get, hv1, Option.map_some']
  · refine ⟨hv1w, hg1w, ha1w, hm, ?_, ?_, ?_, ?_, ?_, ?_, ?_, ?_⟩ <;> dsimp only <;> omega
  · intro r1 c1 hc1
    exact ⟨hg1e r1 c1 (by omega), ha1e r1 c1 (by omega), hv1e r1 c1 hc1⟩

theorem SparseParam_updateAdagrad_spec {α : Type} [Field α] (env : Env α) (p : SparseParam α)
    (alpha reg eps : α) (hp : p.WF) :
    ∃ p1, p.updateAdagrad env alpha reg eps = some p1 ∧ p1.WF ∧
      p1.val.row = p.val.row ∧ p1.val.col = p.val.col ∧ p1.indexers = p.indexers ∧
      p1.last_update = p.last_update ∧ p1.aux_mean = p.aux_mean ∧
      ∀ r c, c < p.val.col →
        (p.indexers[r]? = some true →
          p1.grad.mat.entry r c = p.grad.mat.entry r c + p.val.mat.entry r c * reg ∧
          p1.aux_square.mat.entry r c =
            p.aux_square.mat.entry r c + (p.grad.mat.entry r c + p.val.mat.entry r c * reg)
              * (p.grad.mat.entry r c + p.val.mat.entry r c * reg) ∧
          p1.val.mat.entry r c =
            p.val.mat.entry r c - (p.grad.mat.entry r c + p.val.mat.entry r c * reg) * alpha
              / env.sqrt (p.aux_square.mat.entry r c
                + (p.grad.mat.entry r c + p.val.mat.entry r c * reg)
                  * (p.grad.mat.entry r c + p.val.mat.entry r c * reg) + eps)) ∧
        (p.indexers[r]? ≠ some true →
          p1.grad.mat.entry r c = p.grad.mat.entry r c ∧
          p1.aux_square.mat.entry r c = p.aux_square.mat.entry r c ∧
          p1.val.mat.entry r c = p.val.mat.entry r c) := by
  have hix : p.indexers.length = p.val.row := hp.2.2.2.2.2.2.2.2.2.2.1
  obtain ⟨p1, h1, ⟨hw1, hr1, hc1, hi1, hl1, hm1⟩, hobs⟩ := touchedRows_spec p.val.row p.val.col
    p.indexers hix
    (fun _ (q : SparseParam α) => q.WF ∧ q.val.row = p.val.row ∧ q.val.col = p.val.col ∧
      q.indexers = p.indexers ∧ q.last_update = p.last_update ∧ q.aux_mean = p.aux_mean)
    (fun (q : SparseParam α) (x : Nat × Nat) =>
      (q.grad.mat.entry x.1 x.2, q.aux_square.mat.entry x.1 x.2, q.val.mat.entry x.1 x.2))
    (SparseParam.adagradCell env alpha reg eps) (fun _ q => some q)
    (fun _ (y : α × α × α) =>
      (y.1 + y.2.2 * reg, y.2.1 + (y.1 + y.2.2 * reg) * (y.1 + y.2.2 * reg),
        y.2.2 - (y.1 + y.2.2 * reg) * alpha
          / env.sqrt (y.2.1 + (y.1 + y.2.2 * reg) * (y.1 + y.2.2 * reg) + eps)))
    (fun index (q : SparseParam α) =>
      (q.indexers[index]?).bind fun touched =>
      if touched = false then some q
      else forLoop q.grad.col (SparseParam.adagradCell env alpha reg eps index) q)
    (by
      rintro index q _ ⟨hw, _, hc, hi, _, _⟩
      have hgc : q.grad.col = p.val.col := by rw [hw.2.2.2.2.2.1, hc]
      simp only [hi, hgc, Option.bind_some])
    (by
      rintro q r c hr hc _ ⟨hw, hqr, hqc, hi, hl, hm⟩
      obtain ⟨q1, hq1, hw1, hr1, hc1, hi1, hl1, hm1, hent⟩ :=
        SparseParam_adagradCell_spec env alpha reg eps r c q hw (by omega) (by omega)
      refine ⟨q1, hq1, ⟨hw1, by omega, by omega, hi1.trans hi, hl1.trans hl, hm1.trans hm⟩, ?_⟩
      rintro ⟨r1, c1⟩ hx
      obtain ⟨e1, e2, e3⟩ := hent r1 c1 (by simpa [hqc] using hx)
      dsimp only
      rw [e1, e2, e3]
      by_cases hxy : r1 = r ∧ c1 = c
      · obtain ⟨rfl, rfl⟩ := hxy
        simp
      · have hne : ¬ ((r1, c1) = (r, c)) := fun h => hxy (Prod.mk.inj h)
        rw [if_neg hxy, if_neg hxy, if_neg hxy, if_neg hne])
    (by
      intro q r _ _ hI
      exact ⟨q, rfl, hI, fun _ _ => rfl⟩)
    (by intro q r _ _ hI; exact hI)
    p ⟨hp, rfl, rfl, rfl, rfl, rfl⟩
  refine ⟨p1, by rw [← h1, ← hix]; rfl, hw1, hr1, hc1, hi1, hl1, hm1, ?_⟩
  intro r c hc
  have ho := hobs (r, c) hc
  dsimp only at ho
  constructor
  · intro hf
    rw [if_pos hf] at ho
    exact ⟨(Prod.mk.inj ho).1, (Prod.mk.inj (Prod.mk.inj ho).2).1,
      (Prod.mk.inj (Prod.mk.inj ho).2).2⟩
  · intro hf
    rw [if_neg hf] at ho
    exact ⟨(Prod.mk.inj ho).1, (Prod.mk.inj (Prod.mk.inj ho).2).1,
      (Prod.mk.inj (Prod.mk.inj ho).2).2⟩

theorem exSparse_WF : exSparse.WF ∧ exSparseTouched.WF := by
  simp [SparseParam.WF, Tensor2D.WF, exSparse, exSparseTouched]

/-- C14. `SparseParam::updateAdagrad(alpha, reg, eps)` (CPU path) on a parameter of the shape
that `initial` gives returns, leaves the touched flags as they were, and for every cell `(i, j)`
of a row `i` whose flag is set, with `g`, `a`, `v` the cell of `grad`, `aux_square`, `val` before
the call, stores `g + v*reg` in `grad`, `a + (g + v*reg)^2` in `aux_square` and
`v - (g + v*reg)*alpha / sqrt(a + (g + v*reg)^2 + eps)` in `val`. -/
theorem C14_updateAdagrad_cells {α : Type} [Field α] (env : Env α) (p : SparseParam α)
    (alpha reg eps : α) (hp : p.WF) :
    ∃ p1, p.updateAdagrad env alpha reg eps = some p1 ∧ p1.indexers = p.indexers ∧
      ∀ i j, p.indexers[i]? = some true → j < p.val.col →
        ∃ g a v, p.grad.get? i j = some g ∧ p.aux_square.get? i j = some a ∧
          p.val.get? i j = some v ∧
          p1.grad.get? i j = some (g + v * reg) ∧
          p1.aux_square.get? i j = some (a + (g + v * reg) ^ 2) ∧
          p1.val.get? i j
            = some (v - (g + v * reg) * alpha / env.sqrt (a + (g + v * reg) ^ 2 + eps)) := by
  obtain ⟨p1, h1, hw1, hr1, hc1, hi1, _, _, hent⟩ :=
    SparseParam_updateAdagrad_spec env p alpha reg eps hp
  refine ⟨p1, h1, hi1, ?_⟩
  intro i j hf hj
  obtain ⟨hv, hg, ha, hm, hgr, hgc, har, hac, hmr, hmc, hix, hlu⟩ := hp
  obtain ⟨hv1, hg1, ha1, hm1, hgr1, hgc1, har1, hac1, hmr1, hmc1, hix1, hlu1⟩ := hw1
  have hi : i < p.val.row := by
    rw [← hix]
    by_contra hge
    rw [List.getElem?_eq_none (by omega)] at hf
    exact absurd hf (by simp)
  obtain ⟨e1, e2, e3⟩ := (hent i j hj).1 hf
  refine ⟨_, _, _, Tensor2D_get_entry _ i j hg (by omega) (by omega),
    Tensor2D_get_entry _ i j ha (by omega) (by omega), Tensor2D_get_entry _ i j hv hi hj, ?_, ?_,
    ?_⟩
  · rw [Tensor2D_get_entry _ i j hg1 (by omega) (by omega), e1]
  · rw [Tensor2D_get_entry _ i j ha1 (by omega) (by omega), e2, pow_two]
  · rw [Tensor2D_get_entry _ i j hv1 (by omega) (by omega), e3, pow_two]

theorem C14_updateAdagrad_cells_witness :
    ∃ p1, exSparseTouched.updateAdagrad exEnv 1 1 1 = some p1 ∧
      p1.indexers = exSparseTouched.indexers ∧
      ∀ i j, exSparseTouched.indexers[i]? = some true → j < exSparseTouched.val.col →
        ∃ g a v, exSparseTouched.grad.get? i j = some g ∧
          exSparseTouched.aux_square.get? i j = some a ∧
          exSparseTouched.val.get? i j = some v ∧
          p1.grad.get? i j = some (g + v * 1) ∧
          p1.aux_square.get? i j = some (a + (g + v * 1) ^ 2) ∧
          p1.val.get? i j
            = some (v - (g + v * 1) * 1 / exEnv.sqrt (a + (g + v * 1) ^ 2 + 1)) :=
  C14_updateAdagrad_cells exEnv exSparseTouched 1 1 1 exSparse_WF.2

/-! ## `SparseParam::updateAdam` -/

theorem SparseParam_adamCell_spec {α : Type} [Field α] (env : Env α)
    (belta1 belta2 alpha reg eps : α) (r c : Nat) (q : SparseParam α) (hq : q.WF)
    (hr : r < q.val.row) (hc : c < q.val.col) :
    ∃ q1, SparseParam.adamCell env belta1 belta2 alpha reg eps r c q = some q1 ∧ q1.WF ∧
      q1.val.row = q.val.row ∧ q1.val.col = q.val.col ∧ q1.indexers = q.indexers ∧
      q1.last_update = q.last_update ∧
      ∀ r1 c1, c1 < q.val.col →
        q1.grad.mat.entry r1 c1 = (if r1 = r ∧ c1 = c then
            q.grad.mat.entry r c + q.val.mat.entry r c * reg
          else q.grad.mat.entry r1 c1) ∧
        q1.aux_mean.mat.entry r1 c1 = (if r1 = r ∧ c1 = c then
            belta1 * q.aux_mean.mat.entry r c
              + (1 - belta1) * (q.grad.mat.entry r c + q.val.mat.entry r c * reg)
          else q.aux_mean.mat.entry r1 c1) ∧
        q1.aux_square.mat.entry r1 c1 = (if r1 = r ∧ c1 = c then
            belta2 * q.aux_square.mat.entry r c
              + (1 - belta2) * (q.grad.mat.entry r c + q.val.mat.entry r c * reg)
                * (q.grad.mat.entry r c + q.val.mat.entry r c * reg)
          else q.aux_square.mat.entry r1 c1) ∧
        q1.val.mat.entry r1 c1 = (if r1 = r ∧ c1 = c then
            q.val.mat.entry r c
              - (belta1 * q.aux_mean.mat.entry r c
                  + (1 - belta1) * (q.grad.mat.entry r c + q.val.mat.entry r c * reg))
                * (alpha * env.sqrt (1 - belta2 ^ (q.last_update.getD r 0 + 1))
                  / (1 - belta1 ^ (q.last_update.getD r 0 + 1)))
                / env.sqrt (belta2 * q.aux_square.mat.entry r c
                  + (1 - belta2) * (q.grad.mat.entry r c + q.val.mat.entry r c * reg)
                    * (q.grad.mat.entry r c + q.val.mat.entry r c * reg) + eps)
          else q.val.mat.entry r1 c1) := by
  obtain ⟨hv, hg, ha, hm, hgr, hgc, har, hac, hmr, hmc, hix, hlu⟩ := hq
  obtain ⟨g1, hg1, hg1w, hg1r, hg1c, hg1get, hg1e⟩ := Tensor2D_set_get_entry q.grad r c
    (q.grad.mat.entry r c + q.val.mat.entry r c * reg) hg (by omega) (by omega)
  obtain ⟨m1, hm1, hm1w, hm1r, hm1c, hm1get, hm1e⟩ := Tensor2D_set_get_entry q.aux_mean r c
    (belta1 * q.aux_mean.mat.entry r c
      + (1 - belta1) * (q.grad.mat.entry r c + q.val.mat.entry r c * reg)) hm
    (by omega) (by omega)
  obtain ⟨a1, ha1, ha1w, ha1r, ha1c, ha1get, ha1e⟩ := Tensor2D_set_get_entry q.aux_square r c
    (belta2 * q.aux_square.mat.entry r c
      + (1 - belta2) * (q.grad.mat.entry r c + q.val.mat.entry r c * reg)
        * (q.grad.mat.entry r c + q.val.mat.entry r c * reg)) ha (by omega) (by omega)
  obtain ⟨v1, hv1, hv1w, hv1r, hv1c, _, hv1e⟩ := Tensor2D_set_get_entry q.val r c
    (q.val.mat.entry r c
      - (belta1 * q.aux_mean.mat.entry r c
          + (1 - belta1) * (q.grad.mat.entry r c + q.val.mat.entry r c * reg))
        * (alpha * env.sqrt (1 - belta2 ^ (q.last_update.getD r 0 + 1))
          / (1 - belta1 ^ (q.last_update.getD r 0 + 1)))
        / env.sqrt (belta2 * q.aux_square.mat.entry r c
          + (1 - belta2) * (q.grad.mat.entry r c + q.val.mat.entry r c * reg)
            * (q.grad.mat.entry r c + q.val.mat.entry r c * reg) + eps)) hv hr hc
  have hlu1 : q.last_update[r]? = some (q.last_update.getD r 0) :=
    getElem?_eq_some_getD q.last_update r (by omega)
  refine ⟨{ q with grad := g1, aux_mean := m1, aux_square := a1, val := v1 }, ?_, ?_, hv1r, hv1c,
    rfl, rfl, ?_⟩
  · simp only [SparseParam.adamCell,
      Tensor2D_get_entry q.grad r c hg (by omega) (by omega),
      Tensor2D_get_entry q.val r c hv hr hc,
      Tensor2D_get_entry q.aux_mean r c hm (by omega) (by omega),
      Tensor2D_get_entry q.aux_square r c ha (by omega) (by omega),
      Option.some_bind, hg1, hg1get, hm1, hm1get, ha1, ha1get, hlu1, hv1, Option.map_some']
  · refine ⟨hv1w, hg1w, ha1w, hm1w, ?_, ?_, ?_, ?_, ?_, ?_, ?_, ?_⟩ <;> dsimp only <;> omega
  · intro r1 c1 hc1
    exact ⟨hg1e r1 c1 (by omega), hm1e r1 c1 (by omega), ha1e r1 c1 (by omega),
      hv1e r1 c1 hc1⟩

theorem SparseParam_updateAdam_spec {α : Type} [Field α] (env : Env α) (p : SparseParam α)
    (belta1 belta2 alpha reg eps : α) (hp : p.WF) :
    ∃ p1, p.updateAdam env belta1 belta2 alpha reg eps = some p1 ∧ p1.WF ∧
      p1.val.row = p.val.row ∧ p1.val.col = p.val.col ∧ p1.indexers = p.indexers ∧
      (∀ k, p1.last_update.getD k 0 =
        if p.indexers[k]? = some true then p.last_update.getD k 0 + 1
        else p.last_update.getD k 0) ∧
      ∀ r c, c < p.val.col →
        (p.indexers[r]? = some true →
          p1.grad.mat.entry r c = p.grad.mat.entry r c + p.val.mat.entry r c * reg ∧
          p1.aux_mean.mat.entry r c =
            belta1 * p.aux_mean.mat.entry r c
              + (1 - belta1) * (p.grad.mat.entry r c + p.val.mat.entry r c * reg) ∧
          p1.aux_square.mat.entry r c =
            belta2 * p.aux_square.mat.entry r c
              + (1 - belta2) * (p.grad.mat.entry r c + p.val.mat.entry r c * reg)
                * (p.grad.mat.entry r c + p.val.mat.entry r c * reg) ∧
          p1.val.mat.entry r c =
            p.val.mat.entry r c
              - (belta1 * p.aux_mean.mat.entry r c
                  + (1 - belta1) * (p.grad.mat.entry r c + p.val.mat.entry r c * reg))
                * (alpha * env.sqrt (1 - belta2 ^ (p.last_update.getD r 0 + 1))
                  / (1 - belta1 ^ (p.last_update.getD r 0 + 1)))
                / env.sqrt (belta2 * p.aux_square.mat.entry r c
                  + (1 - belta2) * (p.grad.mat.entry r c + p.val.mat.entry r c * reg)
                    * (p.grad.mat.entry r c + p.val.mat.entry r c * reg) + eps)) ∧
        (p.indexers[r]? ≠ some true →
          p1.grad.mat.entry r c = p.grad.mat.entry r c ∧
          p1.aux_mean.mat.entry r c = p.aux_mean.mat.entry r c ∧
          p1.aux_square.mat.entry r c = p.aux_square.mat.entry r c ∧
          p1.val.mat.entry r c = p.val.mat.entry r c) := by
  have hix : p.indexers.length = p.val.row := hp.2.2.2.2.2.2.2.2.2.2.1
  obtain ⟨p1, h1, ⟨hw1, hr1, hc1, hi1, hl1⟩, hobs⟩ := touchedRows_spec p.val.row p.val.col
    p.indexers hix
    (fun i (q : SparseParam α) => q.WF ∧ q.val.row = p.val.row ∧ q.val.col = p.val.col ∧
      q.indexers = p.indexers ∧
      ∀ k, q.last_update.getD k 0 =
        if k < i ∧ p.indexers[k]? = some true then p.last_update.getD k 0 + 1
        else p.last_update.getD k 0)
    (fun (q : SparseParam α) (x : Nat × Nat) =>
      (q.grad.mat.entry x.1 x.2, q.aux_mean.mat.entry x.1 x.2, q.aux_square.mat.entry x.1 x.2,
        q.val.mat.entry x.1 x.2))
    (SparseParam.adamCell env belta1 belta2 alpha reg eps)
    (fun index (q1 : SparseParam α) => (q1.last_update[index]?).map fun t =>
        { q1 with last_update := q1.last_update.set index (t + 1) })
    (fun (x : Nat × Nat) (y : α × α × α × α) =>
      (y.1 + y.2.2.2 * reg,
        belta1 * y.2.1 + (1 - belta1) * (y.1 + y.2.2.2 * reg),
        belta2 * y.2.2.1 + (1 - belta2) * (y.1 + y.2.2.2 * reg) * (y.1 + y.2.2.2 * reg),
        y.2.2.2 - (belta1 * y.2.1 + (1 - belta1) * (y.1 + y.2.2.2 * reg))
          * (alpha * env.sqrt (1 - belta2 ^ (p.last_update.getD x.1 0 + 1))
            / (1 - belta1 ^ (p.last_update.getD x.1 0 + 1)))
          / env.sqrt (belta2 * y.2.2.1
            + (1 - belta2) * (y.1 + y.2.2.2 * reg) * (y.1 + y.2.2.2 * reg) + eps)))
    (fun index (q : SparseParam α) =>
      (q.indexers[index]?).bind fun touched =>
      if touched = false then some q
      else
        (forLoop q.grad.col (SparseParam.adamCell env belta1 belta2 alpha reg eps index) q).bind
          fun q1 =>
        (q1.last_update[index]?).map fun t =>
          { q1 with last_update := q1.last_update.set index (t + 1) })
    (by
      rintro index q _ ⟨hw, _, hc, hi, _⟩
      have hgc : q.grad.col = p.val.col := by rw [hw.2.2.2.2.2.1, hc]
      simp only [hi, hgc])
    (by
      rintro q r c hr hc _ ⟨hw, hqr, hqc, hi, hl⟩
      obtain ⟨q1, hq1, hw1, hr1, hc1, hi1, hl1, hent⟩ :=
        SparseParam_adamCell_spec env belta1 belta2 alpha reg eps r c q hw (by omega) (by omega)
      refine ⟨q1, hq1, ⟨hw1, by omega, by omega, hi1.trans hi, by rw [hl1]; exact hl⟩, ?_⟩
      rintro ⟨r1, c1⟩ hx
      obtain ⟨e1, e2, e3, e4⟩ := hent r1 c1 (by simpa [hqc] using hx)
      have hlr : q.last_update.getD r 0 = p.last_update.getD r 0 := by
        rw [hl r, if_neg (fun h => absurd h.1 (lt_irrefl r))]
      dsimp only
      rw [e1, e2, e3, e4, hlr]
      by_cases hxy : r1 = r ∧ c1 = c
      · obtain ⟨rfl, rfl⟩ := hxy
        simp
      · have hne : ¬ ((r1, c1) = (r, c)) := fun h => hxy (Prod.mk.inj h)
        rw [if_neg hxy, if_neg hxy, if_neg hxy, if_neg hxy, if_neg hne])
    (by
      rintro q r hr hf ⟨hw, hqr, hqc, hi, hl⟩
      have hlen : q.last_update.length = q.val.row := hw.2.2.2.2.2.2.2.2.2.2.2
      have hlt : r < q.last_update.length := by omega
      refine ⟨{ q with last_update := q.last_update.set r (q.last_update.getD r 0 + 1) }, ?_,
        ⟨?_, hqr, hqc, hi, ?_⟩, fun _ _ => rfl⟩
      · simp only [getElem?_eq_some_getD q.last_update r hlt, Option.map_some']
      · obtain ⟨w1, w2, w3, w4, w5, w6, w7, w8, w9, w10, w11, w12⟩ := hw
        exact ⟨w1, w2, w3, w4, w5, w6, w7, w8, w9, w10, w11, by simpa using w12⟩
      · intro k
        dsimp only
        by_cases hk : k = r
        · subst hk
          rw [if_pos ⟨Nat.lt_succ_self k, hf⟩, hl k,
            if_neg (fun h => absurd h.1 (lt_irrefl k))]
          simp [List.getD_eq_getElem?_getD, List.getElem?_set, hlt]
        · have hset : (q.last_update.set r (q.last_update.getD r 0 + 1)).getD k 0
              = q.last_update.getD k 0 := by
            simp [List.getD_eq_getElem?_getD, List.getElem?_set, Ne.symm hk]
          rw [hset, hl k]
          by_cases hkr : k < r
          · have : k < r + 1 := by omega
            simp [hkr, this]
          · have : ¬ k < r + 1 := by omega
            simp [hkr, this])
    (by
      rintro q r hr hf ⟨hw, hqr, hqc, hi, hl⟩
      refine ⟨hw, hqr, hqc, hi, ?_⟩
      intro k
      rw [hl k]
      by_cases hk : k = r
      · subst hk
        simp [hf]
      · by_cases hkr : k < r
        · have : k < r + 1 := by omega
          simp [hkr, this]
        · have : ¬ k < r + 1 := by omega
          simp [hkr, this])
    p ⟨hp, rfl, rfl, rfl, fun k => by simp⟩
  refine ⟨p1, by rw [← h1, ← hix]; rfl, hw1, hr1, hc1, hi1, ?_, ?_⟩
  · intro k
    rw [hl1 k]
    by_cases hf : p.indexers[k]? = some true
    · have hk : k < p.val.row := by
        rw [← hix]
        by_contra hge
        rw [List.getElem?_eq_none (by omega)] at hf
        exact absurd hf (by simp)
      simp [hf, hk]
    · simp [hf]
  · intro r c hc
    have ho := hobs (r, c) hc
    dsimp only at ho
    constructor
    · intro hf
      rw [if_pos hf] at ho
      exact ⟨(Prod.mk.inj ho).1, (Prod.mk.inj (Prod.mk.inj ho).2).1,
        (Prod.mk.inj (Prod.mk.inj (Prod.mk.inj ho).2).2).1,
        (Prod.mk.inj (Prod.mk.inj (Prod.mk.inj ho).2).2).2⟩
    · intro hf
      rw [if_neg hf] at ho
      exact ⟨(Prod.mk.inj ho).1, (Prod.mk.inj (Prod.mk.inj ho).2).1,
        (Prod.mk.inj (Prod.mk.inj (Prod.mk.inj ho).2).2).1,
        (Prod.mk.inj (Prod.mk.inj (Prod.mk.inj ho).2).2).2⟩

/-! ## Runs of `loss` calls and the rows an update leaves alone -/

theorem SparseParam_lossAll_spec {α : Type} [Add α] [Zero α]
    (ls : List (Int × Tensor1D α)) (p : SparseParam α) (hp : p.WF)
    (hls : ∀ x ∈ ls, 0 ≤ x.1 ∧ x.1.toNat < p.val.row ∧ p.val.col ≤ x.2.dim) :
    ∃ p1, p.lossAll ls = some p1 ∧ p1.WF ∧ p1.val = p.val ∧
      p1.aux_square = p.aux_square ∧ p1.aux_mean = p.aux_mean ∧
      p1.last_update = p.last_update ∧
      (∀ r : Nat, (∀ x ∈ ls, x.1.toNat ≠ r) →
        p1.indexers[r]? = p.indexers[r]? ∧
        ∀ c, c < p.val.col → p1.grad.mat.entry r c = p.grad.mat.entry r c) ∧
      (∀ x ∈ ls, p1.indexers[x.1.toNat]? = some true) ∧
      (∀ r : Nat, p.indexers[r]? = some true → p1.indexers[r]? = some true) := by
  induction ls generalizing p with
  | nil =>
    exact ⟨p, rfl, hp, rfl, rfl, rfl, rfl, fun r _ => ⟨rfl, fun _ _ => rfl⟩,
      fun x hx => absurd hx (List.not_mem_nil x), fun _ h => h⟩
  | cons y rest ih =>
    obtain ⟨featId, l⟩ := y
    obtain ⟨h0, hf, hl⟩ := hls (featId, l) (List.mem_cons_self _ _)
    obtain ⟨p1, hp1, hw1, hv1, ha1, hm1, hl1, hi1, hg1⟩ :=
      SparseParam_loss_spec p featId l hp h0 hf hl
    have hlen : p.indexers.length = p.val.row := hp.2.2.2.2.2.2.2.2.2.2.1
    obtain ⟨p2, hp2, hw2, hv2, ha2, hm2, hl2, hfr2, hin2, hmono2⟩ := ih p1 hw1
      (by
        intro x hx
        rw [hv1]
        exact hls x (List.mem_cons_of_mem _ hx))
    refine ⟨p2, ?_, hw2, hv2.trans hv1, ha2.trans ha1, hm2.trans hm1, hl2.trans hl1, ?_, ?_, ?_⟩
    · simp only [SparseParam.lossAll, hp1, Option.some_bind, hp2]
    · intro r hr
      have hne : featId.toNat ≠ r := hr (featId, l) (List.mem_cons_self _ _)
      obtain ⟨e1, e2⟩ := hfr2 r (fun x hx => hr x (List.mem_cons_of_mem _ hx))
      refine ⟨?_, ?_⟩
      · rw [e1, hi1, List.getElem?_set_ne hne]
      · intro c hc
        rw [e2 c (by rw [hv1]; exact hc), hg1 r c hc, if_neg (Ne.symm hne)]
    · intro x hx
      rcases List.mem_cons.mp hx with rfl | hx
      · apply hmono2
        rw [hi1]
        simp only at hf ⊢
        rw [List.getElem?_set_self (by omega)]
      · exact hin2 x hx
    · intro r hr
      apply hmono2
      rw [hi1]
      by_cases hne : featId.toNat = r
      · subst hne
        rw [List.getElem?_set_self (by omega)]
      · rw [List.getElem?_set_ne hne]
        exact hr

theorem Tensor2D_get_congr {α : Type} [Zero α] (t1 t : Tensor2D α) (r c : Nat) (hw1 : t1.WF)
    (hw : t.WF) (hrow : t1.row = t.row) (hcol : t1.col = t.col) (hr : r < t.row)
    (hc : c < t.col) (he : t1.mat.entry r c = t.mat.entry r c) : t1.get? r c = t.get? r c := by
  rw [Tensor2D_get_entry t1 r c hw1 (by omega) (by omega), Tensor2D_get_entry t r c hw hr hc, he]

theorem exSparse_clear (i : Nat) : exSparse.indexers[i]? ≠ some true := by
  match i with
  | 0 => decide
  | 1 => decide
  | (n + 2) => simp [exSparse]

theorem SparseParam_clearGrad_spec {α : Type} [Zero α] (p : SparseParam α) (hp : p.WF) :
    ∃ p1, p.clearGrad = some p1 ∧ p1.WF ∧ p1.val = p.val ∧ p1.aux_square = p.aux_square ∧
      p1.aux_mean = p.aux_mean ∧ p1.last_update = p.last_update ∧
      p1.indexers = List.replicate p.indexers.length false ∧
      ∀ r c, c < p.val.col →
        p1.grad.mat.entry r c = if p.indexers[r]? = some true then 0 else p.grad.mat.entry r c := by
  obtain ⟨hv, hg, ha, hm, hgr, hgc, har, hac, hmr, hmc, hix, hlu⟩ := hp
  obtain ⟨g1, h1, ⟨hw1, hr1, hc1⟩, hobs⟩ := touchedRows_spec p.val.row p.val.col
    p.indexers hix
    (fun _ (g : Tensor2D α) => g.WF ∧ g.row = p.val.row ∧ g.col = p.val.col)
    (fun (g : Tensor2D α) (x : Nat × Nat) => g.mat.entry x.1 x.2)
    (fun index idx (g1 : Tensor2D α) => g1.set? index idx 0) (fun _ g => some g)
    (fun _ _ => (0 : α))
    (fun index (g : Tensor2D α) =>
      (p.indexers[index]?).bind fun touched =>
      if touched = false then some g
      else forLoop g.col (fun idx (g1 : Tensor2D α) => g1.set? index idx 0) g)
    (by
      rintro index g _ ⟨_, _, hc⟩
      simp only [hc, Option.bind_some])
    (by
      rintro g r c hr hc _ ⟨hw, hgr1, hgc1⟩
      obtain ⟨g2, hset, hw2, hr2, hc2, hent⟩ :=
        Tensor2D_set_entry g r c 0 hw (by omega) (by omega)
      refine ⟨g2, hset, ⟨hw2, by omega, by omega⟩, ?_⟩
      rintro ⟨r1, c1⟩ hx
      dsimp only
      rw [hent r1 c1 (by simpa [hgc1] using hx)]
      by_cases hxy : r1 = r ∧ c1 = c
      · obtain ⟨rfl, rfl⟩ := hxy
        simp
      · have hne : ¬ ((r1, c1) = (r, c)) := fun h => hxy (Prod.mk.inj h)
        rw [if_neg hxy, if_neg hne])
    (by intro g r _ _ hI; exact ⟨g, rfl, hI, fun _ _ => rfl⟩)
    (by intro g r _ _ hI; exact hI)
    p.grad ⟨hg, hgr, hgc⟩
  refine ⟨{ p with grad := g1, indexers := List.replicate p.indexers.length false }, ?_, ?_,
    rfl, rfl, rfl, rfl, rfl, ?_⟩
  · simp only [SparseParam.clearGrad, hix, h1, Option.map_some']
  · exact ⟨hv, hw1, ha, hm, hr1, hc1, har, hac, hmr, hmc, by simpa using hix, hlu⟩
  · intro r c hc
    exact hobs (r, c) hc

theorem SparseParam_rescaleGrad_spec {α : Type} [Mul α] [Zero α] (p : SparseParam α)
    (scale : α) (hp : p.WF) :
    ∃ p1, p.rescaleGrad scale = some p1 ∧ p1.WF ∧ p1.val = p.val ∧
      p1.aux_square = p.aux_square ∧ p1.aux_mean = p.aux_mean ∧
      p1.last_update = p.last_update ∧ p1.indexers = p.indexers ∧
      ∀ r c, c < p.val.col →
        p1.grad.mat.entry r c =
          if p.indexers[r]? = some true then p.grad.mat.entry r c * scale
          else p.grad.mat.entry r c := by
  obtain ⟨hv, hg, ha, hm, hgr, hgc, har, hac, hmr, hmc, hix, hlu⟩ := hp
  obtain ⟨g1, h1, ⟨hw1, hr1, hc1⟩, hobs⟩ := touchedRows_spec p.val.row p.val.col
    p.indexers hix
    (fun _ (g : Tensor2D α) => g.WF ∧ g.row = p.val.row ∧ g.col = p.val.col)
    (fun (g : Tensor2D α) (x : Nat × Nat) => g.mat.entry x.1 x.2)
    (fun index idx (g1 : Tensor2D α) =>
      (g1.get? index idx).bind fun g0 => g1.set? index idx (g0 * scale))
    (fun _ g => some g)
    (fun _ y => y * scale)
    (fun index (g : Tensor2D α) =>
      (p.indexers[index]?).bind fun touched =>
      if touched = false then some g
      else
        forLoop p.val.col (fun idx (g1 : Tensor2D α) =>
          (g1.get? index idx).bind fun g0 => g1.set? index idx (g0 * scale)) g)
    (by
      rintro index g _ _
      simp only [Option.bind_some])
    (by
      rintro g r c hr hc _ ⟨hw, hgr1, hgc1⟩
      obtain ⟨g2, hset, hw2, hr2, hc2, hent⟩ :=
        Tensor2D_set_entry g r c (g.mat.entry r c * scale) hw (by omega) (by omega)
      refine ⟨g2, ?_, ⟨hw2, by omega, by omega⟩, ?_⟩
      · simp only [Tensor2D_get_entry g r c hw (by omega) (by omega), Option.some_bind, hset]
      · rintro ⟨r1, c1⟩ hx
        dsimp only
        rw [hent r1 c1 (by simpa [hgc1] using hx)]
        by_cases hxy : r1 = r ∧ c1 = c
        · obtain ⟨rfl, rfl⟩ := hxy
          simp
        · have hne : ¬ ((r1, c1) = (r, c)) := fun h => hxy (Prod.mk.inj h)
          rw [if_neg hxy, if_neg hne])
    (by intro g r _ _ hI; exact ⟨g, rfl, hI, fun _ _ => rfl⟩)
    (by intro g r _ _ hI; exact hI)
    p.grad ⟨hg, hgr, hgc⟩
  refine ⟨{ p with grad := g1 }, ?_, ?_, rfl, rfl, rfl, rfl, rfl, ?_⟩
  · simp only [SparseParam.rescaleGrad, hix, h1, Option.map_some']
  · exact ⟨hv, hw1, ha, hm, hr1, hc1, har, hac, hmr, hmc, hix, hlu⟩
  · intro r c hc
    exact hobs (r, c) hc

theorem forLoop_sum {α : Type} [AddCommMonoid α] (n : Nat) (f : Nat → α → Option α)
    (a : Nat → α) (h : ∀ i s, i < n → f i s = some (s + a i)) (s0 : α) :
    forLoop n f s0 = some (s0 + ((List.range n).map a).sum) := by
  induction n with
  | zero => simp [forLoop]
  | succ k ih =>
    rw [forLoop, ih (fun i s hi => h i s (Nat.lt_succ_of_lt hi)), Option.some_bind,
      h k _ (Nat.lt_succ_self k), List.range_succ, List.map_append, List.sum_append]
    simp [add_assoc]

theorem List_sum_filter_map {α : Type} [AddCommMonoid α] (l : List Nat) (q : Nat → Bool)
    (f : Nat → α) :
    ((l.filter q).map f).sum = (l.map (fun i => if q i = true then f i else 0)).sum := by
  induction l with
  | nil => simp
  | cons x xs ih =>
    by_cases hq : q x = true
    · simp [List.filter_cons, hq, ih]
    · simp [List.filter_cons, hq, ih]

theorem SparseParam_squareGradNorm_spec {α : Type} [Semiring α] (p : SparseParam α)
    (hp : p.WF) : p.squareGradNorm = some p.specSquareGradNorm := by
  obtain ⟨hv, hg, ha, hm, hgr, hgc, har, hac, hmr, hmc, hix, hlu⟩ := hp
  unfold SparseParam.squareGradNorm SparseParam.specSquareGradNorm
  rw [List_sum_filter_map]
  rw [forLoop_sum p.indexers.length _
    (fun i => if p.indexers.getD i false = true then
      ((List.range p.val.col).map (fun j => p.grad.mat.entry i j ^ 2)).sum else 0)]
  · simp
  · intro i s hi
    rw [List.getElem?_eq_getElem hi, Option.some_bind]
    have hgd : p.indexers.getD i false = p.indexers[i] := by
      simp [List.getD_eq_getElem?_getD, List.getElem?_eq_getElem hi]
    rw [hgd]
    cases hb : p.indexers[i] with
    | false => simp
    | true =>
      simp only [Bool.true_eq_false, if_false, if_true]
      apply forLoop_sum
      intro j s1 hj
      rw [Tensor2D_get_entry p.grad i j hg (by omega) (by omega), Option.map_some', pow_two]

theorem List_getElem?_true_lt (l : List Bool) (i : Nat) (b : Bool) (h : l[i]? = some b) :
    i < l.length := by
  by_contra hge
  rw [List.getElem?_eq_none (by omega)] at h
  exact absurd h (by simp)

/-- C16. `SparseParam::clearGrad()` (CPU path) on a parameter of the shape that `initial` gives
returns; afterwards every touched flag is false, every gradient cell of a row whose flag was set
is 0, every gradient cell of a row whose flag was clear is unchanged, and `val`, `aux_square`,
`aux_mean` and `last_update` are unchanged. -/
theorem C16_clearGrad {α : Type} [Zero α] (p : SparseParam α) (hp : p.WF) :
    ∃ p1, p.clearGrad = some p1 ∧ p1.indexers.length = p.indexers.length ∧
      (∀ b ∈ p1.indexers, b = false) ∧
      (∀ i j, p.indexers[i]? = some true → j < p.val.col → p1.grad.get? i j = some 0) ∧
      (∀ i j, p.indexers[i]? = some false → j < p.val.col →
        p1.grad.get? i j = p.grad.get? i j) ∧
      p1.val = p.val ∧ p1.aux_square = p.aux_square ∧ p1.aux_mean = p.aux_mean ∧
      p1.last_update = p.last_update := by
  obtain ⟨p1, h1, hw1, hv1, ha1, hm1, hl1, hi1, hent⟩ := SparseParam_clearGrad_spec p hp
  obtain ⟨hv, hg, ha, hm, hgr, hgc, har, hac, hmr, hmc, hix, hlu⟩ := hp
  have hg1 : p1.grad.WF := hw1.2.1
  have hg1r : p1.grad.row = p.val.row := by rw [hw1.2.2.2.2.1, hv1]
  have hg1c : p1.grad.col = p.val.col := by rw [hw1.2.2.2.2.2.1, hv1]
  refine ⟨p1, h1, by rw [hi1, List.length_replicate], ?_, ?_, ?_, hv1, ha1, hm1, hl1⟩
  · intro b hb
    rw [hi1] at hb
    exact (List.mem_replicate.mp hb).2
  · intro i j hf hj
    have hi : i < p.val.row := by rw [← hix]; exact List_getElem?_true_lt _ _ _ hf
    rw [Tensor2D_get_entry p1.grad i j hg1 (by rw [hg1r]; exact hi) (by rw [hg1c]; exact hj),
      hent i j hj, if_pos hf]
  · intro i j hf hj
    have hi : i < p.val.row := by rw [← hix]; exact List_getElem?_true_lt _ _ _ hf
    apply Tensor2D_get_congr _ _ i j hg1 hg (hg1r.trans hgr.symm) (hg1c.trans hgc.symm)
      (by rw [hgr]; exact hi) (by rw [hgc]; exact hj)
    rw [hent i j hj, if_neg (by rw [hf]; simp)]

theorem C16_clearGrad_witness :
    ∃ p1, exSparseTouched.clearGrad = some p1 ∧
      p1.indexers.length = exSparseTouched.indexers.length ∧
      (∀ b ∈ p1.indexers, b = false) ∧
      (∀ i j, exSparseTouched.indexers[i]? = some true → j < exSparseTouched.val.col →
        p1.grad.get? i j = some 0) ∧
      (∀ i j, exSparseTouched.indexers[i]? = some false → j < exSparseTouched.val.col →
        p1.grad.get? i j = exSparseTouched.grad.get? i j) ∧
      p1.val = exSparseTouched.val ∧ p1.aux_square = exSparseTouched.aux_square ∧
      p1.aux_mean = exSparseTouched.aux_mean ∧
      p1.last_update = exSparseTouched.last_update :=
  C16_clearGrad exSparseTouched exSparse_WF.2

/-- C17. For a sparse parameter of the shape that `initial` gives: `squareGradNorm()` returns
the sum of `grad[i][j]^2` over the rows whose touched flag is set; `rescaleGrad(s)` multiplies
every gradient cell of the touched rows by `s` and leaves the other rows and the flags as they
were; and `squareGradNorm()` after `rescaleGrad(s)` is `s^2` times `squareGradNorm()` before
it. -/
theorem C17_squareGradNorm_rescaleGrad {α : Type} [CommSemiring α] (p : SparseParam α)
    (s : α) (hp : p.WF) :
    p.squareGradNorm = some p.specSquareGradNorm ∧
      ∃ p1, p.rescaleGrad s = some p1 ∧ p1.indexers = p.indexers ∧
        (∀ i j, p.indexers[i]? = some true → j < p.val.col →
          ∃ g, p.grad.get? i j = some g ∧ p1.grad.get? i j = some (g * s)) ∧
        (∀ i j, p.indexers[i]? = some false → j < p.val.col →
          p1.grad.get? i j = p.grad.get? i j) ∧
        p1.squareGradNorm = some (s ^ 2 * p.specSquareGradNorm) := by
  obtain ⟨p1, h1, hw1, hv1, ha1, hm1, hl1, hi1, hent⟩ := SparseParam_rescaleGrad_spec p s hp
  have hn1 := SparseParam_squareGradNorm_spec p1 hw1
  have hn := SparseParam_squareGradNorm_spec p hp
  obtain ⟨hv, hg, ha, hm, hgr, hgc, har, hac, hmr, hmc, hix, hlu⟩ := hp
  have hg1 : p1.grad.WF := hw1.2.1
  have hg1r : p1.grad.row = p.val.row := by rw [hw1.2.2.2.2.1, hv1]
  have hg1c : p1.grad.col = p.val.col := by rw [hw1.2.2.2.2.2.1, hv1]
  refine ⟨hn, p1, h1, hi1, ?_, ?_, ?_⟩
  · intro i j hf hj
    have hi : i < p.val.row := by rw [← hix]; exact List_getElem?_true_lt _ _ _ hf
    refine ⟨_, Tensor2D_get_entry p.grad i j hg (by rw [hgr]; exact hi) (by rw [hgc]; exact hj),
      ?_⟩
    rw [Tensor2D_get_entry p1.grad i j hg1 (by rw [hg1r]; exact hi) (by rw [hg1c]; exact hj),
      hent i j hj, if_pos hf]
  · intro i j hf hj
    have hi : i < p.val.row := by rw [← hix]; exact List_getElem?_true_lt _ _ _ hf
    apply Tensor2D_get_congr _ _ i j hg1 hg (hg1r.trans hgr.symm) (hg1c.trans hgc.symm)
      (by rw [hgr]; exact hi) (by rw [hgc]; exact hj)
    rw [hent i j hj, if_neg (by rw [hf]; simp)]
  · rw [hn1]
    congr 1
    unfold SparseParam.specSquareGradNorm
    rw [hi1, hv1, ← List.sum_map_mul_left]
    congr 1
    apply List.map_congr_left
    intro i hi
    rw [List.mem_filter] at hi
    have hlt : i < p.indexers.length := List.mem_range.mp hi.1
    have hf : p.indexers[i]? = some true := by
      have h2 := hi.2
      simp only [List.getD_eq_getElem?_getD, List.getElem?_eq_getElem hlt,
        Option.getD_some] at h2
      rw [List.getElem?_eq_getElem hlt, h2]
    rw [← List.sum_map_mul_left]
    congr 1
    apply List.map_congr_left
    intro j hj
    rw [hent i j (List.mem_range.mp hj), if_pos hf]
    ring

theorem C17_squareGradNorm_rescaleGrad_witness :
    exSparseTouched.squareGradNorm = some exSparseTouched.specSquareGradNorm ∧
      ∃ p1, exSparseTouched.rescaleGrad 3 = some p1 ∧ p1.indexers = exSparseTouched.indexers ∧
        (∀ i j, exSparseTouched.indexers[i]? = some true → j < exSparseTouched.val.col →
          ∃ g, exSparseTouched.grad.get? i j = some g ∧ p1.grad.get? i j = some (g * 3)) ∧
        (∀ i j, exSparseTouched.indexers[i]? = some false → j < exSparseTouched.val.col →
          p1.grad.get? i j = exSparseTouched.grad.get? i j) ∧
        p1.squareGradNorm = some (3 ^ 2 * exSparseTouched.specSquareGradNorm) :=
  C17_squareGradNorm_rescaleGrad exSparseTouched 3 exSparse_WF.2

/-! ## Runs of Adam steps: the per-row update counter -/

theorem SparseParam_adamSteps_spec {α : Type} [Field α] (env : Env α)
    (belta1 belta2 alpha reg eps : α) (rounds : List (List (Int × Tensor1D α)))
    (p : SparseParam α) (hp : p.WF) (hclear : ∀ i : Nat, p.indexers[i]? ≠ some true)
    (hls : ∀ ls ∈ rounds, ∀ x ∈ ls, 0 ≤ x.1 ∧ x.1.toNat < p.val.row ∧ p.val.col ≤ x.2.dim) :
    ∃ pn, SparseParam.adamSteps env belta1 belta2 alpha reg eps p rounds = some pn ∧ pn.WF ∧
      pn.val.row = p.val.row ∧ pn.val.col = p.val.col ∧
      (∀ i : Nat, pn.indexers[i]? ≠ some true) ∧
      ∀ i : Nat, pn.last_update.getD i 0 = p.last_update.getD i 0 +
        ((rounds.filter (fun ls => ls.any (fun x => decide (x.1.toNat = i)))).length : Int) := by
  induction rounds generalizing p with
  | nil =>
    exact ⟨p, rfl, hp, rfl, rfl, hclear, fun i => by simp⟩
  | cons ls rest ih =>
    obtain ⟨p1, h1, hw1, hv1, _, _, hl1, hfr1, hin1, _⟩ :=
      SparseParam_lossAll_spec ls p hp (hls ls (List.mem_cons_self _ _))
    obtain ⟨p2, h2, hw2, hr2, hc2, hi2, hl2, _⟩ :=
      SparseParam_updateAdam_spec env p1 belta1 belta2 alpha reg eps hw1
    obtain ⟨p3, h3, hw3, hv3, _, _, hl3, hi3, _⟩ := SparseParam_clearGrad_spec p2 hw2
    have hrow : p3.val.row = p.val.row := by rw [hv3, hr2, hv1]
    have hcol : p3.val.col = p.val.col := by rw [hv3, hc2, hv1]
    obtain ⟨pn, hn, hwn, hrn, hcn, hcl, hlu⟩ := ih p3 hw3
      (by
        intro i
        rw [hi3, List.getElem?_replicate]
        split_ifs <;> simp)
      (by
        intro l hl x hx
        rw [hrow, hcol]
        exact hls l (List.mem_cons_of_mem _ hl) x hx)
    refine ⟨pn, ?_, hwn, hrn.trans hrow, hcn.trans hcol, hcl, ?_⟩
    · simp only [SparseParam.adamSteps, h1, h2, h3, Option.some_bind, hn]
    · intro i
      rw [hlu i, hl3, hl2 i, hl1]
      by_cases hany : ls.any (fun x => decide (x.1.toNat = i)) = true
      · obtain ⟨x, hx, hxi⟩ := List.any_eq_true.mp hany
        have hxi2 : x.1.toNat = i := of_decide_eq_true hxi
        have hflag : p1.indexers[i]? = some true := by rw [← hxi2]; exact hin1 x hx
        rw [if_pos hflag, List.filter_cons, if_pos hany, List.length_cons]
        push_cast
        ring
      · have hno : ∀ x ∈ ls, x.1.toNat ≠ i := by
          intro x hx hxi
          exact hany (List.any_eq_true.mpr ⟨x, hx, decide_eq_true hxi⟩)
        have hflag : p1.indexers[i]? ≠ some true := by
          rw [(hfr1 i hno).1]; exact hclear i
        rw [if_neg hflag, List.filter_cons, if_neg hany]

/-- C15. `SparseParam::updateAdam` (CPU path) on a parameter of the shape that `initial` gives
returns. For every touched row `i` with counter `t = last_update[i]` before the call, every cell
becomes `g' = g + v*reg`, `m' = b1*m + (1-b1)*g'`, `s' = b2*s + (1-b2)*g'^2`,
`v' = v - m' * (alpha*sqrt(1-b2^(t+1))/(1-b1^(t+1))) / sqrt(s' + eps)`, and `last_update[i]`
becomes `t + 1`; for every untouched row `last_update` is unchanged; no counter decreases. In a
run of steps (the `loss` calls of the step, `updateAdam`, `clearGrad`) from cleared flags, a row
with counter 0 that every step touches has counter `k` after `k` steps, whatever the steps do
to other rows, so its updates use the step counts 1, 2, ..., n. -/
theorem C15_updateAdam_cells_and_counter {α : Type} [Field α] (env : Env α)
    (p : SparseParam α) (b1 b2 alpha reg eps : α) (hp : p.WF) :
    (∃ p1, p.updateAdam env b1 b2 alpha reg eps = some p1 ∧
      (∀ (i : Nat) (t : Int), p.indexers[i]? = some true → p.last_update[i]? = some t →
        p1.last_update[i]? = some (t + 1) ∧
        ∀ j, j < p.val.col →
          ∃ g m s v, p.grad.get? i j = some g ∧ p.aux_mean.get? i j = some m ∧
            p.aux_square.get? i j = some s ∧ p.val.get? i j = some v ∧
            p1.grad.get? i j = some (g + v * reg) ∧
            p1.aux_mean.get? i j = some (b1 * m + (1 - b1) * (g + v * reg)) ∧
            p1.aux_square.get? i j = some (b2 * s + (1 - b2) * (g + v * reg) ^ 2) ∧
            p1.val.get? i j = some (v - (b1 * m + (1 - b1) * (g + v * reg))
              * (alpha * env.sqrt (1 - b2 ^ (t + 1)) / (1 - b1 ^ (t + 1)))
              / env.sqrt (b2 * s + (1 - b2) * (g + v * reg) ^ 2 + eps))) ∧
      (∀ i : Nat, p.indexers[i]? ≠ some true → p1.last_update[i]? = p.last_update[i]?) ∧
      (∀ (i : Nat) (t t1 : Int), p.last_update[i]? = some t → p1.last_update[i]? = some t1 →
        t ≤ t1)) ∧
    (∀ (rounds : List (List (Int × Tensor1D α))) (i : Nat),
      (∀ k : Nat, p.indexers[k]? ≠ some true) →
      (∀ ls ∈ rounds, ∀ x ∈ ls, 0 ≤ x.1 ∧ x.1.toNat < p.val.row ∧ p.val.col ≤ x.2.dim) →
      p.last_update[i]? = some 0 →
      (∀ ls ∈ rounds, ∃ x ∈ ls, x.1.toNat = i) →
      ∀ k, k ≤ rounds.length →
        ∃ pk, SparseParam.adamSteps env b1 b2 alpha reg eps p (rounds.take k) = some pk ∧
          pk.last_update[i]? = some (k : Int)) := by
  constructor
  · obtain ⟨p1, h1, hw1, hr1, hc1, hi1, hl1, hent⟩ :=
      SparseParam_updateAdam_spec env p b1 b2 alpha reg eps hp
    obtain ⟨hv, hg, ha, hm, hgr, hgc, har, hac, hmr, hmc, hix, hlu⟩ := hp
    obtain ⟨w1v, w1g, w1a, w1m, w1gr, w1gc, w1ar, w1ac, w1mr, w1mc, w1ix, w1lu⟩ := hw1
    have hlen : p1.last_update.length = p.last_update.length := by rw [w1lu, hr1, hlu]
    have hget : ∀ i : Nat, i < p.last_update.length →
        p1.last_update[i]? = some (p1.last_update.getD i 0) ∧
        p.last_update[i]? = some (p.last_update.getD i 0) := fun i hi =>
      ⟨getElem?_eq_some_getD _ i (by rw [hlen]; exact hi), getElem?_eq_some_getD _ i hi⟩
    refine ⟨p1, h1, ?_, ?_, ?_⟩
    · intro i t hf ht
      have hi : i < p.val.row := by rw [← hix]; exact List_getElem?_true_lt _ _ _ hf
      have hil : i < p.last_update.length := by rw [hlu]; exact hi
      have htd : p.last_update.getD i 0 = t := getD_of_getElem? _ i t ht
      refine ⟨?_, ?_⟩
      · rw [(hget i hil).1, hl1 i, if_pos hf, htd]
      · intro j hj
        obtain ⟨e1, e2, e3, e4⟩ := (hent i j hj).1 hf
        have hrg : i < p.grad.row := by rw [hgr]; exact hi
        have hcg : j < p.grad.col := by rw [hgc]; exact hj
        have hra : i < p.aux_square.row := by rw [har]; exact hi
        have hca : j < p.aux_square.col := by rw [hac]; exact hj
        have hrm : i < p.aux_mean.row := by rw [hmr]; exact hi
        have hcm : j < p.aux_mean.col := by rw [hmc]; exact hj
        refine ⟨_, _, _, _, Tensor2D_get_entry _ i j hg hrg hcg,
          Tensor2D_get_entry _ i j hm hrm hcm, Tensor2D_get_entry _ i j ha hra hca,
          Tensor2D_get_entry _ i j hv hi hj, ?_, ?_, ?_, ?_⟩
        · rw [Tensor2D_get_entry _ i j w1g (by rw [w1gr, hr1]; exact hi)
            (by rw [w1gc, hc1]; exact hj), e1]
        · rw [Tensor2D_get_entry _ i j w1m (by rw [w1mr, hr1]; exact hi)
            (by rw [w1mc, hc1]; exact hj), e2]
        · rw [Tensor2D_get_entry _ i j w1a (by rw [w1ar, hr1]; exact hi)
            (by rw [w1ac, hc1]; exact hj), e3, pow_two, mul_assoc]
        · rw [Tensor2D_get_entry _ i j w1v (by rw [hr1]; exact hi)
            (by rw [hc1]; exact hj), e4, htd, pow_two, mul_assoc (1 - b2)]
    · intro i hf
      by_cases hil : i < p.last_update.length
      · rw [(hget i hil).1, (hget i hil).2, hl1 i, if_neg hf]
      · rw [List.getElem?_eq_none (by omega), List.getElem?_eq_none (by omega)]
    · intro i t t1 ht ht1
      have h2 := hl1 i
      rw [getD_of_getElem? _ i t ht, getD_of_getElem? _ i t1 ht1] at h2
      split_ifs at h2 <;> omega
  · intro rounds i hclear hls h0 htouch k hk
    obtain ⟨pk, hpk, hwk, hrk, _, _, hluk⟩ := SparseParam_adamSteps_spec env b1 b2 alpha reg eps
      (rounds.take k) p hp hclear (fun ls hl => hls ls (List.mem_of_mem_take hl))
    refine ⟨pk, hpk, ?_⟩
    have hil : i < p.last_update.length := by
      by_contra hge
      rw [List.getElem?_eq_none (by omega)] at h0
      exact absurd h0 (by simp)
    have hilk : i < pk.last_update.length := by
      rw [hwk.2.2.2.2.2.2.2.2.2.2.2, hrk, ← hp.2.2.2.2.2.2.2.2.2.2.2]; exact hil
    rw [getElem?_eq_some_getD _ i hilk, hluk i, getD_of_getElem? _ i 0 h0]
    have hall : (rounds.take k).filter (fun ls => ls.any (fun x => decide (x.1.toNat = i)))
        = rounds.take k := by
      apply List.filter_eq_self.mpr
      intro ls hl
      obtain ⟨x, hx, hxi⟩ := htouch ls (List.mem_of_mem_take hl)
      exact List.any_eq_true.mpr ⟨x, hx, decide_eq_true hxi⟩
    rw [hall, List.length_take, Nat.min_eq_left hk]
    simp

theorem C15_updateAdam_cells_and_counter_witness :
    (∃ p1, exSparseTouched.updateAdam exEnv (1 / 2) (1 / 2) 1 1 1 = some p1 ∧
      p1.last_update[0]? = some (0 + 1) ∧
      p1.last_update[1]? = exSparseTouched.last_update[1]?) ∧
    ∃ pk, SparseParam.adamSteps exEnv (1 / 2) (1 / 2) 1 1 1 exSparse
        ([[((0 : Int), Tensor1D.mk ([1] : List ℚ))],
          [((0 : Int), Tensor1D.mk ([1] : List ℚ)), ((1 : Int), Tensor1D.mk ([2] : List ℚ))]].take
          2) = some pk ∧
      pk.last_update[0]? = some ((2 : Nat) : Int) := by
  have hls : ∀ ls ∈ [[((0 : Int), Tensor1D.mk ([1] : List ℚ))],
      [((0 : Int), Tensor1D.mk ([1] : List ℚ)), ((1 : Int), Tensor1D.mk ([2] : List ℚ))]],
      ∀ x ∈ ls, 0 ≤ x.1 ∧ x.1.toNat < exSparse.val.row ∧ exSparse.val.col ≤ x.2.dim := by
    intro ls hl x hx
    simp only [List.mem_cons, List.mem_singleton, List.not_mem_nil, or_false] at hl
    rcases hl with rfl | rfl
    · simp only [List.mem_singleton] at hx
      subst hx
      simp [exSparse, Tensor1D.dim]
    · simp only [List.mem_cons, List.mem_singleton, List.not_mem_nil, or_false] at hx
      rcases hx with rfl | rfl <;> simp [exSparse, Tensor1D.dim]
  have htouch : ∀ ls ∈ [[((0 : Int), Tensor1D.mk ([1] : List ℚ))],
      [((0 : Int), Tensor1D.mk ([1] : List ℚ)), ((1 : Int), Tensor1D.mk ([2] : List ℚ))]],
      ∃ x ∈ ls, x.1.toNat = 0 := by
    intro ls hl
    simp only [List.mem_cons, List.mem_singleton, List.not_mem_nil, or_false] at hl
    rcases hl with rfl | rfl
    · exact ⟨_, List.mem_cons_self _ _, rfl⟩
    · exact ⟨_, List.mem_cons_self _ _, rfl⟩
  obtain ⟨p1, h1, h2, h3, _⟩ :=
    (C15_updateAdam_cells_and_counter exEnv exSparseTouched (1 / 2) (1 / 2) 1 1 1
      exSparse_WF.2).1
  exact ⟨⟨p1, h1, (h2 0 0 rfl rfl).1, h3 1 (by decide)⟩,
    (C15_updateAdam_cells_and_counter exEnv exSparse (1 / 2) (1 / 2) 1 1 1 exSparse_WF.1).2
      _ 0 exSparse_clear hls rfl htouch 2 (by decide)⟩

/-! ## `Node::forward_drop` and `backward_drop` -/

/-- C18. `Node::forward_drop(bTrain = false, f)` on a node with drop rate `r > 0` returns with
every element `val[i]` replaced by `val[i] * (1 - r*f)` and with `drop_mask` as it was; the
result does not depend on the permutation `random_shuffle` would apply, so two runs on the same
input give the same output. On a node with `drop_value <= 0` it leaves `val` unchanged (for
either value of `bTrain`). -/
theorem C18_forward_drop_inference {α : Type} [LinearOrderedField α] [FloorRing α]
    (rnd : α → α) (shuffle shuffle2 : List Int → List Int) (n : Node α) (f : α) :
    (0 < n.drop_value →
      ∃ n1, Node.forward_drop rnd shuffle n false f = some n1 ∧
        n1.val.dim = n.val.dim ∧
        (∀ i, n1.val.get? i = (n.val.get? i).map (fun a => a * (1 - n.drop_value * f))) ∧
        n1.drop_mask = n.drop_mask ∧
        Node.forward_drop rnd shuffle2 n false f = some n1) ∧
    (n.drop_value ≤ 0 → ∀ bTrain,
      ∃ n1, Node.forward_drop rnd shuffle n bTrain f = some n1 ∧ n1.val = n.val ∧
        n1.drop_mask = n.drop_mask) := by
  constructor
  · intro hr
    have hlen : (n.val.v.map (fun a => a * (1 - n.drop_value * f))).length = n.val.dim := by
      simp [Tensor1D.dim]
    refine ⟨{ n with
        val := Tensor1D.mk (n.val.v.map (fun a => a * (1 - n.drop_value * f)))
        degree := -1 }, ?_, ?_, ?_, rfl, ?_⟩
    · simp [Node.forward_drop, hr, Tensor1D.assignVec?, hlen]
    · simp [Tensor1D.dim]
    · intro i
      simp only [Tensor1D.get?, Tensor1D.dim, List.length_map, List.getElem?_map]
      split_ifs <;> simp
    · simp [Node.forward_drop, hr, Tensor1D.assignVec?, hlen]
  · intro hr bTrain
    refine ⟨{ n with degree := -1 }, ?_, rfl, rfl⟩
    simp [Node.forward_drop, not_lt.mpr hr]

theorem C18_forward_drop_inference_witness :
    (0 < (exNode "n" 2 (1 / 2)).drop_value →
      ∃ n1, Node.forward_drop id id (exNode "n" 2 (1 / 2)) false 1 = some n1 ∧
        n1.val.dim = (exNode "n" 2 (1 / 2)).val.dim ∧
        (∀ i, n1.val.get? i = ((exNode "n" 2 (1 / 2)).val.get? i).map
          (fun a => a * (1 - (exNode "n" 2 (1 / 2)).drop_value * 1))) ∧
        n1.drop_mask = (exNode "n" 2 (1 / 2)).drop_mask ∧
        Node.forward_drop id List.reverse (exNode "n" 2 (1 / 2)) false 1 = some n1) ∧
    0 < (exNode "n" 2 (1 / 2)).drop_value :=
  ⟨(C18_forward_drop_inference id id List.reverse (exNode "n" 2 (1 / 2)) 1).1,
    by simp [exNode, Node.init]; norm_num⟩

theorem Node_forward_drop_train {α : Type} [LinearOrderedField α] [FloorRing α]
    (rnd : α → α) (shuffle : List Int → List Int) (n n1 : Node α) (f : α)
    (hr : 0 < n.drop_value) (h : Node.forward_drop rnd shuffle n true f = some n1) :
    ∃ n0, Node.generate_dropmask rnd shuffle n f = some n0 ∧ n1.drop_mask = n0.drop_mask ∧
      n1.val.v = List.zipWith (fun u w => u * w) n.val.v n0.drop_mask.v ∧
      n1.drop_value = n.drop_value ∧ n1.loss = n.loss := by
  simp only [Node.forward_drop, hr, if_true] at h
  obtain ⟨n2, h2, rfl⟩ := Option.map_eq_some'.mp h
  obtain ⟨n0, hg, h3⟩ := Option.bind_eq_some.mp h2
  obtain ⟨l, hl, h4⟩ := Option.bind_eq_some.mp h3
  obtain ⟨v1, hv1, rfl⟩ := Option.map_eq_some'.mp h4
  have hg2 := hg
  rw [Node.generate_dropmask] at hg2
  obtain ⟨dropNum, _, hg3⟩ := Option.bind_eq_some.mp hg2
  obtain ⟨dm, _, hdm⟩ := Option.map_eq_some'.mp hg3
  have hl2 : l = List.zipWith (fun u w => u * w) n0.val.v n0.drop_mask.v := by
    simp only [Vec.mul?] at hl
    split_ifs at hl
    exact (Option.some.inj hl).symm
  have hv2 : v1.v = l := by
    simp only [Tensor1D.assignVec?] at hv1
    split_ifs at hv1
    rw [← Option.some.inj hv1]
  refine ⟨n0, hg, rfl, ?_, ?_, ?_⟩
  · show v1.v = _
    rw [hv2, hl2, ← hdm]
  · show n0.drop_value = _
    rw [← hdm]
  · show n0.loss = _
    rw [← hdm]

theorem Node_backward_drop_spec {α : Type} [LinearOrderedField α] (n n1 : Node α)
    (hr : 0 < n.drop_value) (h : Node.backward_drop n = some n1) :
    n1.loss.v = List.zipWith (fun u w => u * w) n.loss.v n.drop_mask.v ∧
      n1.drop_mask = n.drop_mask := by
  simp only [Node.backward_drop, hr, if_true] at h
  obtain ⟨l, hl, h4⟩ := Option.bind_eq_some.mp h
  obtain ⟨v1, hv1, rfl⟩ := Option.map_eq_some'.mp h4
  have hl2 : l = List.zipWith (fun u w => u * w) n.loss.v n.drop_mask.v := by
    simp only [Vec.mul?] at hl
    split_ifs at hl
    exact (Option.some.inj hl).symm
  have hv2 : v1.v = l := by
    simp only [Tensor1D.assignVec?] at hv1
    split_ifs at hv1
    rw [← Option.some.inj hv1]
  exact ⟨by show v1.v = _; rw [hv2, hl2], rfl⟩

/-- C19, the failing input evaluated. A `UniExecute` in training mode (`bTrain = true`, drop
factor 1) over the batch `[0, 1]` of UniNodes with drop rate 1/2: `forward` (CPU branch)
completes and leaves node 0 with the undropped output `[11, 23]` and with the `drop_mask` it had
before (no mask is generated); `forward_drop(true, 1)`, which the sibling executes call after
`compute`, would have generated the mask `[0, 1]` and left `[0, 23]`. `backward_drop`, which
`UniExecute::backward` does call, then multiplies the loss by the mask left by `init`. -/
theorem C19_uniExecute_forward_applies_no_mask :
    exUniDropExecute.bTrain = true ∧
      ∃ r, UniExecute.forward exCode exUniParams exUniDropExecute exUniDropObjs = some r ∧
        (r.2 0).drop_value = 1 / 2 ∧ (r.2 0).val.v = [11, 23] ∧
        (r.2 0).drop_mask = (exUniDropObjs 0).drop_mask ∧
        (∃ n1, Node.forward_drop id id (r.2 0).toNode true 1 = some n1 ∧
          n1.drop_mask.v = [0, 1] ∧ n1.val.v = [0, 23]) ∧
        (∃ n2, Node.backward_drop { (r.2 0).toNode with loss := Tensor1D.mk [1, 1] } = some n2 ∧
          n2.loss.v = [0, 0]) := by
  obtain ⟨r, hr, hP⟩ := UniExecute_forward_spec exCode exUniParams exUniDropExecute
    exUniDropObjs rfl rfl (by intro _; rfl)
    (by intro p hp; simp [exUniDropExecute, UniNode.generate] at hp
        rcases hp with rfl | rfl <;> rfl)
    (by intro p hp; simp [exUniDropExecute, UniNode.generate] at hp
        rcases hp with rfl | rfl <;> rfl)
  have h0 : r.2 0 = { exUniDropObjs 0 with val := Tensor1D.mk [11, 23] } := by
    rw [hP 0]
    simp +decide [exUniDropExecute, UniNode.generate, UniNode.specVal, exUniParams, exUniDropObjs,
      exCode, Tensor2D.mat, Mat.entry, List.range, List.range.loop]
    norm_num
  refine ⟨rfl, r, hr, ?_, ?_, ?_, ?_, ?_⟩
  · rw [h0]
    simp [exUniDropObjs, exUni, exNode, Node.init]
    norm_num
  · rw [h0]
  · rw [h0]
  · rw [h0]
    refine ⟨{ (exUniDropObjs 0).toNode with
      val := Tensor1D.mk [0, 23]
      drop_mask := Tensor1D.mk [0, 1]
      degree := -1 }, ?_, rfl, rfl⟩
    have hk : ∀ n : Node ℚ, n.dim = 2 → n.drop_value = 1 / 2 →
        castInt (id (id ((n.dim : ℚ) * n.drop_value) * 1)) = some 1 := by
      intro n h1 h2
      have hp : id (id ((n.dim : ℚ) * n.drop_value) * 1) = ((1 : Int) : ℚ) := by
        rw [h1, h2]
        norm_num
      rw [hp, castInt_eq_some _ (by rw [truncToInt_intCast]; decide), truncToInt_intCast]
    have hdrop : (exUniDropObjs 0).toNode.drop_value = 1 / 2 := by
      simp [exUniDropObjs, exUni, exNode, Node.init]
      norm_num
    have hg : Node.generate_dropmask id id
        { (exUniDropObjs 0).toNode with val := Tensor1D.mk [11, 23] } 1
        = some { (exUniDropObjs 0).toNode with
            val := Tensor1D.mk [11, 23]
            drop_mask := Tensor1D.mk [0, 1] } := by
      rw [Node.generate_dropmask, hk _ rfl hdrop]
      simp +decide [Tensor1D.setAll?, forLoop, Tensor1D.set?, Tensor1D.dim, exUniDropObjs,
        exUni, exNode, Node.init, Node.new, Tensor1D.init, List.range, List.range.loop]
    have hpos : 0 < ({ (exUniDropObjs 0).toNode with
        val := Tensor1D.mk [11, 23] } : Node ℚ).drop_value := by
      show 0 < (exUniDropObjs 0).toNode.drop_value
      rw [hdrop]
      norm_num
    simp only [Node.forward_drop, hpos, if_true, hg, Option.some_bind]
    simp +decide [Vec.mul?, Tensor1D.assignVec?, Tensor1D.dim, exUniDropObjs,
      exUni, exNode, Node.init, Node.new, Tensor1D.init]
  · rw [h0]
    refine ⟨{ (exUniDropObjs 0).toNode with
      val := Tensor1D.mk [11, 23]
      loss := Tensor1D.mk [0, 0] }, ?_, rfl⟩
    simp +decide [Node.backward_drop, Vec.mul?, Tensor1D.assignVec?, Tensor1D.dim, exUniDropObjs,
      exUni, exNode, Node.init, Node.new, Tensor1D.init]
    norm_num

/-! ## The linear node `y = W x + b`: `compute`, perturbation of the input, `backward` -/

theorem LinearUniNode_compute_spec {α : Type} [Semiring α] (params : PParam → UniParams α)
    (objs : PNode → LinearUniNode α) (p : PNode)
    (hB : (params (objs p).param).bUseB = true)
    (hb : (params (objs p).param).b.val.v.length = (params (objs p).param).W.val.row)
    (hin : (objs (objs p).in_).val.dim = (params (objs p).param).W.val.col)
    (hval : (objs p).val.dim = (params (objs p).param).W.val.row) :
    ∃ o, LinearUniNode.compute params objs p = some o ∧
      (o p).val = Tensor1D.mk (LinearUniNode.specVal (params (objs p).param)
        (objs (objs p).in_).val.v) := by
  have hmul : Mat.mul? (params (objs p).param).W.val.mat (objs (objs p).in_).val.mat
      = some { rows := (params (objs p).param).W.val.row, cols := 1,
               data := (List.range (params (objs p).param).W.val.row).map (fun i =>
                 ((List.range (params (objs p).param).W.val.col).map (fun j =>
                   (params (objs p).param).W.val.mat.entry i j
                     * (objs (objs p).in_).val.v.getD j 0)).sum) } := by
    simp [Mat.mul?, Tensor2D.mat, Tensor1D.mat, hin, Mat.entry, Nat.mod_one]
  have hvl : (objs p).val.v.length = (params (objs p).param).W.val.row := hval
  have hc : LinearUniNode.compute params objs p = some (Function.update objs p
      { objs p with
        val := Tensor1D.mk (List.zipWith (fun u w => u + w)
          ((List.range (params (objs p).param).W.val.row).map (fun i =>
            ((List.range (params (objs p).param).W.val.col).map (fun j =>
              (params (objs p).param).W.val.mat.entry i j
                * (objs (objs p).in_).val.v.getD j 0)).sum))
          (params (objs p).param).b.val.v) }) := by
    simp only [LinearUniNode.compute, hmul, Option.some_bind, Tensor1D.assignMat?, Tensor1D.dim,
      hvl, List.length_map, List.length_range, and_self, if_true, hB, Vec.add?, hb,
      Tensor1D.assignVec?, List.length_zipWith, Nat.min_self]
  refine ⟨_, hc, ?_⟩
  simp only [Function.update_same, LinearUniNode.specVal]
  rw [List_zipWith_range_map _ _ _ _ hb]

theorem List_sum_range_single {α : Type} [AddCommMonoid α] (n j : Nat) (d : α) (hj : j < n) :
    ((List.range n).map (fun k => if k = j then d else 0)).sum = d := by
  induction n with
  | zero => omega
  | succ m ih =>
    rw [List.range_succ, List.map_append, List.sum_append]
    by_cases hjm : j = m
    · subst hjm
      have hz : ((List.range j).map (fun k => if k = j then d else 0)).sum = 0 := by
        apply List.sum_eq_zero
        intro a ha
        obtain ⟨k, hk, rfl⟩ := List.mem_map.mp ha
        have : k < j := List.mem_range.mp hk
        rw [if_neg (by omega)]
      simp [hz]
    · have hne : ¬ m = j := fun h => hjm h.symm
      rw [ih (by omega)]
      simp [hne]

theorem List_sum_range_add {α : Type} [AddCommMonoid α] (n : Nat) (f g : Nat → α) :
    ((List.range n).map (fun k => f k + g k)).sum
      = ((List.range n).map f).sum + ((List.range n).map g).sum := by
  induction n with
  | zero => simp
  | succ m ih =>
    simp only [List.range_succ, List.map_append, List.sum_append, ih, List.map_cons,
      List.map_nil, List.sum_cons, List.sum_nil, add_zero]
    abel

theorem LinearUniNode_specVal_perturb {α : Type} [CommSemiring α] (P : UniParams α)
    (x : List α) (j : Nat) (eps : α) (hx : x.length = P.W.val.col) (hj : j < P.W.val.col)
    (i : Nat) (hi : i < P.W.val.row) :
    (LinearUniNode.specVal P (x.set j (x.getD j 0 + eps))).getD i 0
      = (LinearUniNode.specVal P x).getD i 0 + eps * P.W.val.mat.entry i j := by
  have hg : ∀ (y : List α), (LinearUniNode.specVal P y).getD i 0
      = ((List.range P.W.val.col).map (fun k => P.W.val.mat.entry i k * y.getD k 0)).sum
        + P.b.val.v.getD i 0 := by
    intro y
    simp [LinearUniNode.specVal, List.getD_eq_getElem?_getD, List.getElem?_map,
      List.getElem?_range hi]
  rw [hg, hg]
  have hset : ∀ k, (x.set j (x.getD j 0 + eps)).getD k 0
      = x.getD k 0 + (if k = j then eps else 0) := by
    intro k
    by_cases hk : k = j
    · subst hk
      simp [List.getD_eq_getElem?_getD, List.getElem?_set, hx, hj]
    · simp [List.getD_eq_getElem?_getD, List.getElem?_set, hk, Ne.symm hk]
  have hsum : ((List.range P.W.val.col).map
        (fun k => P.W.val.mat.entry i k * (x.set j (x.getD j 0 + eps)).getD k 0)).sum
      = ((List.range P.W.val.col).map (fun k => P.W.val.mat.entry i k * x.getD k 0)).sum
        + eps * P.W.val.mat.entry i j := by
    have hfun : (fun k => P.W.val.mat.entry i k * (x.set j (x.getD j 0 + eps)).getD k 0)
        = (fun k => P.W.val.mat.entry i k * x.getD k 0
            + (if k = j then eps * P.W.val.mat.entry i j else 0)) := by
      funext k
      rw [hset k, mul_add]
      by_cases hk : k = j
      · subst hk
        simp [mul_comm]
      · simp [hk]
    rw [hfun, List_sum_range_add, List_sum_range_single _ _ _ hj]
  rw [hsum]
  abel

theorem List_getD_zipWith_add {α : Type} [AddZeroClass α] (a b : List α) (i : Nat)
    (ha : i < a.length) (hb : i < b.length) :
    (List.zipWith (fun u w => u + w) a b).getD i 0 = a.getD i 0 + b.getD i 0 := by
  simp only [List.getD_eq_getElem?_getD, List.getElem?_zipWith, List.getElem?_eq_getElem ha,
    List.getElem?_eq_getElem hb]
  rfl

theorem LinearUniNode_backward_spec {α : Type} [CommSemiring α]
    (params : PParam → UniParams α) (objs : PNode → LinearUniNode α) (p : PNode)
    (hB : (params (objs p).param).bUseB = true)
    (hgr : (params (objs p).param).W.grad.row = (params (objs p).param).W.val.row)
    (hgc : (params (objs p).param).W.grad.col = (params (objs p).param).W.val.col)
    (hgw : (params (objs p).param).W.grad.WF)
    (hbg : (params (objs p).param).b.grad.v.length = (params (objs p).param).W.val.row)
    (hl : (objs p).loss.dim = (params (objs p).param).W.val.row)
    (hx : (objs (objs p).in_).val.dim = (params (objs p).param).W.val.col)
    (hil : (objs (objs p).in_).loss.dim = (params (objs p).param).W.val.col) :
    ∃ r, LinearUniNode.backward params objs p = some r ∧
      (r.1 (objs p).param).W.val = (params (objs p).param).W.val ∧
      (∀ i k, i < (params (objs p).param).W.val.row → k < (params (objs p).param).W.val.col →
        (r.1 (objs p).param).W.grad.mat.entry i k
          = (params (objs p).param).W.grad.mat.entry i k
            + (objs p).loss.v.getD i 0 * (objs (objs p).in_).val.v.getD k 0) ∧
      (∀ i, i < (params (objs p).param).W.val.row →
        (r.1 (objs p).param).b.grad.v.getD i 0
          = (params (objs p).param).b.grad.v.getD i 0 + (objs p).loss.v.getD i 0) ∧
      (∀ k, k < (params (objs p).param).W.val.col →
        (r.2 (objs p).in_).loss.v.getD k 0
          = (objs (objs p).in_).loss.v.getD k 0
            + ((List.range (params (objs p).param).W.val.row).map (fun i =>
                (params (objs p).param).W.val.mat.entry i k * (objs p).loss.v.getD i 0)).sum) := by
  have hlv : (objs p).loss.v.length = (params (objs p).param).W.val.row := hl
  have hxv : (objs (objs p).in_).val.v.length = (params (objs p).param).W.val.col := hx
  have hilv : (objs (objs p).in_).loss.v.length = (params (objs p).param).W.val.col := hil
  have hgl : (params (objs p).param).W.grad.v.length
      = (params (objs p).param).W.val.row * (params (objs p).param).W.val.col := by
    rw [hgw, hgr, hgc]
  have hmul1 : Mat.mul? (objs p).loss.mat (objs (objs p).in_).val.tmat
      = some { rows := (params (objs p).param).W.val.row,
               cols := (params (objs p).param).W.val.col,
               data := (List.range ((params (objs p).param).W.val.row
                   * (params (objs p).param).W.val.col)).map (fun k =>
                 (objs p).loss.v.getD (k / (params (objs p).param).W.val.col) 0
                   * (objs (objs p).in_).val.v.getD
                     (k % (params (objs p).param).W.val.col) 0) } := by
    simp [Mat.mul?, Tensor1D.mat, Tensor1D.tmat, Mat.entry, hl, hx,
      show List.range 1 = [0] from rfl]
  have hmul2 : Mat.mul? (params (objs p).param).W.val.mat.transpose (objs p).loss.mat
      = some { rows := (params (objs p).param).W.val.col, cols := 1,
               data := (List.range (params (objs p).param).W.val.col).map (fun k =>
                 ((List.range (params (objs p).param).W.val.row).map (fun i =>
                   (params (objs p).param).W.val.mat.transpose.entry k i
                     * (objs p).loss.v.getD i 0)).sum) } := by
    simp [Mat.mul?, Tensor1D.mat, Mat.transpose, Tensor2D.mat, Mat.entry, hl, Nat.mod_one]
  have hback : LinearUniNode.backward params objs p = some
      (Function.update params (objs p).param
        { params (objs p).param with
          W := { (params (objs p).param).W with
            grad := { (params (objs p).param).W.grad with
              v := List.zipWith (fun u w => u + w) (params (objs p).param).W.grad.v
                ((List.range ((params (objs p).param).W.val.row
                   * (params (objs p).param).W.val.col)).map (fun k =>
                 (objs p).loss.v.getD (k / (params (objs p).param).W.val.col) 0
                   * (objs (objs p).in_).val.v.getD
                     (k % (params (objs p).param).W.val.col) 0)) } }
          b := { (params (objs p).param).b with
            grad := { (params (objs p).param).b.grad with
              v := List.zipWith (fun u w => u + w) (params (objs p).param).b.grad.v
                (objs p).loss.v } } },
        Function.update objs (objs p).in_
          { objs (objs p).in_ with
            loss := Tensor1D.mk (List.zipWith (fun u w => u + w) (objs (objs p).in_).loss.v
              ((List.range (params (objs p).param).W.val.col).map (fun k =>
                 ((List.range (params (objs p).param).W.val.row).map (fun i =>
                   (params (objs p).param).W.val.mat.transpose.entry k i
                     * (objs p).loss.v.getD i 0)).sum))) }) := by
    unfold LinearUniNode.backward
    rw [hmul1, hmul2]
    simp only [Option.some_bind, Mat.add?, Tensor2D.mat, Tensor1D.mat, Tensor2D.assignMat?,
      Tensor1D.assignMat?, Tensor2D.assignVec?, Vec.add?, Tensor1D.dim, hgr, hgc, hgl, hbg, hlv,
      hilv, List.length_map, List.length_range, List.length_zipWith, Nat.min_self, and_self,
      if_true, hB]
  refine ⟨_, hback, ?_, ?_, ?_, ?_⟩
  · simp only [Function.update_same]
  · intro i k hi hk
    simp only [Function.update_same, Tensor2D.mat, Mat.entry, hgc]
    have hlt : i * (params (objs p).param).W.val.col + k
        < (params (objs p).param).W.val.row * (params (objs p).param).W.val.col :=
      flat_index_lt _ _ i k hi hk
    rw [List_getD_zipWith_add _ _ _ (by rw [hgl]; exact hlt) (by simpa using hlt)]
    congr 1
    obtain ⟨hd, hm⟩ := flat_index_div (params (objs p).param).W.val.col i k hk
    simp [List.getD_eq_getElem?_getD, List.getElem?_map, List.getElem?_range hlt, hd, hm]
  · intro i hi
    simp only [Function.update_same]
    exact List_getD_zipWith_add _ _ _ (by rw [hbg]; exact hi) (by rw [hlv]; exact hi)
  · intro k hk
    simp only [Function.update_same]
    rw [List_getD_zipWith_add _ _ _ (by rw [hilv]; exact hk) (by simpa using hk)]
    congr 1
    simp only [List.getD_eq_getElem?_getD, List.getElem?_map, List.getElem?_range hk,
      Option.map_some', Option.getD_some]
    congr 1
    apply List.map_congr_left
    intro i hi
    have hi2 : i < (params (objs p).param).W.val.row := List.mem_range.mp hi
    have hlt : k * (params (objs p).param).W.val.row + i
        < (params (objs p).param).W.val.col * (params (objs p).param).W.val.row :=
      flat_index_lt _ _ k i hk hi2
    obtain ⟨hd, hm⟩ := flat_index_div (params (objs p).param).W.val.row k i hi2
    simp [Mat.transpose, Tensor2D.mat, Mat.entry, List.getD_eq_getElem?_getD, List.getElem?_map,
      List.getElem?_range hlt, hd, hm]

/-- C20. Gradient check for the linear node `y = W x + b` (`LinearUniNode` with `bUseB`, exact
arithmetic), for tensors of matching shapes and an input node other than the node itself.
Re-running `compute` with `x[j]` replaced by `x[j] + eps` changes every `y[i]` by exactly
`eps * W[i][j]`. `backward` with loss `l` returns and adds `l[i] * x[k]` to `W.grad[i][k]`,
`l[i]` to `b.grad[i]` and `sum_i W[i][k] * l[i]` to `in.loss[k]`; with `l` the unit vector `e_i`
the increment of `in.loss[j]` is `W[i][j]`, the Jacobian entry the perturbation gives. -/
theorem C20_linear_gradient_check {α : Type} [CommSemiring α]
    (params : PParam → UniParams α) (objs : PNode → LinearUniNode α) (p : PNode) (j : Nat)
    (eps : α)
    (hB : (params (objs p).param).bUseB = true)
    (hb : (params (objs p).param).b.val.v.length = (params (objs p).param).W.val.row)
    (hin : (objs (objs p).in_).val.dim = (params (objs p).param).W.val.col)
    (hval : (objs p).val.dim = (params (objs p).param).W.val.row)
    (hgr : (params (objs p).param).W.grad.row = (params (objs p).param).W.val.row)
    (hgc : (params (objs p).param).W.grad.col = (params (objs p).param).W.val.col)
    (hgw : (params (objs p).param).W.grad.WF)
    (hbg : (params (objs p).param).b.grad.v.length = (params (objs p).param).W.val.row)
    (hl : (objs p).loss.dim = (params (objs p).param).W.val.row)
    (hil : (objs (objs p).in_).loss.dim = (params (objs p).param).W.val.col)
    (hj : j < (params (objs p).param).W.val.col) (hne : (objs p).in_ ≠ p) :
    (∃ o o2, LinearUniNode.compute params objs p = some o ∧
      LinearUniNode.compute params
        (Function.update objs (objs p).in_
          { objs (objs p).in_ with
            val := Tensor1D.mk ((objs (objs p).in_).val.v.set j
              ((objs (objs p).in_).val.v.getD j 0 + eps)) }) p = some o2 ∧
      ∀ i, i < (params (objs p).param).W.val.row →
        (o2 p).val.v.getD i 0
          = (o p).val.v.getD i 0 + eps * (params (objs p).param).W.val.mat.entry i j) ∧
    (∃ r, LinearUniNode.backward params objs p = some r ∧
      (∀ i k, i < (params (objs p).param).W.val.row → k < (params (objs p).param).W.val.col →
        (r.1 (objs p).param).W.grad.mat.entry i k
          = (params (objs p).param).W.grad.mat.entry i k
            + (objs p).loss.v.getD i 0 * (objs (objs p).in_).val.v.getD k 0) ∧
      (∀ i, i < (params (objs p).param).W.val.row →
        (r.1 (objs p).param).b.grad.v.getD i 0
          = (params (objs p).param).b.grad.v.getD i 0 + (objs p).loss.v.getD i 0) ∧
      (∀ k, k < (params (objs p).param).W.val.col →
        (r.2 (objs p).in_).loss.v.getD k 0
          = (objs (objs p).in_).loss.v.getD k 0
            + ((List.range (params (objs p).param).W.val.row).map (fun i =>
                (params (objs p).param).W.val.mat.entry i k * (objs p).loss.v.getD i 0)).sum) ∧
      (∀ i, i < (params (objs p).param).W.val.row →
        (objs p).loss.v = (List.range (params (objs p).param).W.val.row).map
          (fun a => if a = i then 1 else 0) →
        (r.2 (objs p).in_).loss.v.getD j 0
          = (objs (objs p).in_).loss.v.getD j 0
            + (params (objs p).param).W.val.mat.entry i j)) := by
  constructor
  · obtain ⟨o, ho, hov⟩ := LinearUniNode_compute_spec params objs p hB hb hin hval
    have hp2 : Function.update objs (objs p).in_
          { objs (objs p).in_ with
            val := Tensor1D.mk ((objs (objs p).in_).val.v.set j
              ((objs (objs p).in_).val.v.getD j 0 + eps)) } p = objs p :=
      Function.update_noteq (Ne.symm hne) _ _
    obtain ⟨o2, ho2, hov2⟩ := LinearUniNode_compute_spec params
      (Function.update objs (objs p).in_
          { objs (objs p).in_ with
            val := Tensor1D.mk ((objs (objs p).in_).val.v.set j
              ((objs (objs p).in_).val.v.getD j 0 + eps)) }) p
      (by rw [hp2]; exact hB) (by rw [hp2]; exact hb)
      (by
        rw [hp2, Function.update_same]
        simp only [Tensor1D.dim, List.length_set]
        exact hin)
      (by rw [hp2]; exact hval)
    refine ⟨o, o2, ho, ho2, ?_⟩
    intro i hi
    rw [hov2, hov, hp2, Function.update_same]
    exact LinearUniNode_specVal_perturb _ _ j eps hin hj i hi
  · obtain ⟨r, hr, _, h1, h2, h3⟩ :=
      LinearUniNode_backward_spec params objs p hB hgr hgc hgw hbg hl hin hil
    refine ⟨r, hr, h1, h2, h3, ?_⟩
    intro i hi hunit
    rw [h3 j hj]
    congr 1
    have hfun : (List.range (params (objs p).param).W.val.row).map (fun a =>
          (params (objs p).param).W.val.mat.entry a j * (objs p).loss.v.getD a 0)
        = (List.range (params (objs p).param).W.val.row).map (fun a =>
          if a = i then (params (objs p).param).W.val.mat.entry i j else 0) := by
      apply List.map_congr_left
      intro a ha
      have ha2 : a < (params (objs p).param).W.val.row := List.mem_range.mp ha
      rw [hunit]
      simp only [List.getD_eq_getElem?_getD, List.getElem?_map, List.getElem?_range ha2,
        Option.map_some', Option.getD_some]
      by_cases hai : a = i
      · subst hai
        simp
      · simp [hai]
    rw [hfun, List_sum_range_single _ _ _ hi]

theorem C20_linear_gradient_check_witness :
    (exLinObjs 0).in_ ≠ 0 ∧
      (∃ o o2, LinearUniNode.compute exLinParams exLinObjs 0 = some o ∧
        LinearUniNode.compute exLinParams
          (Function.update exLinObjs (exLinObjs 0).in_
            { exLinObjs (exLinObjs 0).in_ with
              val := Tensor1D.mk ((exLinObjs (exLinObjs 0).in_).val.v.set 1
                ((exLinObjs (exLinObjs 0).in_).val.v.getD 1 0 + 1 / 2)) }) 0 = some o2 ∧
        ∀ i, i < (exLinParams (exLinObjs 0).param).W.val.row →
          (o2 0).val.v.getD i 0
            = (o 0).val.v.getD i 0
              + 1 / 2 * (exLinParams (exLinObjs 0).param).W.val.mat.entry i 1) ∧
      ∃ r, LinearUniNode.backward exLinParams exLinObjs 0 = some r ∧
        (r.2 (exLinObjs 0).in_).loss.v.getD 1 0
          = (exLinObjs (exLinObjs 0).in_).loss.v.getD 1 0
            + (exLinParams (exLinObjs 0).param).W.val.mat.entry 0 1 := by
  have h := C20_linear_gradient_check exLinParams exLinObjs 0 1 (1 / 2) rfl rfl rfl rfl rfl rfl
    (by simp [Tensor2D.WF, exLinParams]) rfl rfl rfl (by decide) (by decide)
  obtain ⟨r, hr, _, _, _, h4⟩ := h.2
  exact ⟨by decide, h.1, r, hr, h4 0 (by decide) rfl⟩

/-! ## The table over a vocabulary that holds only the OOV token -/

/-- C21. For a table whose vocabulary has size 1 and an OOV id (`nVSize = 1`, `nUNKId >= 0`),
`LookupTable::initialWeights(file, tune, norm)` returns `false` and leaves the table as it was,
whatever the file; the random-initialisation overload `initialWeights(dim, tune)` leaves the
table as it was too. In particular `E`, `nDim` and `bFineTune` are unchanged, and a
default-constructed `E` keeps tensors of 0 rows and 0 columns. -/
theorem C21_only_oov_vocabulary {α : Type} [LinearOrderedField α] (env : Env α)
    (T : LookupTable α) (file : Option (List String)) (tune : Bool) (norm : α) (dim : Nat)
    (h1 : T.nVSize = 1) (h2 : 0 ≤ T.nUNKId) :
    LookupTable.initialWeights env T file tune norm = some (false, T) ∧
      LookupTable.initialWeightsDim env T dim tune = T ∧
      (T.E = SparseParam.new →
        T.E.val.row = 0 ∧ T.E.val.col = 0 ∧ T.E.grad.row = 0 ∧ T.E.grad.col = 0 ∧
        T.E.aux_square.row = 0 ∧ T.E.aux_square.col = 0 ∧
        T.E.aux_mean.row = 0 ∧ T.E.aux_mean.col = 0) := by
  refine ⟨?_, ?_, ?_⟩
  · simp [LookupTable.initialWeights, h1, h2]
  · simp [LookupTable.initialWeightsDim, h1, h2]
  · intro hE
    rw [hE]
    simp [SparseParam.new, Tensor2D.new]

theorem C21_only_oov_vocabulary_witness :
    LookupTable.initialWeights exEnv exTableOnlyUnk (some ["a 2", "b 4"]) true (-1)
        = some (false, exTableOnlyUnk) ∧
      LookupTable.initialWeightsDim exEnv exTableOnlyUnk 3 true = exTableOnlyUnk ∧
      (exTableOnlyUnk.E = SparseParam.new →
        exTableOnlyUnk.E.val.row = 0 ∧ exTableOnlyUnk.E.val.col = 0 ∧
        exTableOnlyUnk.E.grad.row = 0 ∧ exTableOnlyUnk.E.grad.col = 0 ∧
        exTableOnlyUnk.E.aux_square.row = 0 ∧ exTableOnlyUnk.E.aux_square.col = 0 ∧
        exTableOnlyUnk.E.aux_mean.row = 0 ∧ exTableOnlyUnk.E.aux_mean.col = 0) :=
  C21_only_oov_vocabulary exEnv exTableOnlyUnk (some ["a 2", "b 4"]) true (-1) 3 rfl
    (by decide)

/-! ## Pooling nodes: `forward` with an empty or a mismatched input list -/

/-- C25 fails as stated: a pool node that still holds the input 5 of an earlier `forward` holds
it after `forward(cg, x)` with an empty `x` as well (`ins` is `[5]`, not empty), for
`PoolNode`, `SumPoolNode` and `AvgPoolNode`: the early return comes before `ins.clear()`. -/
theorem C25_counterexample :
    (PoolNode.forward exPoolObjs [] 0 []).map (fun r => (r.1 0).ins) = some [5] ∧
      ((SumPoolNode.forward exSumObjs [] 0 []).1 0).ins = [5] ∧
      ((AvgPoolNode.forward exAvgObjs [] 0 []).1 0).ins = [5] := by
  refine ⟨?_, ?_, ?_⟩
  · simp [PoolNode.forward, exPoolObjs]
  · simp [SumPoolNode.forward, exSumObjs]
  · simp [AvgPoolNode.forward, exAvgObjs]

/-- C25 (amended). For `PoolNode` (max/min), `SumPoolNode` and `AvgPoolNode`, `forward(cg, x)`
with an empty `x` returns and changes nothing: the node memory (every node's `parents`, `degree`
and `ins` included) and the graph are as before, so the node is not added to the graph and its
`ins` is empty exactly when it was empty before the call. -/
theorem C25_empty_input_changes_nothing {α : Type} [Zero α] [One α] [LT α]
    [DecidableRel (fun a b : α => a < b)] (cg : Graph) (self : PNode)
    (op : PNode → PoolNode α) (os : PNode → SumPoolNode α) (oa : PNode → AvgPoolNode α) :
    PoolNode.forward op cg self [] = some (op, cg) ∧
      SumPoolNode.forward os cg self [] = (os, cg) ∧
      AvgPoolNode.forward oa cg self [] = (oa, cg) := by
  refine ⟨?_, ?_, ?_⟩
  · simp [PoolNode.forward]
  · simp [SumPoolNode.forward]
  · simp [AvgPoolNode.forward]

theorem PoolNode_pushInputs_none {α : Type} (objs : PNode → PoolNode α) (self : PNode) :
    ∀ (x acc : List PNode), (∃ i ∈ x, (objs i).val.dim ≠ (objs self).dim) →
      PoolNode.pushInputs objs self x acc = none := by
  intro x
  induction x with
  | nil => intro acc ⟨i, hi, _⟩; exact absurd hi (List.not_mem_nil i)
  | cons xi rest ih =>
    intro acc ⟨i, hi, hne⟩
    by_cases hx : (objs xi).val.dim ≠ (objs self).dim
    · simp [PoolNode.pushInputs, hx]
    · rcases List.mem_cons.mp hi with rfl | hi2
      · exact absurd hne hx
      · simp only [PoolNode.pushInputs, hx, if_false]
        exact ih _ ⟨i, hi2, hne⟩

/-- C26 fails as stated for `SumPoolNode` and `AvgPoolNode`: node 1 (width 2) with the inputs
`[3, 2]`, of which node 3 has width 3, is not cleared: it keeps the input 2 in `ins`, node 2 has
node 1 in its `parents` list, the degree of node 1 is 1 and node 1 has been added to the graph. -/
theorem C26_counterexample :
    (((SumPoolNode.forward exSumObjs [] 1 [3, 2]).1 1).ins = [2] ∧
        ((SumPoolNode.forward exSumObjs [] 1 [3, 2]).1 2).parents = [1] ∧
        ((SumPoolNode.forward exSumObjs [] 1 [3, 2]).1 1).degree = 1 ∧
        (SumPoolNode.forward exSumObjs [] 1 [3, 2]).2 = [1]) ∧
      (((AvgPoolNode.forward exAvgObjs [] 1 [3, 2]).1 1).ins = [2] ∧
        ((AvgPoolNode.forward exAvgObjs [] 1 [3, 2]).1 2).parents = [1] ∧
        ((AvgPoolNode.forward exAvgObjs [] 1 [3, 2]).1 1).degree = 1 ∧
        (AvgPoolNode.forward exAvgObjs [] 1 [3, 2]).2 = [1]) := by
  refine ⟨⟨?_, ?_, ?_, ?_⟩, ⟨?_, ?_, ?_, ?_⟩⟩ <;>
    simp +decide [SumPoolNode.forward, AvgPoolNode.forward, exSumObjs, exAvgObjs, exNode,
      Node.init, Node.new, Tensor1D.init, Tensor1D.dim, Node.addParents, Node.addParent,
      Function.update, Graph.addNode]

/-- C26 (amended). With a non-empty `x` that contains an input whose width differs from `dim`:
`PoolNode::forward` (max/min; `masks` as `init` sized it) clears the node and returns: `ins` and
`parents` of the node are empty, its degree is 0, no other node is changed and the graph is as
before. `SumPoolNode::forward` and `AvgPoolNode::forward` report the mismatched inputs and go on
with the others: `ins` holds the inputs of width `dim` in order, the node's degree is the number
of their pending occurrences, each of them has gained the node in its `parents` list, and the
node has been added to the graph. -/
theorem C26_mismatched_input {α : Type} [Zero α] [One α] [LT α]
    [DecidableRel (fun a b : α => a < b)] (cg : Graph) (self : PNode) (x : List PNode)
    (hne : x ≠ []) :
    (∀ (objs : PNode → PoolNode α), (∃ i ∈ x, (objs i).val.dim ≠ (objs self).dim) →
      (objs self).dim ≤ (objs self).masks.length →
      ∃ n1, PoolNode.forward objs cg self x = some (Function.update objs self n1, cg) ∧
        n1.ins = [] ∧ n1.degree = 0 ∧ n1.parents = []) ∧
    (∀ (objs : PNode → SumPoolNode α),
      ((SumPoolNode.forward objs cg self x).1 self).ins
          = x.filter (fun xi => decide ((objs xi).val.dim = (objs self).dim)) ∧
        ((SumPoolNode.forward objs cg self x).1 self).degree
          = ((x.filter (fun xi => decide ((objs xi).val.dim = (objs self).dim))).countP
              (fun i => decide (i = self ∨ 0 ≤ (objs i).degree)) : Nat) ∧
        (∀ q, ((SumPoolNode.forward objs cg self x).1 q).parents = (objs q).parents ++
          List.replicate (if q = self ∨ 0 ≤ (objs q).degree then
            (x.filter (fun xi => decide ((objs xi).val.dim = (objs self).dim))).count q
            else 0) self) ∧
        (SumPoolNode.forward objs cg self x).2 = cg ++ [self]) ∧
    (∀ (objs : PNode → AvgPoolNode α),
      ((AvgPoolNode.forward objs cg self x).1 self).ins
          = x.filter (fun xi => decide ((objs xi).val.dim = (objs self).dim)) ∧
        ((AvgPoolNode.forward objs cg self x).1 self).degree
          = ((x.filter (fun xi => decide ((objs xi).val.dim = (objs self).dim))).countP
              (fun i => decide (i = self ∨ 0 ≤ (objs i).degree)) : Nat) ∧
        (∀ q, ((AvgPoolNode.forward objs cg self x).1 q).parents = (objs q).parents ++
          List.replicate (if q = self ∨ 0 ≤ (objs q).degree then
            (x.filter (fun xi => decide ((objs xi).val.dim = (objs self).dim))).count q
            else 0) self) ∧
        (AvgPoolNode.forward objs cg self x).2 = cg ++ [self]) := by
  have hlen : x.length ≠ 0 := fun e => hne (List.length_eq_zero.1 e)
  refine ⟨?_, ?_, ?_⟩
  · intro objs hmis hmask
    have hpush := PoolNode_pushInputs_none objs self x [] hmis
    refine ⟨{ objs self with
        toNode := Node.clearValue (objs self).toNode
        ins := []
        masks := List.replicate (objs self).dim (-1) ++ (objs self).masks.drop (objs self).dim },
      ?_, rfl, rfl, rfl⟩
    simp [PoolNode.forward, hlen, hpush, PoolNode.clearValue, hmask]
  · intro objs
    have key := Node_addParents_reset self
      (x.filter (fun xi => decide ((objs xi).val.dim = (objs self).dim)))
      (fun r => (objs r).toNode)
      (fun r => (Function.update objs self { objs self with
        ins := x.filter (fun xi => decide ((objs xi).val.dim = (objs self).dim)),
        degree := 0 } r).toNode)
      (by simp) (fun q hq => by simp [Function.update, hq])
    simp only [SumPoolNode.forward, hlen, if_false]
    exact ⟨by simp, key.1, key.2, rfl⟩
  · intro objs
    have key := Node_addParents_reset self
      (x.filter (fun xi => decide ((objs xi).val.dim = (objs self).dim)))
      (fun r => (objs r).toNode)
      (fun r => (Function.update objs self { objs self with
        ins := x.filter (fun xi => decide ((objs xi).val.dim = (objs self).dim)),
        degree := 0 } r).toNode)
      (by simp) (fun q hq => by simp [Function.update, hq])
    simp only [AvgPoolNode.forward, hlen, if_false]
    exact ⟨by simp, key.1, key.2, rfl⟩

theorem C26_mismatched_input_witness :
    (∃ n1, PoolNode.forward exPoolObjs [] 1 [3, 2] = some (Function.update exPoolObjs 1 n1, []) ∧
        n1.ins = [] ∧ n1.degree = 0 ∧ n1.parents = []) ∧
      ((SumPoolNode.forward exSumObjs [] 1 [3, 2]).1 1).ins
        = [3, 2].filter (fun xi => decide ((exSumObjs xi).val.dim = (exSumObjs 1).dim)) ∧
      (AvgPoolNode.forward exAvgObjs [] 1 [3, 2]).2 = [] ++ [1] :=
  ⟨(C26_mismatched_input [] 1 [3, 2] (by simp)).1 exPoolObjs
      ⟨3, by simp, by simp [exPoolObjs, exPool, exNode, Node.init, Tensor1D.dim]⟩
      (by simp [exPoolObjs, exPool, exNode, Node.init]),
    ((C26_mismatched_input [] 1 [3, 2] (by simp)).2.1 exSumObjs).1,
    ((C26_mismatched_input [] 1 [3, 2] (by simp)).2.2 exAvgObjs).2.2.2⟩

/-! ## `SparseParam::value` and `loss` with a vector of another width -/

theorem forLoop_none {σ : Type} (P : σ → Prop) (f : Nat → σ → Option σ) (d : Nat)
    (hinv : ∀ i s s1, P s → f i s = some s1 → P s1) (hfail : ∀ s, P s → f d s = none) :
    ∀ (n : Nat) (s0 : σ), P s0 → d < n → forLoop n f s0 = none := by
  have hP : ∀ (m : Nat) (s0 s1 : σ), P s0 → forLoop m f s0 = some s1 → P s1 := by
    intro m
    induction m with
    | zero => intro s0 s1 h0 h; simp only [forLoop, Option.some.injEq] at h; rw [← h]; exact h0
    | succ k ih =>
      intro s0 s1 h0 h
      rw [forLoop] at h
      obtain ⟨s2, h2, h3⟩ := Option.bind_eq_some.mp h
      exact hinv k s2 s1 (ih s0 s2 h0 h2) h3
  intro n
  induction n with
  | zero => intro s0 _ hd; omega
  | succ k ih =>
    intro s0 h0 hd
    rw [forLoop]
    by_cases hk : d < k
    · rw [ih s0 h0 hk]; rfl
    · have hdk : d = k := by omega
      subst hdk
      cases hl : forLoop d f s0 with
      | none => rfl
      | some s1 => exact hfail s1 (hP d s0 s1 h0 hl)

theorem SparseParam_value_short {α : Type} (p : SparseParam α) (featId : Int)
    (out : Tensor1D α) (hd : out.dim < p.val.col) : p.value featId out = none := by
  unfold SparseParam.value Tensor1D.setAll?
  apply forLoop_none (fun t : Tensor1D α => t.dim = out.dim) _ out.dim _ _ _ out rfl hd
  · intro i s s1 hs h
    obtain ⟨a, _, h2⟩ := Option.bind_eq_some.mp h
    simp only [Tensor1D.set?] at h2
    split_ifs at h2
    rw [← Option.some.inj h2]
    simpa [Tensor1D.dim] using hs
  · intro s hs
    show ((p.val.getI? featId out.dim).bind fun a => s.set? out.dim a) = none
    cases hsrc : p.val.getI? featId out.dim with
    | none => rfl
    | some a => simp [Tensor1D.set?, hs]

theorem SparseParam_loss_short {α : Type} [Add α] (p : SparseParam α) (featId : Int)
    (l : Tensor1D α) (hd : l.dim < p.val.col) : p.loss featId l = none := by
  unfold SparseParam.loss
  split_ifs
  · rfl
  · rw [forLoop_none (fun _ : Tensor2D α => True) _ l.dim (fun _ _ _ _ _ => trivial) _ _ _
      trivial hd]
    · rfl
    · intro g _
      show ((g.getI? featId l.dim).bind fun g0 =>
        (l.get? l.dim).bind fun l0 => g.setI? featId l.dim (g0 + l0)) = none
      cases hg : g.getI? featId l.dim with
      | none => rfl
      | some g0 => simp [Tensor1D.get?]

/-- C24, the failing input evaluated. A parameter with one row of feature width `val.col = 2`,
the in-range feature id 0 and vectors of width 1: `value(0, out)` and `loss(0, l)` do not
complete (`none`): after the report the loops run to `val.col` and reach `out[1]`, resp. `l[1]`,
which the vector does not have (`assert(i < dim)` fails). With a vector of width 3 `value`
completes and writes the first two elements. -/
theorem C24_short_vector_aborts :
    exSparseWide.val.col = 2 ∧
      exSparseWide.value 0 (Tensor1D.mk [0]) = none ∧
      exSparseWide.loss 0 (Tensor1D.mk [1]) = none ∧
      exSparseWide.value 0 (Tensor1D.mk [0, 0, 0]) = some (Tensor1D.mk [1, 2, 0]) := by
  refine ⟨rfl, ?_, ?_, ?_⟩
  · exact SparseParam_value_short _ _ _ (by decide)
  · exact SparseParam_loss_short _ _ _ (by decide)
  · simp +decide [SparseParam.value, Tensor1D.setAll?, forLoop, Tensor2D.getI?, Tensor2D.get?,
      Tensor1D.set?, Tensor1D.dim, exSparseWide]

/-! ## `save` and `load` of the tensors -/

theorem List_range_map_scan {β : Type} [Zero β] (f : β → String) (g : String → β) (l : List β)
    (h : ∀ a ∈ l, g (f a) = a) :
    (List.range l.length).map (fun idx => (((l.map f)[idx]?).map g).getD 0) = l := by
  apply List.ext_getElem
  · simp
  · intro i h1 h2
    have hi : i < l.length := h2
    simp only [List.getElem_map, List.getElem_range, List.getElem?_map,
      List.getElem?_eq_getElem hi, Option.map_some', Option.getD_some]
    exact h _ (List.getElem_mem hi)

theorem Tensor1D_save_load {α : Type} [Zero α] (io : TextFmt α) (t t0 : Tensor1D α)
    (hd : 1 ≤ t.dim) (hI : io.scanInt (io.printInt (t.dim : Int)) = (t.dim : Int))
    (hV : ∀ a ∈ t.v, io.scanVal (io.printVal a) = a) :
    ∃ toks, t.save io = some toks ∧ Tensor1D.load io t0 toks = some (t, []) := by
  obtain ⟨v⟩ := t
  cases v with
  | nil => simp [Tensor1D.dim] at hd
  | cons v0 rest =>
    refine ⟨io.printInt ((Tensor1D.mk (v0 :: rest)).dim : Int) :: (v0 :: rest).map io.printVal,
      by simp [Tensor1D.save], ?_⟩
    have hscan := List_range_map_scan io.printVal io.scanVal (v0 :: rest) hV
    have hI2 : io.scanInt (io.printInt ((v0 :: rest).length : Nat))
        = ((v0 :: rest).length : Nat) := hI
    simp only [Tensor1D.load, List.getElem?_cons_zero, Option.map_some', Option.getD_some,
      Tensor1D.init, Tensor1D.dim, List.length_replicate, List.drop_succ_cons,
      List.drop_zero, hI2, Int.toNat_ofNat]
    rw [if_neg (by omega), hscan]
    simp [Nat.add_comm 1]

theorem Tensor2D_save_load {α : Type} [Zero α] (io : TextFmt α) (t t0 : Tensor2D α)
    (hw : t.WF) (hr : 1 ≤ t.row) (hc : 1 ≤ t.col)
    (hR : io.scanInt (io.printInt (t.row : Int)) = (t.row : Int))
    (hC : io.scanInt (io.printInt (t.col : Int)) = (t.col : Int))
    (hV : ∀ a ∈ t.v, io.scanVal (io.printVal a) = a) :
    ∃ toks, t.save io = some toks ∧ Tensor2D.load io t0 toks = some (t, []) := by
  obtain ⟨col, row, v⟩ := t
  simp only [Tensor2D.WF] at hw
  simp only at hr hc hR hC hV
  have hsize : (Tensor2D.mk col row v).size = v.length := by
    simp only [Tensor2D.size]; rw [hw, Nat.mul_comm]
  have hpos : 0 < v.length := by rw [hw]; exact Nat.mul_pos hr hc
  cases v with
  | nil => simp at hpos
  | cons v0 rest =>
    refine ⟨io.printInt ((Tensor2D.mk col row (v0 :: rest)).size : Int) :: io.printInt (row : Int)
        :: io.printInt (col : Int) :: (v0 :: rest).map io.printVal, ?_, ?_⟩
    · simp only [Tensor2D.save, hsize, lt_irrefl, if_false, List.getElem?_cons_zero,
        Option.map_some', List.take_length, List.drop_succ_cons, List.drop_zero, List.map_cons]
    · have hscan := List_range_map_scan io.printVal io.scanVal (v0 :: rest) hV
      have hsz : (Tensor2D.init t0 row col).size = (v0 :: rest).length := by
        simp only [Tensor2D.init, Tensor2D.size]; rw [hw, Nat.mul_comm]
      simp only [Tensor2D.load, List.getElem?_cons_succ, List.getElem?_cons_zero,
        Option.map_some', Option.getD_some, hR, hC, Int.toNat_ofNat, List.drop_succ_cons,
        List.drop_zero, hsz]
      rw [if_neg (by omega), hscan]
      simp [Tensor2D.init, Nat.add_comm 3]

/-- C27. Save/load round trip: for every `Tensor1D` with `dim >= 1` and every `Tensor2D` with
`row >= 1` and `col >= 1` (whose buffer has `row * col` elements), `save` writes a token
sequence, and `load` applied to it returns a tensor with the same dimensions and the same
elements in the same order and leaves no token, provided parsing inverts printing on the
dimensions and on the elements of the tensor. -/
theorem C27_save_load_round_trip {α : Type} [Zero α] (io : TextFmt α) :
    (∀ (t t0 : Tensor1D α), 1 ≤ t.dim →
      io.scanInt (io.printInt (t.dim : Int)) = (t.dim : Int) →
      (∀ a ∈ t.v, io.scanVal (io.printVal a) = a) →
      ∃ toks, t.save io = some toks ∧ Tensor1D.load io t0 toks = some (t, [])) ∧
    (∀ (t t0 : Tensor2D α), t.WF → 1 ≤ t.row → 1 ≤ t.col →
      io.scanInt (io.printInt (t.row : Int)) = (t.row : Int) →
      io.scanInt (io.printInt (t.col : Int)) = (t.col : Int) →
      (∀ a ∈ t.v, io.scanVal (io.printVal a) = a) →
      ∃ toks, t.save io = some toks ∧ Tensor2D.load io t0 toks = some (t, [])) :=
  ⟨fun t t0 hd hI hV => Tensor1D_save_load io t t0 hd hI hV,
    fun t t0 hw hr hc hR hC hV => Tensor2D_save_load io t t0 hw hr hc hR hC hV⟩

theorem C27_save_load_round_trip_witness :
    (∃ toks, (Tensor1D.mk ([3, 4] : List ℚ)).save exFmt = some toks ∧
      Tensor1D.load exFmt Tensor1D.new toks = some (Tensor1D.mk [3, 4], [])) ∧
    (∃ toks, (Tensor2D.mk 2 1 ([3, 4] : List ℚ)).save exFmt = some toks ∧
      Tensor2D.load exFmt Tensor2D.new toks = some (Tensor2D.mk 2 1 [3, 4], [])) :=
  ⟨(C27_save_load_round_trip exFmt).1 (Tensor1D.mk [3, 4]) Tensor1D.new (by decide)
      (by decide) (by
        intro a ha
        simp only [List.mem_cons, List.mem_singleton, List.not_mem_nil, or_false] at ha
        rcases ha with rfl | rfl <;> simp +decide [exFmt]),
    (C27_save_load_round_trip exFmt).2 (Tensor2D.mk 2 1 [3, 4]) Tensor2D.new
      (by simp [Tensor2D.WF]) (by decide) (by decide) (by decide) (by decide) (by
        intro a ha
        simp only [List.mem_cons, List.mem_singleton, List.not_mem_nil, or_false] at ha
        rcases ha with rfl | rfl <;> simp +decide [exFmt])⟩

/-- C28 fails as stated: `Tensor2D::load` on the record "5 1 2 3 4", whose size field 5 differs
from `row * col = 1 * 2`, does not reject it: it returns the `1 × 2` tensor `[3, 4]`. -/
theorem C28_counterexample :
    Tensor2D.load exFmt Tensor2D.new ["5", "1", "2", "3", "4"]
      = some (Tensor2D.mk 2 1 [3, 4], []) := by
  simp +decide [Tensor2D.load, Tensor2D.init, Tensor2D.size, Tensor2D.new, exFmt, List.range,
    List.range.loop]

/-- C28 (amended). `Tensor2D::save` writes `row * col` as its first field; `Tensor2D::load`
reads that field and does not use it: with any other first field the same tensor is loaded
from `row`, `col` and the elements. -/
theorem C28_size_field_written_not_checked {α : Type} [Zero α] (io : TextFmt α) :
    (∀ (t : Tensor2D α) (toks : List String), t.save io = some toks →
      toks[0]? = some (io.printInt ((t.row * t.col : Nat) : Int))) ∧
    (∀ (t0 : Tensor2D α) (s s1 : String) (rest : List String),
      Tensor2D.load io t0 (s :: rest) = Tensor2D.load io t0 (s1 :: rest)) := by
  constructor
  · intro t toks h
    simp only [Tensor2D.save] at h
    split_ifs at h
    obtain ⟨v0, _, rfl⟩ := Option.map_eq_some'.mp h
    simp [Tensor2D.size, Nat.mul_comm]
  · intro t0 s s1 rest
    have hdrop : ∀ (n : Nat) (a : String), List.drop (3 + n) (a :: rest)
        = List.drop (2 + n) rest := by
      intro n a
      rw [show 3 + n = (2 + n) + 1 by omega, List.drop_succ_cons]
    simp only [Tensor2D.load, List.getElem?_cons_succ, List.drop_succ_cons, hdrop]

theorem C28_size_field_written_not_checked_witness :
    (Tensor2D.mk 2 1 ([3, 4] : List ℚ)).save exFmt = some ["2", "1", "2", "3", "4"] ∧
      (["2", "1", "2", "3", "4"] : List String)[0]?
        = some (exFmt.printInt ((1 * 2 : Nat) : Int)) :=
  ⟨by simp +decide [Tensor2D.save, Tensor2D.size, exFmt],
    (C28_size_field_written_not_checked exFmt).1 (Tensor2D.mk 2 1 [3, 4])
      ["2", "1", "2", "3", "4"]
      (by simp +decide [Tensor2D.save, Tensor2D.size, exFmt])⟩

/-! ## `init` of the tensors and the index checks -/

theorem Tensor_indexCheck_iff {α : Type} (t : Tensor1D α) (t2 : Tensor2D α) (i : Int) :
    (t.indexCheck i = true ↔ i < (t.dim : Int)) ∧
      (t2.indexCheck i = true ↔ i < (t2.row : Int)) := by
  simp [Tensor1D.indexCheck, Tensor2D.indexCheck]

/-- C30, the failing input evaluated. The checks of `Tensor1D::operator[]` and
`Tensor2D::operator[]` are `assert(i < dim)` and `assert(irow < row)` on an `int` index: for the
tensor `[1, 2]` and for a `2 × 1` tensor the index -1 passes the check, where the claim has it
rejected, and the access that follows is outside the buffer. -/
theorem C30_negative_index_passes_check :
    (Tensor1D.mk ([1, 2] : List ℚ)).indexCheck (-1) = true ∧
      (Tensor1D.mk ([1, 2] : List ℚ)).getI? (-1) = none ∧
      (Tensor2D.mk 1 2 ([1, 2] : List ℚ)).indexCheck (-1) = true ∧
      (Tensor2D.mk 1 2 ([1, 2] : List ℚ)).getI? (-1) 0 = none := by
  refine ⟨by decide, ?_, by decide, ?_⟩
  · simp +decide [Tensor1D.getI?, Tensor1D.indexCheck]
  · simp +decide [Tensor2D.getI?]

/-! ## `LookupTable::initialWeights`: malformed lines and the failure conditions -/

/-- C23, the failing input evaluated. Vocabulary a, b, c, OOV and the file with the lines "a 2"
(`N = 1`) and "b" (one field): the line "b" is reported, and as "b" is in the vocabulary the
loader goes on to read `vecInfo[1]`, a field the line does not have, so the load does not
complete (`none`). With the line "b 4 5" (three fields) instead, the load completes and returns
`true`. -/
theorem C23_short_line_reads_missing_field :
    LookupTable.initialWeights exEnvLines exTable (some ["a 2", "b"]) true (-1) = none ∧
      (LookupTable.initialWeights exEnvLines exTable (some ["a 2", "b 4 5"]) true (-1)).map
        (fun r => r.1) = some true := by
  constructor
  · simp +decide [LookupTable.initialWeights, exEnvLines, exEnv, exTable, exAlphabet,
      LookupTable.loadLines, LookupTable.loadLine, forLoop, SparseParam.initial,
      SparseParam.new, Tensor2D.random, Tensor2D.init, Tensor2D.new, Tensor2D.size,
      Tensor2D.get?, Tensor2D.set?, List.range, List.range.loop, List.filter]
  · simp +decide [LookupTable.initialWeights, exEnvLines, exEnv, exTable, exAlphabet,
      LookupTable.loadLines, LookupTable.loadLine, LookupTable.fillUnknown,
      LookupTable.fillUnseen, forLoop, SparseParam.initial, SparseParam.new, Tensor2D.random,
      Tensor2D.init, Tensor2D.new, Tensor2D.size, Tensor2D.get?, Tensor2D.set?, List.range,
      List.range.loop, List.filter]

/-- C22 fails as stated: with a vocabulary that is not fixed (`is_fixed()` false) the call
returns `false` and leaves the table as it was, although the vocabulary has the four entries a,
b, c, OOV, the file is open and its tokens "a" and "b" are in the vocabulary. -/
theorem C22_counterexample :
    LookupTable.initialWeights exEnv { exTable with elems := exAlphabetOpen }
        (some ["a 2", "b 4"]) true (-1)
      = some (false, { exTable with elems := exAlphabetOpen }) ∧
    exTable.nVSize = 4 ∧ exAlphabetOpen.from_string "a" = 0 ∧
      exAlphabetOpen.from_string "b" = 1 := by
  refine ⟨?_, rfl, rfl, rfl⟩
  simp [LookupTable.initialWeights, exAlphabetOpen, exTable]

theorem LookupTable_loadLine_total {α : Type} [Field α] (env : Env α) (elems : Alphabet)
    (nDim : Nat) (nUNKId : Int) (line : String) (s : LoadState α) (R : Nat) (w : String)
    (hs : s.val.WF ∧ s.val.row = R ∧ s.val.col = nDim) (hsum : s.sum.length = nDim)
    (hw : (env.split_bychar line ' ')[0]? = some w)
    (hok : 0 ≤ elems.from_string w →
      (elems.from_string w).toNat < R ∧ nDim + 1 ≤ (env.split_bychar line ' ').length) :
    ∃ s1, LookupTable.loadLine env elems nDim nUNKId line s = some s1 ∧
      (s1.val.WF ∧ s1.val.row = R ∧ s1.val.col = nDim) ∧ s1.sum.length = nDim ∧
      s1.count = s.count + (if 0 ≤ elems.from_string w then 1 else 0) := by
  by_cases hid : 0 ≤ elems.from_string w
  · obtain ⟨hrow, hlen⟩ := hok hid
    obtain ⟨sv, hloop, hsl, hsw, hsr, hsc⟩ := forLoop_inv
      (fun _ (sv : List α × Tensor2D α) =>
        sv.1.length = nDim ∧ sv.2.WF ∧ sv.2.row = R ∧ sv.2.col = nDim)
      (fun idy (sv : List α × Tensor2D α) =>
        ((env.split_bychar line ' ')[idy + 1]?).bind fun field =>
        (sv.1[idy]?).bind fun s0 =>
        (sv.2.get? (elems.from_string w).toNat idy).bind fun e0 =>
        (sv.2.set? (elems.from_string w).toNat idy (e0 + env.atof field)).bind fun val1 =>
        some (sv.1.set idy (s0 + env.atof field), val1))
      nDim (s.sum, s.val) ⟨hsum, hs.1, hs.2.1, hs.2.2⟩
      (by
        rintro idy ⟨sm, vl⟩ hidy ⟨h1, h2, h3, h4⟩
        simp only at h1 h2 h3 h4
        have hf : idy + 1 < (env.split_bychar line ' ').length := by omega
        obtain ⟨v2, hset, hw2, hr2, hc2, _⟩ := Tensor2D_set_entry vl (elems.from_string w).toNat
          idy (vl.mat.entry (elems.from_string w).toNat idy
            + env.atof (env.split_bychar line ' ')[idy + 1]) h2 (by rw [h3]; exact hrow)
          (by rw [h4]; exact hidy)
        have hsm : idy < sm.length := by rw [h1]; exact hidy
        have hrv : (elems.from_string w).toNat < vl.row := by rw [h3]; exact hrow
        have hcv : idy < vl.col := by rw [h4]; exact hidy
        refine ⟨(sm.set idy (sm[idy] + env.atof (env.split_bychar line ' ')[idy + 1]), v2),
          ?_, ?_, hw2, hr2.trans h3, hc2.trans h4⟩
        · simp only [List.getElem?_eq_getElem hf, Option.some_bind,
            List.getElem?_eq_getElem hsm, Tensor2D_get_entry vl _ idy h2 hrv hcv, hset]
        · simp only [List.length_set]; exact h1)
    refine ⟨{ bHasUnknown := if nUNKId = elems.from_string w then true else s.bHasUnknown
              indexers := elems.from_string w :: s.indexers
              sum := sv.1
              count := s.count + 1
              val := sv.2 }, ?_, ⟨hsw, hsr, hsc⟩, hsl, by simp [hid]⟩
    simp only [LookupTable.loadLine, hw, Option.some_bind, hid, if_true, hloop, Option.map_some']
  · refine ⟨s, ?_, hs, hsum, by simp [hid]⟩
    simp only [LookupTable.loadLine, hw, Option.some_bind, hid, if_false]

theorem LookupTable_loadLines_total {α : Type} [Field α] (env : Env α) (elems : Alphabet)
    (nDim : Nat) (nUNKId : Int) (R : Nat) :
    ∀ (lines : List String) (s : LoadState α),
      (s.val.WF ∧ s.val.row = R ∧ s.val.col = nDim) → s.sum.length = nDim →
      (∀ l ∈ lines, ∃ w, (env.split_bychar l ' ')[0]? = some w ∧
        (0 ≤ elems.from_string w →
          (elems.from_string w).toNat < R ∧ nDim + 1 ≤ (env.split_bychar l ' ').length)) →
      ∃ s1, LookupTable.loadLines env elems nDim nUNKId lines s = some s1 ∧
        (s1.val.WF ∧ s1.val.row = R ∧ s1.val.col = nDim) ∧ s1.sum.length = nDim ∧
        (s1.count = 0 ↔ s.count = 0 ∧
          ∀ l ∈ lines, ∀ w, (env.split_bychar l ' ')[0]? = some w → elems.from_string w < 0) := by
  intro lines
  induction lines with
  | nil =>
    intro s hs hsum _
    exact ⟨s, rfl, hs, hsum, by simp⟩
  | cons line rest ih =>
    intro s hs hsum hl
    obtain ⟨w, hw, hok⟩ := hl line (List.mem_cons_self _ _)
    obtain ⟨s1, h1, hs1, hsum1, hc1⟩ :=
      LookupTable_loadLine_total env elems nDim nUNKId line s R w hs hsum hw hok
    obtain ⟨s2, h2, hs2, hsum2, hc2⟩ := ih s1 hs1 hsum1
      (fun l hm => hl l (List.mem_cons_of_mem _ hm))
    refine ⟨s2, ?_, hs2, hsum2, ?_⟩
    · simp only [LookupTable.loadLines, h1, Option.some_bind, h2]
    · rw [hc2, hc1]
      constructor
      · rintro ⟨h0, hrest⟩
        have hneg : ¬ 0 ≤ elems.from_string w := by
          intro hge
          rw [if_pos hge] at h0
          omega
        rw [if_neg hneg] at h0
        refine ⟨by omega, ?_⟩
        intro l hm w1 hw1
        rcases List.mem_cons.mp hm with rfl | hm2
        · rw [hw] at hw1
          rw [← Option.some.inj hw1]
          omega
        · exact hrest l hm2 w1 hw1
      · rintro ⟨h0, hall⟩
        have hneg : ¬ 0 ≤ elems.from_string w := by
          have := hall line (List.mem_cons_self _ _) w hw
          omega
        rw [if_neg hneg]
        exact ⟨by omega, fun l hm => hall l (List.mem_cons_of_mem _ hm)⟩

theorem LookupTable_fillUnknown_total {α : Type} [Field α] (nDim : Nat) (nUNKId : Int)
    (s : LoadState α) (R : Nat) (hs : s.val.WF ∧ s.val.row = R ∧ s.val.col = nDim)
    (hsum : s.sum.length = nDim) (hu : 0 ≤ nUNKId → nUNKId.toNat < R) :
    ∃ s2, LookupTable.fillUnknown nDim nUNKId s = some s2 ∧
      (s2.val.WF ∧ s2.val.row = R ∧ s2.val.col = nDim) ∧ s2.sum.length = nDim := by
  by_cases hc : 0 ≤ nUNKId ∧ s.bHasUnknown = false
  · obtain ⟨v1, hloop, hw1, hr1, hc1⟩ := forLoop_inv
      (fun _ (val : Tensor2D α) => val.WF ∧ val.row = R ∧ val.col = nDim)
      (fun idx (val : Tensor2D α) =>
        (s.sum[idx]?).bind fun s0 =>
        val.set? nUNKId.toNat idx (s0 / ((s.count + 1 : Nat) : α)))
      nDim s.val hs
      (by
        rintro idx val hidx ⟨h2, h3, h4⟩
        have hsm : idx < s.sum.length := by rw [hsum]; exact hidx
        obtain ⟨v2, hset, hw2, hr2, hc2, _⟩ := Tensor2D_set_entry val nUNKId.toNat idx
          (s.sum[idx] / ((s.count + 1 : Nat) : α)) h2 (by rw [h3]; exact hu hc.1)
          (by rw [h4]; exact hidx)
        refine ⟨v2, ?_, hw2, hr2.trans h3, hc2.trans h4⟩
        simp only [List.getElem?_eq_getElem hsm, Option.some_bind, hset])
    refine ⟨{ s with val := v1, indexers := nUNKId :: s.indexers, count := s.count + 1 }, ?_,
      ⟨hw1, hr1, hc1⟩, hsum⟩
    simp only [LookupTable.fillUnknown, hc, and_self, if_true, hloop, Option.map_some']
  · exact ⟨s, by simp only [LookupTable.fillUnknown, hc, if_false], hs, hsum⟩

theorem LookupTable_fillUnseen_total {α : Type} [Field α] (nDim nVSize : Nat) (nUNKId : Int)
    (s : LoadState α) (hs : s.val.WF ∧ s.val.row = nVSize ∧ s.val.col = nDim)
    (hsum : s.sum.length = nDim) (hu : 0 ≤ nUNKId → nUNKId.toNat < nVSize) :
    ∃ val3, LookupTable.fillUnseen nDim nVSize nUNKId s = some val3 ∧
      val3.WF ∧ val3.row = nVSize ∧ val3.col = nDim := by
  unfold LookupTable.fillUnseen
  apply forLoop_inv (fun _ (val : Tensor2D α) => val.WF ∧ val.row = nVSize ∧ val.col = nDim)
    _ nVSize s.val hs
  rintro id val hid ⟨h2, h3, h4⟩
  by_cases hmem : (id : Int) ∉ s.indexers
  · rw [if_pos hmem]
    apply forLoop_inv
      (fun _ (val1 : Tensor2D α) => val1.WF ∧ val1.row = nVSize ∧ val1.col = nDim)
      _ nDim val ⟨h2, h3, h4⟩
    rintro idy val1 hidy ⟨k2, k3, k4⟩
    have hsm : idy < s.sum.length := by rw [hsum]; exact hidy
    by_cases hu0 : 0 ≤ nUNKId
    · obtain ⟨v2, hset, hw2, hr2, hc2, _⟩ := Tensor2D_set_entry val1 id idy
        (val1.mat.entry nUNKId.toNat idy) k2 (by rw [k3]; exact hid) (by rw [k4]; exact hidy)
      refine ⟨v2, ?_, hw2, hr2.trans k3, hc2.trans k4⟩
      simp only [hu0, if_true, Tensor2D_get_entry val1 nUNKId.toNat idy k2
        (by rw [k3]; exact hu hu0) (by rw [k4]; exact hidy), Option.some_bind, hset]
    · obtain ⟨v2, hset, hw2, hr2, hc2, _⟩ := Tensor2D_set_entry val1 id idy
        (s.sum[idy] / ((s.count + 1 : Nat) : α)) k2 (by rw [k3]; exact hid)
        (by rw [k4]; exact hidy)
      refine ⟨v2, ?_, hw2, hr2.trans k3, hc2.trans k4⟩
      simp only [hu0, if_false, List.getElem?_eq_getElem hsm, Option.map_some',
        Option.some_bind, hset]
  · rw [if_neg hmem]
    exact ⟨val, rfl, h2, h3, h4⟩

theorem Tensor2D_random_range {α : Type} [LinearOrderedField α] (env : Env α) (k : Nat)
    (t : Tensor2D α) (bound : α) (hrand : ∀ i, env.rand i ≤ env.RAND_MAX)
    (hmax : 0 < env.RAND_MAX) (hb : 0 ≤ bound) :
    (Tensor2D.random env k t bound).row = t.row ∧ (Tensor2D.random env k t bound).col = t.col ∧
      (Tensor2D.random env k t bound).v.length = t.row * t.col ∧
      ∀ a ∈ (Tensor2D.random env k t bound).v, -bound ≤ a ∧ a ≤ bound := by
  refine ⟨rfl, rfl, by simp [Tensor2D.random, Tensor2D.size, Nat.mul_comm], ?_⟩
  intro a ha
  simp only [Tensor2D.random, List.mem_map, List.mem_range] at ha
  obtain ⟨i, _, rfl⟩ := ha
  have hM : (0 : α) < (env.RAND_MAX : α) := by exact_mod_cast hmax
  have hq0 : (0 : α) ≤ (env.rand (k + i) : α) / (env.RAND_MAX : α) :=
    div_nonneg (Nat.cast_nonneg _) (le_of_lt hM)
  have hq1 : (env.rand (k + i) : α) / (env.RAND_MAX : α) ≤ 1 := by
    rw [div_le_one hM]
    exact_mod_cast hrand (k + i)
  have h1 : 0 ≤ (env.rand (k + i) : α) / (env.RAND_MAX : α) * bound := mul_nonneg hq0 hb
  have h2 : (env.rand (k + i) : α) / (env.RAND_MAX : α) * bound ≤ bound := by
    have := mul_le_mul_of_nonneg_right hq1 hb
    simpa using this
  constructor <;> linarith

/-- C22 (amended). For a file whose lines all have a first field and whose lines with a token of
the vocabulary have at least `N + 1` fields (`N` inferred from the first line) and a row of the
table, `LookupTable::initialWeights(file, ...)` returns, and it returns `false` if and only if
the vocabulary is empty, or is not fixed, or contains only the OOV token, or the file cannot be
opened, or no token of the file is in the vocabulary (a file without a non-empty line
included); otherwise it returns `true`. In the zero-overlap case `E.val` is an
`nVSize × N` tensor and, with `rand()` in `[0, RAND_MAX]` and `sqrt` non-negative, every element
of `E.val` lies in `[-sqrt(3/N), sqrt(3/N)]`. -/
theorem C22_initialWeights_failure_iff {α : Type} [LinearOrderedField α] (env : Env α)
    (T : LookupTable α) (file : Option (List String)) (tune : Bool) (norm : α)
    (hfile : ∀ lines, file = some lines → ∀ l ∈ lines, l ≠ "" →
      ∃ w, (env.split_bychar l ' ')[0]? = some w ∧
        (0 ≤ T.elems.from_string w →
          (T.elems.from_string w).toNat < T.nVSize ∧
          LookupTable.fileDim env lines + 1 ≤ (env.split_bychar l ' ').length))
    (hunk : 0 ≤ T.nUNKId → T.nUNKId.toNat < T.nVSize) :
    ∃ b T1, LookupTable.initialWeights env T file tune norm = some (b, T1) ∧
      (b = false ↔
        (T.nVSize = 0 ∨ T.elems.is_fixed = false ∨ (T.nVSize = 1 ∧ 0 ≤ T.nUNKId) ∨
          file = none ∨
          ∃ lines, file = some lines ∧ ∀ l ∈ lines, l ≠ "" →
            ∀ w, (env.split_bychar l ' ')[0]? = some w → T.elems.from_string w < 0)) ∧
      (∀ lines, file = some lines →
        ¬ (T.nVSize = 0 ∨ T.elems.is_fixed = false ∨ (T.nVSize = 1 ∧ 0 ≤ T.nUNKId)) →
        lines.filter (fun l => l ≠ "") ≠ [] →
        (∀ l ∈ lines, l ≠ "" →
          ∀ w, (env.split_bychar l ' ')[0]? = some w → T.elems.from_string w < 0) →
        (∀ i, env.rand i ≤ env.RAND_MAX) → 0 < env.RAND_MAX →
        0 ≤ env.sqrt (3 / (LookupTable.fileDim env lines : α)) →
        T1.E.val.row = T.nVSize ∧ T1.E.val.col = LookupTable.fileDim env lines ∧ T1.E.val.WF ∧
          ∀ a ∈ T1.E.val.v, -env.sqrt (3 / (LookupTable.fileDim env lines : α)) ≤ a ∧
            a ≤ env.sqrt (3 / (LookupTable.fileDim env lines : α))) := by
  by_cases hG : T.nVSize = 0 ∨ T.elems.is_fixed = false ∨ (T.nVSize = 1 ∧ 0 ≤ T.nUNKId)
  · refine ⟨false, T, by simp only [LookupTable.initialWeights, hG, if_true], ?_, ?_⟩
    · refine ⟨fun _ => ?_, fun _ => rfl⟩
      rcases hG with h | h | h
      · exact Or.inl h
      · exact Or.inr (Or.inl h)
      · exact Or.inr (Or.inr (Or.inl h))
    · intro lines _ hn
      exact absurd hG hn
  · have hRHS : ∀ lines, file = some lines →
        (∀ l ∈ lines, l ≠ "" →
          ∀ w, (env.split_bychar l ' ')[0]? = some w → T.elems.from_string w < 0) →
        (T.nVSize = 0 ∨ T.elems.is_fixed = false ∨ (T.nVSize = 1 ∧ 0 ≤ T.nUNKId) ∨
          file = none ∨
          ∃ lines, file = some lines ∧ ∀ l ∈ lines, l ≠ "" →
            ∀ w, (env.split_bychar l ' ')[0]? = some w → T.elems.from_string w < 0) :=
      fun lines hl hall => Or.inr (Or.inr (Or.inr (Or.inr ⟨lines, hl, hall⟩)))
    cases file with
    | none =>
      refine ⟨false, T, by simp only [LookupTable.initialWeights, hG, if_false], ?_, ?_⟩
      · exact ⟨fun _ => Or.inr (Or.inr (Or.inr (Or.inl rfl))), fun _ => rfl⟩
      · intro lines hl
        exact absurd hl (by simp)
    | some lines =>
      have hmemf : ∀ l, l ∈ lines.filter (fun l => l ≠ "") ↔ l ∈ lines ∧ l ≠ "" := by
        intro l
        simp [List.mem_filter]
      cases hfl : lines.filter (fun l => l ≠ "") with
      | nil =>
        refine ⟨false, T, by simp only [LookupTable.initialWeights, hG, if_false, hfl], ?_, ?_⟩
        · refine ⟨fun _ => hRHS lines rfl ?_, fun _ => rfl⟩
          intro l hl hne
          have : l ∈ lines.filter (fun l => l ≠ "") := (hmemf l).2 ⟨hl, hne⟩
          rw [hfl] at this
          exact absurd this (List.not_mem_nil l)
        · intro lines2 hl2 _ hne
          rw [← Option.some.inj hl2] at hne
          exact absurd hfl hne
      | cons first rest =>
        have hfd : LookupTable.fileDim env lines = (env.split_bychar first ' ').length - 1 := by
          simp only [LookupTable.fileDim, hfl]
        have hfirst : first ∈ lines ∧ first ≠ "" := by
          rw [← hmemf, hfl]; exact List.mem_cons_self _ _
        obtain ⟨w0, hw0, _⟩ := hfile lines rfl first hfirst.1 hfirst.2
        have hlen0 : (env.split_bychar first ' ').length ≠ 0 := by
          intro h0
          rw [List.getElem?_eq_none (by omega)] at hw0
          exact absurd hw0 (by simp)
        obtain ⟨hE0w, hE0r, hE0c⟩ := SparseParam_initial_val_shape env 0 T.E
          ((env.split_bychar first ' ').length - 1) T.nVSize
        obtain ⟨s1, hs1, hshape1, hsum1, hcount1⟩ := LookupTable_loadLines_total env T.elems
          ((env.split_bychar first ' ').length - 1) T.nUNKId T.nVSize (first :: rest)
          { bHasUnknown := false, indexers := [],
            sum := List.replicate ((env.split_bychar first ' ').length - 1) 0, count := 0,
            val := (SparseParam.initial env 0 T.E ((env.split_bychar first ' ').length - 1)
              T.nVSize).val }
          ⟨hE0w, hE0r, hE0c⟩ (by simp)
          (by
            intro l hl
            rw [← hfl, hmemf] at hl
            obtain ⟨w, hw, hok⟩ := hfile lines rfl l hl.1 hl.2
            rw [hfd] at hok
            exact ⟨w, hw, hok⟩)
        have hall_iff : s1.count = 0 ↔ ∀ l ∈ lines, l ≠ "" →
            ∀ w, (env.split_bychar l ' ')[0]? = some w → T.elems.from_string w < 0 := by
          rw [hcount1]
          constructor
          · rintro ⟨_, h⟩ l hl hne
            exact h l (by rw [← hfl, hmemf]; exact ⟨hl, hne⟩)
          · intro h
            refine ⟨rfl, fun l hl => ?_⟩
            rw [← hfl, hmemf] at hl
            exact h l hl.1 hl.2
        by_cases hc0 : s1.count = 0
        · have hret : LookupTable.initialWeights env T (some lines) tune norm
              = some (false, { T with
                  nDim := (env.split_bychar first ' ').length - 1
                  E := { SparseParam.initial env 0 T.E ((env.split_bychar first ' ').length - 1)
                      T.nVSize with
                    val := (Tensor2D.random env (SparseParam.initial env 0 T.E
                      ((env.split_bychar first ' ').length - 1) T.nVSize).val.size s1.val
                      (env.sqrt (3 / (((env.split_bychar first ' ').length - 1 : Nat) : α)))) } }) := by
            simp only [LookupTable.initialWeights, hG, if_false, hfl, hlen0, hs1,
              Option.some_bind, hc0, if_true]
          refine ⟨false, _, hret, ?_, ?_⟩
          · exact ⟨fun _ => hRHS lines rfl (hall_iff.1 hc0), fun _ => rfl⟩
          · intro lines2 hl2 _ _ _ hrand hmax hsq
            rw [← Option.some.inj hl2, hfd] at hsq ⊢
            obtain ⟨r1, r2, r3, r4⟩ := Tensor2D_random_range env
              (SparseParam.initial env 0 T.E ((env.split_bychar first ' ').length - 1)
                T.nVSize).val.size s1.val
              (env.sqrt (3 / (((env.split_bychar first ' ').length - 1 : Nat) : α)))
              hrand hmax hsq
            refine ⟨r1.trans hshape1.2.1, r2.trans hshape1.2.2, ?_, r4⟩
            show (Tensor2D.random _ _ _ _).v.length
              = (Tensor2D.random _ _ _ _).row * (Tensor2D.random _ _ _ _).col
            rw [r3, r1, r2]
        · obtain ⟨s2, hs2, hshape2, hsum2⟩ := LookupTable_fillUnknown_total
            ((env.split_bychar first ' ').length - 1) T.nUNKId s1 T.nVSize hshape1 hsum1 hunk
          obtain ⟨val3, hv3, _⟩ := LookupTable_fillUnseen_total
            ((env.split_bychar first ' ').length - 1) T.nVSize T.nUNKId s2 hshape2 hsum2 hunk
          have hret : LookupTable.initialWeights env T (some lines) tune norm
              = some (true, { T with
                  nDim := (env.split_bychar first ' ').length - 1
                  bFineTune := tune
                  E := { SparseParam.initial env 0 T.E ((env.split_bychar first ' ').length - 1)
                      T.nVSize with
                    val := (if 0 < norm then Tensor2D.norm2one env val3 norm else val3) } }) := by
            simp only [LookupTable.initialWeights, hG, if_false, hfl, hlen0, hs1,
              Option.some_bind, hc0, hs2, hv3]
          refine ⟨true, _, hret, ?_, ?_⟩
          · refine ⟨fun h => absurd h (by simp), fun h => ?_⟩
            rcases h with h | h | h | h | ⟨lines2, hl2, hall⟩
            · exact absurd (Or.inl h) hG
            · exact absurd (Or.inr (Or.inl h)) hG
            · exact absurd (Or.inr (Or.inr h)) hG
            · exact absurd h (by simp)
            · rw [← Option.some.inj hl2] at hall
              exact absurd (hall_iff.2 hall) hc0
          · intro lines2 hl2 _ _ hall
            rw [← Option.some.inj hl2] at hall
            exact absurd (hall_iff.2 hall) hc0

/-- C22 (amended), instance: a fixed vocabulary with "c" and the OOV token, and a file with the
lines "a 2" and "b 4" (`N = 1`, no token in the vocabulary): the call returns `false`, `E.val`
is a `2 × 1` tensor and its elements lie in `[-sqrt(3/1), sqrt(3/1)]`, which is `[-3, 3]` for
the `sqrt` of `exEnv`. -/
theorem C22_initialWeights_failure_iff_witness :
    ∃ T1, LookupTable.initialWeights exEnv exTableDisjoint (some ["a 2", "b 4"]) true (-1)
        = some (false, T1) ∧
      T1.E.val.row = 2 ∧ T1.E.val.col = 1 ∧ T1.E.val.WF ∧
      ∀ a ∈ T1.E.val.v, -3 ≤ a ∧ a ≤ 3 := by
  have hall : ∀ l ∈ ["a 2", "b 4"], l ≠ "" →
      ∀ w, (exEnv.split_bychar l ' ')[0]? = some w → exTableDisjoint.elems.from_string w < 0 := by
    intro l hmem _ w hw
    simp only [List.mem_cons, List.mem_singleton, List.not_mem_nil, or_false] at hmem
    rcases hmem with rfl | rfl
    · simp +decide [exEnv] at hw
      subst hw
      simp +decide [exTableDisjoint, exAlphabetDisjoint]
    · simp +decide [exEnv] at hw
      subst hw
      simp +decide [exTableDisjoint, exAlphabetDisjoint]
  have hdim : LookupTable.fileDim exEnv ["a 2", "b 4"] = 1 := by
    simp +decide [LookupTable.fileDim, exEnv, List.filter]
  obtain ⟨b, T1, hT1, hiff, hrange⟩ := C22_initialWeights_failure_iff exEnv exTableDisjoint
    (some ["a 2", "b 4"]) true (-1)
    (by
      intro lines hl l hmem hne
      simp only [Option.some.injEq] at hl
      subst hl
      have h0 := hall l hmem hne
      simp only [List.mem_cons, List.mem_singleton, List.not_mem_nil, or_false] at hmem
      rcases hmem with rfl | rfl
      · exact ⟨"a", by simp +decide [exEnv], fun h => absurd (h0 "a" (by simp +decide [exEnv]))
          (not_lt.2 h)⟩
      · exact ⟨"b", by simp +decide [exEnv], fun h => absurd (h0 "b" (by simp +decide [exEnv]))
          (not_lt.2 h)⟩)
    (by simp [exTableDisjoint])
  have hb : b = false :=
    hiff.2 (Or.inr (Or.inr (Or.inr (Or.inr ⟨_, rfl, hall⟩))))
  subst hb
  have h := hrange _ rfl (by simp +decide [exTableDisjoint, exAlphabetDisjoint])
    (by simp +decide [List.filter]) hall (by intro i; simp [exEnv]) (by simp [exEnv])
    (by rw [hdim]; simp [exEnv])
  rw [hdim] at h
  refine ⟨T1, hT1, h.1, h.2.1, h.2.2.1, ?_⟩
  have h4 := h.2.2.2
  simpa [exEnv] using h4

/-! ## The derivative functions against the activation functions -/

theorem Real_hasDerivAt_tanh (x : ℝ) : HasDerivAt Real.tanh (1 - Real.tanh x ^ 2) x := by
  have hc : Real.cosh x ≠ 0 := ne_of_gt (Real.cosh_pos x)
  have h := (Real.hasDerivAt_sinh x).div (Real.hasDerivAt_cosh x) hc
  have hfun : (fun y => Real.sinh y / Real.cosh y) = Real.tanh := by
    funext y; rw [Real.tanh_eq_sinh_div_cosh]
  have hval : (Real.cosh x * Real.cosh x - Real.sinh x * Real.sinh x) / Real.cosh x ^ 2
      = 1 - Real.tanh x ^ 2 := by
    rw [Real.tanh_eq_sinh_div_cosh]
    field_simp
    linear_combination Real.cosh_sq x
  rw [hfun, hval] at h
  exact h

theorem fsigmoid_hasDerivAt (x : ℝ) :
    HasDerivAt (fun t => fsigmoid Real.exp t)
      ((1 - fsigmoid Real.exp x) * fsigmoid Real.exp x) x := by
  have hpos : (1 : ℝ) + Real.exp (-x) ≠ 0 := ne_of_gt (by positivity)
  have he : HasDerivAt (fun t : ℝ => Real.exp (-t)) (Real.exp (-x) * (-1)) x :=
    (Real.hasDerivAt_exp (-x)).comp x (hasDerivAt_neg x)
  have hd : HasDerivAt (fun t : ℝ => 1 + Real.exp (-t)) (Real.exp (-x) * (-1)) x := by
    simpa using he.const_add 1
  have h := (hasDerivAt_const x (1 : ℝ)).div hd hpos
  have hval : (0 * (1 + Real.exp (-x)) - 1 * (Real.exp (-x) * (-1))) / (1 + Real.exp (-x)) ^ 2
      = (1 - fsigmoid Real.exp x) * fsigmoid Real.exp x := by
    unfold fsigmoid
    field_simp
    ring
  rw [← hval]
  exact h

theorem frelu_hasDerivAt (x : ℝ) (hx : x ≠ 0) :
    HasDerivAt (fun t : ℝ => frelu t) (if x ≤ 0 then 0 else 1) x := by
  rcases lt_or_gt_of_ne hx with h | h
  · rw [if_pos (le_of_lt h)]
    refine (hasDerivAt_const x (0 : ℝ)).congr_of_eventuallyEq ?_
    filter_upwards [Iio_mem_nhds h] with t ht
    simp [frelu, le_of_lt (Set.mem_Iio.1 ht)]
  · rw [if_neg (not_le.2 h)]
    refine (hasDerivAt_id x).congr_of_eventuallyEq ?_
    filter_upwards [Ioi_mem_nhds h] with t ht
    simp [frelu, not_le.2 (Set.mem_Ioi.1 ht)]

theorem fleaky_relu_hasDerivAt (x : ℝ) (hx : x ≠ 0) :
    HasDerivAt (fun t : ℝ => fleaky_relu t) (if x < 0 then 1 / 10 else 1) x := by
  rcases lt_or_gt_of_ne hx with h | h
  · rw [if_pos h]
    have hd : HasDerivAt (fun t : ℝ => 1 / 10 * t) (1 / 10) x := by
      simpa using (hasDerivAt_id x).const_mul (1 / 10 : ℝ)
    refine hd.congr_of_eventuallyEq ?_
    filter_upwards [Iio_mem_nhds h] with t ht
    simp [fleaky_relu, Set.mem_Iio.1 ht]
  · rw [if_neg (not_lt.2 (le_of_lt h))]
    refine (hasDerivAt_id x).congr_of_eventuallyEq ?_
    filter_upwards [Ioi_mem_nhds h] with t ht
    simp [fleaky_relu, not_lt.2 (le_of_lt (Set.mem_Ioi.1 ht))]

theorem fselu_hasDerivAt (x : ℝ) (hx : x ≠ 0) :
    HasDerivAt (fun t : ℝ => fselu Real.exp t)
      (if x ≤ 0 then selu_lambda * selu_alpha * Real.exp x else selu_lambda) x := by
  rcases lt_or_gt_of_ne hx with h | h
  · rw [if_pos (le_of_lt h)]
    have hd : HasDerivAt (fun t : ℝ => selu_lambda * selu_alpha * (Real.exp t - 1))
        (selu_lambda * selu_alpha * Real.exp x) x :=
      ((Real.hasDerivAt_exp x).sub_const 1).const_mul _
    refine hd.congr_of_eventuallyEq ?_
    filter_upwards [Iio_mem_nhds h] with t ht
    simp [fselu, le_of_lt (Set.mem_Iio.1 ht)]
  · rw [if_neg (not_le.2 h)]
    have hd : HasDerivAt (fun t : ℝ => selu_lambda * t) selu_lambda x := by
      simpa using (hasDerivAt_id x).const_mul (selu_lambda : ℝ)
    refine hd.congr_of_eventuallyEq ?_
    filter_upwards [Ioi_mem_nhds h] with t ht
    simp [fselu, not_le.2 (Set.mem_Ioi.1 ht)]

/-- C40. In real arithmetic, with `tanh` and `exp` the real functions, each derivative function
called as `d(x, y)` with `y = f(x)` returns the derivative of its activation function at `x`:
`dequal` is 1, `dtanh(x, tanh x)` is `1 - tanh(x)^2`, `dsigmoid(x, fsigmoid x)` is the derivative
of `fsigmoid`, `dexp(x, exp x)` is `exp x`, and for `x != 0` `drelu`, `dleaky_relu` and `dselu`
are the derivatives of `frelu`, `fleaky_relu` and `fselu`, which for `x < 0` are 0, 0.1 and
`lambda * alpha * exp(x)` and for `x > 0` are 1, 1 and `lambda`. -/
theorem C40_derivative_functions (x : ℝ) :
    HasDerivAt (fun t : ℝ => fequal t) (dequal x (fequal x)) x ∧
    (HasDerivAt (fun t => ftanh Real.tanh t) (dtanh x (ftanh Real.tanh x)) x ∧
      dtanh x (ftanh Real.tanh x) = 1 - Real.tanh x ^ 2) ∧
    HasDerivAt (fun t => fsigmoid Real.exp t) (dsigmoid x (fsigmoid Real.exp x)) x ∧
    (HasDerivAt (fun t => fexp Real.exp t) (dexp x (fexp Real.exp x)) x ∧
      dexp x (fexp Real.exp x) = Real.exp x) ∧
    (x ≠ 0 →
      HasDerivAt (fun t : ℝ => frelu t) (drelu x (frelu x)) x ∧
      HasDerivAt (fun t : ℝ => fleaky_relu t) (dleaky_relu x (fleaky_relu x)) x ∧
      HasDerivAt (fun t => fselu Real.exp t) (dselu x (fselu Real.exp x)) x) ∧
    (x < 0 →
      drelu x (frelu x) = 0 ∧ dleaky_relu x (fleaky_relu x) = 1 / 10 ∧
      dselu x (fselu Real.exp x) = selu_lambda * selu_alpha * Real.exp x) ∧
    (0 < x →
      drelu x (frelu x) = 1 ∧ dleaky_relu x (fleaky_relu x) = 1 ∧
      dselu x (fselu Real.exp x) = selu_lambda) := by
  have hselu : dselu x (fselu Real.exp x)
      = if x ≤ 0 then selu_lambda * selu_alpha * Real.exp x else selu_lambda := by
    unfold dselu fselu
    split_ifs
    · ring
    · rfl
  refine ⟨?_, ⟨?_, ?_⟩, ?_, ⟨?_, rfl⟩, ?_, ?_, ?_⟩
  · exact hasDerivAt_id x
  · have hv : dtanh x (ftanh Real.tanh x) = 1 - Real.tanh x ^ 2 := by
      unfold dtanh ftanh; ring
    rw [hv]
    exact Real_hasDerivAt_tanh x
  · unfold dtanh ftanh; ring
  · exact fsigmoid_hasDerivAt x
  · exact Real.hasDerivAt_exp x
  · intro hx
    refine ⟨frelu_hasDerivAt x hx, fleaky_relu_hasDerivAt x hx, ?_⟩
    rw [hselu]
    exact fselu_hasDerivAt x hx
  · intro hx
    refine ⟨by simp [drelu, le_of_lt hx], by simp [dleaky_relu, hx], ?_⟩
    rw [hselu, if_pos (le_of_lt hx)]
  · intro hx
    refine ⟨by simp [drelu, not_le.2 hx], by simp [dleaky_relu, not_lt.2 (le_of_lt hx)], ?_⟩
    rw [hselu, if_neg (not_le.2 hx)]

/-- C40, instance at `x = -1` and `x = 1`: the derivative functions at a negative and at a
positive argument. -/
theorem C40_derivative_functions_witness :
    (HasDerivAt (fun t : ℝ => frelu t) (drelu (-1) (frelu (-1))) (-1) ∧
      HasDerivAt (fun t : ℝ => fleaky_relu t) (dleaky_relu (-1) (fleaky_relu (-1))) (-1) ∧
      HasDerivAt (fun t => fselu Real.exp t) (dselu (-1) (fselu Real.exp (-1))) (-1)) ∧
    (drelu (-1 : ℝ) (frelu (-1)) = 0 ∧ dleaky_relu (-1 : ℝ) (fleaky_relu (-1)) = 1 / 10 ∧
      dselu (-1 : ℝ) (fselu Real.exp (-1)) = selu_lambda * selu_alpha * Real.exp (-1)) ∧
    (drelu (1 : ℝ) (frelu 1) = 1 ∧ dleaky_relu (1 : ℝ) (fleaky_relu 1) = 1 ∧
      dselu (1 : ℝ) (fselu Real.exp 1) = selu_lambda) :=
  ⟨(C40_derivative_functions (-1)).2.2.2.2.1 (by norm_num),
    (C40_derivative_functions (-1)).2.2.2.2.2.1 (by norm_num),
    (C40_derivative_functions 1).2.2.2.2.2.2 (by norm_num)⟩

/-! ## `Node::generate_dropmask`: the number of dropped components -/

theorem List_countP_range_lt (d : Nat) (k : Int) :
    (((List.range d).countP (fun (i : Nat) => decide ((i : Int) < k)) : Nat) : Int)
      = min (d : Int) (max 0 k) := by
  induction d with
  | zero => simp
  | succ d ih =>
    rw [List.range_succ, List.countP_append, Nat.cast_add, ih]
    by_cases h : (d : Int) < k
    · simp only [List.countP_cons, List.countP_nil, h, decide_True, if_true]
      omega
    · simp only [List.countP_cons, List.countP_nil, h, decide_False]
      simp only [Bool.false_eq_true, if_false]
      omega

theorem List_range_map_getD {β γ : Type} [Zero β] (h : β → γ) (l : List β) :
    (List.range l.length).map (fun i => h (l.getD i 0)) = l.map h := by
  apply List.ext_getElem
  · simp
  · intro i h1 h2
    have hi : i < l.length := by simpa using h2
    simp only [List.getElem_map, List.getElem_range, List.getD_eq_getElem?_getD,
      List.getElem?_eq_getElem hi, Option.getD_some]

theorem List_getD_zipWith_mul {α : Type} [MulZeroClass α] (a b : List α) (i : Nat)
    (ha : i < a.length) (hb : i < b.length) :
    (List.zipWith (fun u w => u * w) a b).getD i 0 = a.getD i 0 * b.getD i 0 := by
  simp only [List.getD_eq_getElem?_getD, List.getElem?_zipWith, List.getElem?_eq_getElem ha,
    List.getElem?_eq_getElem hb]
  rfl

theorem Node_generate_dropmask_spec {α : Type} [LinearOrderedField α] [FloorRing α]
    (rnd : α → α) (shuffle : List Int → List Int) (n : Node α) (f : α) (k : Int)
    (hperm : ∀ l, (shuffle l).Perm l) (hmask : n.drop_mask.dim = n.dim)
    (hk : castInt (rnd (rnd ((n.dim : α) * n.drop_value) * f)) = some k) :
    Node.generate_dropmask rnd shuffle n f
      = some { n with drop_mask := Tensor1D.mk ((shuffle ((List.range n.dim).map (fun (i : Nat) =>
          if (i : Int) < k then (0 : Int) else 1))).map
            (fun (m : Int) => (1 : α) * (m : α))) } := by
  have hlen : (shuffle ((List.range n.dim).map (fun (i : Nat) =>
      if (i : Int) < k then (0 : Int) else 1))).length = n.dim := by
    rw [(hperm _).length_eq]; simp
  unfold Node.generate_dropmask
  rw [hk, Option.some_bind]
  simp only [bind_pure_comp, List.map_eq_map, Option.map_eq_map, List.map_map, Option.map_map,
    Function.comp_def]
  rw [Tensor1D_setAll_spec n.dim _ (fun i => (1 : α) * (((shuffle ((List.range n.dim).map
      (fun (i : Nat) => if (i : Int) < k then (0 : Int) else 1))).getD i 0 : Int) : α))
      n.drop_mask hmask]
  · simp only [Option.map_some']
    have h := List_range_map_getD (fun m : Int => (1 : α) * (m : α))
      (shuffle ((List.range n.dim).map (fun (i : Nat) =>
        if (i : Int) < k then (0 : Int) else 1)))
    rw [hlen] at h
    rw [h]
  · intro i hi
    rw [getElem?_eq_some_getD _ i (by rw [hlen]; exact hi)]
    rfl

theorem Node_dropmask_spec {α : Type} [LinearOrderedField α] [FloorRing α]
    (rnd : α → α) (shuffle : List Int → List Int) (n : Node α) (f : α) (k : Int)
    (hperm : ∀ l, (shuffle l).Perm l) (hmask : n.drop_mask.dim = n.dim)
    (hval : n.val.dim = n.dim)
    (hk : castInt (rnd (rnd ((n.dim : α) * n.drop_value) * f)) = some k) :
    ∃ n0, Node.generate_dropmask rnd shuffle n f = some n0 ∧ n0.drop_mask.dim = n.dim ∧
      (∀ a ∈ n0.drop_mask.v, a = 0 ∨ a = 1) ∧
      ((n0.drop_mask.v.countP (fun a => decide (a = 0)) : Nat) : Int)
        = min (n.dim : Int) (max 0 k) ∧
      (0 < n.drop_value →
        ∃ n1, Node.forward_drop rnd shuffle n true f = some n1 ∧
          n1.drop_mask = n0.drop_mask ∧ n1.val.dim = n.dim ∧
          ∀ i, i < n.dim →
            (n0.drop_mask.v.getD i 0 = 0 → n1.val.v.getD i 0 = 0) ∧
            (n0.drop_mask.v.getD i 0 = 1 → n1.val.v.getD i 0 = n.val.v.getD i 0)) := by
  have hg := Node_generate_dropmask_spec rnd shuffle n f k hperm hmask hk
  have hlen : (shuffle ((List.range n.dim).map (fun (i : Nat) =>
      if (i : Int) < k then (0 : Int) else 1))).length = n.dim := by
    rw [(hperm _).length_eq]; simp
  have h01 : ∀ m ∈ shuffle ((List.range n.dim).map (fun (i : Nat) =>
      if (i : Int) < k then (0 : Int) else 1)), m = 0 ∨ m = 1 := by
    intro m hm
    rw [(hperm _).mem_iff] at hm
    obtain ⟨i, _, rfl⟩ := List.mem_map.1 hm
    split_ifs
    · exact Or.inl rfl
    · exact Or.inr rfl
  refine ⟨_, hg, ?_, ?_, ?_, ?_⟩
  · show (List.map _ _).length = n.dim
    rw [List.length_map, hlen]
  · intro a ha
    obtain ⟨m, hm, rfl⟩ := List.mem_map.1 ha
    rcases h01 m hm with rfl | rfl
    · left; simp
    · right; simp
  · show (((List.map _ _).countP _ : Nat) : Int) = _
    rw [List.countP_map, (hperm _).countP_eq, List.countP_map, ← List_countP_range_lt n.dim k]
    congr 1
    apply List.countP_congr
    intro i _
    simp only [Function.comp]
    split_ifs with h <;> simp [h]
  · intro hr
    have hmul : Vec.mul? n.val.v ((shuffle ((List.range n.dim).map (fun (i : Nat) =>
        if (i : Int) < k then (0 : Int) else 1))).map (fun (m : Int) => (1 : α) * (m : α)))
        = some (List.zipWith (fun u w => u * w) n.val.v
          ((shuffle ((List.range n.dim).map (fun (i : Nat) =>
            if (i : Int) < k then (0 : Int) else 1))).map
              (fun (m : Int) => (1 : α) * (m : α)))) := by
      unfold Vec.mul?
      rw [if_pos]
      rw [List.length_map, hlen]
      exact hval
    have hzl : (List.zipWith (fun u w => u * w) n.val.v
        ((shuffle ((List.range n.dim).map (fun (i : Nat) =>
          if (i : Int) < k then (0 : Int) else 1))).map
            (fun (m : Int) => (1 : α) * (m : α)))).length = n.val.dim := by
      rw [List.length_zipWith, List.length_map, hlen]
      show min n.val.dim n.dim = n.val.dim
      rw [hval]; exact Nat.min_self _
    have hret : Node.forward_drop rnd shuffle n true f
        = some { n with
            drop_mask := Tensor1D.mk ((shuffle ((List.range n.dim).map (fun (i : Nat) =>
              if (i : Int) < k then (0 : Int) else 1))).map
                (fun (m : Int) => (1 : α) * (m : α)))
            val := Tensor1D.mk (List.zipWith (fun u w => u * w) n.val.v
              ((shuffle ((List.range n.dim).map (fun (i : Nat) =>
                if (i : Int) < k then (0 : Int) else 1))).map
                  (fun (m : Int) => (1 : α) * (m : α))))
            degree := -1 } := by
      simp only [Node.forward_drop, hr, if_true, hg, Option.some_bind, hmul,
        Tensor1D.assignVec?, hzl, Option.map_some']
    refine ⟨_, hret, rfl, ?_, ?_⟩
    · show (List.zipWith _ _ _).length = n.dim
      exact hzl.trans hval
    · intro i hi
      have hz := List_getD_zipWith_mul n.val.v
        ((shuffle ((List.range n.dim).map (fun (i : Nat) =>
          if (i : Int) < k then (0 : Int) else 1))).map (fun (m : Int) => (1 : α) * (m : α))) i
        (by show i < n.val.dim; rw [hval]; exact hi)
        (by rw [List.length_map, hlen]; exact hi)
      constructor
      · intro h0
        show (List.zipWith _ _ _).getD i 0 = 0
        rw [hz]
        have h0b : (List.map (fun m : Int => (1 : α) * (m : α)) (shuffle ((List.range n.dim).map
            (fun (i : Nat) => if (i : Int) < k then (0 : Int) else 1)))).getD i 0 = 0 := h0
        rw [h0b, mul_zero]
      · intro h1
        show (List.zipWith _ _ _).getD i 0 = _
        rw [hz]
        have h1b : (List.map (fun m : Int => (1 : α) * (m : α)) (shuffle ((List.range n.dim).map
            (fun (i : Nat) => if (i : Int) < k then (0 : Int) else 1)))).getD i 0 = 1 := h1
        rw [h1b, mul_one]

/-- C39 fails as stated. For the node of width 1 with drop rate 1 and the drop factor
`2147483648 = 2^31` the product `dim * drop_value * drop_factor` is exactly `2^31` (and is left
as it is by the rounding), which is not a value of `int`: the conversion `(int)(...)` is
undefined, and neither `generate_dropmask` nor training-mode `forward_drop` is defined to return
a mask, whatever the shuffle, where the claim has a mask with
`min(1, max(0, trunc(2^31))) = 1` zero entry. -/
theorem C39_counterexample :
    (∀ shuffle, Node.generate_dropmask id shuffle (exNode "n" 1 1) 2147483648 = none) ∧
      (∀ shuffle, Node.forward_drop id shuffle (exNode "n" 1 1) true 2147483648 = none) ∧
      0 < (exNode "n" 1 1).drop_value ∧
      min ((exNode "n" 1 1).dim : Int)
        (max 0 (truncToInt ((((exNode "n" 1 1).dim : Nat) : ℚ) * (exNode "n" 1 1).drop_value
          * 2147483648))) = 1 := by
  have hprod : id (id ((((exNode "n" 1 1).dim : Nat) : ℚ) * (exNode "n" 1 1).drop_value)
      * 2147483648) = ((2147483648 : Int) : ℚ) := by
    simp [exNode, Node.init, Tensor1D.dim, Tensor1D.init]
  have hprod2 : (((exNode "n" 1 1).dim : Nat) : ℚ) * (exNode "n" 1 1).drop_value * 2147483648
      = ((2147483648 : Int) : ℚ) := by
    simp [exNode, Node.init, Tensor1D.dim, Tensor1D.init]
  have hnone : castInt (id (id ((((exNode "n" 1 1).dim : Nat) : ℚ)
      * (exNode "n" 1 1).drop_value) * 2147483648)) = none := by
    rw [hprod]
    apply castInt_eq_none
    rw [truncToInt_intCast]
    decide
  have hgen : ∀ shuffle,
      Node.generate_dropmask id shuffle (exNode "n" 1 1) 2147483648 = none := by
    intro shuffle
    rw [Node.generate_dropmask, hnone]
    rfl
  have hpos : 0 < (exNode "n" 1 1).drop_value := by
    simp [exNode, Node.init]
  refine ⟨hgen, ?_, hpos, ?_⟩
  · intro shuffle
    simp only [Node.forward_drop, hpos, if_true, hgen shuffle, Option.none_bind,
      Option.map_none']
  · rw [hprod2, truncToInt_intCast]
    have hd : (exNode "n" 1 1).dim = 1 := by
      simp [exNode, Node.init, Tensor1D.dim, Tensor1D.init]
    rw [hd]
    decide

/-- C39 (amended). `Node::generate_dropmask(f)` on a node of width `dim` and drop rate `r`, whose
`drop_mask` and `val` have `dim` elements, with `p` the product `dim * r * f` as `dtype`
computes it (each multiplication rounded) and `random_shuffle` applying any permutation. When
`trunc(p)` is a value of the 32-bit `int`, the call returns, the mask it leaves has `dim`
entries, each 0 or 1, exactly `min(dim, max(0, trunc(p)))` of them zero, and with `r > 0`
training-mode `forward_drop` returns with that mask, with `val[i] = 0` where the mask is 0 and
`val[i]` unchanged where the mask is 1. When `trunc(p)` is not a value of `int`, the conversion
is undefined and neither call is defined to return. -/
theorem C39_dropmask_zero_count_in_int_range {α : Type} [LinearOrderedField α] [FloorRing α]
    (rnd : α → α) (shuffle : List Int → List Int) (n : Node α) (f : α)
    (hperm : ∀ l, (shuffle l).Perm l) (hmask : n.drop_mask.dim = n.dim)
    (hval : n.val.dim = n.dim) :
    ((-2147483648 ≤ truncToInt (rnd (rnd ((n.dim : α) * n.drop_value) * f)) ∧
        truncToInt (rnd (rnd ((n.dim : α) * n.drop_value) * f)) ≤ 2147483647) →
      ∃ n0, Node.generate_dropmask rnd shuffle n f = some n0 ∧ n0.drop_mask.dim = n.dim ∧
        (∀ a ∈ n0.drop_mask.v, a = 0 ∨ a = 1) ∧
        ((n0.drop_mask.v.countP (fun a => decide (a = 0)) : Nat) : Int)
          = min (n.dim : Int)
              (max 0 (truncToInt (rnd (rnd ((n.dim : α) * n.drop_value) * f)))) ∧
        (0 < n.drop_value →
          ∃ n1, Node.forward_drop rnd shuffle n true f = some n1 ∧
            n1.drop_mask = n0.drop_mask ∧ n1.val.dim = n.dim ∧
            ∀ i, i < n.dim →
              (n0.drop_mask.v.getD i 0 = 0 → n1.val.v.getD i 0 = 0) ∧
              (n0.drop_mask.v.getD i 0 = 1 → n1.val.v.getD i 0 = n.val.v.getD i 0))) ∧
    (¬ (-2147483648 ≤ truncToInt (rnd (rnd ((n.dim : α) * n.drop_value) * f)) ∧
        truncToInt (rnd (rnd ((n.dim : α) * n.drop_value) * f)) ≤ 2147483647) →
      Node.generate_dropmask rnd shuffle n f = none ∧
        (0 < n.drop_value → Node.forward_drop rnd shuffle n true f = none)) := by
  constructor
  · intro hrange
    exact Node_dropmask_spec rnd shuffle n f _ hperm hmask hval (castInt_eq_some _ hrange)
  · intro hrange
    have hgen : Node.generate_dropmask rnd shuffle n f = none := by
      rw [Node.generate_dropmask, castInt_eq_none _ hrange]
      rfl
    refine ⟨hgen, ?_⟩
    intro hr
    simp only [Node.forward_drop, hr, if_true, hgen, Option.none_bind, Option.map_none']

theorem exRnd_product :
    exRnd (exRnd ((((exNode "n" 10 (5404319552844595 / 18014398509481984)).dim : Nat) : ℚ)
      * (exNode "n" 10 (5404319552844595 / 18014398509481984)).drop_value) * 1)
      = ((3 : Int) : ℚ) := by
  have hd : (exNode "n" 10 (5404319552844595 / 18014398509481984)).dim = 10 := by
    simp [exNode, Node.init, Tensor1D.dim, Tensor1D.init]
  have hr : (exNode "n" 10 (5404319552844595 / 18014398509481984)).drop_value
      = 5404319552844595 / 18014398509481984 := by
    simp only [exNode, Node.init]
    rw [if_pos (by norm_num)]
  rw [hd, hr]
  have h1 : exRnd (((10 : Nat) : ℚ) * (5404319552844595 / 18014398509481984)) = 3 := by
    simp only [exRnd, Nat.cast_ofNat, if_true]
  rw [h1]
  simp only [exRnd, mul_one]
  rw [if_neg (by norm_num)]
  norm_num

/-- C39 (amended), instances. A node of width 2 with drop rate 1/2, drop factor 1, exact
products and the shuffle that reverses the list: `trunc(2 * 1/2 * 1) = 1`, the mask is `[1, 0]`
and has exactly one zero entry. A node of width 10 whose drop rate is the binary64 value nearest
to 0.3, with drop factor 1 and products rounded as binary64 rounds them: the product is 3 and
the mask has exactly three zero entries. -/
theorem C39_dropmask_zero_count_in_int_range_witness :
    (∃ n0, Node.generate_dropmask id List.reverse (exNode "n" 2 (1 / 2)) 1 = some n0 ∧
      n0.drop_mask.v = [1, 0] ∧
      ((n0.drop_mask.v.countP (fun a => decide (a = 0)) : Nat) : Int) = 1) ∧
    (∃ n0, Node.generate_dropmask exRnd id
        (exNode "n" 10 (5404319552844595 / 18014398509481984)) 1 = some n0 ∧
      ((n0.drop_mask.v.countP (fun a => decide (a = 0)) : Nat) : Int) = 3) := by
  have hprod : id (id ((((exNode "n" 2 (1 / 2)).dim : Nat) : ℚ)
      * (exNode "n" 2 (1 / 2)).drop_value) * 1) = ((1 : Int) : ℚ) := by
    simp [exNode, Node.init, Tensor1D.dim, Tensor1D.init]
    norm_num
  have hk : truncToInt (id (id ((((exNode "n" 2 (1 / 2)).dim : Nat) : ℚ)
      * (exNode "n" 2 (1 / 2)).drop_value) * 1)) = 1 := by
    rw [hprod, truncToInt_intCast]
  have hk3 : truncToInt (exRnd (exRnd
      ((((exNode "n" 10 (5404319552844595 / 18014398509481984)).dim : Nat) : ℚ)
        * (exNode "n" 10 (5404319552844595 / 18014398509481984)).drop_value) * 1)) = 3 := by
    rw [exRnd_product, truncToInt_intCast]
  constructor
  · obtain ⟨n0, h1, _, _, h4, _⟩ :=
      (C39_dropmask_zero_count_in_int_range id List.reverse (exNode "n" 2 (1 / 2)) 1
        (fun l => List.reverse_perm l)
        (by simp [exNode, Node.init, Tensor1D.init, Tensor1D.dim])
        (by simp [exNode, Node.init, Tensor1D.init, Tensor1D.dim])).1
        (by rw [hk]; decide)
    refine ⟨n0, h1, ?_, ?_⟩
    · have hg := Node_generate_dropmask_spec id List.reverse (exNode "n" 2 (1 / 2)) 1 1
        (fun l => List.reverse_perm l)
        (by simp [exNode, Node.init, Tensor1D.init, Tensor1D.dim])
        (by rw [castInt_eq_some _ (by rw [hk]; decide), hk])
      rw [hg] at h1
      rw [← Option.some.inj h1]
      simp +decide [exNode, Node.init, Tensor1D.dim, Tensor1D.init, List.range, List.range.loop]
    · rw [h4, hk]
      simp [exNode, Node.init, Tensor1D.dim, Tensor1D.init]
  · obtain ⟨n0, h1, _, _, h4, _⟩ :=
      (C39_dropmask_zero_count_in_int_range exRnd id
        (exNode "n" 10 (5404319552844595 / 18014398509481984)) 1
        (fun l => List.Perm.refl l)
        (by simp [exNode, Node.init, Tensor1D.init, Tensor1D.dim])
        (by simp [exNode, Node.init, Tensor1D.init, Tensor1D.dim])).1
        (by rw [hk3]; decide)
    refine ⟨n0, h1, ?_⟩
    rw [h4, hk3]
    simp [exNode, Node.init, Tensor1D.dim, Tensor1D.init]

/-! ## Batch homogeneity: every two nodes of a batch are `typeEqual` -/

theorem Execute_addNodes_mem (t : PNode → PNode → Bool) (p0 : PNode) :
    ∀ (rest pre : List PNode) (a : PNode), a ∈ (Execute.addNodes t (p0 :: pre) rest).2 →
      a = p0 ∨ a ∈ pre ∨ (a ∈ rest ∧ t p0 a = true) := by
  intro rest
  induction rest with
  | nil =>
    intro pre a ha
    simp only [Execute.addNodes, List.mem_cons] at ha
    rcases ha with h | h
    · exact Or.inl h
    · exact Or.inr (Or.inl h)
  | cons n ns ih =>
    intro pre a ha
    simp only [Execute.addNodes, Execute.addNode] at ha
    by_cases hn : t p0 n = true
    · simp only [hn, if_true, List.cons_append] at ha
      rcases ih (pre ++ [n]) a ha with h | h | h
      · exact Or.inl h
      · rcases List.mem_append.1 h with h1 | h1
        · exact Or.inr (Or.inl h1)
        · rw [List.mem_singleton] at h1
          subst h1
          exact Or.inr (Or.inr ⟨List.mem_cons_self _ _, hn⟩)
      · exact Or.inr (Or.inr ⟨List.mem_cons_of_mem _ h.1, h.2⟩)
    · simp only [hn, Bool.false_eq_true, if_false] at ha
      rcases ih pre a ha with h | h | h
      · exact Or.inl h
      · exact Or.inr (Or.inl h)
      · exact Or.inr (Or.inr ⟨List.mem_cons_of_mem _ h.1, h.2⟩)

theorem Execute_addNodes_homogeneous (t : PNode → PNode → Bool) (hrefl : ∀ a, t a a = true)
    (hsymm : ∀ a b, t a b = true → t b a = true)
    (htrans : ∀ a b c, t a b = true → t b c = true → t a c = true) (p0 : PNode)
    (rest : List PNode) :
    ∀ a ∈ (Execute.addNodes t [p0] rest).2, ∀ b ∈ (Execute.addNodes t [p0] rest).2,
      t a b = true := by
  have key : ∀ a ∈ (Execute.addNodes t [p0] rest).2, t p0 a = true := by
    intro a ha
    rcases Execute_addNodes_mem t p0 rest [] a ha with h | h | h
    · rw [h]; exact hrefl p0
    · exact absurd h (List.not_mem_nil a)
    · exact h.2
  intro a ha b hb
  exact htrans a p0 b (hsymm p0 a (key a ha)) (key b hb)

theorem exIsEqualTol_refl_symm :
    (∀ x, exIsEqualTol x x = true) ∧ ∀ x y, exIsEqualTol x y = true → exIsEqualTol y x = true := by
  refine ⟨?_, ?_⟩
  · intro x
    simp [exIsEqualTol]
  · intro x y h
    simp only [exIsEqualTol, decide_eq_true_eq] at h ⊢
    rw [abs_sub_comm]
    exact h

theorem exLookupTol_typeEqual :
    LookupNode.typeEqual false exIsEqualTol (exLookupTol 0) (exLookupTol 1) = true ∧
      LookupNode.typeEqual false exIsEqualTol (exLookupTol 0) (exLookupTol 2) = true ∧
      LookupNode.typeEqual false exIsEqualTol (exLookupTol 1) (exLookupTol 2) = false := by
  refine ⟨?_, ?_, ?_⟩
  · rw [LookupNode_typeEqual_cpu]
    refine ⟨rfl, rfl, ?_⟩
    simp only [exIsEqualTol, exLookupTol, exLookup, exNode, Node.init, decide_eq_true_eq]
    norm_num [abs_lt]
  · rw [LookupNode_typeEqual_cpu]
    refine ⟨rfl, rfl, ?_⟩
    simp only [exIsEqualTol, exLookupTol, exLookup, exNode, Node.init, decide_eq_true_eq]
    norm_num [abs_lt]
  · rw [← Bool.not_eq_true, LookupNode_typeEqual_cpu]
    rintro ⟨_, _, h⟩
    simp only [exIsEqualTol, exLookupTol, exLookup, exNode, Node.init, decide_eq_true_eq] at h
    norm_num [abs_lt] at h

/-- C36 fails as stated when `isEqual` is a comparison up to a tolerance (here: a difference
below 1/1000, which is reflexive and symmetric). The `LookupNode`s 0, 1, 2 of one table have the
dropout rates 0.5, 0.5006 and 0.4994. The batch generated for node 0 accepts node 1 and node 2,
each being `typeEqual` to `batch[0]`, and the nodes 1 and 2 of the resulting batch are not
`typeEqual`. -/
theorem C36_counterexample :
    Execute.addNodes (fun a b => LookupNode.typeEqual false exIsEqualTol (exLookupTol a)
        (exLookupTol b)) [0] [1, 2] = ([true, true], [0, 1, 2]) ∧
      ¬ (∀ a ∈ (Execute.addNodes (fun a b => LookupNode.typeEqual false exIsEqualTol
            (exLookupTol a) (exLookupTol b)) [0] [1, 2]).2,
          ∀ b ∈ (Execute.addNodes (fun a b => LookupNode.typeEqual false exIsEqualTol
            (exLookupTol a) (exLookupTol b)) [0] [1, 2]).2,
            LookupNode.typeEqual false exIsEqualTol (exLookupTol a) (exLookupTol b) = true) := by
  have hb : Execute.addNodes (fun a b => LookupNode.typeEqual false exIsEqualTol (exLookupTol a)
      (exLookupTol b)) [0] [1, 2] = ([true, true], [0, 1, 2]) := by
    simp only [Execute.addNodes, Execute.addNode, exLookupTol_typeEqual.1,
      exLookupTol_typeEqual.2.1, if_true, List.cons_append, List.nil_append]
  refine ⟨hb, ?_⟩
  rw [hb]
  intro h
  have h12 := h 1 (by simp) 2 (by simp)
  rw [exLookupTol_typeEqual.2.2] at h12
  exact Bool.false_ne_true h12

/-- C36 (amended). CPU build: in the batch of an `Execute` that `generate` returned for the node
`p0` (the batch `[p0]`) and that received any sequence of `addNode` calls, every two nodes `a`,
`b` satisfy `a.typeEqual(b)`, for `UniNode`, `LinearUniNode`, `LinearNode`, `PoolNode`,
`SumPoolNode` and `AvgPoolNode`. For `LookupNode`, every two nodes of the batch have the same
tag and the same table, every node but `p0` was found `typeEqual` by `p0`, and two nodes `a`, `b`
of the batch satisfy `a.typeEqual(b)` exactly when `isEqual` holds of their dropout rates; the
batch is therefore pairwise `typeEqual` whenever `isEqual` is reflexive, symmetric and
transitive. `addNode` on an empty batch returns `false` and leaves the batch empty. -/
theorem C36_batch_pairwise_typeEqual {α : Type} (isEqual : α → α → Bool) (p0 : PNode)
    (rest : List PNode) :
    (∀ (params : PParam → UniParams α) (objs : PNode → UniNode α) (bTrain : Bool) (f : α),
      ∀ a ∈ (Execute.addNodes (fun a b => UniNode.typeEqual false isEqual (objs a) (objs b))
          (UniNode.generate params objs p0 bTrain f).batch rest).2,
      ∀ b ∈ (Execute.addNodes (fun a b => UniNode.typeEqual false isEqual (objs a) (objs b))
          (UniNode.generate params objs p0 bTrain f).batch rest).2,
        UniNode.typeEqual false isEqual (objs a) (objs b) = true) ∧
    (∀ (objs : PNode → LinearUniNode α),
      ∀ a ∈ (Execute.addNodes (fun a b => LinearUniNode.typeEqual false isEqual (objs a) (objs b))
          [p0] rest).2,
      ∀ b ∈ (Execute.addNodes (fun a b => LinearUniNode.typeEqual false isEqual (objs a) (objs b))
          [p0] rest).2,
        LinearUniNode.typeEqual false isEqual (objs a) (objs b) = true) ∧
    (∀ (objs : PNode → LinearNode α),
      ∀ a ∈ (Execute.addNodes (fun a b => LinearNode.typeEqual false isEqual (objs a) (objs b))
          [p0] rest).2,
      ∀ b ∈ (Execute.addNodes (fun a b => LinearNode.typeEqual false isEqual (objs a) (objs b))
          [p0] rest).2,
        LinearNode.typeEqual false isEqual (objs a) (objs b) = true) ∧
    (∀ (objs : PNode → PoolNode α),
      ∀ a ∈ (Execute.addNodes (fun a b => PoolNode.typeEqual false isEqual (objs a) (objs b))
          [p0] rest).2,
      ∀ b ∈ (Execute.addNodes (fun a b => PoolNode.typeEqual false isEqual (objs a) (objs b))
          [p0] rest).2,
        PoolNode.typeEqual false isEqual (objs a) (objs b) = true) ∧
    (∀ (objs : PNode → SumPoolNode α),
      ∀ a ∈ (Execute.addNodes (fun a b => SumPoolNode.typeEqual false isEqual (objs a) (objs b))
          [p0] rest).2,
      ∀ b ∈ (Execute.addNodes (fun a b => SumPoolNode.typeEqual false isEqual (objs a) (objs b))
          [p0] rest).2,
        SumPoolNode.typeEqual false isEqual (objs a) (objs b) = true) ∧
    (∀ (objs : PNode → AvgPoolNode α),
      ∀ a ∈ (Execute.addNodes (fun a b => AvgPoolNode.typeEqual false isEqual (objs a) (objs b))
          [p0] rest).2,
      ∀ b ∈ (Execute.addNodes (fun a b => AvgPoolNode.typeEqual false isEqual (objs a) (objs b))
          [p0] rest).2,
        AvgPoolNode.typeEqual false isEqual (objs a) (objs b) = true) ∧
    (∀ (objs : PNode → LookupNode α),
      ∀ a ∈ (Execute.addNodes (fun a b => LookupNode.typeEqual false isEqual (objs a) (objs b))
          [p0] rest).2,
      ∀ b ∈ (Execute.addNodes (fun a b => LookupNode.typeEqual false isEqual (objs a) (objs b))
          [p0] rest).2,
        (objs a).node_type = (objs b).node_type ∧ (objs a).param = (objs b).param ∧
        (a = p0 ∨ LookupNode.typeEqual false isEqual (objs p0) (objs a) = true) ∧
        (LookupNode.typeEqual false isEqual (objs a) (objs b) = true ↔
          isEqual (objs a).drop_value (objs b).drop_value = true)) ∧
    (∀ (objs : PNode → LookupNode α), (∀ x, isEqual x x = true) →
      (∀ x y, isEqual x y = true → isEqual y x = true) →
      (∀ x y z, isEqual x y = true → isEqual y z = true → isEqual x z = true) →
      ∀ a ∈ (Execute.addNodes (fun a b => LookupNode.typeEqual false isEqual (objs a) (objs b))
          [p0] rest).2,
      ∀ b ∈ (Execute.addNodes (fun a b => LookupNode.typeEqual false isEqual (objs a) (objs b))
          [p0] rest).2,
        LookupNode.typeEqual false isEqual (objs a) (objs b) = true) ∧
    (∀ (t : PNode → PNode → Bool) (x : PNode), Execute.addNode t [] x = (false, [])) := by
  refine ⟨?_, ?_, ?_, ?_, ?_, ?_, ?_, ?_, ?_⟩
  · intro params objs bTrain f
    show ∀ a ∈ (Execute.addNodes _ [p0] rest).2, ∀ b ∈ (Execute.addNodes _ [p0] rest).2, _
    apply Execute_addNodes_homogeneous
    · intro a
      rw [UniNode_typeEqual_cpu]
      exact ⟨rfl, rfl, rfl, rfl⟩
    · intro a b h
      rw [UniNode_typeEqual_cpu] at h ⊢
      exact ⟨h.1.symm, h.2.1.symm, h.2.2.1.symm, h.2.2.2.symm⟩
    · intro a b c h1 h2
      rw [UniNode_typeEqual_cpu] at h1 h2 ⊢
      exact ⟨h1.1.trans h2.1, h1.2.1.trans h2.2.1, h1.2.2.1.trans h2.2.2.1,
        h1.2.2.2.trans h2.2.2.2⟩
  · intro objs
    apply Execute_addNodes_homogeneous
    · intro a
      rw [LinearUniNode_typeEqual_cpu]
      exact ⟨rfl, rfl⟩
    · intro a b h
      rw [LinearUniNode_typeEqual_cpu] at h ⊢
      exact ⟨h.1.symm, h.2.symm⟩
    · intro a b c h1 h2
      rw [LinearUniNode_typeEqual_cpu] at h1 h2 ⊢
      exact ⟨h1.1.trans h2.1, h1.2.trans h2.2⟩
  · intro objs
    apply Execute_addNodes_homogeneous
    · intro a
      rw [LinearNode_typeEqual_cpu]
      exact ⟨rfl, rfl⟩
    · intro a b h
      rw [LinearNode_typeEqual_cpu] at h ⊢
      exact ⟨h.1.symm, h.2.symm⟩
    · intro a b c h1 h2
      rw [LinearNode_typeEqual_cpu] at h1 h2 ⊢
      exact ⟨h1.1.trans h2.1, h1.2.trans h2.2⟩
  · intro objs
    apply Execute_addNodes_homogeneous
    · intro a
      simp [PoolNode.typeEqual, Node_typeEqual_cpu]
    · intro a b h
      simp only [PoolNode.typeEqual, Node_typeEqual_cpu, decide_eq_true_eq] at h ⊢
      exact h.symm
    · intro a b c h1 h2
      simp only [PoolNode.typeEqual, Node_typeEqual_cpu, decide_eq_true_eq] at h1 h2 ⊢
      exact h1.trans h2
  · intro objs
    apply Execute_addNodes_homogeneous
    · intro a
      simp [SumPoolNode.typeEqual, Node_typeEqual_cpu]
    · intro a b h
      simp only [SumPoolNode.typeEqual, Node_typeEqual_cpu, decide_eq_true_eq] at h ⊢
      exact h.symm
    · intro a b c h1 h2
      simp only [SumPoolNode.typeEqual, Node_typeEqual_cpu, decide_eq_true_eq] at h1 h2 ⊢
      exact h1.trans h2
  · intro objs
    apply Execute_addNodes_homogeneous
    · intro a
      simp [AvgPoolNode.typeEqual, Node_typeEqual_cpu]
    · intro a b h
      simp only [AvgPoolNode.typeEqual, Node_typeEqual_cpu, decide_eq_true_eq] at h ⊢
      exact h.symm
    · intro a b c h1 h2
      simp only [AvgPoolNode.typeEqual, Node_typeEqual_cpu, decide_eq_true_eq] at h1 h2 ⊢
      exact h1.trans h2
  · intro objs
    have key : ∀ a ∈ (Execute.addNodes (fun a b => LookupNode.typeEqual false isEqual (objs a)
        (objs b)) [p0] rest).2,
        (a = p0 ∨ LookupNode.typeEqual false isEqual (objs p0) (objs a) = true) ∧
          (objs p0).node_type = (objs a).node_type ∧ (objs p0).param = (objs a).param := by
      intro a ha
      rcases Execute_addNodes_mem _ p0 rest [] a ha with h | h | h
      · subst h
        exact ⟨Or.inl rfl, rfl, rfl⟩
      · exact absurd h (List.not_mem_nil a)
      · have h2 := h.2
        refine ⟨Or.inr h2, ?_⟩
        rw [LookupNode_typeEqual_cpu] at h2
        exact ⟨h2.1, h2.2.1⟩
    intro a ha b hb
    obtain ⟨ka, ta, pa⟩ := key a ha
    obtain ⟨_, tb, pb⟩ := key b hb
    refine ⟨ta.symm.trans tb, pa.symm.trans pb, ka, ?_⟩
    rw [LookupNode_typeEqual_cpu]
    exact ⟨fun h => h.2.2, fun h => ⟨ta.symm.trans tb, pa.symm.trans pb, h⟩⟩
  · intro objs hr hs ht
    apply Execute_addNodes_homogeneous
    · intro a
      rw [LookupNode_typeEqual_cpu]
      exact ⟨rfl, rfl, hr _⟩
    · intro a b h
      rw [LookupNode_typeEqual_cpu] at h ⊢
      exact ⟨h.1.symm, h.2.1.symm, hs _ _ h.2.2⟩
    · intro a b c h1 h2
      rw [LookupNode_typeEqual_cpu] at h1 h2 ⊢
      exact ⟨h1.1.trans h2.1, h1.2.1.trans h2.2.1, ht _ _ _ h1.2.2 h2.2.2⟩
  · intro t x
    rfl

/-- C36 (amended), instances. With `isEqual` the comparison up to 1/1000 and the dropout rates
0.5, 0.5006 and 0.4994, the nodes 1 and 2 of the batch `[0, 1, 2]` have the same tag and table,
node 1 is `typeEqual` to node 0, and the two are `typeEqual` exactly when their rates are
`isEqual`. With `isEqual` the exact equality and the rates 1/2, 1/2 and 1/4 the batch generated
for node 0 that was offered the nodes 1 and 2 is pairwise `typeEqual`. -/
theorem C36_batch_pairwise_typeEqual_witness :
    ((exLookupTol 1).node_type = (exLookupTol 2).node_type ∧
      (exLookupTol 1).param = (exLookupTol 2).param ∧
      ((1 : PNode) = 0 ∨
        LookupNode.typeEqual false exIsEqualTol (exLookupTol 0) (exLookupTol 1) = true) ∧
      (LookupNode.typeEqual false exIsEqualTol (exLookupTol 1) (exLookupTol 2) = true ↔
        exIsEqualTol (exLookupTol 1).drop_value (exLookupTol 2).drop_value = true)) ∧
    ∀ a ∈ (Execute.addNodes (fun a b => LookupNode.typeEqual false exIsEqual
          ((fun p => exLookup 2 (if p = 2 then 1 / 4 else 1 / 2) 7) a)
          ((fun p => exLookup 2 (if p = 2 then 1 / 4 else 1 / 2) 7) b)) [0] [1, 2]).2,
      ∀ b ∈ (Execute.addNodes (fun a b => LookupNode.typeEqual false exIsEqual
          ((fun p => exLookup 2 (if p = 2 then 1 / 4 else 1 / 2) 7) a)
          ((fun p => exLookup 2 (if p = 2 then 1 / 4 else 1 / 2) 7) b)) [0] [1, 2]).2,
        LookupNode.typeEqual false exIsEqual
          ((fun p => exLookup 2 (if p = 2 then 1 / 4 else 1 / 2) 7) a)
          ((fun p => exLookup 2 (if p = 2 then 1 / 4 else 1 / 2) 7) b) = true :=
  ⟨(C36_batch_pairwise_typeEqual exIsEqualTol 0 [1, 2]).2.2.2.2.2.2.1 exLookupTol
      1 (by
        simp only [Execute.addNodes, Execute.addNode, exLookupTol_typeEqual.1,
          exLookupTol_typeEqual.2.1, if_true, List.cons_append, List.nil_append]
        simp)
      2 (by
        simp only [Execute.addNodes, Execute.addNode, exLookupTol_typeEqual.1,
          exLookupTol_typeEqual.2.1, if_true, List.cons_append, List.nil_append]
        simp),
    (C36_batch_pairwise_typeEqual exIsEqual 0 [1, 2]).2.2.2.2.2.2.2.1
      (fun p => exLookup 2 (if p = 2 then 1 / 4 else 1 / 2) 7)
      (fun x => by simp [exIsEqual])
      (fun x y h => by simp only [exIsEqual, decide_eq_true_eq] at h ⊢; exact h.symm)
      (fun x y z h1 h2 => by
        simp only [exIsEqual, decide_eq_true_eq] at h1 h2 ⊢; exact h1.trans h2)⟩

/-! ## `Tensor2D::norm2one` -/

theorem List_foldl_add_range {α : Type} [AddCommMonoid α] (a : Nat → α) (s0 : α) (n : Nat) :
    (List.range n).foldl (fun s j => s + a j) s0 = s0 + ((List.range n).map a).sum := by
  induction n with
  | zero => simp
  | succ n ih =>
    rw [List.range_succ, List.foldl_append, ih, List.map_append, List.sum_append]
    simp [add_assoc]

theorem Tensor2D_norm2one_entry {α : Type} [Field α] (env : Env α) (t : Tensor2D α) (norm : α)
    (r c : Nat) (hr : r < t.row) (hc : c < t.col) :
    (t.norm2one env norm).mat.entry r c
      = t.mat.entry r c * env.sqrt (norm /
          (1 / 1000000 + ((List.range t.col).map
            (fun j => t.mat.entry r j * t.mat.entry r j)).sum)) := by
  have hk : r * t.col + c < t.row * t.col := flat_index_lt t.row t.col r c hr hc
  have hdiv : (r * t.col + c) / t.col = r := (flat_index_div t.col r c hc).1
  simp only [Tensor2D.norm2one, Tensor2D.mat, Mat.entry, List.getD_eq_getElem?_getD,
    List.getElem?_map, List.getElem?_range hk, Option.map_some', Option.getD_some, hdiv,
    List_foldl_add_range]

theorem Tensor2D_norm2one_sumsq {α : Type} [Field α] (env : Env α) (t : Tensor2D α) (norm : α)
    (r : Nat) (hr : r < t.row)
    (hs : env.sqrt (norm / (1 / 1000000 + ((List.range t.col).map
        (fun j => t.mat.entry r j * t.mat.entry r j)).sum))
      * env.sqrt (norm / (1 / 1000000 + ((List.range t.col).map
        (fun j => t.mat.entry r j * t.mat.entry r j)).sum))
      = norm / (1 / 1000000 + ((List.range t.col).map
        (fun j => t.mat.entry r j * t.mat.entry r j)).sum)) :
    ((List.range t.col).map (fun j =>
        (t.norm2one env norm).mat.entry r j * (t.norm2one env norm).mat.entry r j)).sum
      = norm * ((List.range t.col).map (fun j => t.mat.entry r j * t.mat.entry r j)).sum
        / (1 / 1000000 + ((List.range t.col).map
          (fun j => t.mat.entry r j * t.mat.entry r j)).sum) := by
  have h1 : (List.range t.col).map (fun j =>
        (t.norm2one env norm).mat.entry r j * (t.norm2one env norm).mat.entry r j)
      = (List.range t.col).map (fun j => (t.mat.entry r j * t.mat.entry r j)
          * (norm / (1 / 1000000 + ((List.range t.col).map
            (fun j => t.mat.entry r j * t.mat.entry r j)).sum))) := by
    apply List.map_congr_left
    intro j hj
    rw [Tensor2D_norm2one_entry env t norm r j hr (List.mem_range.1 hj)]
    rw [mul_mul_mul_comm, hs]
  rw [h1, List.sum_map_mul_right]
  ring

/-- C31, the failing input evaluated. The row `[0.001, 0.001, 0.001]` (sum of squares
`S = 0.000003`) and the target norm `t = 4`: `norm2one(4)` multiplies the row by
`sqrt(4 / 0.000004) = 1000` and leaves `[1, 1, 1]`, whose sum of squares is 3, that is
`t * S / (S + 0.000001)`, where the claim has `t^2 * S / (S + 0.000001) = 12`. -/
theorem C31_norm2one_scales_by_sqrt_of_norm :
    (exRowSmall.norm2one exEnvSqrt 4).v = [1, 1, 1] ∧
      ((List.range 3).map (fun j => exRowSmall.mat.entry 0 j * exRowSmall.mat.entry 0 j)).sum
        = 3 / 1000000 ∧
      ((List.range 3).map (fun j => (exRowSmall.norm2one exEnvSqrt 4).mat.entry 0 j
          * (exRowSmall.norm2one exEnvSqrt 4).mat.entry 0 j)).sum = 3 ∧
      (4 : ℚ) * (3 / 1000000) / (3 / 1000000 + 1 / 1000000) = 3 ∧
      (4 : ℚ) ^ 2 * (3 / 1000000) / (3 / 1000000 + 1 / 1000000) = 12 := by
  have hv : (exRowSmall.norm2one exEnvSqrt 4).v = [1, 1, 1] := by
    simp +decide [Tensor2D.norm2one, exRowSmall, exEnvSqrt, List.range, List.range.loop]
    norm_num
  refine ⟨hv, ?_, ?_, by norm_num, by norm_num⟩
  · simp +decide [exRowSmall, Tensor2D.mat, Mat.entry, List.range, List.range.loop]
    norm_num
  · simp +decide [Tensor2D.mat, Mat.entry, hv, List.range, List.range.loop]
    norm_num

/-! ## The row id that `LookupNode::backward` passes to `SparseParam::loss` -/

theorem SparseParam_loss_negative {α : Type} [Add α] (p : SparseParam α) (featId : Int)
    (l : Tensor1D α) (h : featId < 0) : p.loss featId l = none := by
  simp [SparseParam.loss, h]

/-- C34, the failing input evaluated. A fine-tuned table with `nVSize = 2` rows and no OOV id
(`nUNKId = -1`), and a token the vocabulary does not know: `forward` leaves `xid = -1`, which is
not in `[0, nVSize)`; in `backward` the test `xid == param->nUNKId` holds, so `E.loss(-1, loss)` is
called, whose first statement `indexers[-1] = true` writes outside `indexers` and which addresses
row -1 of `E.grad`: the call does not complete (`none`), where the claim has no row of `E.grad`
and no touched flag read or written. With the known token "a" the id passed is 0 and `backward`
completes. -/
theorem C34_backward_passes_negative_id :
    exTableNoUnkTuned.nVSize = 2 ∧ exTableNoUnkTuned.nUNKId = -1 ∧
      (∃ o1 g1, LookupNode.forward (fun _ => exTableNoUnkTuned) exLookupObjs [] 1 "zzz"
          = some (o1, g1) ∧
        (o1 1).xid = -1 ∧ ¬ (0 ≤ (o1 1).xid ∧ (o1 1).xid < (exTableNoUnkTuned.nVSize : Int)) ∧
        (o1 1).xid = exTableNoUnkTuned.nUNKId ∧
        exTableNoUnkTuned.E.loss (o1 1).xid (o1 1).loss = none ∧
        LookupNode.backward (fun _ => exTableNoUnkTuned) o1 1 = none) ∧
      (∃ o2 g2, LookupNode.forward (fun _ => exTableNoUnkTuned) exLookupObjs [] 1 "a"
          = some (o2, g2) ∧
        (o2 1).xid = 0 ∧
        (LookupNode.backward (fun _ => exTableNoUnkTuned) o2 1).isSome = true) := by
  refine ⟨rfl, rfl, ⟨_, _, rfl, ?_, ?_, ?_, ?_, ?_⟩, ⟨_, _, rfl, ?_, ?_⟩⟩
  · simp +decide [exLookupObjs, exLookup, exTableNoUnkTuned, exTableNoUnk, exAlphabetNoUnk]
  · simp +decide [exLookupObjs, exLookup, exTableNoUnkTuned, exTableNoUnk, exAlphabetNoUnk]
  · simp +decide [exLookupObjs, exLookup, exTableNoUnkTuned, exTableNoUnk, exAlphabetNoUnk]
  · apply SparseParam_loss_negative
    simp +decide [exLookupObjs, exLookup, exTableNoUnkTuned, exTableNoUnk, exAlphabetNoUnk]
  · simp +decide [LookupNode.backward, exLookupObjs, exLookup, exTableNoUnkTuned, exTableNoUnk,
      exAlphabetNoUnk, SparseParam.loss, NULL]
  · simp +decide [exLookupObjs, exLookup, exTableNoUnkTuned, exTableNoUnk, exAlphabetNoUnk]
  · simp +decide [LookupNode.backward, exLookupObjs, exLookup, exTableNoUnkTuned, exTableNoUnk,
      exAlphabetNoUnk, SparseParam.loss, NULL, SparseParam.initial, exEnv, Tensor2D.init,
      Tensor2D.random, Tensor2D.new, SparseParam.new, Tensor2D.size, forLoop, Tensor2D.getI?,
      Tensor2D.setI?, Tensor2D.get?, Tensor2D.set?, Tensor1D.get?, Tensor1D.dim, exNode,
      Node.init, Node.new, Tensor1D.init, Tensor1D.new, List.range, List.range.loop]

/-! ## The sparse gradient invariant: a gradient row with a non-zero entry is touched -/

theorem SparseParam_initial_grad_zero {α : Type} [Field α] (env : Env α) (k : Nat)
    (p : SparseParam α) (outDim inDim : Nat) (r c : Nat) :
    (SparseParam.initial env k p outDim inDim).grad.mat.entry r c = 0 := by
  simp only [SparseParam.initial, Tensor2D.init, Tensor2D.mat, Mat.entry,
    List.getD_eq_getElem?_getD]
  cases h : (List.replicate (inDim * outDim) (0 : α))[r * outDim + c]? with
  | none => rfl
  | some a =>
    obtain ⟨hlt, he⟩ := List.getElem?_eq_some_iff.1 h
    rw [List.getElem_replicate] at he
    rw [← he]; rfl

theorem SparseParam_loss_of_some {α : Type} [Add α] [Zero α] (p p1 : SparseParam α)
    (featId : Int) (l : Tensor1D α) (hp : p.WF) (h : p.loss featId l = some p1) :
    0 ≤ featId ∧ featId.toNat < p.val.row ∧ p.val.col ≤ l.dim := by
  have hcol : p.val.col ≤ l.dim := by
    by_contra hlt
    rw [SparseParam_loss_short p featId l (by omega)] at h
    exact absurd h (by simp)
  have hg : ¬ (featId < 0 ∨ p.indexers.length ≤ featId.toNat) := by
    intro hg
    simp only [SparseParam.loss, hg, if_true] at h
    exact absurd h (by simp)
  have hlen : p.indexers.length = p.val.row := hp.2.2.2.2.2.2.2.2.2.2.1
  refine ⟨by omega, by omega, hcol⟩

theorem SparseParam_call_inv {α : Type} [Field α] (env : Env α) (p p1 : SparseParam α)
    (op : SparseOp α) (hp : p.WF)
    (hz : ∀ r c, c < p.val.col → p.indexers[r]? ≠ some true → p.grad.mat.entry r c = 0)
    (h : p.call env op = some p1) :
    p1.WF ∧ p1.val.row = p.val.row ∧ p1.val.col = p.val.col ∧
      ∀ r c, c < p1.val.col → p1.indexers[r]? ≠ some true → p1.grad.mat.entry r c = 0 := by
  cases op with
  | loss featId l =>
    simp only [SparseParam.call] at h
    obtain ⟨h0, hf, hl⟩ := SparseParam_loss_of_some p p1 featId l hp h
    obtain ⟨q, hq, hw, hv, _, _, _, hi, hg⟩ := SparseParam_loss_spec p featId l hp h0 hf hl
    rw [hq] at h
    have e := Option.some.inj h
    subst e
    refine ⟨hw, by rw [hv], by rw [hv], ?_⟩
    intro r c hc hnt
    rw [hv] at hc
    have hlen : p.indexers.length = p.val.row := hp.2.2.2.2.2.2.2.2.2.2.1
    have hne : r ≠ featId.toNat := by
      intro e
      apply hnt
      rw [hi, e, List.getElem?_set_self (by omega)]
    rw [hg r c hc, if_neg hne]
    apply hz r c hc
    rw [hi, List.getElem?_set_ne (Ne.symm hne)] at hnt
    exact hnt
  | clearGrad =>
    simp only [SparseParam.call] at h
    obtain ⟨q, hq, hw, hv, _, _, _, _, hg⟩ := SparseParam_clearGrad_spec p hp
    rw [hq] at h
    have e := Option.some.inj h
    subst e
    refine ⟨hw, by rw [hv], by rw [hv], ?_⟩
    intro r c hc _
    rw [hv] at hc
    rw [hg r c hc]
    split_ifs with ht
    · rfl
    · exact hz r c hc ht
  | updateAdagrad alpha reg eps =>
    simp only [SparseParam.call] at h
    obtain ⟨q, hq, hw, hr, hcl, hi, _, _, hg⟩ :=
      SparseParam_updateAdagrad_spec env p alpha reg eps hp
    rw [hq] at h
    have e := Option.some.inj h
    subst e
    refine ⟨hw, hr, hcl, ?_⟩
    intro r c hc hnt
    rw [hcl] at hc
    rw [hi] at hnt
    rw [((hg r c hc).2 hnt).1]
    exact hz r c hc hnt
  | updateAdam belta1 belta2 alpha reg eps =>
    simp only [SparseParam.call] at h
    obtain ⟨q, hq, hw, hr, hcl, hi, _, hg⟩ :=
      SparseParam_updateAdam_spec env p belta1 belta2 alpha reg eps hp
    rw [hq] at h
    have e := Option.some.inj h
    subst e
    refine ⟨hw, hr, hcl, ?_⟩
    intro r c hc hnt
    rw [hcl] at hc
    rw [hi] at hnt
    rw [((hg r c hc).2 hnt).1]
    exact hz r c hc hnt
  | rescaleGrad scale =>
    simp only [SparseParam.call] at h
    obtain ⟨q, hq, hw, hv, _, _, _, hi, hg⟩ := SparseParam_rescaleGrad_spec p scale hp
    rw [hq] at h
    have e := Option.some.inj h
    subst e
    refine ⟨hw, by rw [hv], by rw [hv], ?_⟩
    intro r c hc hnt
    rw [hv] at hc
    rw [hi] at hnt
    rw [hg r c hc, if_neg hnt]
    exact hz r c hc hnt

theorem SparseParam_run_inv {α : Type} [Field α] (env : Env α) :
    ∀ (ops : List (SparseOp α)) (p p1 : SparseParam α), p.WF →
      (∀ r c, c < p.val.col → p.indexers[r]? ≠ some true → p.grad.mat.entry r c = 0) →
      SparseParam.run env p ops = some p1 →
      p1.WF ∧ p1.val.row = p.val.row ∧ p1.val.col = p.val.col ∧
        ∀ r c, c < p1.val.col → p1.indexers[r]? ≠ some true → p1.grad.mat.entry r c = 0 := by
  intro ops
  induction ops with
  | nil =>
    intro p p1 hp hz h
    simp only [SparseParam.run, Option.some.injEq] at h
    subst h
    exact ⟨hp, rfl, rfl, hz⟩
  | cons op rest ih =>
    intro p p1 hp hz h
    simp only [SparseParam.run] at h
    obtain ⟨q, hq, hrest⟩ := Option.bind_eq_some.mp h
    obtain ⟨hw, hr, hc, hz1⟩ := SparseParam_call_inv env p q op hp hz hq
    obtain ⟨hw2, hr2, hc2, hz2⟩ := ih q p1 hw hz1 hrest
    exact ⟨hw2, hr2.trans hr, hc2.trans hc, hz2⟩

/-- C35. In every state `p` reached from `SparseParam::initial(outDim, inDim)` by calls of
`loss`, `clearGrad`, `updateAdagrad`, `updateAdam` and `rescaleGrad` (CPU path) that complete,
every row of `grad` with a non-zero entry has its touched flag set; `clearGrad` then completes
and leaves every cell of the gradient matrix zero, and `squareGradNorm` returns the sum of the
squares of all the cells of the gradient matrix. -/
theorem C35_sparse_gradient_invariant {α : Type} [Field α] (env : Env α) (k : Nat)
    (p0 p : SparseParam α) (outDim inDim : Nat) (ops : List (SparseOp α))
    (h : SparseParam.run env (SparseParam.initial env k p0 outDim inDim) ops = some p) :
    (p.grad.row = inDim ∧ p.grad.col = outDim) ∧
    (∀ r c, c < p.grad.col → p.grad.mat.entry r c ≠ 0 → p.indexers[r]? = some true) ∧
    (∃ p1, p.clearGrad = some p1 ∧ p1.grad.row = p.grad.row ∧ p1.grad.col = p.grad.col ∧
      ∀ r c, c < p.grad.col → p1.grad.mat.entry r c = 0) ∧
    p.squareGradNorm = some (((List.range p.grad.row).map
      (fun i => ((List.range p.grad.col).map (fun j => p.grad.mat.entry i j ^ 2)).sum)).sum) := by
  obtain ⟨hw0, hr0, hc0⟩ := SparseParam_initial_WF env k p0 outDim inDim
  obtain ⟨hw, hr, hc, hz⟩ := SparseParam_run_inv env ops _ p hw0
    (fun r c _ _ => SparseParam_initial_grad_zero env k p0 outDim inDim r c) h
  have hgr : p.grad.row = p.val.row := hw.2.2.2.2.1
  have hgc : p.grad.col = p.val.col := hw.2.2.2.2.2.1
  have hlen : p.indexers.length = p.val.row := hw.2.2.2.2.2.2.2.2.2.2.1
  refine ⟨⟨by rw [hgr, hr, hr0], by rw [hgc, hc, hc0]⟩, ?_, ?_, ?_⟩
  · intro r c hcl hne
    by_contra hnt
    exact hne (hz r c (by rw [← hgc]; exact hcl) hnt)
  · obtain ⟨q, hq, hwq, hv, _, _, _, _, hg⟩ := SparseParam_clearGrad_spec p hw
    refine ⟨q, hq, ?_, ?_, ?_⟩
    · rw [hwq.2.2.2.2.1, hv, hgr]
    · rw [hwq.2.2.2.2.2.1, hv, hgc]
    · intro r c hcl
      rw [hgc] at hcl
      rw [hg r c hcl]
      split_ifs with ht
      · rfl
      · exact hz r c hcl ht
  · rw [SparseParam_squareGradNorm_spec p hw, SparseParam.specSquareGradNorm,
      List_sum_filter_map, hlen, hgr, hgc]
    congr 2
    apply List.map_congr_left
    intro i _
    split_ifs with ht
    · rfl
    · symm
      apply List.sum_eq_zero
      intro x hx
      obtain ⟨j, hj, rfl⟩ := List.mem_map.1 hx
      have hnt : p.indexers[i]? ≠ some true := by
        intro e
        apply ht
        rw [List.getD_eq_getElem?_getD, e]; rfl
      rw [hz i j (List.mem_range.1 hj) hnt]
      simp

theorem exSparseRun_eval :
    SparseParam.run exEnv (SparseParam.initial exEnv 0 SparseParam.new 1 2)
      [SparseOp.loss 0 (Tensor1D.mk [1]), SparseOp.rescaleGrad 2] = some exSparseRun := by
  simp +decide [SparseParam.run, SparseParam.call, SparseParam.loss, SparseParam.rescaleGrad,
    SparseParam.initial, SparseParam.new, Tensor2D.random, Tensor2D.init, Tensor2D.new,
    Tensor2D.size, exEnv, forLoop, Tensor2D.getI?, Tensor2D.setI?, Tensor2D.get?, Tensor2D.set?,
    Tensor1D.get?, Tensor1D.dim, List.range, List.range.loop, exSparseRun]
  norm_num

/-- C35, instance: the parameter `initial(1, 2)` after `loss(0, [1])` and `rescaleGrad(2)` has
the gradient `[[2], [0]]` with row 0 touched; `squareGradNorm` is the sum over both rows. -/
theorem C35_sparse_gradient_invariant_witness :
    SparseParam.run exEnv (SparseParam.initial exEnv 0 SparseParam.new 1 2)
      [SparseOp.loss 0 (Tensor1D.mk [1]), SparseOp.rescaleGrad 2] = some exSparseRun ∧
    (∀ r c, c < exSparseRun.grad.col → exSparseRun.grad.mat.entry r c ≠ 0 →
      exSparseRun.indexers[r]? = some true) ∧
    exSparseRun.squareGradNorm = some (((List.range exSparseRun.grad.row).map
      (fun i => ((List.range exSparseRun.grad.col).map
        (fun j => exSparseRun.grad.mat.entry i j ^ 2)).sum)).sum) :=
  ⟨exSparseRun_eval,
    (C35_sparse_gradient_invariant exEnv 0 SparseParam.new exSparseRun 1 2 _ exSparseRun_eval).2.1,
    (C35_sparse_gradient_invariant exEnv 0 SparseParam.new exSparseRun 1 2 _
      exSparseRun_eval).2.2.2⟩

/-! ## `SparseParam::load` and the shape of `grad` -/

theorem SparseParam_load_keeps_grad {α : Type} [Zero α] (io : TextFmt α)
    (p p1 : SparseParam α) (toks rest : List String) (h : p.load io toks = some (p1, rest)) :
    p1.grad = p.grad ∧ p1.indexers = p.indexers := by
  unfold SparseParam.load at h
  obtain ⟨r1, _, h1⟩ := Option.bind_eq_some.mp h
  obtain ⟨r2, _, h2⟩ := Option.bind_eq_some.mp h1
  obtain ⟨r3, _, h3⟩ := Option.bind_eq_some.mp h2
  split_ifs at h3
  have e := congrArg Prod.fst (Option.some.inj h3)
  dsimp only at e
  rw [← e]
  exact ⟨rfl, rfl⟩

/-- C32, the failing input evaluated. The parameter after `initial(1, 2)` (`val` and `grad` are
`2 × 1`) loads the record that `save` writes for a `1 × 2` parameter with the values `[3, 4]`:
`load` returns with `val` of shape `1 × 2` and with `grad` (and `indexers`) as they were, so `grad`
is `2 × 1` and its shape differs from the shape of `val`. -/
theorem C32_load_leaves_grad_shape :
    (SparseParam.initial exEnv 0 SparseParam.new 1 2).grad.row
        = (SparseParam.initial exEnv 0 SparseParam.new 1 2).val.row ∧
      (SparseParam.initial exEnv 0 SparseParam.new 1 2).grad.col
        = (SparseParam.initial exEnv 0 SparseParam.new 1 2).val.col ∧
      ∃ p1, (SparseParam.initial exEnv 0 SparseParam.new 1 2).load exFmt
          ["2", "1", "2", "3", "4", "2", "1", "2", "0", "0", "2", "1", "2", "0", "0", "1", "0"]
          = some (p1, []) ∧
        p1.val = Tensor2D.mk 2 1 [3, 4] ∧ p1.grad = Tensor2D.mk 1 2 [0, 0] ∧
        p1.indexers = [false, false] ∧ p1.last_update = [0] ∧
        p1.grad.row ≠ p1.val.row ∧ p1.grad.col ≠ p1.val.col := by
  refine ⟨rfl, rfl, ?_⟩
  have hl : (SparseParam.initial exEnv 0 SparseParam.new 1 2).load exFmt
      ["2", "1", "2", "3", "4", "2", "1", "2", "0", "0", "2", "1", "2", "0", "0", "1", "0"]
      = some ({ SparseParam.initial exEnv 0 SparseParam.new 1 2 with
          val := Tensor2D.mk 2 1 [3, 4]
          aux_square := Tensor2D.mk 2 1 [0, 0]
          aux_mean := Tensor2D.mk 2 1 [0, 0]
          last_update := [0] }, []) := by
    simp +decide [SparseParam.load, Tensor2D.load, Tensor2D.init, Tensor2D.size,
      SparseParam.initial, SparseParam.new, Tensor2D.new, Tensor2D.random, exFmt, List.range,
      List.range.loop]
  refine ⟨_, hl, rfl, ?_, ?_, rfl, ?_, ?_⟩
  · simp [SparseParam.initial, SparseParam.new, Tensor2D.init, Tensor2D.new]
  · simp [SparseParam.initial]
  · simp [SparseParam.initial, SparseParam.new, Tensor2D.init, Tensor2D.new]
  · simp [SparseParam.initial, SparseParam.new, Tensor2D.init, Tensor2D.new]

/-! ## The rows a traversal of a `SparseParam` examines -/

theorem List_count_take_succ (fl : List Bool) (n : Nat) (hn : n < fl.length) :
    (fl.take (n + 1)).count true
      = (fl.take n).count true + (if fl[n]? = some true then 1 else 0) := by
  rw [List.take_succ, List.count_append, List.getElem?_eq_getElem hn]
  cases fl[n] <;> simp

theorem forLoop_countedRow {σ : Type} (flag : Nat → σ → Option Bool)
    (row : Nat → σ → Option σ) (body : Nat → σ → Option σ) (fl : List Bool) (P : σ → Prop)
    (hbody : ∀ i s, body i s
      = (flag i s).bind fun touched => if touched = false then some s else row i s)
    (hP : ∀ i s s1, P s → body i s = some s1 → P s1)
    (hflag : ∀ i s, i < fl.length → P s → flag i s = fl[i]?) (s0 : σ) (h0 : P s0) :
    ∀ n, n ≤ fl.length →
      forLoop n (countedRow flag row) (s0, { examined := 0, processed := 0 })
          = (forLoop n body s0).map
              (fun s => (s, { examined := n, processed := (fl.take n).count true })) ∧
        ∀ s, forLoop n body s0 = some s → P s := by
  intro n
  induction n with
  | zero =>
    intro _
    refine ⟨by simp [forLoop], ?_⟩
    intro s hs
    simp only [forLoop, Option.some.injEq] at hs
    rw [← hs]; exact h0
  | succ n ih =>
    intro hn
    obtain ⟨ih1, ih2⟩ := ih (by omega)
    have hlt : n < fl.length := by omega
    rw [forLoop, forLoop, ih1]
    cases hl : forLoop n body s0 with
    | none =>
      refine ⟨rfl, ?_⟩
      intro s hs
      simp at hs
    | some s =>
      have hPs := ih2 s hl
      have hf := hflag n s hlt hPs
      have hb := hbody n s
      rw [hf] at hb
      refine ⟨?_, ?_⟩
      · simp only [Option.map_some', Option.some_bind, countedRow, hf, hb,
          List_count_take_succ fl n hlt]
        rw [List.getElem?_eq_getElem hlt]
        cases fl[n] with
        | false => simp
        | true =>
          simp only [Option.some_bind, Bool.true_eq_false, if_false, Option.map_map,
            if_true, Function.comp_def]
      · intro s1 hs1
        exact hP n s s1 hPs hs1

theorem SparseParam_adagradCell_indexers {α : Type} [Field α] (env : Env α)
    (alpha reg eps : α) (index idx : Nat) (q q1 : SparseParam α)
    (h : SparseParam.adagradCell env alpha reg eps index idx q = some q1) :
    q1.indexers = q.indexers := by
  unfold SparseParam.adagradCell at h
  obtain ⟨_, _, h⟩ := Option.bind_eq_some.mp h
  obtain ⟨_, _, h⟩ := Option.bind_eq_some.mp h
  obtain ⟨_, _, h⟩ := Option.bind_eq_some.mp h
  obtain ⟨_, _, h⟩ := Option.bind_eq_some.mp h
  obtain ⟨_, _, h⟩ := Option.bind_eq_some.mp h
  obtain ⟨_, _, h⟩ := Option.bind_eq_some.mp h
  obtain ⟨_, _, h⟩ := Option.bind_eq_some.mp h
  obtain ⟨_, _, rfl⟩ := Option.map_eq_some'.mp h
  rfl

theorem SparseParam_adamCell_indexers {α : Type} [Field α] (env : Env α)
    (belta1 belta2 alpha reg eps : α) (index idx : Nat) (q q1 : SparseParam α)
    (h : SparseParam.adamCell env belta1 belta2 alpha reg eps index idx q = some q1) :
    q1.indexers = q.indexers := by
  unfold SparseParam.adamCell at h
  obtain ⟨_, _, h⟩ := Option.bind_eq_some.mp h
  obtain ⟨_, _, h⟩ := Option.bind_eq_some.mp h
  obtain ⟨_, _, h⟩ := Option.bind_eq_some.mp h
  obtain ⟨_, _, h⟩ := Option.bind_eq_some.mp h
  obtain ⟨_, _, h⟩ := Option.bind_eq_some.mp h
  obtain ⟨_, _, h⟩ := Option.bind_eq_some.mp h
  obtain ⟨_, _, h⟩ := Option.bind_eq_some.mp h
  obtain ⟨_, _, h⟩ := Option.bind_eq_some.mp h
  obtain ⟨_, _, h⟩ := Option.bind_eq_some.mp h
  obtain ⟨_, _, h⟩ := Option.bind_eq_some.mp h
  obtain ⟨_, _, h⟩ := Option.bind_eq_some.mp h
  obtain ⟨_, _, rfl⟩ := Option.map_eq_some'.mp h
  rfl

theorem forLoop_indexers {α : Type} (f : Nat → SparseParam α → Option (SparseParam α))
    (hf : ∀ i q q1, f i q = some q1 → q1.indexers = q.indexers) (n : Nat)
    (q q1 : SparseParam α) (h : forLoop n f q = some q1) : q1.indexers = q.indexers :=
  forLoop_of_some (fun _ s => s.indexers = q.indexers) f n q q1 rfl
    (fun i s1 s3 _ hs h3 => (hf i s1 s3 h3).trans hs) h

theorem SparseParam_clearGradCounted_eq {α : Type} [Zero α] (p : SparseParam α) :
    p.clearGradCounted = p.clearGrad.map (fun p1 =>
      (p1, { examined := p.indexers.length, processed := p.indexers.count true })) := by
  have h := (forLoop_countedRow (fun index (_ : Tensor2D α) => p.indexers[index]?)
    (fun index (g : Tensor2D α) =>
      forLoop g.col (fun idx (g1 : Tensor2D α) => g1.set? index idx 0) g)
    (fun index (g : Tensor2D α) =>
      (p.indexers[index]?).bind fun touched =>
      if touched = false then some g
      else forLoop g.col (fun idx (g1 : Tensor2D α) => g1.set? index idx 0) g)
    p.indexers (fun _ => True) (fun _ _ => rfl) (fun _ _ _ _ _ => trivial)
    (fun _ _ _ _ => rfl) p.grad trivial p.indexers.length (le_refl _)).1
  simp only [SparseParam.clearGradCounted, SparseParam.clearGrad, h, Option.map_map,
    List.take_length, Function.comp_def]

theorem SparseParam_rescaleGradCounted_eq {α : Type} [Mul α] (p : SparseParam α) (scale : α) :
    p.rescaleGradCounted scale = (p.rescaleGrad scale).map (fun p1 =>
      (p1, { examined := p.indexers.length, processed := p.indexers.count true })) := by
  have h := (forLoop_countedRow (fun index (_ : Tensor2D α) => p.indexers[index]?)
    (fun index (g : Tensor2D α) =>
      forLoop p.val.col (fun idx (g1 : Tensor2D α) =>
        (g1.get? index idx).bind fun g0 => g1.set? index idx (g0 * scale)) g)
    (fun index (g : Tensor2D α) =>
      (p.indexers[index]?).bind fun touched =>
      if touched = false then some g
      else
        forLoop p.val.col (fun idx (g1 : Tensor2D α) =>
          (g1.get? index idx).bind fun g0 => g1.set? index idx (g0 * scale)) g)
    p.indexers (fun _ => True) (fun _ _ => rfl) (fun _ _ _ _ _ => trivial)
    (fun _ _ _ _ => rfl) p.grad trivial p.indexers.length (le_refl _)).1
  simp only [SparseParam.rescaleGradCounted, SparseParam.rescaleGrad, h, Option.map_map,
    List.take_length, Function.comp_def]

theorem SparseParam_squareGradNormCounted_eq {α : Type} [Semiring α] (p : SparseParam α) :
    p.squareGradNormCounted = p.squareGradNorm.map (fun a =>
      (a, { examined := p.indexers.length, processed := p.indexers.count true })) := by
  have h := (forLoop_countedRow (fun index (_ : α) => p.indexers[index]?)
    (fun index (sumNorm : α) =>
      forLoop p.val.col (fun idx (s : α) =>
        (p.grad.get? index idx).map fun g => s + g * g) sumNorm)
    (fun index (sumNorm : α) =>
      (p.indexers[index]?).bind fun touched =>
      if touched = false then some sumNorm
      else
        forLoop p.val.col (fun idx (s : α) =>
          (p.grad.get? index idx).map fun g => s + g * g) sumNorm)
    p.indexers (fun _ => True) (fun _ _ => rfl) (fun _ _ _ _ _ => trivial)
    (fun _ _ _ _ => rfl) 0 trivial p.indexers.length (le_refl _)).1
  simp only [SparseParam.squareGradNormCounted, SparseParam.squareGradNorm, h,
    List.take_length]

theorem SparseParam_updateAdagradCounted_eq {α : Type} [Field α] (env : Env α)
    (p : SparseParam α) (alpha reg eps : α) :
    p.updateAdagradCounted env alpha reg eps = (p.updateAdagrad env alpha reg eps).map (fun p1 =>
      (p1, { examined := p.indexers.length, processed := p.indexers.count true })) := by
  have h := (forLoop_countedRow (fun index (q : SparseParam α) => q.indexers[index]?)
    (fun index (q : SparseParam α) =>
      forLoop q.grad.col (SparseParam.adagradCell env alpha reg eps index) q)
    (fun index (q : SparseParam α) =>
      (q.indexers[index]?).bind fun touched =>
      if touched = false then some q
      else forLoop q.grad.col (SparseParam.adagradCell env alpha reg eps index) q)
    p.indexers (fun q => q.indexers = p.indexers) (fun _ _ => rfl)
    (by
      intro i s s1 hs hb
      obtain ⟨touched, _, hb2⟩ := Option.bind_eq_some.mp hb
      split_ifs at hb2
      · rw [← Option.some.inj hb2]; exact hs
      · exact (forLoop_indexers _
          (fun j q q1 => SparseParam_adagradCell_indexers env alpha reg eps i j q q1) _ _ _
          hb2).trans hs)
    (fun i s _ hs => by
      have hs2 : s.indexers = p.indexers := hs
      show s.indexers[i]? = p.indexers[i]?
      rw [hs2]) p rfl p.indexers.length (le_refl _)).1
  simp only [SparseParam.updateAdagradCounted, SparseParam.updateAdagrad, h, List.take_length]

theorem SparseParam_updateAdamCounted_eq {α : Type} [Field α] (env : Env α)
    (p : SparseParam α) (belta1 belta2 alpha reg eps : α) :
    p.updateAdamCounted env belta1 belta2 alpha reg eps
      = (p.updateAdam env belta1 belta2 alpha reg eps).map (fun p1 =>
        (p1, { examined := p.indexers.length, processed := p.indexers.count true })) := by
  have h := (forLoop_countedRow (fun index (q : SparseParam α) => q.indexers[index]?)
    (fun index (q : SparseParam α) =>
      (forLoop q.grad.col (SparseParam.adamCell env belta1 belta2 alpha reg eps index) q).bind
        fun q1 =>
      (q1.last_update[index]?).map fun t =>
        { q1 with last_update := q1.last_update.set index (t + 1) })
    (fun index (q : SparseParam α) =>
      (q.indexers[index]?).bind fun touched =>
      if touched = false then some q
      else
        (forLoop q.grad.col (SparseParam.adamCell env belta1 belta2 alpha reg eps index) q).bind
          fun q1 =>
        (q1.last_update[index]?).map fun t =>
          { q1 with last_update := q1.last_update.set index (t + 1) })
    p.indexers (fun q => q.indexers = p.indexers) (fun _ _ => rfl)
    (by
      intro i s s1 hs hb
      obtain ⟨touched, _, hb2⟩ := Option.bind_eq_some.mp hb
      split_ifs at hb2
      · rw [← Option.some.inj hb2]; exact hs
      · obtain ⟨q1, hq1, hb3⟩ := Option.bind_eq_some.mp hb2
        obtain ⟨t, _, rfl⟩ := Option.map_eq_some'.mp hb3
        exact (forLoop_indexers _
          (fun j q q2 => SparseParam_adamCell_indexers env belta1 belta2 alpha reg eps i j q q2)
          _ _ _ hq1).trans hs)
    (fun i s _ hs => by
      have hs2 : s.indexers = p.indexers := hs
      show s.indexers[i]? = p.indexers[i]?
      rw [hs2]) p rfl p.indexers.length (le_refl _)).1
  simp only [SparseParam.updateAdamCounted, SparseParam.updateAdam, h, List.take_length]

/-- C33 fails as stated: the parameter `exSparseTouched` has 2 rows of which 1 is touched, and
the traversal of `clearGrad` (likewise of the other four functions) examines 2 rows: it tests the
flag of every row and handles the cells of the touched row only. -/
theorem C33_counterexample :
    exSparseTouched.indexers.count true = 1 ∧
      exSparseTouched.clearGradCounted.map (fun r => r.2)
        = some { examined := 2, processed := 1 } ∧
      (exSparseTouched.updateAdagradCounted exEnv 1 0 0).map (fun r => r.2)
        = some { examined := 2, processed := 1 } ∧
      exSparseTouched.squareGradNormCounted.map (fun r => r.2)
        = some { examined := 2, processed := 1 } := by
  have hw : exSparseTouched.WF := by
    simp [SparseParam.WF, Tensor2D.WF, exSparseTouched, exSparse]
  refine ⟨by decide, ?_, ?_, ?_⟩
  · obtain ⟨p1, h1, _⟩ := SparseParam_clearGrad_spec exSparseTouched hw
    rw [SparseParam_clearGradCounted_eq, h1]
    rfl
  · obtain ⟨p1, h1, _⟩ := SparseParam_updateAdagrad_spec exEnv exSparseTouched 1 0 0 hw
    rw [SparseParam_updateAdagradCounted_eq, h1]
    rfl
  · rw [SparseParam_squareGradNormCounted_eq, SparseParam_squareGradNorm_spec _ hw]
    rfl

/-- C33 (amended). For a `SparseParam` of the shape `initial` gives it, the traversals of
`clearGrad`, `updateAdagrad`, `updateAdam`, `squareGradNorm` and `rescaleGrad` (CPU path)
complete with the results of those functions; each visits every row and tests its flag, so the
number of rows examined is the total row count `indexers.size()`, and the number of rows whose
cells are handled is the number of rows whose touched flag is set. -/
theorem C33_rows_examined_and_processed {α : Type} [Field α] (env : Env α)
    (p : SparseParam α) (alpha reg eps belta1 belta2 scale : α) (hp : p.WF) :
    (∃ p1, p.clearGrad = some p1 ∧ p.clearGradCounted
        = some (p1, { examined := p.indexers.length, processed := p.indexers.count true })) ∧
    (∃ p1, p.updateAdagrad env alpha reg eps = some p1 ∧
      p.updateAdagradCounted env alpha reg eps
        = some (p1, { examined := p.indexers.length, processed := p.indexers.count true })) ∧
    (∃ p1, p.updateAdam env belta1 belta2 alpha reg eps = some p1 ∧
      p.updateAdamCounted env belta1 belta2 alpha reg eps
        = some (p1, { examined := p.indexers.length, processed := p.indexers.count true })) ∧
    (∃ a, p.squareGradNorm = some a ∧ p.squareGradNormCounted
        = some (a, { examined := p.indexers.length, processed := p.indexers.count true })) ∧
    (∃ p1, p.rescaleGrad scale = some p1 ∧ p.rescaleGradCounted scale
        = some (p1, { examined := p.indexers.length, processed := p.indexers.count true })) := by
  refine ⟨?_, ?_, ?_, ?_, ?_⟩
  · obtain ⟨p1, h1, _⟩ := SparseParam_clearGrad_spec p hp
    exact ⟨p1, h1, by rw [SparseParam_clearGradCounted_eq, h1]; rfl⟩
  · obtain ⟨p1, h1, _⟩ := SparseParam_updateAdagrad_spec env p alpha reg eps hp
    exact ⟨p1, h1, by rw [SparseParam_updateAdagradCounted_eq, h1]; rfl⟩
  · obtain ⟨p1, h1, _⟩ := SparseParam_updateAdam_spec env p belta1 belta2 alpha reg eps hp
    exact ⟨p1, h1, by rw [SparseParam_updateAdamCounted_eq, h1]; rfl⟩
  · exact ⟨_, SparseParam_squareGradNorm_spec p hp, by
      rw [SparseParam_squareGradNormCounted_eq, SparseParam_squareGradNorm_spec p hp]; rfl⟩
  · obtain ⟨p1, h1, _⟩ := SparseParam_rescaleGrad_spec p scale hp
    exact ⟨p1, h1, by rw [SparseParam_rescaleGradCounted_eq, h1]; rfl⟩

/-- C33 (amended), instance: the parameter `exSparseTouched` (2 rows, row 0 touched) under
`rescaleGrad(2)`: 2 rows examined, 1 row handled. -/
theorem C33_rows_examined_and_processed_witness :
    exSparseTouched.WF ∧
      ∃ p1, exSparseTouched.rescaleGrad 2 = some p1 ∧ exSparseTouched.rescaleGradCounted 2
        = some (p1, { examined := exSparseTouched.indexers.length,
                      processed := exSparseTouched.indexers.count true }) :=
  ⟨by simp [SparseParam.WF, Tensor2D.WF, exSparseTouched, exSparse],
    (C33_rows_examined_and_processed exEnv exSparseTouched 1 0 0 0 0 2
      (by simp [SparseParam.WF, Tensor2D.WF, exSparseTouched, exSparse])).2.2.2.2⟩

/-! ## Max and min pooling: `setMask` and `compute` -/

theorem PoolNode_argbest_loop {α : Type} (R : α → α → Prop) (hirr : ∀ a, ¬ R a a)
    (htr : ∀ a b c, R a b → R b c → R a c) (hneg : ∀ a b c, R a b → ¬ R c b → R a c)
    (v : Nat → α) (n : Nat) (hn : 1 ≤ n) (f : Nat → Int → Option Int)
    (hf0 : f 0 (-1) = some 0)
    (hf : ∀ i m : Nat, i < n → m < i →
      ∃ r : Int, f i (m : Int) = some r ∧ (R (v i) (v m) → r = i) ∧ (¬ R (v i) (v m) → r = m)) :
    ∃ m : Nat, forLoop n f (-1) = some (m : Int) ∧ m < n ∧ (∀ i, i < n → ¬ R (v i) (v m)) ∧
      ∀ i, i < m → R (v m) (v i) := by
  obtain ⟨s2, h2, hP⟩ := forLoop_inv
    (fun k (mi : Int) => (k = 0 ∧ mi = -1) ∨
      ∃ m : Nat, mi = (m : Int) ∧ m < k ∧ (∀ i, i < k → ¬ R (v i) (v m)) ∧
        ∀ i, i < m → R (v m) (v i))
    f n (-1) (Or.inl ⟨rfl, rfl⟩)
    (by
      intro i s1 hi hs
      rcases hs with ⟨h0, h1⟩ | ⟨m, hm, hlt, hall, hbefore⟩
      · subst h0; subst h1
        refine ⟨0, hf0, Or.inr ⟨0, rfl, by omega, ?_, ?_⟩⟩
        · intro j hj
          have : j = 0 := by omega
          subst this
          exact hirr _
        · intro j hj; omega
      · subst hm
        obtain ⟨r, hr, hr1, hr2⟩ := hf i m hi hlt
        refine ⟨r, hr, Or.inr ?_⟩
        by_cases hR : R (v i) (v m)
        · refine ⟨i, hr1 hR, by omega, ?_, ?_⟩
          · intro j hj hRj
            by_cases hji : j = i
            · subst hji; exact hirr _ hRj
            · exact hall j (by omega) (htr _ _ _ hRj hR)
          · intro j hj
            exact hneg _ _ _ hR (hall j hj)
        · refine ⟨m, hr2 hR, by omega, ?_, hbefore⟩
          intro j hj
          by_cases hji : j = i
          · subst hji; exact hR
          · exact hall j (by omega))
  rcases hP with ⟨h0, _⟩ | ⟨m, hm, hlt, hall, hbefore⟩
  · omega
  · subst hm
    exact ⟨m, h2, hlt, hall, hbefore⟩

theorem PoolNode_setMask_loop {α : Type} [Zero α] (R : α → α → Prop) [DecidableRel R]
    (hirr : ∀ a, ¬ R a a) (htr : ∀ a b c, R a b → R b c → R a c)
    (hneg : ∀ a b c, R a b → ¬ R c b → R a c) (objs : PNode → PoolNode α) (ins : List PNode)
    (dim : Nat) (masks : List Int) (hn : 1 ≤ ins.length)
    (hin : ∀ p ∈ ins, (objs p).val.dim = dim) (hm : dim ≤ masks.length) :
    ∃ ms, forLoop dim (fun idx (masks : List Int) =>
        (forLoop ins.length (fun i (maxIndex : Int) =>
            if maxIndex = -1 then some (i : Int)
            else
              (ins[i]?).bind fun pi =>
              ((objs pi).val.get? idx).bind fun vi =>
              (if maxIndex < 0 then none else ins[maxIndex.toNat]?).bind fun pm =>
              ((objs pm).val.get? idx).bind fun vm =>
              some (if R vi vm then (i : Int) else maxIndex)) (-1)).bind fun maxIndex =>
        if idx < masks.length then some (masks.set idx maxIndex) else none) masks = some ms ∧
      ms.length = masks.length ∧
      ∀ idx, idx < dim → ∃ m : Nat, ms[idx]? = some (m : Int) ∧ m < ins.length ∧
        (∀ i, i < ins.length → ¬ R ((objs (ins.getD i 0)).val.v.getD idx 0)
          ((objs (ins.getD m 0)).val.v.getD idx 0)) ∧
        ∀ i, i < m → R ((objs (ins.getD m 0)).val.v.getD idx 0)
          ((objs (ins.getD i 0)).val.v.getD idx 0) := by
  have hval : ∀ i idx, i < ins.length → idx < dim →
      ins[i]? = some (ins.getD i 0) ∧
      (objs (ins.getD i 0)).val.get? idx = some ((objs (ins.getD i 0)).val.v.getD idx 0) := by
    intro i idx hi hidx
    have h1 : ins[i]? = some (ins.getD i 0) := getElem?_eq_some_getD ins i hi
    refine ⟨h1, Tensor1D_get_getD _ _ ?_⟩
    obtain ⟨hlt, he⟩ := List.getElem?_eq_some_iff.1 h1
    rw [hin _ (he ▸ List.getElem_mem hlt)]
    exact hidx
  refine forLoop_inv
    (fun k (ms : List Int) => ms.length = masks.length ∧
      ∀ idx, idx < k → ∃ m : Nat, ms[idx]? = some (m : Int) ∧ m < ins.length ∧
        (∀ i, i < ins.length → ¬ R ((objs (ins.getD i 0)).val.v.getD idx 0)
          ((objs (ins.getD m 0)).val.v.getD idx 0)) ∧
        ∀ i, i < m → R ((objs (ins.getD m 0)).val.v.getD idx 0)
          ((objs (ins.getD i 0)).val.v.getD idx 0))
    _ dim masks ⟨rfl, fun idx h => absurd h (Nat.not_lt_zero _)⟩ ?_
  · intro idx ms hidx ⟨hlen, hprev⟩
    obtain ⟨m, hm1, hm2, hm3, hm4⟩ := PoolNode_argbest_loop R hirr htr hneg
      (fun i => (objs (ins.getD i 0)).val.v.getD idx 0) ins.length hn
      (fun i (maxIndex : Int) =>
          if maxIndex = -1 then some (i : Int)
          else
            (ins[i]?).bind fun pi =>
            ((objs pi).val.get? idx).bind fun vi =>
            (if maxIndex < 0 then none else ins[maxIndex.toNat]?).bind fun pm =>
            ((objs pm).val.get? idx).bind fun vm =>
            some (if R vi vm then (i : Int) else maxIndex))
      (by simp)
      (by
        intro i m hi hmi
        have hne : ¬ ((m : Int) = -1) := by omega
        have hnn : ¬ ((m : Int) < 0) := by omega
        obtain ⟨e1, e2⟩ := hval i idx hi hidx
        obtain ⟨e3, e4⟩ := hval m idx (by omega) hidx
        refine ⟨if R ((objs (ins.getD i 0)).val.v.getD idx 0)
            ((objs (ins.getD m 0)).val.v.getD idx 0) then (i : Int) else (m : Int), ?_, ?_, ?_⟩
        · simp only [hne, hnn, if_false, e1, Option.some_bind, e2, Int.toNat_ofNat, e3, e4]
        · intro hR; rw [if_pos hR]
        · intro hR; rw [if_neg hR])
    refine ⟨ms.set idx (m : Int), ?_, ?_, ?_⟩
    · dsimp only
      rw [hm1]
      simp only [Option.some_bind]
      rw [if_pos (by omega)]
    · rw [List.length_set]; exact hlen
    · intro j hj
      by_cases hji : j = idx
      · subst hji
        exact ⟨m, by rw [List.getElem?_set_self (by omega)], hm2, hm3, hm4⟩
      · obtain ⟨m', h1, h2, h3, h4⟩ := hprev j (by omega)
        exact ⟨m', by rw [List.getElem?_set_ne (Ne.symm hji)]; exact h1, h2, h3, h4⟩

theorem List_getD_set {α : Type} (l : List α) (i j : Nat) (a d : α) (hi : i < l.length) :
    (l.set i a).getD j d = if j = i then a else l.getD j d := by
  simp only [List.getD_eq_getElem?_getD]
  by_cases h : j = i
  · subst h
    rw [List.getElem?_set_self hi, if_pos rfl]; rfl
  · rw [List.getElem?_set_ne (Ne.symm h), if_neg h]

theorem PoolNode_compute_loop {α : Type} [Zero α] (objs : PNode → PoolNode α) (self : PNode)
    (ms : List Int)
    (hin : ∀ p ∈ (objs self).ins, (objs p).val.dim = (objs self).dim)
    (hv : (objs self).val.dim = (objs self).dim)
    (hms : ∀ idx, idx < (objs self).dim →
      ∃ m : Nat, ms[idx]? = some (m : Int) ∧ m < (objs self).ins.length) :
    ∃ o1, forLoop (objs self).dim (fun i (o : PNode → PoolNode α) =>
        ((o self).masks[i]?).bind fun mask_i =>
        (if mask_i < 0 then none else (o self).ins[mask_i.toNat]?).bind fun pin =>
        ((o pin).val.get? i).bind fun a =>
        ((o self).val.set? i a).map fun v1 => Function.update o self { o self with val := v1 })
        (Function.update objs self { objs self with masks := ms }) = some o1 ∧
      ((∀ q, q ≠ self → o1 q = objs q) ∧ (o1 self).masks = ms ∧
        (o1 self).ins = (objs self).ins ∧ (o1 self).val.dim = (objs self).dim ∧
        (∀ j, (objs self).dim ≤ j → (o1 self).val.v.getD j 0 = (objs self).val.v.getD j 0) ∧
        ∀ j, j < (objs self).dim → ∀ m : Nat, ms[j]? = some (m : Int) →
          (o1 self).val.v.getD j 0 = (objs ((objs self).ins.getD m 0)).val.v.getD j 0) := by
  refine forLoop_inv
    (fun i (o : PNode → PoolNode α) =>
      (∀ q, q ≠ self → o q = objs q) ∧ (o self).masks = ms ∧
        (o self).ins = (objs self).ins ∧ (o self).val.dim = (objs self).dim ∧
        (∀ j, i ≤ j → (o self).val.v.getD j 0 = (objs self).val.v.getD j 0) ∧
        ∀ j, j < i → ∀ m : Nat, ms[j]? = some (m : Int) →
          (o self).val.v.getD j 0 = (objs ((objs self).ins.getD m 0)).val.v.getD j 0)
    _ (objs self).dim _ ?_ ?_
  · refine ⟨fun q hq => by simp [Function.update, hq], by simp, by simp, by simpa using hv,
      fun j _ => by simp, fun j hj => absurd hj (Nat.not_lt_zero _)⟩
  · intro i o hi ⟨hq, hmk, hins, hdim, hge, hlt⟩
    obtain ⟨m, hm1, hm2⟩ := hms i hi
    have hnn : ¬ ((m : Int) < 0) := by omega
    have hpin : (objs self).ins[m]? = some ((objs self).ins.getD m 0) :=
      getElem?_eq_some_getD _ m hm2
    have hmem : (objs self).ins.getD m 0 ∈ (objs self).ins := by
      obtain ⟨hl, he⟩ := List.getElem?_eq_some_iff.1 hpin
      exact he ▸ List.getElem_mem hl
    have hread : (o ((objs self).ins.getD m 0)).val.get? i
        = some ((objs ((objs self).ins.getD m 0)).val.v.getD i 0) := by
      by_cases hs : (objs self).ins.getD m 0 = self
      · rw [hs, Tensor1D_get_getD _ _ (by rw [hdim]; exact hi), hge i (le_refl _)]
      · rw [hq _ hs]
        exact Tensor1D_get_getD _ _ (by rw [hin _ hmem]; exact hi)
    have hset : (o self).val.set? i ((objs ((objs self).ins.getD m 0)).val.v.getD i 0)
        = some (Tensor1D.mk ((o self).val.v.set i
            ((objs ((objs self).ins.getD m 0)).val.v.getD i 0))) := by
      simp only [Tensor1D.set?]
      rw [if_pos (by rw [hdim]; exact hi)]
    have hil : i < (o self).val.v.length := by
      have : (o self).val.v.length = (objs self).dim := hdim
      omega
    refine ⟨Function.update o self { o self with
        val := Tensor1D.mk ((o self).val.v.set i
          ((objs ((objs self).ins.getD m 0)).val.v.getD i 0)) }, ?_, ?_, ?_, ?_, ?_, ?_, ?_⟩
    · dsimp only
      rw [hmk, hm1]
      simp only [Option.some_bind, hnn, if_false, Int.toNat_ofNat, hins, hpin, hread, hset,
        Option.map_some']
    · intro q hqs
      rw [Function.update_noteq hqs]
      exact hq q hqs
    · simp only [Function.update_same]
      exact hmk
    · simp only [Function.update_same]
      exact hins
    · simp only [Function.update_same]
      show (List.set _ _ _).length = _
      rw [List.length_set]
      exact hdim
    · intro j hj
      simp only [Function.update_same]
      rw [List_getD_set _ _ _ _ _ hil, if_neg (by omega)]
      exact hge j (by omega)
    · intro j hj m' hm'
      simp only [Function.update_same]
      rw [List_getD_set _ _ _ _ _ hil]
      by_cases hji : j = i
      · subst hji
        rw [if_pos rfl]
        rw [hm1] at hm'
        have : m = m' := by
          have := Option.some.inj hm'
          omega
        rw [this]
      · rw [if_neg hji]
        exact hlt j (by omega) m' hm'

theorem PoolNode_compute_spec {α : Type} [Zero α] (R : α → α → Prop) [DecidableRel R]
    (hirr : ∀ a, ¬ R a a) (htr : ∀ a b c, R a b → R b c → R a c)
    (hneg : ∀ a b c, R a b → ¬ R c b → R a c)
    (setMask : (PNode → PoolNode α) → PNode → Option (List Int))
    (objs : PNode → PoolNode α) (self : PNode)
    (hsm : setMask objs self = forLoop (objs self).dim (fun idx (masks : List Int) =>
        (forLoop (objs self).ins.length (fun i (maxIndex : Int) =>
            if maxIndex = -1 then some (i : Int)
            else
              ((objs self).ins[i]?).bind fun pi =>
              ((objs pi).val.get? idx).bind fun vi =>
              (if maxIndex < 0 then none else (objs self).ins[maxIndex.toNat]?).bind fun pm =>
              ((objs pm).val.get? idx).bind fun vm =>
              some (if R vi vm then (i : Int) else maxIndex)) (-1)).bind fun maxIndex =>
        if idx < masks.length then some (masks.set idx maxIndex) else none) (objs self).masks)
    (hn : 1 ≤ (objs self).ins.length)
    (hin : ∀ p ∈ (objs self).ins, (objs p).val.dim = (objs self).dim)
    (hm : (objs self).dim ≤ (objs self).masks.length)
    (hv : (objs self).val.dim = (objs self).dim) :
    ∃ o1, PoolNode.compute setMask objs self = some o1 ∧ (∀ q, q ≠ self → o1 q = objs q) ∧
      ∀ idx, idx < (objs self).dim →
        ∃ m : Nat, (o1 self).masks[idx]? = some (m : Int) ∧ m < (objs self).ins.length ∧
          (o1 self).val.get? idx
            = some ((objs ((objs self).ins.getD m 0)).val.v.getD idx 0) ∧
          (∀ i, i < (objs self).ins.length →
            ¬ R ((objs ((objs self).ins.getD i 0)).val.v.getD idx 0)
              ((objs ((objs self).ins.getD m 0)).val.v.getD idx 0)) ∧
          ∀ i, i < m → R ((objs ((objs self).ins.getD m 0)).val.v.getD idx 0)
            ((objs ((objs self).ins.getD i 0)).val.v.getD idx 0) := by
  obtain ⟨ms, hms, _, hP⟩ := PoolNode_setMask_loop R hirr htr hneg objs (objs self).ins
    (objs self).dim (objs self).masks hn hin hm
  obtain ⟨o1, ho1, hq, hmk, _, hdim, _, hval⟩ := PoolNode_compute_loop objs self ms hin hv
    (fun idx hidx => by
      obtain ⟨m, h1, h2, _⟩ := hP idx hidx
      exact ⟨m, h1, h2⟩)
  refine ⟨o1, ?_, hq, ?_⟩
  · unfold PoolNode.compute
    rw [hsm, hms]
    exact ho1
  · intro idx hidx
    obtain ⟨m, h1, h2, h3, h4⟩ := hP idx hidx
    refine ⟨m, by rw [hmk]; exact h1, h2, ?_, h3, h4⟩
    rw [Tensor1D_get_getD _ _ (by rw [hdim]; exact hidx), hval idx hidx m h1]

/-- C37. For a `MaxPoolNode` (CPU build) with `n >= 1` inputs of width `dim`, with `masks` and
`val` as `init(dim, ...)` sized them, `compute` returns and changes no other node; for every
component `idx`, `masks[idx]` is an index `m` in `[0, n)`, `val[idx]` is `ins[m]->val[idx]`, no
input has a greater `val[idx]`, and every input before `m` has a smaller one, so `m` is the
smallest index at which the maximum is attained. `MinPoolNode` is the same with the minimum. -/
theorem C37_pool_compute_selects_first_extremum {α : Type} [LinearOrder α] [Zero α]
    (objs : PNode → PoolNode α) (self : PNode)
    (hn : 1 ≤ (objs self).ins.length)
    (hin : ∀ p ∈ (objs self).ins, (objs p).val.dim = (objs self).dim)
    (hm : (objs self).dim ≤ (objs self).masks.length)
    (hv : (objs self).val.dim = (objs self).dim) :
    (∃ o1, PoolNode.compute MaxPoolNode.setMask objs self = some o1 ∧
      (∀ q, q ≠ self → o1 q = objs q) ∧
      ∀ idx, idx < (objs self).dim →
        ∃ m : Nat, (o1 self).masks[idx]? = some (m : Int) ∧ m < (objs self).ins.length ∧
          (o1 self).val.get? idx
            = some ((objs ((objs self).ins.getD m 0)).val.v.getD idx 0) ∧
          (∀ i, i < (objs self).ins.length →
            (objs ((objs self).ins.getD i 0)).val.v.getD idx 0
              ≤ (objs ((objs self).ins.getD m 0)).val.v.getD idx 0) ∧
          ∀ i, i < m → (objs ((objs self).ins.getD i 0)).val.v.getD idx 0
            < (objs ((objs self).ins.getD m 0)).val.v.getD idx 0) ∧
    (∃ o1, PoolNode.compute MinPoolNode.setMask objs self = some o1 ∧
      (∀ q, q ≠ self → o1 q = objs q) ∧
      ∀ idx, idx < (objs self).dim →
        ∃ m : Nat, (o1 self).masks[idx]? = some (m : Int) ∧ m < (objs self).ins.length ∧
          (o1 self).val.get? idx
            = some ((objs ((objs self).ins.getD m 0)).val.v.getD idx 0) ∧
          (∀ i, i < (objs self).ins.length →
            (objs ((objs self).ins.getD m 0)).val.v.getD idx 0
              ≤ (objs ((objs self).ins.getD i 0)).val.v.getD idx 0) ∧
          ∀ i, i < m → (objs ((objs self).ins.getD m 0)).val.v.getD idx 0
            < (objs ((objs self).ins.getD i 0)).val.v.getD idx 0) := by
  constructor
  · obtain ⟨o1, h1, h2, h3⟩ := PoolNode_compute_spec (fun a b : α => b < a)
      (fun a => lt_irrefl a) (fun a b c hab hbc => lt_trans hbc hab)
      (fun a b c hab hcb => lt_of_le_of_lt (not_lt.1 hcb) hab)
      MaxPoolNode.setMask objs self rfl hn hin hm hv
    refine ⟨o1, h1, h2, fun idx hidx => ?_⟩
    obtain ⟨m, e1, e2, e3, e4, e5⟩ := h3 idx hidx
    exact ⟨m, e1, e2, e3, fun i hi => not_lt.1 (e4 i hi), e5⟩
  · obtain ⟨o1, h1, h2, h3⟩ := PoolNode_compute_spec (fun a b : α => a < b)
      (fun a => lt_irrefl a) (fun a b c hab hbc => lt_trans hab hbc)
      (fun a b c hab hcb => lt_of_lt_of_le hab (not_lt.1 hcb))
      MinPoolNode.setMask objs self rfl hn hin hm hv
    refine ⟨o1, h1, h2, fun idx hidx => ?_⟩
    obtain ⟨m, e1, e2, e3, e4, e5⟩ := h3 idx hidx
    exact ⟨m, e1, e2, e3, fun i hi => not_lt.1 (e4 i hi), e5⟩

/-- C37, instance: the max-pooling node 1 of `exPoolIns` with the inputs `[1, 5]`, `[3, 5]` and
`[2, 0]`: `compute` leaves `masks = [1, 0]` (for component 1 the first of the two inputs with
value 5) and `val = [3, 5]`. -/
theorem C37_pool_compute_selects_first_extremum_witness :
    (∃ o1, PoolNode.compute MaxPoolNode.setMask exPoolIns 1 = some o1 ∧
      (∀ q, q ≠ 1 → o1 q = exPoolIns q) ∧
      ∀ idx, idx < (exPoolIns 1).dim →
        ∃ m : Nat, (o1 1).masks[idx]? = some (m : Int) ∧ m < (exPoolIns 1).ins.length ∧
          (o1 1).val.get? idx
            = some ((exPoolIns ((exPoolIns 1).ins.getD m 0)).val.v.getD idx 0) ∧
          (∀ i, i < (exPoolIns 1).ins.length →
            (exPoolIns ((exPoolIns 1).ins.getD i 0)).val.v.getD idx 0
              ≤ (exPoolIns ((exPoolIns 1).ins.getD m 0)).val.v.getD idx 0) ∧
          ∀ i, i < m → (exPoolIns ((exPoolIns 1).ins.getD i 0)).val.v.getD idx 0
            < (exPoolIns ((exPoolIns 1).ins.getD m 0)).val.v.getD idx 0) ∧
    (PoolNode.compute MaxPoolNode.setMask exPoolIns 1).map
      (fun o => ((o 1).masks, (o 1).val.v)) = some ([1, 0], [3, 5]) := by
  refine ⟨(C37_pool_compute_selects_first_extremum exPoolIns 1 (by decide) ?_ (by decide)
    (by decide)).1, ?_⟩
  · intro p hp
    have hp2 : p = 2 ∨ p = 3 ∨ p = 4 := by simpa [exPoolIns] using hp
    rcases hp2 with rfl | rfl | rfl <;> decide
  · simp +decide [PoolNode.compute, MaxPoolNode.setMask, exPoolIns, exPool, exNode, Node.init,
      Node.new, Tensor1D.init, Tensor1D.new, forLoop, Tensor1D.get?, Tensor1D.set?,
      Tensor1D.dim, Function.update]

/-! ## `PoolNode::backward` -/

theorem List_getD_inj_of_nodup (l : List Nat) (hnd : l.Nodup) (i j : Nat) (hi : i < l.length)
    (hj : j < l.length) (h : l.getD i 0 = l.getD j 0) : i = j := by
  simp only [List.getD_eq_getElem?_getD, List.getElem?_eq_getElem hi,
    List.getElem?_eq_getElem hj, Option.getD_some] at h
  exact (List.Nodup.getElem_inj_iff hnd).1 h

theorem PoolNode_backward_spec {α : Type} [AddCommMonoid α] (objs : PNode → PoolNode α)
    (self : PNode) (hself : self ∉ (objs self).ins) (hnd : (objs self).ins.Nodup)
    (hmask : ∀ i, i < (objs self).dim →
      ∃ m : Nat, (objs self).masks[i]? = some (m : Int) ∧ m < (objs self).ins.length)
    (hl : (objs self).loss.dim = (objs self).dim)
    (hinl : ∀ p ∈ (objs self).ins, (objs p).loss.dim = (objs self).dim) :
    ∃ o1, PoolNode.backward objs self = some o1 ∧
      ((∀ q, { o1 q with loss := (objs q).loss } = objs q) ∧
        (∀ q, (o1 q).loss.dim = (objs q).loss.dim) ∧
        (∀ q, q ∉ (objs self).ins → (o1 q).loss = (objs q).loss) ∧
        ∀ k, k < (objs self).ins.length → ∀ j,
          (o1 ((objs self).ins.getD k 0)).loss.v.getD j 0
            = (objs ((objs self).ins.getD k 0)).loss.v.getD j 0
              + (if j < (objs self).dim ∧ (objs self).masks[j]? = some (k : Int) then
                  (objs self).loss.v.getD j 0 else 0)) := by
  unfold PoolNode.backward
  refine forLoop_inv
    (fun i (o : PNode → PoolNode α) =>
      (∀ q, { o q with loss := (objs q).loss } = objs q) ∧
        (∀ q, (o q).loss.dim = (objs q).loss.dim) ∧
        (∀ q, q ∉ (objs self).ins → (o q).loss = (objs q).loss) ∧
        ∀ k, k < (objs self).ins.length → ∀ j,
          (o ((objs self).ins.getD k 0)).loss.v.getD j 0
            = (objs ((objs self).ins.getD k 0)).loss.v.getD j 0
              + (if j < i ∧ (objs self).masks[j]? = some (k : Int) then
                  (objs self).loss.v.getD j 0 else 0))
    _ (objs self).dim objs ?_ ?_
  · refine ⟨fun q => rfl, fun q => rfl, fun q _ => rfl, fun k _ j => ?_⟩
    rw [if_neg (by omega), add_zero]
  · intro i o hi ⟨ha, hb, hc, hd⟩
    obtain ⟨m, hm1, hm2⟩ := hmask i hi
    have hnn : ¬ ((m : Int) < 0) := by omega
    have hmk : (o self).masks = (objs self).masks := by
      have h := congrArg PoolNode.masks (ha self)
      exact h
    have hins : (o self).ins = (objs self).ins := by
      have h := congrArg PoolNode.ins (ha self)
      exact h
    have hpin : (objs self).ins[m]? = some ((objs self).ins.getD m 0) :=
      getElem?_eq_some_getD _ m hm2
    have hmem : (objs self).ins.getD m 0 ∈ (objs self).ins := by
      obtain ⟨hlt, he⟩ := List.getElem?_eq_some_iff.1 hpin
      exact he ▸ List.getElem_mem hlt
    have hpl : (o ((objs self).ins.getD m 0)).loss.dim = (objs self).dim := by
      rw [hb, hinl _ hmem]
    have hread : (o ((objs self).ins.getD m 0)).loss.get? i
        = some ((o ((objs self).ins.getD m 0)).loss.v.getD i 0) :=
      Tensor1D_get_getD _ _ (by rw [hpl]; exact hi)
    have hsl : (o self).loss.get? i = some ((objs self).loss.v.getD i 0) := by
      rw [hc self hself]
      exact Tensor1D_get_getD _ _ (by rw [hl]; exact hi)
    have hset : (o ((objs self).ins.getD m 0)).loss.set? i
          ((o ((objs self).ins.getD m 0)).loss.v.getD i 0 + (objs self).loss.v.getD i 0)
        = some (Tensor1D.mk ((o ((objs self).ins.getD m 0)).loss.v.set i
            ((o ((objs self).ins.getD m 0)).loss.v.getD i 0
              + (objs self).loss.v.getD i 0))) := by
      simp only [Tensor1D.set?]
      rw [if_pos (by rw [hpl]; exact hi)]
    have hil : i < (o ((objs self).ins.getD m 0)).loss.v.length := by
      have : (o ((objs self).ins.getD m 0)).loss.v.length = (objs self).dim := hpl
      omega
    refine ⟨Function.update o ((objs self).ins.getD m 0)
        { o ((objs self).ins.getD m 0) with
          loss := Tensor1D.mk ((o ((objs self).ins.getD m 0)).loss.v.set i
            ((o ((objs self).ins.getD m 0)).loss.v.getD i 0
              + (objs self).loss.v.getD i 0)) }, ?_, ?_, ?_, ?_, ?_⟩
    · dsimp only
      rw [hmk, hm1]
      simp only [Option.some_bind, hnn, if_false, Int.toNat_ofNat, hins, hpin, hread, hsl, hset,
        Option.map_some']
    · intro q
      by_cases hq : q = (objs self).ins.getD m 0
      · subst hq
        rw [Function.update_same]
        exact ha _
      · rw [Function.update_noteq hq]
        exact ha q
    · intro q
      by_cases hq : q = (objs self).ins.getD m 0
      · subst hq
        rw [Function.update_same]
        show (List.set _ _ _).length = _
        rw [List.length_set]
        exact hb _
      · rw [Function.update_noteq hq]
        exact hb q
    · intro q hq
      have hne : q ≠ (objs self).ins.getD m 0 := fun e => hq (e ▸ hmem)
      rw [Function.update_noteq hne]
      exact hc q hq
    · intro k hk j
      by_cases hkm : k = m
      · subst hkm
        rw [Function.update_same]
        show (List.set _ _ _).getD j 0 = _
        rw [List_getD_set _ _ _ _ _ hil]
        by_cases hji : j = i
        · subst hji
          rw [if_pos rfl, if_pos ⟨Nat.lt_succ_self _, hm1⟩, hd k hk j,
            if_neg (fun h => Nat.lt_irrefl _ h.1), add_zero]
        · rw [if_neg hji, hd k hk j]
          congr 1
          by_cases hc1 : j < i ∧ (objs self).masks[j]? = some (k : Int)
          · rw [if_pos hc1, if_pos ⟨by omega, hc1.2⟩]
          · rw [if_neg hc1, if_neg (fun h => hc1 ⟨by omega, h.2⟩)]
      · have hne : (objs self).ins.getD k 0 ≠ (objs self).ins.getD m 0 :=
          fun e => hkm (List_getD_inj_of_nodup _ hnd k m hk hm2 e)
        rw [Function.update_noteq hne, hd k hk j]
        congr 1
        by_cases hc1 : j < i ∧ (objs self).masks[j]? = some (k : Int)
        · rw [if_pos hc1, if_pos ⟨by omega, hc1.2⟩]
        · rw [if_neg hc1, if_neg]
          intro h
          by_cases hji : j = i
          · subst hji
            rw [hm1] at h
            have := Option.some.inj h.2
            omega
          · exact hc1 ⟨by omega, h.2⟩

/-- C38. `PoolNode::backward` (max/min pooling) on a node whose inputs are distinct nodes other
than the node itself, with `masks[i]` an index of `ins` for every component `i` (as `compute`
leaves it) and losses of width `dim`: it returns; for every component `i` it adds `loss[i]` to
`loss[i]` of the input `ins[masks[i]]` and leaves `loss[i]` of every other input unchanged, so
the increments of `loss[i]` over the inputs sum to the node's `loss[i]`; nothing but the `loss`
of the inputs changes, so the node's own `val` and `loss` are unchanged. -/
theorem C38_pool_backward_routes_gradient {α : Type} [AddCommMonoid α]
    (objs : PNode → PoolNode α) (self : PNode) (hself : self ∉ (objs self).ins)
    (hnd : (objs self).ins.Nodup)
    (hmask : ∀ i, i < (objs self).dim →
      ∃ m : Nat, (objs self).masks[i]? = some (m : Int) ∧ m < (objs self).ins.length)
    (hl : (objs self).loss.dim = (objs self).dim)
    (hinl : ∀ p ∈ (objs self).ins, (objs p).loss.dim = (objs self).dim) :
    ∃ o1, PoolNode.backward objs self = some o1 ∧
      (∀ q, q ∉ (objs self).ins → o1 q = objs q) ∧
      (o1 self).val = (objs self).val ∧ (o1 self).loss = (objs self).loss ∧
      (∀ q, (o1 q).val = (objs q).val) ∧
      ∀ i, i < (objs self).dim → ∀ m : Nat, (objs self).masks[i]? = some (m : Int) →
        (∀ k, k < (objs self).ins.length →
          (o1 ((objs self).ins.getD k 0)).loss.v.getD i 0
            = (objs ((objs self).ins.getD k 0)).loss.v.getD i 0
              + (if k = m then (objs self).loss.v.getD i 0 else 0)) ∧
        ((List.range (objs self).ins.length).map
            (fun k => if k = m then (objs self).loss.v.getD i 0 else 0)).sum
          = (objs self).loss.v.getD i 0 := by
  obtain ⟨o1, h1, ha, _, hc, hd⟩ := PoolNode_backward_spec objs self hself hnd hmask hl hinl
  have hfix : ∀ q, q ∉ (objs self).ins → o1 q = objs q := by
    intro q hq
    have h := ha q
    rw [← hc q hq] at h
    exact h
  refine ⟨o1, h1, hfix, by rw [hfix self hself], by rw [hfix self hself],
    fun q => by
      have h := congrArg (fun n : PoolNode α => n.val) (ha q)
      exact h, ?_⟩
  intro i hi m hm
  obtain ⟨m', hm1, hm2⟩ := hmask i hi
  have hmm : m' = m := by
    rw [hm] at hm1
    have := Option.some.inj hm1
    omega
  subst hmm
  refine ⟨?_, ?_⟩
  · intro k hk
    rw [hd k hk i]
    congr 1
    by_cases hkm : k = m'
    · subst hkm
      rw [if_pos ⟨hi, hm⟩, if_pos rfl]
    · rw [if_neg hkm, if_neg]
      intro h
      rw [hm] at h
      have := Option.some.inj h.2
      omega
  · exact List_sum_range_single _ m' _ hm2

/-- C38, instance: the max-pooling node 1 of `exPoolIns` (inputs 2, 3, 4; loss `[7, 9]`) with
`masks = [1, 0]` as `compute` leaves them: `backward` adds 7 to `loss[0]` of input 3 and 9 to
`loss[1]` of input 2, and changes nothing else. -/
theorem C38_pool_backward_routes_gradient_witness :
    ∃ o1, PoolNode.backward
        (Function.update exPoolIns 1 { exPoolIns 1 with masks := [1, 0] }) 1 = some o1 ∧
      (o1 1).loss = (exPoolIns 1).loss ∧
      (o1 2).loss.v = [0, 9] ∧ (o1 3).loss.v = [7, 0] ∧ (o1 4).loss.v = [0, 0] := by
  obtain ⟨o1, h1, _, _, h4, _⟩ := C38_pool_backward_routes_gradient
    (Function.update exPoolIns 1 { exPoolIns 1 with masks := [1, 0] }) 1
    (by simp +decide [Function.update, exPoolIns])
    (by simp +decide [Function.update, exPoolIns])
    (by
      intro i hi
      have hi2 : i < 2 := by simpa [Function.update, exPoolIns, exPool, exNode, Node.init] using hi
      interval_cases i
      · exact ⟨1, by simp [Function.update, exPoolIns], by simp [Function.update, exPoolIns]⟩
      · exact ⟨0, by simp [Function.update, exPoolIns], by simp [Function.update, exPoolIns]⟩)
    (by simp +decide [Function.update, exPoolIns, exPool, exNode, Node.init, Tensor1D.dim])
    (by
      intro p hp
      have hp2 : p = 2 ∨ p = 3 ∨ p = 4 := by simpa [Function.update, exPoolIns] using hp
      rcases hp2 with rfl | rfl | rfl <;>
        simp +decide [Function.update, exPoolIns, exPool, exNode, Node.init, Tensor1D.init,
          Tensor1D.dim])
  have he : (PoolNode.backward
      (Function.update exPoolIns 1 { exPoolIns 1 with masks := [1, 0] }) 1).map
      (fun o => ((o 2).loss.v, (o 3).loss.v, (o 4).loss.v)) = some ([0, 9], [7, 0], [0, 0]) := by
    simp +decide [PoolNode.backward, exPoolIns, exPool, exNode, Node.init, Node.new,
      Tensor1D.init, Tensor1D.new, forLoop, Tensor1D.get?, Tensor1D.set?, Tensor1D.dim,
      Function.update]
  rw [h1] at he
  simp only [Option.map_some', Option.some.injEq, Prod.mk.injEq] at he
  exact ⟨o1, h1, h4, he.1, he.2.1, he.2.2⟩

end N3LDG
